import Mathlib

/-!
# Hex-cell clustering and routing: election, cell mapping, CH flooding and routes

A shallow embedding of the parts of the `wsn` module that decide the election,
cell-mapping, cluster-head announcement and routing-table properties:

* `model/routing/peece-routing/peece-routing-protocol.cc`
  (`HandleCLAnnouncementPacket`, `TimerCallback_CLElection`,
  `TimerCallback_HelloTimeout`, `CalculateFitnessScore`,
  `FindBestCandidateInCell`, `CalculateCellCenter`, `CalculateCellInfo`,
  `CalculateMyNextHop`, `HandleHelloPacket`, `SendHelloPacket`,
  `ClearNeighborTable`);
* `model/uav/cell-forming.cc` (`CalculateCellInfo`, `GetCellCenter`,
  `CalculateFitness`, `PerformCLElection`, `SendCLAnnouncement`,
  `HandleCLAnnouncement`, `SetState`);
* `model/routing/pecee-routing/pecee-routing-protocol.cc`
  (`FromMacLayer`, `sendCHAnnouncement`, `handleCHAnnouncementPacket`,
  `sendAnnouncementQueue`, `SendPacket`, `handleSensorDataPacket`, `rotationCH`,
  `PrecalculateSimulationResults`), `pecee-header.cc` and
  `wsn-routing-header.cc` (`Serialize`, `Deserialize`).

Conventions. `uint16_t` node ids are natural numbers and `0xFFFF` is the
"no leader / broadcast" marker.  `int` values are mathematical integers (the
stated properties are about the range where no overflow occurs).  A `double`
is an element of a linearly ordered field (`ℚ` for the node state), and
`std::sqrt` is passed to the functions that call it as the parameter `sqrtF`.
Logging and tracing to file write no member variable and are left out, except
where a trace guard encloses a state update; the packets handed to `SendPacket`
are recorded in the list `sent`.  The assignments to `g_ssRoutingTable` made by
`PrecalculateSimulationResults` are collected in program order and then applied.
-/

namespace HexGrid

variable {K : Type} [LinearOrderedField K] [FloorRing K]

/-- `std::round`: the nearest integer, halfway cases away from zero. -/
def cround (x : K) : Int :=
  if 0 ≤ x then ⌊x + 1 / 2⌋ else ⌈x - 1 / 2⌉

/-- The values `CalculateCellInfo` holds when it ends: the cube coordinates after
the error-correction step, and the cell id and colour it stores. -/
structure CellInfo where
  q : Int
  r : Int
  s : Int
  cellId : Int
  color : Int
  deriving DecidableEq, Repr

/-- The colour expression `((q - r) % 3 + 3) % 3`, `%` being the C++ remainder
(truncating division). -/
def colorOf (q r : Int) : Int :=
  Int.tmod (Int.tmod (q - r) 3 + 3) 3

/-- The error-correction step of `CalculateCellInfo`: the coordinate with the
largest rounding error is recomputed from the other two. -/
def correctRounding (q r s : Int) (q_diff r_diff s_diff : K) : Int × Int × Int :=
  if q_diff > r_diff ∧ q_diff > s_diff then (-r - s, r, s)
  else if r_diff > s_diff then (q, -q - s, s)
  else (q, r, -q - r)

/-- `CalculateCellInfo` for a node at `(x, y)`: the body shared by
`CellForming::CalculateCellInfo`, `PeceeRoutingProtocol::calculateCellInfo` and
`PeeceRoutingProtocol::CalculateCellInfo`. -/
def CalculateCellInfo (sqrtF : K → K) (x y cellRadius : K) (gridOffset : Int) : CellInfo :=
  let frac_q := (sqrtF 3 / 3 * x - 1 / 3 * y) / cellRadius
  let frac_r := (2 / 3 * y) / cellRadius
  let frac_s := -frac_q - frac_r
  let q := cround frac_q
  let r := cround frac_r
  let s := cround frac_s
  let q_diff := |(q : K) - frac_q|
  let r_diff := |(r : K) - frac_r|
  let s_diff := |(s : K) - frac_s|
  let c := correctRounding q r s q_diff r_diff s_diff
  { q := c.1, r := c.2.1, s := c.2.2,
    cellId := c.1 + c.2.1 * gridOffset,
    color := colorOf c.1 c.2.1 }

/-- The Cartesian centre of hex `(q, r)`:
`(cellRadius (√3 q + √3/2 r), cellRadius (3/2 r))`. -/
def hexCenter (sqrtF : K → K) (cellRadius : K) (q r : Int) : K × K :=
  (cellRadius * (sqrtF 3 * q + sqrtF 3 / 2 * r), cellRadius * (3 / 2 * r))

/-- The pair `(q, r)` that `CellForming::GetCellCenter` extracts from a cell id:
`q = cellId % m_gridOffset`, `r = cellId / m_gridOffset` on `int32_t`. -/
def GetCellCenterAxial (cellId gridOffset : Int) : Int × Int :=
  (Int.tmod cellId gridOffset, Int.tdiv cellId gridOffset)

/-- `CellForming::GetCellCenter(cellId)`. -/
def GetCellCenter (sqrtF : K → K) (cellRadius : K) (gridOffset cellId : Int) : K × K :=
  let qr := GetCellCenterAxial cellId gridOffset
  hexCenter sqrtF cellRadius qr.1 qr.2

/-- The pair `(q, r)` that `CalculateCellCenter` extracts from a cell id:
`r = round((double)cellId / gridOffset)`, `q = cellId - r * gridOffset`. -/
def CalculateCellCenterAxial (K : Type) [LinearOrderedField K] [FloorRing K]
    (cellId gridOffset : Int) : Int × Int :=
  let r := cround ((cellId : K) / (gridOffset : K))
  (cellId - r * gridOffset, r)

/-- `PeeceRoutingProtocol::CalculateCellCenter(cellId)`, the same code as
`PeceeRoutingProtocol::calculateCellCenter`. -/
def CalculateCellCenter (sqrtF : K → K) (cellRadius : K) (gridOffset cellId : Int) : K × K :=
  let qr := CalculateCellCenterAxial K cellId gridOffset
  hexCenter sqrtF cellRadius qr.1 qr.2

/-- `CalculateDistance(x1, y1, x2, y2)`. -/
def CalculateDistance (sqrtF : K → K) (x1 y1 x2 y2 : K) : K :=
  sqrtF ((x1 - x2) ^ 2 + (y1 - y2) ^ 2)

/-- The point `c` lies within distance `R` of `p`; for `R ≥ 0` this is the
comparison of the squared Euclidean distance with `R²`. -/
def withinDistance (p c : K × K) (R : K) : Prop :=
  (c.1 - p.1) ^ 2 + (c.2 - p.2) ^ 2 ≤ R ^ 2

end HexGrid

namespace Peece

/-- Node roles of `PeeceRoutingProtocol` (`m_myRole`). -/
inductive NodeRole where
  | NORMAL_NODE
  | CELL_LEADER
  deriving DecidableEq, Repr

/-- Payload of a CL announcement (`CLAnnouncementInfo`). -/
structure CLAnnouncementInfo where
  x : ℚ
  y : ℚ
  cellId : Int
  color : Int
  fitnessScore : ℚ
  deriving DecidableEq

/-- The fields of `PeeceHeader` read by the CL announcement handler. -/
structure PeeceHeader where
  source : Nat
  destination : Nat
  ttl : Nat
  clInfo : CLAnnouncementInfo
  deriving DecidableEq

/-- One entry of `m_neighborTable` (`NeighborRecord`). -/
structure NeighborRecord where
  nodeId : Nat
  x : ℚ
  y : ℚ
  cellId : Int
  neighborNodeIds : List Nat
  deriving DecidableEq

/-- One value of the map `m_knownNodes` (`KnownNodeInfo`). -/
structure KnownNodeInfo where
  x : ℚ
  y : ℚ
  cellId : Int
  fitness : ℚ
  hasFitness : Bool
  deriving DecidableEq

/-- The member variables of `PeeceRoutingProtocol` used by the election.
`m_knownNodes` is a `std::map`, kept here as an association list sorted by key;
`m_trace` records whether a trace sink is attached; the four counters record
the timers the handlers schedule, and `clAnnouncementDelay` the delay in
milliseconds with which `SendCLAnnouncement` was scheduled last. -/
structure Node where
  nodeId : Nat
  xCoord : ℚ
  yCoord : ℚ
  m_cellRadius : ℚ
  m_gridOffset : Int
  m_myCellId : Int
  m_myColor : Int
  m_myRole : NodeRole
  m_myClId : Nat
  m_myChId : Nat
  m_fitnessScore : ℚ
  m_clFitnessScore : ℚ
  m_receivedCLAnnouncement : Bool
  m_neighborTable : List NeighborRecord
  m_knownNodes : List (Nat × KnownNodeInfo)
  m_trace : Bool
  scheduledCLConfirmation : Nat
  scheduledCLElection : Nat
  scheduledCLAnnouncement : Nat
  scheduledCLCalculation : Nat
  m_myNextHopId : Nat := 0xFFFF
  clAnnouncementDelay : Option ℚ := none

/-- The state set up by the constructor `PeeceRoutingProtocol()` for a node with
the given id, position and trace sink. -/
def Node.init (nodeId : Nat) (x y : ℚ) (trace : Bool) : Node :=
  { nodeId := nodeId, xCoord := x, yCoord := y,
    m_cellRadius := 25, m_gridOffset := 100,
    m_myCellId := -1, m_myColor := -1,
    m_myRole := NodeRole.NORMAL_NODE,
    m_myClId := 0xFFFF, m_myChId := 0xFFFF,
    m_fitnessScore := -1, m_clFitnessScore := -1,
    m_receivedCLAnnouncement := false,
    m_neighborTable := [], m_knownNodes := [], m_trace := trace,
    scheduledCLConfirmation := 0, scheduledCLElection := 0,
    scheduledCLAnnouncement := 0, scheduledCLCalculation := 0 }

/-- The test `isBetterCandidate` of `HandleCLAnnouncementPacket`: the announcer
beats the receiver itself. -/
def isBetterCandidate (n : Node) (fitnessScore : ℚ) (originalSrc : Nat) : Bool :=
  decide (fitnessScore > n.m_fitnessScore) ||
    (decide (fitnessScore = n.m_fitnessScore) && decide (originalSrc < n.nodeId))

/-- The test `shouldUpdate` of `HandleCLAnnouncementPacket`: the announcer beats
the leader accepted so far. -/
def shouldUpdate (n : Node) (fitnessScore : ℚ) (originalSrc : Nat) : Bool :=
  decide (n.m_myClId = 0xFFFF) ||
    decide (fitnessScore > n.m_clFitnessScore) ||
    (decide (fitnessScore = n.m_clFitnessScore) && decide (originalSrc < n.m_myClId))

/-- `PeeceRoutingProtocol::HandleCLAnnouncementPacket(header, src)`.
`src` is the MAC-level sender, which the handler only logs.  The relay branch
(`ttl > 1`) builds and transmits packets and writes no member variable. -/
def HandleCLAnnouncementPacket (n : Node) (header : PeeceHeader) (_src : Nat) : Node :=
  let originalSrc := header.source
  if originalSrc = n.nodeId then n
  else
    let clInfo := header.clInfo
    if clInfo.cellId ≠ n.m_myCellId then n
    else
      let n1 := { n with m_receivedCLAnnouncement := true }
      if isBetterCandidate n1 clInfo.fitnessScore originalSrc then
        if shouldUpdate n1 clInfo.fitnessScore originalSrc then
          { n1 with
            m_myClId := originalSrc
            m_clFitnessScore := clInfo.fitnessScore
            scheduledCLConfirmation := n1.scheduledCLConfirmation + 1 }
        else n1
      else n1

/-- `PeeceRoutingProtocol::TimerCallback_CLElection()`. -/
def TimerCallback_CLElection (n : Node) : Node :=
  let n1 :=
    if n.m_myClId = 0xFFFF then
      { n with
        m_myRole := NodeRole.CELL_LEADER
        m_myClId := n.nodeId
        m_myChId := n.nodeId }
    else if n.m_myClId ≠ n.nodeId then
      { n with m_myChId := n.m_myClId }
    else
      { n with m_myChId := n.nodeId }
  { n1 with scheduledCLCalculation := n1.scheduledCLCalculation + 1 }

/-- The header built by `PeeceRoutingProtocol::SendCLAnnouncement()`. -/
def SendCLAnnouncement (n : Node) : PeeceHeader :=
  { source := n.nodeId
    destination := 0xFFFF
    ttl := 2
    clInfo :=
      { x := n.xCoord, y := n.yCoord, cellId := n.m_myCellId, color := n.m_myColor,
        fitnessScore := n.m_fitnessScore } }

/-- Handling a finite sequence of received CL announcements, each with the MAC
sender it arrived from, in arrival order. -/
def handleAll (n : Node) (anns : List (PeeceHeader × Nat)) : Node :=
  anns.foldl (fun s a => HandleCLAnnouncementPacket s a.1 a.2) n

/-- The announcer of `h` beats the receiver `n` itself: strictly greater
fitness, or equal fitness and a lower id. -/
def beatsSelf (n : Node) (h : PeeceHeader) : Prop :=
  h.clInfo.fitnessScore > n.m_fitnessScore ∨
    (h.clInfo.fitnessScore = n.m_fitnessScore ∧ h.source < n.nodeId)

instance (n : Node) (h : PeeceHeader) : Decidable (beatsSelf n h) := by
  unfold beatsSelf; infer_instance

/-- Announcer `h` is at least as good a leader as announcer `g`: greater
fitness, or equal fitness and an id that is not higher. -/
def atLeastAsGood (h g : PeeceHeader) : Prop :=
  g.clInfo.fitnessScore < h.clInfo.fitnessScore ∨
    (g.clInfo.fitnessScore = h.clInfo.fitnessScore ∧ h.source ≤ g.source)

instance (h g : PeeceHeader) : Decidable (atLeastAsGood h g) := by
  unfold atLeastAsGood; infer_instance

/-- What the receiver `n` has settled on in state `s` after the announcements
`seen`: nothing if no announcer beat it, otherwise the best announcer that did. -/
def Settled (n : Node) (seen : List (PeeceHeader × Nat)) (s : Node) : Prop :=
  s.nodeId = n.nodeId ∧ s.m_myCellId = n.m_myCellId ∧
  s.m_fitnessScore = n.m_fitnessScore ∧
  ((s.m_myClId = 0xFFFF ∧ s.m_clFitnessScore = n.m_clFitnessScore ∧
      ∀ a ∈ seen, ¬ beatsSelf n a.1) ∨
   (∃ b ∈ seen, beatsSelf n b.1 ∧ s.m_myClId = b.1.source ∧
      s.m_clFitnessScore = b.1.clInfo.fitnessScore ∧
      ∀ a ∈ seen, beatsSelf n a.1 → atLeastAsGood b.1 a.1))

/-- Two nodes `a` and `b` of one cell, as far as the election is concerned. -/
structure TwoNodes where
  a : Node
  b : Node

/-- The events of the two-node election: the delivery of one node's CL
announcement to the other, and the election timeout of either node. -/
inductive Event where
  | deliverAtoB
  | deliverBtoA
  | timeoutA
  | timeoutB
  deriving DecidableEq, Repr

/-- One event of the two-node election.  The announcement delivered is the one
`SendCLAnnouncement` builds from the sender's state, received from the sender. -/
def TwoNodes.step (p : TwoNodes) : Event → TwoNodes
  | Event.deliverAtoB =>
      { p with b := HandleCLAnnouncementPacket p.b (SendCLAnnouncement p.a) p.a.nodeId }
  | Event.deliverBtoA =>
      { p with a := HandleCLAnnouncementPacket p.a (SendCLAnnouncement p.b) p.b.nodeId }
  | Event.timeoutA => { p with a := TimerCallback_CLElection p.a }
  | Event.timeoutB => { p with b := TimerCallback_CLElection p.b }

/-- A schedule of events run from a starting pair of nodes. -/
def TwoNodes.run (p : TwoNodes) (es : List Event) : TwoNodes :=
  es.foldl TwoNodes.step p

/-- A receiver with id 5 and fitness 1/2 in cell 0, no leader accepted yet. -/
def sampleReceiver : Node :=
  { Node.init 5 3 4 false with m_myCellId := 0, m_myColor := 0, m_fitnessScore := 1 / 2 }

/-- A CL announcement for cell 0 from announcer `src` with fitness `f`. -/
def sampleAnnouncement (src : Nat) (f : ℚ) : PeeceHeader × Nat :=
  ({ source := src, destination := 0xFFFF, ttl := 2,
     clInfo := { x := 0, y := 0, cellId := 0, color := 0, fitnessScore := f } }, src)

/-- The fields the election never writes are those of the starting nodes `A`, `B`. -/
def SameSetup (A B : Node) (p : TwoNodes) : Prop :=
  p.a.nodeId = A.nodeId ∧ p.a.m_myCellId = A.m_myCellId ∧
  p.a.m_fitnessScore = A.m_fitnessScore ∧
  p.b.nodeId = B.nodeId ∧ p.b.m_myCellId = B.m_myCellId ∧
  p.b.m_fitnessScore = B.m_fitnessScore

/-- Node `a` has either no leader yet or has elected itself. -/
def AUnsetOrSelf (A : Node) (p : TwoNodes) : Prop :=
  p.a.m_myClId = 0xFFFF ∨
    (p.a.m_myClId = A.nodeId ∧ p.a.m_myRole = NodeRole.CELL_LEADER)

/-- Node `a` has elected itself. -/
def ASelf (A : Node) (p : TwoNodes) : Prop :=
  p.a.m_myClId = A.nodeId ∧ p.a.m_myRole = NodeRole.CELL_LEADER

/-- Node `b` is a normal node that has no leader yet or has accepted `a`. -/
def BUnsetOrA (A : Node) (p : TwoNodes) : Prop :=
  p.b.m_myRole = NodeRole.NORMAL_NODE ∧
    (p.b.m_myClId = 0xFFFF ∨
      (p.b.m_myClId = A.nodeId ∧ p.b.m_clFitnessScore = A.m_fitnessScore))

/-- Node `b` is a normal node that has accepted `a`. -/
def BAcceptedA (A : Node) (p : TwoNodes) : Prop :=
  p.b.m_myRole = NodeRole.NORMAL_NODE ∧ p.b.m_myClId = A.nodeId ∧
    p.b.m_clFitnessScore = A.m_fitnessScore

/-- Node 1 at (3, 4) in cell 0 with fitness 1/6, after the HELLO phase. -/
def sampleNodeA : Node :=
  { Node.init 1 3 4 false with m_myCellId := 0, m_myColor := 0, m_fitnessScore := 1 / 6 }

/-- Node 2 at (4, 3) in cell 0 with fitness 1/6, after the HELLO phase. -/
def sampleNodeB : Node :=
  { Node.init 2 4 3 false with m_myCellId := 0, m_myColor := 0, m_fitnessScore := 1 / 6 }

/-- `m_knownNodes[k] = v` on the map kept as a list sorted by key: the entry of
`k` is replaced, or inserted at its place. -/
def mapSet (m : List (Nat × KnownNodeInfo)) (k : Nat) (v : KnownNodeInfo) :
    List (Nat × KnownNodeInfo) :=
  match m with
  | [] => [(k, v)]
  | (k1, v1) :: rest =>
      if k < k1 then (k, v) :: (k1, v1) :: rest
      else if k = k1 then (k, v) :: rest
      else (k1, v1) :: mapSet rest k v

/-- `PeeceRoutingProtocol::ComputeFitness(x, y, cellId)`. -/
def ComputeFitness (sqrtF : ℚ → ℚ) (n : Node) (x y : ℚ) (cellId : Int) : ℚ :=
  let cellCenter := HexGrid.CalculateCellCenter sqrtF n.m_cellRadius n.m_gridOffset cellId
  let distanceToCenter := HexGrid.CalculateDistance sqrtF x y cellCenter.1 cellCenter.2
  1 / (1 + distanceToCenter)

/-- One round of the loop of `CalculateFitnessScore` over `m_neighborTable`: a
neighbour of another cell is skipped, a same-cell neighbour gets its fitness
stored in `m_knownNodes`. -/
def recordStep (sqrtF : ℚ → ℚ) (n : Node) (m : List (Nat × KnownNodeInfo))
    (neighbor : NeighborRecord) : List (Nat × KnownNodeInfo) :=
  if neighbor.cellId ≠ n.m_myCellId then m
  else
    mapSet m neighbor.nodeId
      { x := neighbor.x, y := neighbor.y, cellId := neighbor.cellId,
        fitness := ComputeFitness sqrtF n neighbor.x neighbor.y n.m_myCellId,
        hasFitness := true }

/-- The loop of `CalculateFitnessScore` over `m_neighborTable` that records the
fitness of every same-cell neighbour in `m_knownNodes`; in the source it stands
inside the `if (m_trace)` block. -/
def recordNeighborFitness (sqrtF : ℚ → ℚ) (n : Node) : List (Nat × KnownNodeInfo) :=
  n.m_neighborTable.foldl (recordStep sqrtF n) n.m_knownNodes

/-- `PeeceRoutingProtocol::CalculateFitnessScore()`. -/
def CalculateFitnessScore (sqrtF : ℚ → ℚ) (n : Node) : Node :=
  let cellCenter :=
    HexGrid.CalculateCellCenter sqrtF n.m_cellRadius n.m_gridOffset n.m_myCellId
  let distanceToCenter :=
    HexGrid.CalculateDistance sqrtF n.xCoord n.yCoord cellCenter.1 cellCenter.2
  let n1 := { n with m_fitnessScore := 1 / (1 + distanceToCenter) }
  if n1.m_trace then { n1 with m_knownNodes := recordNeighborFitness sqrtF n1 }
  else n1

/-- `PeeceRoutingProtocol::FindBestCandidateInCell(cellId, outFitness)`: the
returned id and the fitness written to `outFitness`. -/
def FindBestCandidateInCell (n : Node) (cellId : Int) : Nat × ℚ :=
  n.m_knownNodes.foldl
    (fun best kv =>
      if kv.2.cellId ≠ cellId ∨ kv.2.hasFitness = false then best
      else if kv.2.fitness > best.2 ∨ (kv.2.fitness = best.2 ∧ kv.1 < best.1) then
        (kv.1, kv.2.fitness)
      else best)
    (n.nodeId, n.m_fitnessScore)

/-- The value `delay` that the announcement branch of `TimerCallback_HelloTimeout`
computes, in milliseconds:
`baseDelayMs + (1.0 - m_fitnessScore) * maxScaleMs + tieBreaker` with
`tieBreaker = (nodeId % 100) * 0.5`. -/
def announcementDelay (n : Node) : ℚ :=
  let baseDelayMs : ℚ := 100
  let maxScaleMs : ℚ := 1900
  let tieBreaker : ℚ := ((n.nodeId % 100 : Nat) : ℚ) * (1 / 2)
  baseDelayMs + (1 - n.m_fitnessScore) * maxScaleMs + tieBreaker

/-- `PeeceRoutingProtocol::TimerCallback_HelloTimeout()`: the fitness is computed,
the election timeout is scheduled, and the node's own CL announcement is
scheduled if it has neighbours and is the best candidate it knows. -/
def TimerCallback_HelloTimeout (sqrtF : ℚ → ℚ) (n : Node) : Node :=
  let n1 := CalculateFitnessScore sqrtF n
  let best := FindBestCandidateInCell n1 n1.m_myCellId
  let iAmBestCandidate := decide (best.1 = n1.nodeId)
  let n2 := { n1 with scheduledCLElection := n1.scheduledCLElection + 1 }
  if n2.m_fitnessScore > 0 ∧ n2.m_neighborTable.length > 0 ∧ iAmBestCandidate = true then
    { n2 with
      scheduledCLAnnouncement := n2.scheduledCLAnnouncement + 1
      clAnnouncementDelay := some (announcementDelay n2) }
  else n2

/-- The values of `std::sqrt` at the arguments that occur for the sample nodes:
`sqrt 25 = 5`, `sqrt 0 = 0`, and a rational stand-in for `sqrt 3`. -/
def sampleSqrt (x : ℚ) : ℚ :=
  if x = 25 then 5 else if x = 3 then 433 / 250 else 0

/-- Node 2 at (3, 4) in cell 0 (radius 25, grid offset 100) at the end of the
HELLO phase, having heard node 1, which sits on the cell centre (0, 0). -/
def sampleHelloNode (trace : Bool) : Node :=
  { Node.init 2 3 4 trace with
    m_myCellId := 0, m_myColor := 0,
    m_neighborTable := [{ nodeId := 1, x := 0, y := 0, cellId := 0, neighborNodeIds := [] }],
    m_knownNodes := [(1, { x := 0, y := 0, cellId := 0, fitness := 0, hasFitness := false })] }

/-- The handler accepts the announcer of `h` as its leader in state `s`. -/
def accepts (s : Node) (h : PeeceHeader) : Prop :=
  h.source ≠ s.nodeId ∧ h.clInfo.cellId = s.m_myCellId ∧
  (h.clInfo.fitnessScore > s.m_fitnessScore ∨
    (h.clInfo.fitnessScore = s.m_fitnessScore ∧ h.source < s.nodeId)) ∧
  (s.m_myClId = 0xFFFF ∨ h.clInfo.fitnessScore > s.m_clFitnessScore ∨
    (h.clInfo.fitnessScore = s.m_clFitnessScore ∧ h.source < s.m_myClId))

/-- The distance `std::sqrt(dx*dx + dy*dy)` from the node to a neighbour, as
`CalculateMyNextHop` computes it. -/
def neighborDistance (sqrtF : ℚ → ℚ) (n : Node) (neighbor : NeighborRecord) : ℚ :=
  let dx := neighbor.x - n.xCoord
  let dy := neighbor.y - n.yCoord
  sqrtF (dx * dx + dy * dy)

/-- One round of the second loop of `CalculateMyNextHop`; `best` is the pair
`(bestDistance, m_myNextHopId)`. -/
def nextHopStep (sqrtF : ℚ → ℚ) (n : Node) (best : ℚ × Nat) (neighbor : NeighborRecord) :
    ℚ × Nat :=
  if neighbor.cellId = n.m_myCellId then
    if neighborDistance sqrtF n neighbor < best.1 then
      (neighborDistance sqrtF n neighbor, neighbor.nodeId)
    else best
  else best

/-- `PeeceRoutingProtocol::CalculateMyNextHop()`. -/
def CalculateMyNextHop (sqrtF : ℚ → ℚ) (n : Node) : Node :=
  if n.m_myChId = n.nodeId then { n with m_myNextHopId := n.nodeId }
  else if n.m_myChId = 0xFFFF then n
  else if n.m_neighborTable.any (fun neighbor => decide (neighbor.nodeId = n.m_myChId)) then
    { n with m_myNextHopId := n.m_myChId }
  else
    let best := n.m_neighborTable.foldl (nextHopStep sqrtF n) (1000000000, 0xFFFF)
    match n.m_neighborTable with
    | first :: _ =>
        if best.2 = 0xFFFF then { n with m_myNextHopId := first.nodeId }
        else { n with m_myNextHopId := best.2 }
    | [] => { n with m_myNextHopId := best.2 }

/-- Node 2 at (3, 4) in cell 0 with leader 9 assigned, whose neighbour table holds
node 7 of cell 1 only. -/
def sampleStrayNode : Node :=
  { Node.init 2 3 4 false with
    m_myCellId := 0, m_myColor := 0, m_myClId := 9, m_myChId := 9,
    m_neighborTable := [{ nodeId := 7, x := 3, y := 9, cellId := 1, neighborNodeIds := [] }] }

/-- Node 2 at (3, 4) in cell 0 with leader 9 assigned, whose neighbour table holds
node 7 of cell 1 and node 1 of cell 0, at distance 5. -/
def sampleRoutedNode : Node :=
  { Node.init 2 3 4 false with
    m_myCellId := 0, m_myColor := 0, m_myClId := 9, m_myChId := 9,
    m_neighborTable :=
      [{ nodeId := 7, x := 3, y := 9, cellId := 1, neighborNodeIds := [] },
       { nodeId := 1, x := 0, y := 0, cellId := 0, neighborNodeIds := [] }] }

end Peece

namespace Pecee

/-- `PeceePacketType`. -/
inductive PeceePacketType where
  | HELLO_PACKET
  | CL_ANNOUNCEMENT
  | CL_CONFIRMATION
  | BS_UPDATE_PACKET
  | LINK_REQUEST
  | LINK_ACK
  | LINK_ESTABLISHED
  | INTRA_CELL_ROUTING_UPDATE
  | CL_COMMAND_PACKET
  | NCL_CONFIRM_PACKET
  | ROUTING_TREE_UPDATE_PACKET
  | CH_ANNOUNCEMENT_PACKET
  | DATA_PACKET
  | ANNOUNCE_CELL_HOP
  | SENSOR_DATA
  | FINALIZE_PKT
  deriving DecidableEq, Repr

/-- `PeceeTimerType`. -/
inductive PeceeTimerType where
  | SEND_ANNOUNCEMENT_QUEUE
  | ANNOUNCE_CELL_HOP_TIMER
  | COLOR_SCHEDULING_TIMER
  | SEND_CELL_PACKET
  | CH_ROTATION_TIMER
  deriving DecidableEq, Repr

/-- Conversion of an `int` to `uint16_t`, as done by `SetSource` / `SetDestination`. -/
def toU16 (x : Int) : Int := x % 65536

/-- `static_cast<int>(x)`: truncation toward zero. -/
def truncToInt (x : ℚ) : Int :=
  if 0 ≤ x then ⌊x⌋ else ⌈x⌉

/-- `WsnRoutingHeader::NetMacInfoExchange_type`. -/
structure NetMacInfoExchange_type where
  RSSI : ℚ
  LQI : ℚ
  nextHop : Int
  lastHop : Int
  deriving DecidableEq, Repr

/-- `SSSensorInfo`. -/
structure SSSensorInfo where
  destinationCH : Int
  dataId : ℚ
  sensorId : Int
  hopCount : Int
  deriving DecidableEq, Repr

/-- `SSCellHopAnnouncementInfo`; `cellPath` is the array `int cellPath[3]`. -/
structure SSCellHopAnnouncementInfo where
  nextCell : Int
  cellPath : List Int
  deriving DecidableEq, Repr

/-- `PeceeHeader` with the members inherited from `WsnRoutingHeader` (`m_source`,
`m_destination`, `m_sequenceNumber`, `m_netMacInfoExchange`); `chId` is
`m_chAnnouncementData.chId`, `m_cellPath` the array `int m_cellPath[3]`.  The
defaults of the last three fields are the values the constructor `PeceeHeader()`
assigns; the base constructor assigns nothing, and the link information is 0
here. -/
structure PeceeHeader where
  m_source : Int
  m_destination : Int
  m_packetType : PeceePacketType
  m_clusterHead : Int
  m_cellSent : Int
  m_cellNext : Int
  m_cellNextNext : Int
  m_cellSource : Int
  m_cellDestination : Int
  m_cellHopCount : Int
  m_cellPath : List Int
  m_ttl : Int
  chId : Int
  m_sequenceNumber : Int := 0
  m_netMacInfoExchange : NetMacInfoExchange_type :=
    { RSSI := 0, LQI := 0, nextHop := 0, lastHop := 0 }
  m_sensorData : SSSensorInfo :=
    { destinationCH := -1, dataId := 0, sensorId := -1, hopCount := 0 }
  m_cellHopAnnouncementData : SSCellHopAnnouncementInfo :=
    { nextCell := -1, cellPath := [-1, -1, -1] }
  deriving DecidableEq, Repr

/-- The header set up by the constructor `PeceeHeader()`.  The base constructor
leaves `m_source` and `m_destination` without a value; they are 0 here. -/
def PeceeHeader.default : PeceeHeader :=
  { m_source := 0, m_destination := 0,
    m_packetType := PeceePacketType.HELLO_PACKET,
    m_clusterHead := -1, m_cellSent := -1, m_cellNext := -1, m_cellNextNext := -1,
    m_cellSource := -1, m_cellDestination := -1, m_cellHopCount := 0,
    m_cellPath := [-1, -1, -1], m_ttl := 0, chId := -1 }

/-- `SetCellPath(index, value)`: `if (index < 3) m_cellPath[index] = value`.  A
negative index is an out-of-bounds write in the source and leaves the path as it
is here. -/
def PeceeHeader.SetCellPath (h : PeceeHeader) (index value : Int) : PeceeHeader :=
  if index < 3 ∧ 0 ≤ index then { h with m_cellPath := h.m_cellPath.set index.toNat value }
  else h

/-- `GetCellPath(index)` for an index `≥ 0`: `(index < 3) ? m_cellPath[index] : -1`. -/
def PeceeHeader.GetCellPath (h : PeceeHeader) (index : Nat) : Int :=
  if index < 3 then h.m_cellPath.getD index (-1) else -1

/-- `PeceeCellData`; `gateways` is the `std::map<int, int>` from neighbour cell to
gateway node. -/
structure PeceeCellData where
  cellId : Int
  color : Int
  clId : Int
  chId : Int
  members : List Int
  neighbors : List Int
  gateways : List (Int × Int)
  deriving DecidableEq, Repr

/-- The fields of `PeceeNodeData` used by the announcement and routing code (the
energy counters are left out). -/
structure PeceeNodeData where
  id : Int
  isCH : Bool
  isCL : Bool
  cellId : Int
  color : Int
  clId : Int
  chId : Int
  numSent : Int
  numRecv : Int
  neighbors : List Int
  x : ℚ := 0
  y : ℚ := 0
  deriving DecidableEq, Repr

/-- The calls a node schedules directly with `Simulator::Schedule`. -/
inductive DirectCall where
  | sendCHAnnouncement
  | rotationCH
  | checkCHACompletion
  deriving DecidableEq, Repr

/-- The state of one `PeceeRoutingProtocol` instance together with the file-scope
tables `g_ssCellDataList` and `g_ssNodesDataList` it reads and writes.
`receivedCHAFromCells` (`map<int, set<int>>`) is kept as the list of pairs
`(chId, cellSent)` it contains; `timers` lists the timers scheduled, oldest first;
the two queues list their elements front first.  `g_ssRoutingTable`
(`map<int, map<int, int>>`) gives the entry for `(node, target cell)`, `none` when
there is none; `sent` lists the packets handed to `SendPacket` (header and
destination of the outer routing header), `calls` the calls scheduled directly. -/
structure State where
  self : Int
  isCH : Bool
  isCL : Bool
  myCellId : Int
  myCLId : Int
  myCHId : Int
  maxHopCount : Int
  myCellPathToCH : Int → Int
  announcementQueue : List (PeceeHeader × Int)
  boardcastAnnouncementQueue : List Int
  receivedCHAFromCells : List (Int × Int)
  timers : List PeceeTimerType
  g_ssCellDataList : List PeceeCellData
  g_ssNodesDataList : List PeceeNodeData
  cellRadius : ℚ := 20
  grid_offset : Int := 100
  g_ssRoutingTable : Int → Int → Option Int := fun _ _ => none
  sent : List (PeceeHeader × Int) := []
  calls : List DirectCall := []

/-- `getCellData(cellId)`: the first entry of `g_ssCellDataList` with that id, or a
fresh value-initialised `PeceeCellData`. -/
def getCellData (st : State) (cellId : Int) : PeceeCellData :=
  match st.g_ssCellDataList.find? (fun c => decide (c.cellId = cellId)) with
  | some c => c
  | none =>
      { cellId := 0, color := 0, clId := 0, chId := 0, members := [], neighbors := [],
        gateways := [] }

/-- `getNodeData(self)->chId = value`: the write reaches the first entry of
`g_ssNodesDataList` with that id, if there is one. -/
def setNodeChId (nodes : List PeceeNodeData) (nodeId value : Int) : List PeceeNodeData :=
  match nodes with
  | [] => []
  | n :: rest =>
      if n.id = nodeId then { n with chId := value } :: rest
      else n :: setNodeChId rest nodeId value

/-- `ScheduleTimer(timerType, delay)`; the random delay is not recorded. -/
def ScheduleTimer (st : State) (t : PeceeTimerType) : State :=
  { st with timers := st.timers ++ [t] }

/-- `PeceeRoutingProtocol::selectClusterHead()`. -/
def selectClusterHead (st : State) : State :=
  let cellData := getCellData st st.myCellId
  let st1 := if cellData.clId = st.self then { st with isCL := true, myCLId := st.self } else st
  let st2 := { st1 with g_ssNodesDataList := setNodeChId st1.g_ssNodesDataList st1.self st1.myCHId }
  ScheduleTimer st2 PeceeTimerType.ANNOUNCE_CELL_HOP_TIMER

/-- The header that `sendCHAnnouncement` builds for the copy sent toward `cellNext`. -/
def chAnnouncementHeader (st : State) (cellNext : Int) : PeceeHeader :=
  { ((PeceeHeader.default.SetCellPath 0 st.myCellId).SetCellPath 1 (-1)) with
    m_packetType := PeceePacketType.CH_ANNOUNCEMENT_PACKET
    m_cellSource := st.myCellId
    m_cellHopCount := 1
    m_cellDestination := -1
    m_ttl := st.maxHopCount
    m_cellSent := st.myCellId
    chId := st.self
    m_source := toU16 st.self
    m_cellNext := cellNext }

/-- `PeceeRoutingProtocol::sendCHAnnouncement()`. -/
def sendCHAnnouncement (st : State) : State :=
  if ¬ st.isCH then st
  else
    let cellData := getCellData st st.myCellId
    if cellData.members.isEmpty then st
    else
      let st1 := { st with
        myCHId := st.self
        myCellPathToCH := Function.update st.myCellPathToCH 0 st.myCellId }
      let st2 := cellData.neighbors.foldl
        (fun s neighborCellId =>
          { s with announcementQueue :=
              s.announcementQueue ++ [(chAnnouncementHeader s neighborCellId, neighborCellId)] })
        st1
      let st3 := cellData.members.foldl
        (fun s memberId =>
          if memberId ≠ s.self then
            { s with
              boardcastAnnouncementQueue := s.boardcastAnnouncementQueue ++ [memberId]
              announcementQueue :=
                s.announcementQueue ++ [(chAnnouncementHeader s s.myCellId, s.myCellId)] }
          else s)
        st2
      ScheduleTimer (selectClusterHead st3) PeceeTimerType.SEND_ANNOUNCEMENT_QUEUE

/-- The loop-detection test of `handleCHAnnouncementPacket`: some
`GetCellPath(i)` with `i < hopCount` and `i < 3` equals `myCellId`. -/
def cellLoopDetected (header : PeceeHeader) (hopCount myCellId : Int) : Bool :=
  (List.range 3).any
    (fun (i : Nat) => decide ((i : Int) < hopCount) && decide (header.GetCellPath i = myCellId))

/-- The header a cell leader builds for a member in `handleCHAnnouncementPacket`. -/
def memberHeader (st : State) (memberId : Int) : PeceeHeader :=
  { PeceeHeader.default with
    chId := st.myCHId
    m_packetType := PeceePacketType.CH_ANNOUNCEMENT_PACKET
    m_source := toU16 st.self
    m_destination := toU16 memberId
    m_cellSource := st.myCellId
    m_cellSent := st.myCellId
    m_cellNext := st.myCellId
    m_ttl := 60
    m_cellHopCount := 0 }

/-- A cell leader accepting its first CH announcement stores the CH id and the
path to it (`myCHId = chId`, `myCellPathToCH[i] = GetCellPath(i)` for
`i < hopCount`, `i < 3`, and `myCellPathToCH[hopCount] = myCellId`). -/
def storeCHAndPath (st : State) (header : PeceeHeader) : State :=
  let hopCount := header.m_cellHopCount
  let path1 := (List.range 3).foldl
    (fun f (i : Nat) =>
      if (i : Int) < hopCount then Function.update f (i : Int) (header.GetCellPath i) else f)
    st.myCellPathToCH
  { st with
    myCHId := header.chId
    myCellPathToCH := Function.update path1 hopCount st.myCellId }

/-- One round of the loop in which a cell leader queues its notification for the
member `memberId`. -/
def notifyMember (s : State) (memberId : Int) : State :=
  if memberId ≠ s.self then
    { s with
      boardcastAnnouncementQueue := s.boardcastAnnouncementQueue ++ [memberId]
      announcementQueue := s.announcementQueue ++ [(memberHeader s memberId, s.myCellId)] }
  else s

/-- A cell leader that has accepted a CH queues one notification per member of its
cell other than itself and schedules the queue timer, if there is such a member. -/
def notifyMembers (st : State) : State :=
  let cellData := getCellData st st.myCellId
  let memberCount := (cellData.members.filter (fun mid => decide (mid ≠ st.self))).length
  if cellData.members.length > 0 ∧ memberCount > 0 then
    ScheduleTimer (cellData.members.foldl notifyMember st) PeceeTimerType.SEND_ANNOUNCEMENT_QUEUE
  else st

/-- The branch of `handleCHAnnouncementPacket` in which a cell leader accepts its
first CH announcement: it stores the CH and the path, calls `selectClusterHead`
and queues one notification per member. -/
def acceptAsCL (st : State) (header : PeceeHeader) : State :=
  notifyMembers (selectClusterHead (storeCHAndPath st header))

/-- The copy `handleCHAnnouncementPacket` queues toward the neighbour cell
`neighborCellId` through `gatewayNodeId`. -/
def interCellCopy (st : State) (header : PeceeHeader) (neighborCellId gatewayNodeId : Int) :
    PeceeHeader :=
  let hopCount := header.m_cellHopCount
  let h1 := { header with m_cellSent := st.myCellId, m_cellHopCount := hopCount + 1 }
  let h2 := if hopCount + 1 < 3 then h1.SetCellPath (hopCount + 1) st.myCellId else h1
  { h2 with
    m_ttl := header.m_ttl - 1
    m_cellNext := neighborCellId
    m_destination := toU16 gatewayNodeId }

/-- The copy `handleCHAnnouncementPacket` queues for a member of its own cell. -/
def intraCellCopy (st : State) (header : PeceeHeader) : PeceeHeader :=
  { header with
    m_source := toU16 st.self
    m_cellNext := st.myCellId
    m_cellSent := st.myCellId }

/-- One round of the inter-cell forwarding loop of `handleCHAnnouncementPacket`,
for the neighbour cell `neighborCellId`. -/
def forwardToCell (cellData : PeceeCellData) (header : PeceeHeader) (s : State)
    (neighborCellId : Int) : State :=
  if neighborCellId = header.m_cellSent then s
  else
    match cellData.gateways.find? (fun g => decide (g.1 = neighborCellId)) with
    | none => s
    | some gw =>
        ScheduleTimer
          { s with announcementQueue :=
              s.announcementQueue ++ [(interCellCopy s header neighborCellId gw.2, neighborCellId)] }
          PeceeTimerType.SEND_ANNOUNCEMENT_QUEUE

/-- One round of the intra-cell broadcast loop of `handleCHAnnouncementPacket`,
for the member `memberId`. -/
def broadcastToMember (header : PeceeHeader) (s : State) (memberId : Int) : State :=
  if memberId ≠ s.self ∧ memberId ≠ header.m_source then
    { s with
      boardcastAnnouncementQueue := s.boardcastAnnouncementQueue ++ [memberId]
      announcementQueue := s.announcementQueue ++ [(intraCellCopy s header, s.myCellId)] }
  else s

/-- The two forwarding loops of `handleCHAnnouncementPacket`: toward the neighbour
cells, then, for a packet that came from another cell, to the own members. -/
def forwardLoops (cellData : PeceeCellData) (header : PeceeHeader) (st : State) : State :=
  let st1 := cellData.neighbors.foldl (forwardToCell cellData header) st
  if header.m_cellSent ≠ st1.myCellId then
    cellData.members.foldl (broadcastToMember header) st1
  else st1

/-- The forwarding part of `handleCHAnnouncementPacket` (from
`getCellData(myCellId)` to the end of the function); `hasForwarded` holds exactly
when a copy was queued. -/
def forwardCHAnnouncement (st : State) (header : PeceeHeader) : State :=
  let cellData := getCellData st st.myCellId
  if cellData.members.length = 0 then st
  else
    let st2 := forwardLoops cellData header st
    let hasForwarded := decide (st2.announcementQueue.length ≠ st.announcementQueue.length)
    if hasForwarded then ScheduleTimer st2 PeceeTimerType.SEND_ANNOUNCEMENT_QUEUE else st2

/-- The first step of `handleCHAnnouncementPacket`: a node that is not yet marked
cell leader but is the `clId` of its cell's data marks itself. -/
def refreshCLStatus (st : State) : State :=
  if ¬ st.isCL ∧ (getCellData st st.myCellId).clId = st.self then
    { st with isCL := true, myCLId := st.self }
  else st

/-- `receivedCHAFromCells[chId].insert(cellSent)`. -/
def recordCHA (st : State) (chId cellSent : Int) : State :=
  if (chId, cellSent) ∈ st.receivedCHAFromCells then st
  else { st with receivedCHAFromCells := st.receivedCHAFromCells ++ [(chId, cellSent)] }

/-- The part of `handleCHAnnouncementPacket` after the announcement has been
recorded: loop detection, acceptance of the CH, and forwarding. -/
def afterRecord (st1 : State) (header : PeceeHeader) : State :=
  let hopCount := header.m_cellHopCount
  let cellSent := header.m_cellSent
  if cellSent ≠ st1.myCellId ∧ cellLoopDetected header hopCount st1.myCellId = true then st1
  else
    let st2 := if st1.isCL ∧ st1.myCHId = -1 then acceptAsCL st1 header else st1
    if ¬ st2.isCL ∧ hopCount = 0 then
      if st2.myCHId = -1 then { st2 with myCHId := header.chId } else st2
    else forwardCHAnnouncement st2 header

/-- `PeceeRoutingProtocol::handleCHAnnouncementPacket(pkt)`, on the header the
packet carries.  The duplicate check of a node that is not a cluster head has an
empty body in the source and does not appear here; the global trace vectors are
write-only logs. -/
def handleCHAnnouncementPacket (st0 : State) (header : PeceeHeader) : State :=
  let st := refreshCLStatus st0
  let chId := header.chId
  let cellSent := header.m_cellSent
  if st.isCH ∧ chId = st.self ∧ cellSent = st.myCellId ∧
      (chId, cellSent) ∈ st.receivedCHAFromCells then st
  else afterRecord (recordCHA st chId cellSent) header

/-- The recorded entries of a `cellPath` (unused slots hold `-1`) are pairwise
distinct. -/
def distinctCells (path : List Int) : Prop :=
  (path.filter (fun c => decide (c ≠ -1))).Nodup

instance (path : List Int) : Decidable (distinctCells path) := by
  unfold distinctCells; infer_instance

/-- State `b` has the identity, cell, cluster-head flag and duplicate record of `a`. -/
def Frame (a b : State) : Prop :=
  b.self = a.self ∧ b.isCH = a.isCH ∧ b.myCellId = a.myCellId ∧
  b.receivedCHAFromCells = a.receivedCHAFromCells

/-- The state `st` with the duplicate record replaced by `R`. -/
def withReceived (st : State) (R : List (Int × Int)) : State :=
  { st with receivedCHAFromCells := R }

/-- The cell table of the sample network: cell 7 with cluster head and leader 3
and member 5, adjacent to cell 8 through gateway node 5; cell 8 with leader 6. -/
def sampleCells : List PeceeCellData :=
  [{ cellId := 7, color := 1, clId := 3, chId := 3, members := [3, 5], neighbors := [8],
     gateways := [(8, 5)] },
   { cellId := 8, color := 2, clId := 6, chId := -1, members := [6], neighbors := [7],
     gateways := [(7, 6)] }]

/-- The node table of the sample network. -/
def sampleNodes : List PeceeNodeData :=
  [{ id := 3, isCH := true, isCL := true, cellId := 7, color := 1, clId := 3, chId := 3,
     numSent := 0, numRecv := 0, neighbors := [5] },
   { id := 5, isCH := false, isCL := false, cellId := 7, color := 1, clId := 3, chId := -1,
     numSent := 0, numRecv := 0, neighbors := [3, 6] },
   { id := 6, isCH := false, isCL := true, cellId := 8, color := 2, clId := 6, chId := -1,
     numSent := 0, numRecv := 0, neighbors := [5] }]

/-- A node of the sample network before any CH announcement. -/
def sampleState (self : Int) (isCH isCL : Bool) (myCellId myCLId : Int) : State :=
  { self := self, isCH := isCH, isCL := isCL, myCellId := myCellId, myCLId := myCLId,
    myCHId := -1, maxHopCount := 60, myCellPathToCH := fun _ => -1,
    announcementQueue := [], boardcastAnnouncementQueue := [],
    receivedCHAFromCells := [], timers := [],
    g_ssCellDataList := sampleCells, g_ssNodesDataList := sampleNodes }

/-- Cluster head 3 of cell 7. -/
def sampleCH : State := sampleState 3 true true 7 3

/-- Member 5 of cell 7, neither cluster head nor cell leader. -/
def sampleMember : State := sampleState 5 false false 7 3

/-- The intra-cell copy that `sendCHAnnouncement` of cluster head 3 queues for
member 5: `hopCount = 1`, `cellSent = 7`, `cellPath = [7, -1, -1]`. -/
def sampleIntraCopy : PeceeHeader := chAnnouncementHeader sampleCH 7

/-- The enumerator values of `PeceePacketType`. -/
def PeceePacketType.toCode : PeceePacketType → Nat
  | HELLO_PACKET => 0
  | CL_ANNOUNCEMENT => 1
  | CL_CONFIRMATION => 2
  | BS_UPDATE_PACKET => 3
  | LINK_REQUEST => 4
  | LINK_ACK => 5
  | LINK_ESTABLISHED => 6
  | INTRA_CELL_ROUTING_UPDATE => 7
  | CL_COMMAND_PACKET => 8
  | NCL_CONFIRM_PACKET => 9
  | ROUTING_TREE_UPDATE_PACKET => 10
  | CH_ANNOUNCEMENT_PACKET => 11
  | DATA_PACKET => 12
  | ANNOUNCE_CELL_HOP => 13
  | SENSOR_DATA => 14
  | FINALIZE_PKT => 15

/-- `static_cast<PeceePacketType>(code)`.  A code above 15 names no enumerator
and is never written by `Serialize`; it is read as `HELLO_PACKET` here. -/
def PeceePacketType.ofCode : Nat → PeceePacketType
  | 1 => CL_ANNOUNCEMENT
  | 2 => CL_CONFIRMATION
  | 3 => BS_UPDATE_PACKET
  | 4 => LINK_REQUEST
  | 5 => LINK_ACK
  | 6 => LINK_ESTABLISHED
  | 7 => INTRA_CELL_ROUTING_UPDATE
  | 8 => CL_COMMAND_PACKET
  | 9 => NCL_CONFIRM_PACKET
  | 10 => ROUTING_TREE_UPDATE_PACKET
  | 11 => CH_ANNOUNCEMENT_PACKET
  | 12 => DATA_PACKET
  | 13 => ANNOUNCE_CELL_HOP
  | 14 => SENSOR_DATA
  | 15 => FINALIZE_PKT
  | _ => HELLO_PACKET

/-- `static_cast<uint16_t>(x)` of an `int`, as the value written to the buffer. -/
def castU16 (x : Int) : Nat := (toU16 x).toNat

/-- `static_cast<uint32_t>(x)` of a `double`: the integer part, reduced to 32
bits (a value outside the range of `uint32_t` has no defined conversion in the
source). -/
def castU32 (x : ℚ) : Nat := (truncToInt x % 4294967296).toNat

/-- `ns3::Buffer::Iterator`: the bytes of the buffer it points into, by offset,
and its current offset.  An iterator passed by value is a copy: what the callee
writes lands in the same buffer, and the callee's advance of the offset is not
seen by the caller. -/
structure Iterator where
  data : Nat → Nat
  current : Nat

/-- `Iterator::WriteU8`. -/
def Iterator.WriteU8 (i : Iterator) (v : Nat) : Iterator :=
  { data := Function.update i.data i.current (v % 256), current := i.current + 1 }

/-- `Iterator::WriteU16`: low byte first. -/
def Iterator.WriteU16 (i : Iterator) (v : Nat) : Iterator :=
  (i.WriteU8 v).WriteU8 (v / 256)

/-- `Iterator::WriteU32`: low byte first. -/
def Iterator.WriteU32 (i : Iterator) (v : Nat) : Iterator :=
  (((i.WriteU8 v).WriteU8 (v / 256)).WriteU8 (v / 65536)).WriteU8 (v / 16777216)

/-- `Iterator::ReadU8`: the byte read and the advanced iterator. -/
def Iterator.ReadU8 (i : Iterator) : Nat × Iterator :=
  (i.data i.current, { i with current := i.current + 1 })

/-- `Iterator::ReadU16`. -/
def Iterator.ReadU16 (i : Iterator) : Nat × Iterator :=
  let b0 := i.ReadU8
  let b1 := b0.2.ReadU8
  (b0.1 + 256 * b1.1, b1.2)

/-- `Iterator::ReadU32`. -/
def Iterator.ReadU32 (i : Iterator) : Nat × Iterator :=
  let b0 := i.ReadU8
  let b1 := b0.2.ReadU8
  let b2 := b1.2.ReadU8
  let b3 := b2.2.ReadU8
  (b0.1 + 256 * b1.1 + 65536 * b2.1 + 16777216 * b3.1, b3.2)

/-- `WsnRoutingHeader::Serialize(i)` on the inherited members of the header; the
result is the callee's iterator when the method returns. -/
def WsnRoutingHeader.Serialize (h : PeceeHeader) (i : Iterator) : Iterator :=
  let i := i.WriteU16 (castU16 h.m_source)
  let i := i.WriteU16 (castU16 h.m_destination)
  let i := i.WriteU16 (castU16 h.m_sequenceNumber)
  let i := i.WriteU32 (castU32 h.m_netMacInfoExchange.RSSI)
  let i := i.WriteU32 (castU32 h.m_netMacInfoExchange.LQI)
  let i := i.WriteU16 (castU16 h.m_netMacInfoExchange.nextHop)
  i.WriteU16 (castU16 h.m_netMacInfoExchange.lastHop)

/-- `PeceeHeader::Serialize(start)`.  `WsnRoutingHeader::Serialize(start)` gets a
copy of `start`, so the writes that follow begin at the offset `start` had on
entry. -/
def PeceeHeader.Serialize (h : PeceeHeader) (start : Iterator) : Iterator :=
  let start := { start with data := (WsnRoutingHeader.Serialize h start).data }
  let start := start.WriteU16 h.m_packetType.toCode
  let start := start.WriteU16 (castU16 h.m_clusterHead)
  let start := start.WriteU16 (castU16 h.m_cellSent)
  let start := start.WriteU16 (castU16 h.m_cellNext)
  let start := start.WriteU16 (castU16 h.m_cellNextNext)
  let start := start.WriteU16 (castU16 h.m_cellSource)
  let start := start.WriteU16 (castU16 h.m_cellDestination)
  let start := start.WriteU16 (castU16 h.m_cellHopCount)
  let start := start.WriteU16 (castU16 h.m_ttl)
  let start := (List.range 3).foldl
    (fun it i => it.WriteU16 (castU16 (h.m_cellPath.getD i (-1)))) start
  let start := start.WriteU16 (castU16 h.m_sensorData.destinationCH)
  let start := start.WriteU16 (castU16 (truncToInt h.m_sensorData.dataId))
  let start := start.WriteU16 (castU16 h.m_sensorData.sensorId)
  let start := start.WriteU16 (castU16 h.m_sensorData.hopCount)
  let start := start.WriteU16 (castU16 h.chId)
  let start := start.WriteU16 (castU16 h.m_cellHopAnnouncementData.nextCell)
  (List.range 3).foldl
    (fun it i => it.WriteU16 (castU16 (h.m_cellHopAnnouncementData.cellPath.getD i (-1)))) start

/-- `WsnRoutingHeader::Deserialize(i)`: the inherited members are read into the
header `h`. -/
def WsnRoutingHeader.Deserialize (h : PeceeHeader) (i : Iterator) : PeceeHeader :=
  let source := i.ReadU16
  let destination := source.2.ReadU16
  let sequenceNumber := destination.2.ReadU16
  let rssi := sequenceNumber.2.ReadU32
  let lqi := rssi.2.ReadU32
  let nextHop := lqi.2.ReadU16
  let lastHop := nextHop.2.ReadU16
  { h with
    m_source := source.1
    m_destination := destination.1
    m_sequenceNumber := sequenceNumber.1
    m_netMacInfoExchange :=
      { RSSI := rssi.1, LQI := lqi.1, nextHop := nextHop.1, lastHop := lastHop.1 } }

/-- `PeceeHeader::Deserialize(start)` into the header `h`.
`WsnRoutingHeader::Deserialize(start)` gets a copy of `start`, so the reads that
follow begin at the offset `start` had on entry. -/
def PeceeHeader.Deserialize (h : PeceeHeader) (start : Iterator) : PeceeHeader :=
  let h := WsnRoutingHeader.Deserialize h start
  let packetType := start.ReadU16
  let clusterHead := packetType.2.ReadU16
  let cellSent := clusterHead.2.ReadU16
  let cellNext := cellSent.2.ReadU16
  let cellNextNext := cellNext.2.ReadU16
  let cellSource := cellNextNext.2.ReadU16
  let cellDestination := cellSource.2.ReadU16
  let cellHopCount := cellDestination.2.ReadU16
  let ttl := cellHopCount.2.ReadU16
  let path0 := ttl.2.ReadU16
  let path1 := path0.2.ReadU16
  let path2 := path1.2.ReadU16
  let destinationCH := path2.2.ReadU16
  let dataId := destinationCH.2.ReadU16
  let sensorId := dataId.2.ReadU16
  let hopCount := sensorId.2.ReadU16
  let chId := hopCount.2.ReadU16
  let nextCell := chId.2.ReadU16
  let hop0 := nextCell.2.ReadU16
  let hop1 := hop0.2.ReadU16
  let hop2 := hop1.2.ReadU16
  { h with
    m_packetType := PeceePacketType.ofCode packetType.1
    m_clusterHead := clusterHead.1
    m_cellSent := cellSent.1
    m_cellNext := cellNext.1
    m_cellNextNext := cellNextNext.1
    m_cellSource := cellSource.1
    m_cellDestination := cellDestination.1
    m_cellHopCount := cellHopCount.1
    m_ttl := ttl.1
    m_cellPath := [path0.1, path1.1, path2.1]
    m_sensorData :=
      { destinationCH := destinationCH.1, dataId := dataId.1, sensorId := sensorId.1,
        hopCount := hopCount.1 }
    chId := chId.1
    m_cellHopAnnouncementData :=
      { nextCell := nextCell.1, cellPath := [hop0.1, hop1.1, hop2.1] } }

/-- The header as it is read back from a packet (`AddHeader`, then `RemoveHeader`
or `PeekHeader`), field by field: the result of `Deserialize` on the bytes written
by `Serialize`.  Every field of the derived class comes back as the `uint16_t` it
was written as; the inherited members are read from the bytes at the start of the
buffer, which hold the packet type, `m_clusterHead`, `m_cellSent`, `m_cellNext`,
`m_cellNextNext`, `m_cellSource`, `m_cellDestination`, `m_cellHopCount` and
`m_ttl`. -/
def PeceeHeader.wire (h : PeceeHeader) : PeceeHeader :=
  { h with
    m_source := h.m_packetType.toCode
    m_destination := toU16 h.m_clusterHead
    m_sequenceNumber := toU16 h.m_cellSent
    m_netMacInfoExchange :=
      { RSSI := ((toU16 h.m_cellNext + 65536 * toU16 h.m_cellNextNext : Int) : ℚ)
        LQI := ((toU16 h.m_cellSource + 65536 * toU16 h.m_cellDestination : Int) : ℚ)
        nextHop := toU16 h.m_cellHopCount
        lastHop := toU16 h.m_ttl }
    m_clusterHead := toU16 h.m_clusterHead
    m_cellSent := toU16 h.m_cellSent
    m_cellNext := toU16 h.m_cellNext
    m_cellNextNext := toU16 h.m_cellNextNext
    m_cellSource := toU16 h.m_cellSource
    m_cellDestination := toU16 h.m_cellDestination
    m_cellHopCount := toU16 h.m_cellHopCount
    m_ttl := toU16 h.m_ttl
    m_cellPath := h.m_cellPath.map toU16
    m_sensorData :=
      { destinationCH := toU16 h.m_sensorData.destinationCH
        dataId := ((toU16 (truncToInt h.m_sensorData.dataId) : Int) : ℚ)
        sensorId := toU16 h.m_sensorData.sensorId
        hopCount := toU16 h.m_sensorData.hopCount }
    chId := toU16 h.chId
    m_cellHopAnnouncementData :=
      { nextCell := toU16 h.m_cellHopAnnouncementData.nextCell
        cellPath := h.m_cellHopAnnouncementData.cellPath.map toU16 } }

/-- `getNodeData(nodeId)`: the first entry of `g_ssNodesDataList` with that id, or a
fresh value-initialised `PeceeNodeData`. -/
def getNodeData (st : State) (nodeId : Int) : PeceeNodeData :=
  match st.g_ssNodesDataList.find? (fun n => decide (n.id = nodeId)) with
  | some n => n
  | none =>
      { id := 0, isCH := false, isCL := false, cellId := 0, color := 0, clId := 0, chId := 0,
        numSent := 0, numRecv := 0, neighbors := [] }

/-- `getNodeData(nodeId)->numSent++`: the write reaches the first entry of
`g_ssNodesDataList` with that id, if there is one. -/
def incNumSent (nodes : List PeceeNodeData) (nodeId : Int) : List PeceeNodeData :=
  match nodes with
  | [] => []
  | n :: rest =>
      if n.id = nodeId then { n with numSent := n.numSent + 1 } :: rest
      else n :: incNumSent rest nodeId

/-- `PeceeRoutingProtocol::SendPacket(packet, header, destination)`: the packet
handed to the MAC layer carries `header` under a routing header addressed to
`destination` (a `uint16_t` parameter); the energy counter is left out. -/
def SendPacket (st : State) (header : PeceeHeader) (destination : Int) : State :=
  { st with
    sent := st.sent ++ [(header, toU16 destination)]
    g_ssNodesDataList := incNumSent st.g_ssNodesDataList st.self }

/-- The closing step of every path through `sendAnnouncementQueue`:
`if (!announcementQueue.empty()) ScheduleTimer(SEND_ANNOUNCEMENT_QUEUE, delay)`. -/
def rescheduleQueue (st : State) : State :=
  if st.announcementQueue.isEmpty then st
  else ScheduleTimer st PeceeTimerType.SEND_ANNOUNCEMENT_QUEUE

/-- The read `g_ssRoutingTable[node][cell]`: a missing entry reads `0`. -/
def routingEntry (st : State) (node cell : Int) : Int :=
  (st.g_ssRoutingTable node cell).getD 0

/-- The side effect of the read `g_ssRoutingTable[node][cell]`: a missing entry is
created with value `0`. -/
def touchRoutingEntry (st : State) (node cell : Int) : State :=
  match st.g_ssRoutingTable node cell with
  | some _ => st
  | none =>
      { st with g_ssRoutingTable := fun n c =>
          if n = node ∧ c = cell then some 0 else st.g_ssRoutingTable n c }

/-- The part of `sendAnnouncementQueue` after the next hop has been chosen: the
checks against `-1`, against the node itself and against the node's neighbour
list, then `SendPacket`. -/
def sendIfInRange (st : State) (header : PeceeHeader) (nextHopId : Int) : State :=
  if nextHopId = -1 then rescheduleQueue st
  else if nextHopId = st.self then rescheduleQueue st
  else if nextHopId ∈ (getNodeData st st.self).neighbors then
    rescheduleQueue (SendPacket st header nextHopId)
  else rescheduleQueue st

/-- `PeceeRoutingProtocol::sendAnnouncementQueue()`.  The queue holds packets, so
the header taken from the front element is the queued header as serialised; the
rotation timing globals written after `SendPacket` are left out. -/
def sendAnnouncementQueue (st : State) : State :=
  match st.announcementQueue with
  | [] => st
  | (pkt, nextCellId) :: rest =>
      let st1 := { st with announcementQueue := rest }
      let ttl := pkt.wire.m_ttl - 1
      let header := { pkt.wire with m_ttl := ttl }
      if ttl ≤ 0 then rescheduleQueue st1
      else if nextCellId ≠ st1.myCellId then
        let nextHopId := routingEntry st1 st1.self nextCellId
        let st2 := touchRoutingEntry st1 st1.self nextCellId
        if nextHopId = -1 then rescheduleQueue st2
        else sendIfInRange st2 header nextHopId
      else
        match st1.boardcastAnnouncementQueue with
        | [] => rescheduleQueue st1
        | nextHopId :: targets =>
            sendIfInRange { st1 with boardcastAnnouncementQueue := targets } header nextHopId

/-- The next hop `sendAnnouncementQueue` chooses for an element queued toward
`nextCellId`: the routing entry of the node for another cell, the front of
`boardcastAnnouncementQueue` (if any) for the own cell. -/
def chosenNextHop (st : State) (nextCellId : Int) : Option Int :=
  if nextCellId ≠ st.myCellId then some (routingEntry st st.self nextCellId)
  else st.boardcastAnnouncementQueue.head?

/-- The ways `handleSensorDataPacket` ends, named after its log lines
(`#DATA_DELIVERED`, `#DATA_TTL_EXPIRED`, `#DATA_NO_ROUTE`, `#DATA_NO_NEXTHOP`,
`#DATA_FORWARD`). -/
inductive SensorOutcome where
  | delivered
  | ttlExpired
  | noRoute
  | noNextHop
  | forward (fwdHeader : PeceeHeader) (nextHop : Int)
  deriving DecidableEq, Repr

/-- The decision sequence of `handleSensorDataPacket` on the header the packet
carries. -/
def sensorDataDecision (st : State) (header : PeceeHeader) : SensorOutcome :=
  let destination := header.m_cellDestination
  let ttl := header.m_ttl
  if destination = st.myCellId then SensorOutcome.delivered
  else if ttl ≤ 0 then SensorOutcome.ttlExpired
  else
    match st.g_ssRoutingTable st.self destination with
    | none => SensorOutcome.noRoute
    | some nextHop =>
        if nextHop = -1 ∨ nextHop = st.self then SensorOutcome.noNextHop
        else SensorOutcome.forward { header with m_ttl := ttl - 1 } nextHop

/-- `PeceeRoutingProtocol::handleSensorDataPacket(pkt)`. -/
def handleSensorDataPacket (st : State) (header : PeceeHeader) : State :=
  match sensorDataDecision st header with
  | SensorOutcome.forward fwdHeader nextHop => SendPacket st fwdHeader nextHop
  | _ => st

/-- The number of times a sensor-data packet is forwarded when it visits the
nodes `route` in this order, each node handling the header as transmitted by the
one before; the count ends at the first node that does not forward. -/
def forwardCount : List State → PeceeHeader → Nat
  | [], _ => 0
  | st :: route, header =>
      match sensorDataDecision st header with
      | SensorOutcome.forward fwdHeader _ => forwardCount route fwdHeader.wire + 1
      | _ => 0

/-- The update of the node table in `rotationCH` for one cell: old and new cluster
head are re-marked and every node of the cell points to the new one. -/
def rotateNodes (nodes : List PeceeNodeData) (cellId oldCHId newCHId : Int) :
    List PeceeNodeData :=
  nodes.map (fun nodeData =>
    if nodeData.cellId = cellId then
      let n1 := if nodeData.id = oldCHId then { nodeData with isCH := false, chId := newCHId }
                else nodeData
      let n2 := if n1.id = newCHId then { n1 with isCH := true, chId := newCHId } else n1
      { n2 with chId := newCHId }
    else nodeData)

/-- The loop of `rotationCH` over `g_ssCellDataList`.  `draws k` is the raw value
behind the `k`-th call of `rand->GetInteger(0, size - 1)`, which returns
`draws k % size`. -/
def rotateCells (draws : Nat → Nat) :
    Nat → List PeceeCellData → List PeceeNodeData → List PeceeCellData × List PeceeNodeData
  | _, [], nodes => ([], nodes)
  | k, cellData :: cells, nodes =>
      if cellData.members.isEmpty then
        let r := rotateCells draws k cells nodes
        (cellData :: r.1, r.2)
      else
        let randomIndex := draws k % cellData.members.length
        let newCHId := cellData.members.getD randomIndex 0
        let oldCHId := cellData.chId
        let r := rotateCells draws (k + 1) cells
          (rotateNodes nodes cellData.cellId oldCHId newCHId)
        ({ cellData with chId := newCHId } :: r.1, r.2)

/-- `PeceeRoutingProtocol::rotationCH()`; the rotation counters kept by node 0 are
left out. -/
def rotationCH (st : State) (draws : Nat → Nat) : State :=
  let r := rotateCells draws 0 st.g_ssCellDataList st.g_ssNodesDataList
  let st1 := { st with g_ssCellDataList := r.1, g_ssNodesDataList := r.2 }
  let myNodeData := getNodeData st1 st1.self
  let st2 := { st1 with
    isCH := myNodeData.isCH
    myCHId := myNodeData.chId
    receivedCHAFromCells := []
    announcementQueue := [] }
  let st3 := if st2.isCH then { st2 with calls := st2.calls ++ [DirectCall.sendCHAnnouncement] }
             else st2
  let st4 := { st3 with calls := st3.calls ++ [DirectCall.rotationCH] }
  if st4.self = 0 then { st4 with calls := st4.calls ++ [DirectCall.checkCHACompletion] }
  else st4

/-- One rotation epoch: the nodes of `runs` execute `rotationCH` one after the
other, each with its own random draws, on the shared tables left by the one
before.  The result lists the nodes after their run and the final tables. -/
def rotationEpoch (cells : List PeceeCellData) (nodes : List PeceeNodeData) :
    List (State × (Nat → Nat)) → List State × List PeceeCellData × List PeceeNodeData
  | [] => ([], cells, nodes)
  | (st, draws) :: runs =>
      let st1 := rotationCH { st with g_ssCellDataList := cells, g_ssNodesDataList := nodes } draws
      let r := rotationEpoch st1.g_ssCellDataList st1.g_ssNodesDataList runs
      (st1 :: r.1, r.2)

/-- The cell table of the relay network: cells 7, 8 and 9 in a row, with the single
members 3, 6 and 10. -/
def relayCells : List PeceeCellData :=
  [{ cellId := 7, color := 1, clId := 3, chId := 3, members := [3], neighbors := [8],
     gateways := [(8, 3)] },
   { cellId := 8, color := 2, clId := 6, chId := -1, members := [6], neighbors := [7, 9],
     gateways := [(7, 6), (9, 6)] },
   { cellId := 9, color := 0, clId := 10, chId := -1, members := [10], neighbors := [8],
     gateways := [(8, 10)] }]

/-- The node table of the relay network: 3 – 6 – 10. -/
def relayNodes : List PeceeNodeData :=
  [{ id := 3, isCH := true, isCL := true, cellId := 7, color := 1, clId := 3, chId := 3,
     numSent := 0, numRecv := 0, neighbors := [6] },
   { id := 6, isCH := false, isCL := true, cellId := 8, color := 2, clId := 6, chId := -1,
     numSent := 0, numRecv := 0, neighbors := [3, 10] },
   { id := 10, isCH := false, isCL := true, cellId := 9, color := 0, clId := 10, chId := -1,
     numSent := 0, numRecv := 0, neighbors := [6] }]

/-- The routing table of the relay network. -/
def relayTable (node cell : Int) : Option Int :=
  if node = 3 ∧ cell = 8 then some 6
  else if node = 6 ∧ cell = 7 then some 3
  else if node = 6 ∧ cell = 9 then some 10
  else if node = 10 ∧ cell = 8 then some 6
  else none

/-- A node of the relay network before any CH announcement. -/
def relayState (self : Int) (isCH : Bool) (myCellId : Int) : State :=
  { self := self, isCH := isCH, isCL := true, myCellId := myCellId, myCLId := self,
    myCHId := -1, maxHopCount := 60, myCellPathToCH := fun _ => -1,
    announcementQueue := [], boardcastAnnouncementQueue := [],
    receivedCHAFromCells := [], timers := [],
    g_ssCellDataList := relayCells, g_ssNodesDataList := relayNodes,
    g_ssRoutingTable := relayTable }

/-- Cluster head 3 of cell 7 in the relay network. -/
def relayCH : State := relayState 3 true 7

/-- Cell leader 6 of cell 8 in the relay network. -/
def relayNode : State := relayState 6 false 8

/-- The announcement of cluster head 3 as node 6 receives it: the header of the one
packet that `sendCHAnnouncement` followed by `sendAnnouncementQueue` transmits,
read back from the packet. -/
def relayReceived : PeceeHeader :=
  match (sendAnnouncementQueue (sendCHAnnouncement relayCH)).sent with
  | (header, _) :: _ => header.wire
  | [] => PeceeHeader.default

/-- The cell and node tables of the rotation sample: cell 1 with members 1 and 2,
no cluster head recorded or marked. -/
def rotationCells : List PeceeCellData :=
  [{ cellId := 1, color := 0, clId := 1, chId := -1, members := [1, 2], neighbors := [],
     gateways := [] }]

/-- The node table of the rotation sample. -/
def rotationNodes : List PeceeNodeData :=
  [{ id := 1, isCH := false, isCL := true, cellId := 1, color := 0, clId := 1, chId := -1,
     numSent := 0, numRecv := 0, neighbors := [2] },
   { id := 2, isCH := false, isCL := false, cellId := 1, color := 0, clId := 1, chId := -1,
     numSent := 0, numRecv := 0, neighbors := [1] }]

/-- A node of the rotation sample. -/
def rotationState (self : Int) : State :=
  { self := self, isCH := false, isCL := decide (self = 1), myCellId := 1, myCLId := 1,
    myCHId := -1, maxHopCount := 60, myCellPathToCH := fun _ => -1,
    announcementQueue := [], boardcastAnnouncementQueue := [],
    receivedCHAFromCells := [], timers := [],
    g_ssCellDataList := rotationCells, g_ssNodesDataList := rotationNodes }

/-- A sensor-data packet as `sendSensorDataPacket` of node 3 builds it for target
cell 9 (`SENSOR_DATA`, TTL 30, sequence number 1). -/
def sampleSensorData : PeceeHeader :=
  { PeceeHeader.default with
    m_packetType := PeceePacketType.SENSOR_DATA
    m_source := toU16 3
    m_destination := toU16 9
    m_cellSource := 7
    m_cellDestination := 9
    m_ttl := 30
    m_sequenceNumber := 1 }

/-- `calculateDistance(x1, y1, x2, y2)`: `sqrt(pow(x1 - x2, 2) + pow(y1 - y2, 2))`,
the expression every distance of `PrecalculateSimulationResults` is computed by. -/
def calculateDistance (sqrtF : ℚ → ℚ) (x1 y1 x2 y2 : ℚ) : ℚ :=
  sqrtF ((x1 - x2) ^ 2 + (y1 - y2) ^ 2)

/-- The inline distance `sqrt(pow(a.x - b.x, 2) + pow(a.y - b.y, 2))` between two
entries of the node table. -/
def linkLength (sqrtF : ℚ → ℚ) (a b : PeceeNodeData) : ℚ :=
  sqrtF ((a.x - b.x) ^ 2 + (a.y - b.y) ^ 2)

/-- One assignment `g_ssRoutingTable[node][cell] = value`, as `(node, cell, value)`. -/
abbrev RouteWrite := Int × Int × Int

/-- The table after the assignment `g_ssRoutingTable[w.1][w.2.1] = w.2.2`. -/
def routeSet (table : Int → Int → Option Int) (w : RouteWrite) : Int → Int → Option Int :=
  fun node cell => if node = w.1 ∧ cell = w.2.1 then some w.2.2 else table node cell

/-- The table after a sequence of assignments, in program order. -/
def applyWrites (table : Int → Int → Option Int) (writes : List RouteWrite) :
    Int → Int → Option Int :=
  writes.foldl routeSet table

/-- The assignment `gateways[k] = v` on the map `gateways`. -/
def gatewaySet (gateways : List (Int × Int)) (k v : Int) : List (Int × Int) :=
  match gateways with
  | [] => [(k, v)]
  | (k1, v1) :: rest =>
      if k1 = k then (k, v) :: rest else (k1, v1) :: gatewaySet rest k v

/-- The read `gateways[k]`; a missing key reads `0`.  Inside
`PrecalculateSimulationResults` the key read is always present: it is inserted
together with the neighbour cell. -/
def gatewayGet (gateways : List (Int × Int)) (k : Int) : Int :=
  match gateways.find? (fun g => decide (g.1 = k)) with
  | some g => g.2
  | none => 0

/-- The first statements of `PrecalculateSimulationResults`: every node loses its
neighbours and its cell leader, and the cell table is cleared (the sensor-data
counters are left out). -/
def resetTables (st : State) : State :=
  { st with
    g_ssNodesDataList := st.g_ssNodesDataList.map (fun node =>
      { node with neighbors := [], clId := -1 })
    g_ssCellDataList := [] }

/-- "Calculate node neighbors", for one node: the ids of the other nodes at
distance at most `cellRadius`, in table order. -/
def nodeNeighbors (sqrtF : ℚ → ℚ) (st : State) (nodeData : PeceeNodeData) : List Int :=
  nodeData.neighbors ++
    (st.g_ssNodesDataList.filter (fun otherNodeData =>
      decide (nodeData.id ≠ otherNodeData.id) &&
      decide (calculateDistance sqrtF nodeData.x nodeData.y otherNodeData.x otherNodeData.y
        ≤ st.cellRadius))).map (fun otherNodeData => otherNodeData.id)

/-- "Calculate node neighbors". -/
def calcNodeNeighbors (sqrtF : ℚ → ℚ) (st : State) : State :=
  { st with
    g_ssNodesDataList := st.g_ssNodesDataList.map (fun nodeData =>
      { nodeData with neighbors := nodeNeighbors sqrtF st nodeData }) }

/-- `cellData.members.push_back(id)` on the first cell with the given id. -/
def pushMember (cells : List PeceeCellData) (cellId id : Int) : List PeceeCellData :=
  match cells with
  | [] => []
  | cellData :: rest =>
      if cellData.cellId = cellId then { cellData with members := cellData.members ++ [id] } :: rest
      else cellData :: pushMember rest cellId id

/-- One round of "Calculate cell members": the node joins the cell with its cell
id, or a new cell is created for it.  `chId` of the new cell is not initialised in
the source and is `0` here. -/
def addCellMember (cells : List PeceeCellData) (nodeData : PeceeNodeData) :
    List PeceeCellData :=
  if cells.any (fun cellData => decide (cellData.cellId = nodeData.cellId)) then
    pushMember cells nodeData.cellId nodeData.id
  else
    cells ++ [{ cellId := nodeData.cellId, color := nodeData.color, clId := nodeData.clId,
                chId := 0, members := [nodeData.id], neighbors := [], gateways := [] }]

/-- "Calculate cell members". -/
def calcCellMembers (st : State) : State :=
  { st with g_ssCellDataList := st.g_ssNodesDataList.foldl addCellMember st.g_ssCellDataList }

/-- One round of the innermost loop of "calculate cell neighbors": a neighbour that
lies in another cell, not yet listed, is listed and gets the gateway `-1`. -/
def addCellNeighbor (cellData : PeceeCellData) (neighborCellId : Int) : PeceeCellData :=
  if neighborCellId ≠ cellData.cellId ∧ neighborCellId ∉ cellData.neighbors then
    { cellData with
      neighbors := cellData.neighbors ++ [neighborCellId]
      gateways := gatewaySet cellData.gateways neighborCellId (-1) }
  else cellData

/-- The cell ids that the loops of "calculate cell neighbors" visit for one cell:
for each node of the cell, the cells of its neighbours. -/
def neighborCellIds (st : State) (thisCellId : Int) : List Int :=
  (st.g_ssNodesDataList.filter (fun nodeData => decide (nodeData.cellId = thisCellId))).flatMap
    (fun nodeData => nodeData.neighbors.map (fun neighborId => (getNodeData st neighborId).cellId))

/-- "calculate cell neighbors". -/
def calcCellNeighbors (st : State) : State :=
  { st with
    g_ssCellDataList := st.g_ssCellDataList.map (fun cellData =>
      (neighborCellIds st cellData.cellId).foldl addCellNeighbor cellData) }

/-- The fitness score "Calculate cell leaders" computes for a member of the cell
`cellId`. -/
def leaderFitness (sqrtF : ℚ → ℚ) (st : State) (cellId : Int) (member : PeceeNodeData) : Int :=
  let r := HexGrid.cround ((cellId : ℚ) / (st.grid_offset : ℚ))
  let q := cellId - r * st.grid_offset
  let centerX := st.cellRadius * (sqrtF 3 * (q : ℚ) + sqrtF 3 / 2 * (r : ℚ))
  let centerY := st.cellRadius * (3 / 2 * (r : ℚ))
  let distance := sqrtF ((member.x - centerX) ^ 2 + (member.y - centerY) ^ 2)
  truncToInt (1000 / (1 + distance))

/-- One round of the member loop of "Calculate cell leaders"; `best` is the pair
`(bestFitness, bestCLId)`. -/
def leaderStep (sqrtF : ℚ → ℚ) (st : State) (cellId : Int) (best : Int × Int)
    (memberId : Int) : Int × Int :=
  let member := getNodeData st memberId
  let fitnessScore := leaderFitness sqrtF st cellId member
  if fitnessScore > best.1 then (fitnessScore, member.id) else best

/-- `getCellData(cellId)->clId = value`. -/
def setCellClId (cells : List PeceeCellData) (cellId value : Int) : List PeceeCellData :=
  match cells with
  | [] => []
  | cellData :: rest =>
      if cellData.cellId = cellId then { cellData with clId := value } :: rest
      else cellData :: setCellClId rest cellId value

/-- One round of "Calculate cell leaders", for the cell `cellData`. -/
def electCellLeader (sqrtF : ℚ → ℚ) (st : State) (cellData : PeceeCellData) : State :=
  let best := cellData.members.foldl (leaderStep sqrtF st cellData.cellId) (-1, -1)
  { st with
    g_ssCellDataList := setCellClId st.g_ssCellDataList cellData.cellId best.2
    g_ssNodesDataList := st.g_ssNodesDataList.map (fun nodeData =>
      if nodeData.id ∈ cellData.members then { nodeData with clId := best.2 } else nodeData) }

/-- "Calculate cell leaders". -/
def calcCellLeaders (sqrtF : ℚ → ℚ) (st : State) : State :=
  st.g_ssCellDataList.foldl (electCellLeader sqrtF) st

/-- One round of the gateway search, for a link `(linkDistance, node, neighbour)`;
`best` is `(bestDistance, bestCGWId, bestNGWId)` and `EPS = 1e-6`. -/
def linkStep (best : ℚ × Int × Int) (link : ℚ × Int × Int) : ℚ × Int × Int :=
  if link.1 < best.1 then link
  else if |link.1 - best.1| < 1 / 1000000 then
    if link.2.1 < best.2.1 then (best.1, link.2.1, link.2.2) else best
  else best

/-- The links the gateway search visits for the cell `cellId` and its neighbour
cell `neighborId`, in loop order: for each node of the cell, each of its
neighbours that lies in the neighbour cell, with the link distance. -/
def cellLinks (sqrtF : ℚ → ℚ) (st : State) (cellId neighborId : Int) : List (ℚ × Int × Int) :=
  (st.g_ssNodesDataList.filter (fun nodeData => decide (nodeData.cellId = cellId))).flatMap
    (fun nodeData =>
      ((nodeData.neighbors.map (getNodeData st)).filter
        (fun neighborNode => decide (neighborNode.cellId = neighborId))).map
        (fun neighborNode =>
          (linkLength sqrtF nodeData neighborNode, nodeData.id, neighborNode.id)))

/-- The gateway search of "calculate gateway candidates for each pair of cell". -/
def selectGateway (sqrtF : ℚ → ℚ) (st : State) (cellId neighborId : Int) : ℚ × Int × Int :=
  (cellLinks sqrtF st cellId neighborId).foldl linkStep (9999, -1, -1)

/-- One round of the neighbour loop of the gateway stage for the cell `cellId`;
the accumulator holds the cell's gateway map and the routing entries written so
far. -/
def gatewayStep (sqrtF : ℚ → ℚ) (st : State) (cellId : Int)
    (acc : List (Int × Int) × List RouteWrite) (neighborId : Int) :
    List (Int × Int) × List RouteWrite :=
  let unset := decide (gatewayGet acc.1 neighborId = -1)
  let best := if unset then selectGateway sqrtF st cellId neighborId else (9999, -1, -1)
  let gateways :=
    if unset ∧ best.2.1 ≠ -1 ∧ best.2.2 ≠ -1 then gatewaySet acc.1 neighborId best.2.1
    else acc.1
  let writes :=
    (st.g_ssNodesDataList.filter
      (fun nodeData => decide (nodeData.id = gatewayGet gateways neighborId))).map
      (fun nodeData => (nodeData.id, neighborId, best.2.2))
  (gateways, acc.2 ++ writes)

/-- The gateway stage for one cell: its gateway map afterwards and the routing
entries written. -/
def cellGateways (sqrtF : ℚ → ℚ) (st : State) (cellData : PeceeCellData) :
    List (Int × Int) × List RouteWrite :=
  cellData.neighbors.foldl (gatewayStep sqrtF st cellData.cellId) (cellData.gateways, [])

/-- "calculate gateway candidates for each pair of cell". -/
def calcGateways (sqrtF : ℚ → ℚ) (st : State) : State :=
  { st with
    g_ssCellDataList := st.g_ssCellDataList.map (fun cellData =>
      { cellData with gateways := (cellGateways sqrtF st cellData).1 })
    g_ssRoutingTable := applyWrites st.g_ssRoutingTable
      (st.g_ssCellDataList.flatMap (fun cellData => (cellGateways sqrtF st cellData).2)) }

/-- One round of the two-hop search, for a candidate `(totalDistance, neighbour)`;
`best` is `(minDistance, bestNextHopId)`. -/
def twoHopStep (best : ℚ × Int) (candidate : ℚ × Int) : ℚ × Int :=
  if candidate.1 < best.1 then candidate
  else if candidate.1 = best.1 then
    if candidate.2 < best.2 then (best.1, candidate.2) else best
  else best

/-- The candidates of the two-hop search from `member` toward the node `targetId`:
the neighbours of `member` that have `targetId` among their neighbours, each with
the length of the path member – neighbour – target. -/
def twoHopCandidates (sqrtF : ℚ → ℚ) (st : State) (member : PeceeNodeData) (targetId : Int) :
    List (ℚ × Int) :=
  (member.neighbors.filter (fun neighborNodeId =>
    st.g_ssNodesDataList.any (fun neighborNodeData =>
      decide (neighborNodeData.id = neighborNodeId) &&
      decide (targetId ∈ neighborNodeData.neighbors)))).map
    (fun neighborNodeId =>
      let neighborNode := getNodeData st neighborNodeId
      let target := getNodeData st targetId
      (linkLength sqrtF member neighborNode + linkLength sqrtF neighborNode target,
        neighborNodeId))

/-- The result `bestNextHopId` of the two-hop search. -/
def twoHopBest (sqrtF : ℚ → ℚ) (st : State) (member : PeceeNodeData) (targetId : Int) : Int :=
  ((twoHopCandidates sqrtF st member targetId).foldl twoHopStep (9999, -1)).2

/-- The routing entries written for one member of a cell toward the neighbour cell
`neighborId` with gateway `gatewayId`. -/
def memberRouteWrites (sqrtF : ℚ → ℚ) (st : State) (gatewayId neighborId memberId : Int) :
    List RouteWrite :=
  if memberId ≠ gatewayId then
    let member := getNodeData st memberId
    [(memberId, neighborId, -1)] ++
      (member.neighbors.filter (fun neighborNodeId => decide (neighborNodeId = gatewayId))).map
        (fun _ => (memberId, neighborId, gatewayId)) ++
      (if gatewayId ∈ member.neighbors then []
       else if twoHopBest sqrtF st member gatewayId ≠ -1 then
         [(member.id, neighborId, twoHopBest sqrtF st member gatewayId)]
       else [])
  else []

/-- The routing entries written for one cell toward its neighbour cell
`neighborId`. -/
def gatewayRouteWrites (sqrtF : ℚ → ℚ) (st : State) (cellData : PeceeCellData)
    (neighborId : Int) : List RouteWrite :=
  let gatewayId := gatewayGet cellData.gateways neighborId
  if gatewayId ≠ -1 then
    cellData.members.flatMap (memberRouteWrites sqrtF st gatewayId neighborId)
  else []

/-- "routing table for CL": the routing entries written for one member of a cell
toward the cell's leader. -/
def leaderRouteWrites (sqrtF : ℚ → ℚ) (st : State) (cellData : PeceeCellData)
    (memberId : Int) : List RouteWrite :=
  if memberId = cellData.clId then []
  else
    let member := getNodeData st memberId
    [(memberId, cellData.cellId, -1)] ++
      (if cellData.clId ∈ member.neighbors then [(memberId, cellData.cellId, cellData.clId)]
       else if twoHopBest sqrtF st member cellData.clId ≠ -1 then
         [(member.id, cellData.cellId, twoHopBest sqrtF st member cellData.clId)]
       else [])

/-- The routing entries written for one cell by "calculate intra-cell routing table
for each cell gateways and CL". -/
def cellRouteWrites (sqrtF : ℚ → ℚ) (st : State) (cellData : PeceeCellData) :
    List RouteWrite :=
  cellData.neighbors.flatMap (gatewayRouteWrites sqrtF st cellData) ++
    cellData.members.flatMap (leaderRouteWrites sqrtF st cellData)

/-- "calculate intra-cell routing table for each cell gateways and CL". -/
def calcRoutes (sqrtF : ℚ → ℚ) (st : State) : State :=
  { st with
    g_ssRoutingTable := applyWrites st.g_ssRoutingTable
      (st.g_ssCellDataList.flatMap (cellRouteWrites sqrtF st)) }

/-- `PeceeRoutingProtocol::PrecalculateSimulationResults()` on the tables
`g_ssNodesDataList`, `g_ssCellDataList` and `g_ssRoutingTable`. -/
def PrecalculateSimulationResults (sqrtF : ℚ → ℚ) (st : State) : State :=
  calcRoutes sqrtF (calcGateways sqrtF (calcCellLeaders sqrtF
    (calcCellNeighbors (calcCellMembers (calcNodeNeighbors sqrtF (resetTables st))))))

/-- Following the stored next-hop entries toward the cell `target`, starting at
`node`, for at most `fuel` steps: the node of the target cell that is reached, or
`none` when an entry is missing or `-1` or the steps run out. -/
def followRoute (st : State) (target : Int) : Nat → Int → Option Int
  | 0, _ => none
  | fuel + 1, node =>
      if (getNodeData st node).cellId = target then some node
      else
        match st.g_ssRoutingTable node target with
        | none => none
        | some nextHop => if nextHop = -1 then none else followRoute st target fuel nextHop

/-- The value the last assignment of `writes` to the entry `(node, cell)` leaves
there, `none` when `writes` has no assignment to it. -/
def lastWrite (writes : List RouteWrite) (node cell : Int) : Option Int :=
  applyWrites (fun _ _ => none) writes node cell

/-- The entry after a block of assignments whose last value is `last`, `previous`
being the entry before the block. -/
def orPrevious (last previous : Option Int) : Option Int :=
  match last with
  | some v => some v
  | none => previous

/-- The fields of a node entry that `PrecalculateSimulationResults` does not change
once the neighbour lists are computed. -/
def nodeCore (n : PeceeNodeData) : Int × ℚ × ℚ × Int × List Int :=
  (n.id, n.x, n.y, n.cellId, n.neighbors)

/-- The fields of a cell entry that the leader stage does not change. -/
def cellCore (c : PeceeCellData) : Int × List Int × List Int × List (Int × Int) :=
  (c.cellId, c.members, c.neighbors, c.gateways)

/-- The integer square root (Newton steps from above), for the sample networks. -/
def natRoot (n : Nat) : Nat :=
  (List.range 64).foldl
    (fun x _ => if x = 0 then 0 else if (x + n / x) / 2 < x then (x + n / x) / 2 else x) n

/-- The values of `std::sqrt` for the sample networks: exact on squares of
rationals, and a rational stand-in for `sqrt 3`. -/
def sampleRoot (t : ℚ) : ℚ :=
  if t = 3 then 433 / 250
  else (natRoot t.num.natAbs : ℚ) / (natRoot t.den : ℚ)

/-- A node entry as `StartRouting` registers it. -/
def mkNode (id : Int) (x y : ℚ) (cellId : Int) : PeceeNodeData :=
  { id := id, isCH := false, isCL := false, cellId := cellId, color := 0, clId := -1, chId := -1,
    numSent := 0, numRecv := 0, neighbors := [], x := x, y := y }

/-- The tables before `PrecalculateSimulationResults`: the registered nodes, no
cells, an empty routing table. -/
def tableState (cellRadius : ℚ) (nodes : List PeceeNodeData) : State :=
  { self := 0, isCH := false, isCL := false, myCellId := 0, myCLId := -1,
    myCHId := -1, maxHopCount := 60, myCellPathToCH := fun _ => -1,
    announcementQueue := [], boardcastAnnouncementQueue := [],
    receivedCHAFromCells := [], timers := [],
    g_ssCellDataList := [], g_ssNodesDataList := nodes, cellRadius := cellRadius }

/-- Cell radius 20; nodes 5 at (12, 0) and 3 at (11.9999995, 0) in cell 0, node 8 at
(22, 0) in cell 1.  The links 5 – 8 and 3 – 8 have lengths 10 and 10.0000005. -/
def nearTieState : State :=
  tableState 20 [mkNode 5 12 0 0, mkNode 3 (23999999 / 2000000) 0 0, mkNode 8 22 0 1]

/-- Cell radius 6000; nodes 1 at (-5000, 0), 2 at (0, 0) and 3 at (5000, 0) in
cell 0, node 4 at (5400, 0) in cell 1.  Node 3 is the gateway toward cell 1; node 1
reaches it through node 2 over 5000 + 5000. -/
def farRelayState : State :=
  tableState 6000 [mkNode 1 (-5000) 0 0, mkNode 2 0 0 0, mkNode 3 5000 0 0, mkNode 4 5400 0 1]

/-- Cell radius 20; node 1 at (15, 0) in cell 0, node 2 at (34, 0) in cell 1 and
node 3 at (53, 0) in cell 2: a chain 1 – 2 – 3 of links of length 19. -/
def lineState : State :=
  tableState 20 [mkNode 1 15 0 0, mkNode 2 34 0 1, mkNode 3 53 0 2]

/-- The facts about the node and cell tables on which the gateway and routing
stages of `PrecalculateSimulationResults` rely; the stages before them establish
these facts (node ids are pairwise distinct and not `-1`; the cells have pairwise
distinct ids; every member of a cell is a node of that cell; the neighbour cells of
a cell are listed once, differ from the cell and are joined to the cell by a link;
every neighbour of a node is a node within `cellRadius`). -/
structure Surveyed (sqrtF : ℚ → ℚ) (st : State) : Prop where
  ids_nodup : (st.g_ssNodesDataList.map (fun n => n.id)).Nodup
  ids_ne : ∀ n ∈ st.g_ssNodesDataList, n.id ≠ -1
  cells_nodup : (st.g_ssCellDataList.map (fun c => c.cellId)).Nodup
  member_node : ∀ c ∈ st.g_ssCellDataList, ∀ m ∈ c.members,
    ∃ n ∈ st.g_ssNodesDataList, n.id = m ∧ n.cellId = c.cellId
  neighbors_nodup : ∀ c ∈ st.g_ssCellDataList, c.neighbors.Nodup
  own_not_neighbor : ∀ c ∈ st.g_ssCellDataList, c.cellId ∉ c.neighbors
  neighbor_link : ∀ c ∈ st.g_ssCellDataList, ∀ B ∈ c.neighbors,
    ∃ n ∈ st.g_ssNodesDataList, n.cellId = c.cellId ∧
      ∃ v ∈ n.neighbors, (getNodeData st v).cellId = B
  neighbor_node : ∀ n ∈ st.g_ssNodesDataList, ∀ v ∈ n.neighbors,
    ∃ o ∈ st.g_ssNodesDataList, o.id = v ∧ linkLength sqrtF n o ≤ st.cellRadius

/-- Before the gateway stage every neighbour cell of a cell has the gateway `-1`. -/
def GatewaysUnset (st : State) : Prop :=
  ∀ c ∈ st.g_ssCellDataList, ∀ B ∈ c.neighbors, gatewayGet c.gateways B = -1

/-- The node `chosen` as gateway of the cell `cellId` toward `neighborId` by the
gateway stage: the first node of the pair found by the search, or `-1` when the
search found none. -/
def chosenGateway (sqrtF : ℚ → ℚ) (st : State) (cellId neighborId : Int) : Int :=
  if (selectGateway sqrtF st cellId neighborId).2.1 ≠ -1 ∧
      (selectGateway sqrtF st cellId neighborId).2.2 ≠ -1 then
    (selectGateway sqrtF st cellId neighborId).2.1
  else -1

/-- The entry the routing stage leaves for the member `memberId` toward a cell whose
gateway `gatewayId` is another node: the gateway when it is a neighbour of the
member, else the result of the two-hop search, `-1` when that found nothing. -/
def memberRoute (sqrtF : ℚ → ℚ) (st : State) (gatewayId memberId : Int) : Int :=
  if gatewayId ∈ (getNodeData st memberId).neighbors then gatewayId
  else if twoHopBest sqrtF st (getNodeData st memberId) gatewayId ≠ -1 then
    twoHopBest sqrtF st (getNodeData st memberId) gatewayId
  else -1

/-- The routing entries the gateway stage writes for the cell `cellId` and its
neighbour cell `neighborId`. -/
def gatewayWrites (sqrtF : ℚ → ℚ) (st : State) (cellId neighborId : Int) : List RouteWrite :=
  (st.g_ssNodesDataList.filter
    (fun nodeData => decide (nodeData.id = chosenGateway sqrtF st cellId neighborId))).map
    (fun nodeData => (nodeData.id, neighborId, (selectGateway sqrtF st cellId neighborId).2.2))

/-- The loop at the head of `FromMacLayer(pkt, src)` over the neighbour ids of the
receiving node, whose body is `if (neighborId == src) break; return;`: the result
is `true` when control reaches the code behind the loop (the list is exhausted, or
`break`), `false` when the function returns from inside the loop.  The body leaves
the loop in its first round either way. -/
def neighborFilterLoop : List Int → Nat → Bool
  | [], _ => true
  | neighborId :: _, src => if neighborId = (src : Int) then true else false

/-- Whether a packet handed to `FromMacLayer(pkt, src)` gets past the neighbour
filter at the head of the function. -/
def FromMacLayerFilter (st : State) (src : Nat) : Bool :=
  neighborFilterLoop (getNodeData st st.self).neighbors src

end Pecee

namespace Peece

/-- One call on a node during the election: a CL announcement handed to
`HandleCLAnnouncementPacket`, or the election timeout `TimerCallback_CLElection`. -/
inductive Call where
  | announcement (header : PeeceHeader) (src : Nat)
  | electionTimeout

/-- The node state after one call. -/
def Node.call (n : Node) : Call → Node
  | Call.announcement header src => HandleCLAnnouncementPacket n header src
  | Call.electionTimeout => TimerCallback_CLElection n

/-- The node state after a sequence of calls, in the order given. -/
def Node.runCalls (n : Node) (calls : List Call) : Node :=
  calls.foldl Node.call n

/-- Node `id` at `(x, 0)` in cell 0, whose centre is the origin, at the end of the
HELLO phase with a trace sink attached; it has heard node 7 at `(5, 0)`. -/
def sampleAnnouncer (id : Nat) (x : ℚ) : Node :=
  { Node.init id x 0 true with
    m_myCellId := 0, m_myColor := 0,
    m_neighborTable := [{ nodeId := 7, x := 5, y := 0, cellId := 0, neighborNodeIds := [] }],
    m_knownNodes := [(7, { x := 5, y := 0, cellId := 0, fitness := 0, hasFitness := false })] }

/-- The payload of a HELLO (`HelloPacketInfo`) as the handler reads it; the first
`neighborCount` entries of `neighborIds` are the sender's neighbours. -/
structure HelloPacketInfo where
  x : ℚ
  y : ℚ
  cellId : Int
  neighborCount : Nat
  neighborIds : List Nat
  deriving DecidableEq

/-- The loop that copies the neighbour ids of a HELLO into a neighbour record:
`for (i = 0; i < neighborCount && neighborNodeIds.size() < 255; i++)`, an id other
than `0xFFFF` and `src` being appended. -/
def twoHopIds (helloData : HelloPacketInfo) (src : Nat) : List Nat :=
  (helloData.neighborIds.take helloData.neighborCount).foldl
    (fun ids nid =>
      if ids.length < 255 then
        if nid ≠ 0xFFFF ∧ nid ≠ src then ids ++ [nid] else ids
      else ids)
    []

/-- The first loop of `HandleHelloPacket`: the first entry of the neighbour table
with `nodeId == src` gets the position, cell id and neighbour ids of the HELLO;
`none` when the table has no such entry. -/
def updateKnownNeighbor (helloData : HelloPacketInfo) (src : Nat) :
    List NeighborRecord → Option (List NeighborRecord)
  | [] => none
  | neighbor :: rest =>
      if neighbor.nodeId = src then
        some ({ neighbor with
                x := helloData.x
                y := helloData.y
                cellId := helloData.cellId
                neighborNodeIds := twoHopIds helloData src } :: rest)
      else (updateKnownNeighbor helloData src rest).map (fun t => neighbor :: t)

/-- `m_knownNodes.find(k)`: the value stored under `k`, if any. -/
def mapFind (m : List (Nat × KnownNodeInfo)) (k : Nat) : Option KnownNodeInfo :=
  (m.find? (fun kv => decide (kv.1 = k))).map (fun kv => kv.2)

/-- A `KnownNodeInfo` none of whose members has been assigned; the numeric members
are 0 here. -/
def KnownNodeInfo.fresh : KnownNodeInfo :=
  { x := 0, y := 0, cellId := 0, fitness := 0, hasFitness := false }

/-- One round of the two-hop loop of `HandleHelloPacket` for a new neighbour: the
id is appended to the record, and registered in `m_knownNodes` with cell id `-1`
if the map has no entry for it. -/
def registerTwoHop (src : Nat) (acc : NeighborRecord × List (Nat × KnownNodeInfo)) (nid : Nat) :
    NeighborRecord × List (Nat × KnownNodeInfo) :=
  if acc.1.neighborNodeIds.length < 255 then
    if nid ≠ 0xFFFF ∧ nid ≠ src then
      ({ acc.1 with neighborNodeIds := acc.1.neighborNodeIds ++ [nid] },
        if mapFind acc.2 nid = none then
          mapSet acc.2 nid { KnownNodeInfo.fresh with hasFitness := false, cellId := -1 }
        else acc.2)
    else acc
  else acc

/-- `PeeceRoutingProtocol::HandleHelloPacket(header, src)`, `helloData` being
`header.GetHelloData()`. -/
def HandleHelloPacket (sqrtF : ℚ → ℚ) (n : Node) (helloData : HelloPacketInfo) (src : Nat) :
    Node :=
  match updateKnownNeighbor helloData src n.m_neighborTable with
  | some table => { n with m_neighborTable := table }
  | none =>
      let distance := HexGrid.CalculateDistance sqrtF n.xCoord n.yCoord helloData.x helloData.y
      if distance > n.m_cellRadius then n
      else
        let newNeighbor : NeighborRecord :=
          { nodeId := src, x := helloData.x, y := helloData.y, cellId := helloData.cellId,
            neighborNodeIds := [] }
        let knownNode := (mapFind n.m_knownNodes src).getD KnownNodeInfo.fresh
        let known := mapSet n.m_knownNodes src
          { knownNode with
            x := helloData.x, y := helloData.y, cellId := helloData.cellId, hasFitness := false }
        let r := (helloData.neighborIds.take helloData.neighborCount).foldl (registerTwoHop src)
          (newNeighbor, known)
        { n with m_knownNodes := r.2, m_neighborTable := n.m_neighborTable ++ [r.1] }

/-- A HELLO of a sender at `(33, 44)` in cell 1 that lists node 7 as its
neighbour. -/
def sampleFarHello : HelloPacketInfo :=
  { x := 33, y := 44, cellId := 1, neighborCount := 1, neighborIds := [7] }

end Peece

namespace CellForming

/-- The states of `CellForming` (`enum State`). -/
inductive State where
  | DISCOVERING
  | ELECTED_CL
  | AWAITING_CL
  | CELL_FORMED
  | ROUTING_READY
  deriving DecidableEq, Repr

/-- The `x` and `y` of an ns-3 `Vector`. -/
structure Vector where
  x : ℚ
  y : ℚ
  deriving DecidableEq

/-- `NeighborInfo`. -/
structure NeighborInfo where
  nodeId : Nat
  position : Vector
  cellId : Int
  distance : ℚ
  deriving DecidableEq

/-- `CLAnnouncementPacket`. -/
structure CLAnnouncementPacket where
  senderId : Nat
  senderPosition : Vector
  cellId : Int
  fitnessScore : ℚ
  deriving DecidableEq

/-- The member variables of `CellForming` used by the election.  `announced` lists
the announcements handed to `m_clAnnouncementCallback`; the two counters record
the events the functions schedule. -/
structure Node where
  m_nodeId : Nat
  m_position : Vector
  m_cellRadius : ℚ
  m_gridOffset : Int
  m_state : State
  m_cellId : Int
  m_cellLeaderId : Nat
  m_myCellLeaderFitness : ℚ
  m_neighbors : List NeighborInfo
  m_twoHopNeighbors : List NeighborInfo
  announced : List CLAnnouncementPacket
  scheduledCLCalculation : Nat
  scheduledMemberFeedback : Nat

/-- The state set up by the constructor `CellForming()` and `SetNodeParams`, with
the cell id that `CalculateCellInfo` has stored. -/
def Node.init (nodeId : Nat) (position : Vector) (cellRadius : ℚ) (gridOffset cellId : Int) :
    Node :=
  { m_nodeId := nodeId, m_position := position, m_cellRadius := cellRadius,
    m_gridOffset := gridOffset, m_state := State.DISCOVERING, m_cellId := cellId,
    m_cellLeaderId := 0, m_myCellLeaderFitness := 0,
    m_neighbors := [], m_twoHopNeighbors := [], announced := [],
    scheduledCLCalculation := 0, scheduledMemberFeedback := 0 }

/-- The fitness `1.0 / (1.0 + distance)` of a position with respect to the centre
of the node's cell, as `CalculateFitness` and the loops of `PerformCLElection`
compute it. -/
def fitnessAt (sqrtF : ℚ → ℚ) (n : Node) (position : Vector) : ℚ :=
  let center := HexGrid.GetCellCenter sqrtF n.m_cellRadius n.m_gridOffset n.m_cellId
  let distance := sqrtF ((position.x - center.1) ^ 2 + (position.y - center.2) ^ 2)
  1 / (1 + distance)

/-- `CellForming::CalculateFitness()`. -/
def CalculateFitness (sqrtF : ℚ → ℚ) (n : Node) : ℚ :=
  fitnessAt sqrtF n n.m_position

/-- `CellForming::SetState(newState, reason)`. -/
def SetState (n : Node) (newState : State) : Node :=
  if n.m_state = newState then n else { n with m_state := newState }

/-- `CellForming::SendCLAnnouncement()`, with `m_clAnnouncementCallback` set. -/
def SendCLAnnouncement (sqrtF : ℚ → ℚ) (n : Node) : Node :=
  let announcement : CLAnnouncementPacket :=
    { senderId := n.m_nodeId, senderPosition := n.m_position, cellId := n.m_cellId,
      fitnessScore := CalculateFitness sqrtF n }
  { n with
    announced := n.announced ++ [announcement]
    scheduledCLCalculation := n.scheduledCLCalculation + 1 }

/-- One round of the loops of `PerformCLElection` over `m_neighbors` and
`m_twoHopNeighbors`; the accumulator is `bestNeighborFitness`. -/
def bestFitnessStep (sqrtF : ℚ → ℚ) (n : Node) (bestNeighborFitness : ℚ)
    (neighbor : NeighborInfo) : ℚ :=
  if neighbor.cellId ≠ n.m_cellId then bestNeighborFitness
  else
    let neighborFitness := fitnessAt sqrtF n neighbor.position
    if neighborFitness > bestNeighborFitness then neighborFitness else bestNeighborFitness

/-- The value of `bestNeighborFitness` after the two loops of `PerformCLElection`. -/
def bestNeighborFitness (sqrtF : ℚ → ℚ) (n : Node) : ℚ :=
  n.m_twoHopNeighbors.foldl (bestFitnessStep sqrtF n)
    (n.m_neighbors.foldl (bestFitnessStep sqrtF n) (-1))

/-- The test `shouldBeCL` of `PerformCLElection`. -/
def shouldBeCL (sqrtF : ℚ → ℚ) (n : Node) : Bool :=
  decide (bestNeighborFitness sqrtF n < 0) ||
    decide (CalculateFitness sqrtF n > bestNeighborFitness sqrtF n) ||
    (decide (CalculateFitness sqrtF n = bestNeighborFitness sqrtF n) &&
      decide (n.m_nodeId < n.m_cellLeaderId))

/-- `CellForming::PerformCLElection()`. -/
def PerformCLElection (sqrtF : ℚ → ℚ) (n : Node) : Node :=
  if shouldBeCL sqrtF n then
    SendCLAnnouncement sqrtF (SetState { n with m_cellLeaderId := n.m_nodeId } State.ELECTED_CL)
  else SetState n State.AWAITING_CL

/-- `CellForming::HandleCLAnnouncement(announcement)`. -/
def HandleCLAnnouncement (n : Node) (announcement : CLAnnouncementPacket) : Node :=
  if announcement.cellId ≠ n.m_cellId then n
  else
    let n1 :=
      if n.m_cellLeaderId = 0 ∨ announcement.fitnessScore > n.m_myCellLeaderFitness ∨
          (announcement.fitnessScore = n.m_myCellLeaderFitness ∧
            announcement.senderId < n.m_cellLeaderId) then
        { n with
          m_cellLeaderId := announcement.senderId
          m_myCellLeaderFitness := announcement.fitnessScore }
      else n
    if n1.m_nodeId ≠ n1.m_cellLeaderId ∧ n1.m_state = State.AWAITING_CL then
      { n1 with scheduledMemberFeedback := n1.scheduledMemberFeedback + 1 }
    else n1

/-- A CL announcement for cell 0 from `senderId` with the fitness `f`. -/
def sampleAnnouncement (senderId : Nat) (f : ℚ) : CLAnnouncementPacket :=
  { senderId := senderId, senderPosition := { x := 0, y := 0 }, cellId := 0, fitnessScore := f }

/-- Node 5 of cell 0 waiting for its leader, before any announcement. -/
def sampleMember : Node :=
  { Node.init 5 { x := 30, y := 40 } 100 100 0 with m_state := State.AWAITING_CL }

/-- Node `id` at `position` in cell 0 (radius 100), whose only neighbour is
`other` at `otherPosition` in the same cell, 8 away; no announcement received. -/
def samplePair (id : Nat) (position : Vector) (other : Nat) (otherPosition : Vector) : Node :=
  { Node.init id position 100 100 0 with
    m_neighbors := [{ nodeId := other, position := otherPosition, cellId := 0, distance := 8 }] }

end CellForming

namespace Pecee

/-- The `distance` of a member from the centre of the cell `cellId`, as
"Calculate cell leaders" computes it. -/
def leaderDistance (sqrtF : ℚ → ℚ) (st : State) (cellId : Int) (member : PeceeNodeData) : ℚ :=
  let r := HexGrid.cround ((cellId : ℚ) / (st.grid_offset : ℚ))
  let q := cellId - r * st.grid_offset
  let centerX := st.cellRadius * (sqrtF 3 * (q : ℚ) + sqrtF 3 / 2 * (r : ℚ))
  let centerY := st.cellRadius * (3 / 2 * (r : ℚ))
  sqrtF ((member.x - centerX) ^ 2 + (member.y - centerY) ^ 2)

/-- Cell radius 100; nodes 5 at (10.05, 0) and 3 at (10, 0), both in cell 0, whose
centre is the origin. -/
def leaderTieState : State :=
  tableState 100 [mkNode 5 (201 / 20) 0 0, mkNode 3 10 0 0]

/-- Cell radius 100; nodes 0, 1 and 2 at (0, 0), (10, 0) and (20, 0), all in
cell 0. -/
def lineLeaderState : State :=
  tableState 100 [mkNode 0 0 0 0, mkNode 1 10 0 0, mkNode 2 20 0 0]

end Pecee

namespace Peece

/-- The payload of the HELLO that `SendHelloPacket` of the node `n` builds: the
node's own position and cell, the number of its neighbours (at most 255) and their
ids, the unused slots of `neighborIds` being `0xFFFF`.  (`color` is not read by
the handler and is left out.) -/
def SendHelloPacket (n : Node) : HelloPacketInfo :=
  let neighborCount := min 255 n.m_neighborTable.length
  { x := n.xCoord, y := n.yCoord, cellId := n.m_myCellId,
    neighborCount := neighborCount,
    neighborIds := (n.m_neighborTable.take neighborCount).map (fun neighbor => neighbor.nodeId)
      ++ List.replicate (255 - neighborCount) 0xFFFF }

/-- `PeeceRoutingProtocol::ClearNeighborTable()`. -/
def ClearNeighborTable (n : Node) : Node :=
  { n with m_neighborTable := [] }

/-- What happens to a node between start and routing: it receives the HELLO that
a sender has just built, or a CL announcement, or one of its timers fires, or its
next hop is computed, or its neighbour table is cleared. -/
inductive Step where
  | hello (sender : Node)
  | clAnnouncement (header : PeeceHeader) (src : Nat)
  | helloTimeout
  | clElection
  | nextHop
  | clearNeighborTable

/-- The node state after one step; a HELLO arrives from the MAC address of its
sender. -/
def Node.step (sqrtF : ℚ → ℚ) (n : Node) : Step → Node
  | Step.hello sender => HandleHelloPacket sqrtF n (SendHelloPacket sender) sender.nodeId
  | Step.clAnnouncement header src => HandleCLAnnouncementPacket n header src
  | Step.helloTimeout => TimerCallback_HelloTimeout sqrtF n
  | Step.clElection => TimerCallback_CLElection n
  | Step.nextHop => CalculateMyNextHop sqrtF n
  | Step.clearNeighborTable => ClearNeighborTable n

/-- The node state after a sequence of steps, in the order given. -/
def Node.run (sqrtF : ℚ → ℚ) (n : Node) (steps : List Step) : Node :=
  steps.foldl (Node.step sqrtF) n

/-- The node `sender` sits where the placement `place` puts the node of its id
(`SetSelfNodeProperties` assigns the position once, before the start). -/
def PlacedAt (place : Nat → ℚ × ℚ) (sender : Node) : Prop :=
  sender.xCoord = (place sender.nodeId).1 ∧ sender.yCoord = (place sender.nodeId).2

/-- Every HELLO of the step comes from a node at its place. -/
def Step.Placed (place : Nat → ℚ × ℚ) : Step → Prop
  | Step.hello sender => PlacedAt place sender
  | _ => True

/-- Every entry of the neighbour table holds the place of its node, which is not
farther from the node than the cell radius. -/
def TableWithin (sqrtF : ℚ → ℚ) (place : Nat → ℚ × ℚ) (n : Node) : Prop :=
  ∀ neighbor ∈ n.m_neighborTable,
    neighbor.x = (place neighbor.nodeId).1 ∧ neighbor.y = (place neighbor.nodeId).2 ∧
    ¬ HexGrid.CalculateDistance sqrtF n.xCoord n.yCoord neighbor.x neighbor.y > n.m_cellRadius

/-- The placement of the sample nodes: node 1 at (0, 0), node 9 at (33, 44). -/
def samplePlace (id : Nat) : ℚ × ℚ :=
  if id = 1 then (0, 0) else (33, 44)

/-- Node 1 at (0, 0) in cell 0, before it has heard any neighbour. -/
def sampleNearSender : Node :=
  { Node.init 1 0 0 false with m_myCellId := 0, m_myColor := 0 }

/-- Node 9 at (33, 44) in cell 100, before it has heard any neighbour. -/
def sampleFarSender : Node :=
  { Node.init 9 33 44 false with m_myCellId := 100, m_myColor := 2 }

end Peece

namespace Pecee

/-- Cell radius 20; nodes 1 at (8, -15) and 3 at (8, 6) in cell 0, node 2 at
(20, -10) in cell 1 and node 4 at (8, 25) in cell 100.  The one-hop links are
1 – 2 (length 13), 2 – 3 (20) and 3 – 4 (19); the other distances are 21 (1 – 3),
37 (2 – 4) and 40 (1 – 4). -/
def danglingState : State :=
  tableState 20 [mkNode 1 8 (-15) 0, mkNode 2 20 (-10) 1, mkNode 3 8 6 0, mkNode 4 8 25 100]

end Pecee

/-! ## Properties of the leader election -/

namespace Peece

theorem handle_nodeId (s : Node) (h : PeeceHeader) (x : Nat) :
    (HandleCLAnnouncementPacket s h x).nodeId = s.nodeId := by
  unfold HandleCLAnnouncementPacket
  simp only
  split_ifs <;> rfl

theorem handle_cellId (s : Node) (h : PeeceHeader) (x : Nat) :
    (HandleCLAnnouncementPacket s h x).m_myCellId = s.m_myCellId := by
  unfold HandleCLAnnouncementPacket
  simp only
  split_ifs <;> rfl

theorem handle_fitness (s : Node) (h : PeeceHeader) (x : Nat) :
    (HandleCLAnnouncementPacket s h x).m_fitnessScore = s.m_fitnessScore := by
  unfold HandleCLAnnouncementPacket
  simp only
  split_ifs <;> rfl

theorem handle_role (s : Node) (h : PeeceHeader) (x : Nat) :
    (HandleCLAnnouncementPacket s h x).m_myRole = s.m_myRole := by
  unfold HandleCLAnnouncementPacket
  simp only
  split_ifs <;> rfl

theorem handle_accept (s : Node) (h : PeeceHeader) (x : Nat) (ha : accepts s h) :
    (HandleCLAnnouncementPacket s h x).m_myClId = h.source ∧
    (HandleCLAnnouncementPacket s h x).m_clFitnessScore = h.clInfo.fitnessScore := by
  obtain ⟨a1, a2, a3, a4⟩ := ha
  have hb : isBetterCandidate { s with m_receivedCLAnnouncement := true }
      h.clInfo.fitnessScore h.source = true := by
    simp only [isBetterCandidate, Bool.or_eq_true, Bool.and_eq_true, decide_eq_true_eq]
    exact a3
  have hu : shouldUpdate { s with m_receivedCLAnnouncement := true }
      h.clInfo.fitnessScore h.source = true := by
    simp only [shouldUpdate, Bool.or_eq_true, Bool.and_eq_true, decide_eq_true_eq]
    rcases a4 with a4 | a4 | a4
    · exact Or.inl (Or.inl a4)
    · exact Or.inl (Or.inr a4)
    · exact Or.inr a4
  unfold HandleCLAnnouncementPacket
  simp only [a1, a2, hb, hu, if_true, if_false, ne_eq, not_true_eq_false, and_self]

theorem handle_reject (s : Node) (h : PeeceHeader) (x : Nat) (ha : ¬ accepts s h) :
    (HandleCLAnnouncementPacket s h x).m_myClId = s.m_myClId ∧
    (HandleCLAnnouncementPacket s h x).m_clFitnessScore = s.m_clFitnessScore := by
  unfold HandleCLAnnouncementPacket
  simp only
  split_ifs with c1 c2 c3 c4
  · exact ⟨rfl, rfl⟩
  · exact ⟨rfl, rfl⟩
  · exfalso
    apply ha
    simp only [isBetterCandidate, Bool.or_eq_true, Bool.and_eq_true, decide_eq_true_eq] at c3
    simp only [shouldUpdate, Bool.or_eq_true, Bool.and_eq_true, decide_eq_true_eq] at c4
    refine ⟨c1, not_not.1 c2, c3, ?_⟩
    rcases c4 with (c4 | c4) | c4
    · exact Or.inl c4
    · exact Or.inr (Or.inl c4)
    · exact Or.inr (Or.inr c4)
  · exact ⟨rfl, rfl⟩
  · exact ⟨rfl, rfl⟩

theorem settled_step (n s : Node) (seen : List (PeeceHeader × Nat)) (a : PeeceHeader × Nat)
    (hs : Settled n seen s) (hcell : a.1.clInfo.cellId = n.m_myCellId)
    (hself : a.1.source ≠ n.nodeId)
    (hseen : ∀ b ∈ seen, b.1.source ≠ 0xFFFF) :
    Settled n (seen ++ [a]) (HandleCLAnnouncementPacket s a.1 a.2) := by
  obtain ⟨h1, h2, h3, h4⟩ := hs
  refine ⟨by rw [handle_nodeId, h1], by rw [handle_cellId, h2], by rw [handle_fitness, h3], ?_⟩
  have hlast : ∀ c ∈ seen ++ [a], c ∈ seen ∨ c = a := by
    intro c hc
    rcases List.mem_append.1 hc with hc | hc
    · exact Or.inl hc
    · exact Or.inr (by simpa using hc)
  by_cases hacc : accepts s a.1
  · obtain ⟨r1, r2⟩ := handle_accept s a.1 a.2 hacc
    obtain ⟨_, _, a3, a4⟩ := hacc
    rw [h3, h1] at a3
    refine Or.inr ⟨a, by simp, a3, r1, r2, ?_⟩
    intro c hc hcb
    rcases hlast c hc with hc | hc
    · rcases h4 with ⟨_, _, u3⟩ | ⟨b, hbmem, _, u1, u2, u3⟩
      · exact absurd hcb (u3 c hc)
      · have hbc := u3 c hc hcb
        have hne : ¬ b.1.source = 0xFFFF := hseen b hbmem
        rw [u1, u2] at a4
        unfold atLeastAsGood at hbc ⊢
        rcases a4 with a4 | a4 | ⟨a4, a5⟩
        · exact absurd a4 hne
        · rcases hbc with hbc | ⟨hbc, _⟩
          · exact Or.inl (lt_trans hbc a4)
          · exact Or.inl (by rw [hbc]; exact a4)
        · rcases hbc with hbc | ⟨hbc, hbc2⟩
          · exact Or.inl (by rw [a4]; exact hbc)
          · exact Or.inr ⟨by rw [hbc, a4], le_trans (le_of_lt a5) hbc2⟩
    · subst hc
      exact Or.inr ⟨rfl, le_refl _⟩
  · obtain ⟨r1, r2⟩ := handle_reject s a.1 a.2 hacc
    rw [r1, r2]
    have hself2 : a.1.source ≠ s.nodeId := by rw [h1]; exact hself
    have hcell2 : a.1.clInfo.cellId = s.m_myCellId := by rw [h2]; exact hcell
    rcases h4 with ⟨u1, u2, u3⟩ | ⟨b, hbmem, hbb, u1, u2, u3⟩
    · refine Or.inl ⟨u1, u2, ?_⟩
      intro c hc hcb
      rcases hlast c hc with hc | hc
      · exact u3 c hc hcb
      · subst hc
        apply hacc
        refine ⟨hself2, hcell2, ?_, Or.inl u1⟩
        rw [h3, h1]
        exact hcb
    · refine Or.inr ⟨b, by simp [hbmem], hbb, u1, u2, ?_⟩
      intro c hc hcb
      rcases hlast c hc with hc | hc
      · exact u3 c hc hcb
      · subst hc
        have hnot : ¬ (s.m_myClId = 0xFFFF ∨ c.1.clInfo.fitnessScore > s.m_clFitnessScore ∨
            (c.1.clInfo.fitnessScore = s.m_clFitnessScore ∧ c.1.source < s.m_myClId)) := by
          intro h
          apply hacc
          refine ⟨hself2, hcell2, ?_, h⟩
          rw [h3, h1]
          exact hcb
        rw [u1, u2] at hnot
        push_neg at hnot
        unfold atLeastAsGood
        rcases lt_trichotomy c.1.clInfo.fitnessScore b.1.clInfo.fitnessScore with h | h | h
        · exact Or.inl h
        · exact Or.inr ⟨h, hnot.2.2 h⟩
        · exact absurd h (not_lt.2 hnot.2.1)

theorem settled_fold (n : Node) (l seen : List (PeeceHeader × Nat)) (s : Node)
    (hs : Settled n seen s)
    (hcell : ∀ a ∈ l, a.1.clInfo.cellId = n.m_myCellId)
    (hself : ∀ a ∈ l, a.1.source ≠ n.nodeId)
    (hid : ∀ a ∈ seen ++ l, a.1.source ≠ 0xFFFF) :
    Settled n (seen ++ l) (handleAll s l) := by
  induction l generalizing seen s with
  | nil => simpa [handleAll] using hs
  | cons a l ih =>
    have hstep := settled_step n s seen a hs (hcell a (by simp)) (hself a (by simp))
      (fun b hb => hid b (by simp [hb]))
    have := ih (seen ++ [a]) (HandleCLAnnouncementPacket s a.1 a.2) hstep
      (fun b hb => hcell b (by simp [hb])) (fun b hb => hself b (by simp [hb]))
      (fun b hb => hid b (by simpa using hb))
    simpa [handleAll] using this

theorem settled_all (n : Node) (anns : List (PeeceHeader × Nat))
    (hunset : n.m_myClId = 0xFFFF)
    (hcell : ∀ a ∈ anns, a.1.clInfo.cellId = n.m_myCellId)
    (hself : ∀ a ∈ anns, a.1.source ≠ n.nodeId)
    (hid : ∀ a ∈ anns, a.1.source ≠ 0xFFFF) :
    Settled n anns (handleAll n anns) := by
  have h0 : Settled n [] n := ⟨rfl, rfl, rfl, Or.inl ⟨hunset, rfl, by simp⟩⟩
  simpa using settled_fold n anns [] n h0 hcell hself (by simpa using hid)

/-- The leader a settled state holds is determined by the set of announcements. -/
theorem settled_unique (n : Node) (l l' : List (PeeceHeader × Nat)) (s s' : Node)
    (hmem : ∀ a, a ∈ l' ↔ a ∈ l) (hs : Settled n l s) (hs' : Settled n l' s') :
    s'.m_myClId = s.m_myClId ∧ s'.m_clFitnessScore = s.m_clFitnessScore := by
  obtain ⟨_, _, _, h4⟩ := hs
  obtain ⟨_, _, _, h4'⟩ := hs'
  rcases h4 with ⟨u1, u2, u3⟩ | ⟨b, hbmem, hbb, u1, u2, u3⟩
  · rcases h4' with ⟨v1, v2, _⟩ | ⟨b', hbmem', hbb', _, _, _⟩
    · exact ⟨by rw [u1, v1], by rw [u2, v2]⟩
    · exact absurd hbb' (u3 b' ((hmem b').1 hbmem'))
  · rcases h4' with ⟨_, _, v3⟩ | ⟨b', hbmem', hbb', v1, v2, v3⟩
    · exact absurd hbb (v3 b ((hmem b).2 hbmem))
    · have g1 := u3 b' ((hmem b').1 hbmem') hbb'
      have g2 := v3 b ((hmem b).2 hbmem) hbb
      unfold atLeastAsGood at g1 g2
      rw [u1, u2, v1, v2]
      rcases g1 with g1 | ⟨g1, g1'⟩
      · rcases g2 with g2 | ⟨g2, _⟩
        · exact absurd g1 (lt_asymm g2)
        · rw [g2] at g1; exact absurd g1 (lt_irrefl _)
      · rcases g2 with g2 | ⟨_, g2'⟩
        · rw [g1] at g2; exact absurd g2 (lt_irrefl _)
        · exact ⟨le_antisymm g2' g1', g1⟩

/-- C1. `HandleCLAnnouncementPacket`: a node with no accepted leader that handles
any finite sequence of CL announcements for its own cell, from announcers other
than itself with ids different from `0xFFFF`, ends with no leader if no announcer
beats the node itself, and otherwise with the announcer of greatest fitness,
lowest id among equal fitness, among those that beat it; hence the accepted leader
(`m_myClId`, `m_clFitnessScore`) is the same for every arrival order. -/
theorem HandleCLAnnouncementPacket_accepts_best (n : Node) (anns : List (PeeceHeader × Nat))
    (hunset : n.m_myClId = 0xFFFF)
    (hcell : ∀ a ∈ anns, a.1.clInfo.cellId = n.m_myCellId)
    (hself : ∀ a ∈ anns, a.1.source ≠ n.nodeId)
    (hid : ∀ a ∈ anns, a.1.source ≠ 0xFFFF) :
    ((∀ a ∈ anns, ¬ beatsSelf n a.1) → (handleAll n anns).m_myClId = 0xFFFF) ∧
    ((∃ a ∈ anns, beatsSelf n a.1) →
      ∃ b ∈ anns, beatsSelf n b.1 ∧
        (handleAll n anns).m_myClId = b.1.source ∧
        (handleAll n anns).m_clFitnessScore = b.1.clInfo.fitnessScore ∧
        ∀ a ∈ anns, beatsSelf n a.1 → atLeastAsGood b.1 a.1) ∧
    (∀ anns2 : List (PeeceHeader × Nat), anns2.Perm anns →
      (handleAll n anns2).m_myClId = (handleAll n anns).m_myClId ∧
      (handleAll n anns2).m_clFitnessScore = (handleAll n anns).m_clFitnessScore) := by
  have hs := settled_all n anns hunset hcell hself hid
  refine ⟨?_, ?_, ?_⟩
  · intro hno
    rcases hs.2.2.2 with ⟨u1, _, _⟩ | ⟨b, hbmem, hbb, _, _, _⟩
    · exact u1
    · exact absurd hbb (hno b hbmem)
  · rintro ⟨a, hamem, hab⟩
    rcases hs.2.2.2 with ⟨_, _, u3⟩ | h
    · exact absurd hab (u3 a hamem)
    · exact h
  · intro anns2 hperm
    have hs2 := settled_all n anns2 hunset
      (fun a ha => hcell a (hperm.mem_iff.1 ha))
      (fun a ha => hself a (hperm.mem_iff.1 ha))
      (fun a ha => hid a (hperm.mem_iff.1 ha))
    exact settled_unique n anns anns2 _ _ (fun a => hperm.mem_iff) hs hs2

/-- Witness for C1: receiver 5 (fitness 1/2) hears announcers 3, 7 and 2. -/
theorem HandleCLAnnouncementPacket_accepts_best_witness :
    ((∀ a ∈ [sampleAnnouncement 3 (1 / 2), sampleAnnouncement 7 (3 / 4),
          sampleAnnouncement 2 (3 / 4)], ¬ beatsSelf sampleReceiver a.1) →
      (handleAll sampleReceiver [sampleAnnouncement 3 (1 / 2), sampleAnnouncement 7 (3 / 4),
          sampleAnnouncement 2 (3 / 4)]).m_myClId = 0xFFFF) ∧
    ((∃ a ∈ [sampleAnnouncement 3 (1 / 2), sampleAnnouncement 7 (3 / 4),
          sampleAnnouncement 2 (3 / 4)], beatsSelf sampleReceiver a.1) →
      ∃ b ∈ [sampleAnnouncement 3 (1 / 2), sampleAnnouncement 7 (3 / 4),
          sampleAnnouncement 2 (3 / 4)], beatsSelf sampleReceiver b.1 ∧
        (handleAll sampleReceiver [sampleAnnouncement 3 (1 / 2), sampleAnnouncement 7 (3 / 4),
          sampleAnnouncement 2 (3 / 4)]).m_myClId = b.1.source ∧
        (handleAll sampleReceiver [sampleAnnouncement 3 (1 / 2), sampleAnnouncement 7 (3 / 4),
          sampleAnnouncement 2 (3 / 4)]).m_clFitnessScore = b.1.clInfo.fitnessScore ∧
        ∀ a ∈ [sampleAnnouncement 3 (1 / 2), sampleAnnouncement 7 (3 / 4),
          sampleAnnouncement 2 (3 / 4)], beatsSelf sampleReceiver a.1 → atLeastAsGood b.1 a.1) ∧
    (∀ anns2 : List (PeeceHeader × Nat),
      anns2.Perm [sampleAnnouncement 3 (1 / 2), sampleAnnouncement 7 (3 / 4),
          sampleAnnouncement 2 (3 / 4)] →
      (handleAll sampleReceiver anns2).m_myClId =
        (handleAll sampleReceiver [sampleAnnouncement 3 (1 / 2), sampleAnnouncement 7 (3 / 4),
          sampleAnnouncement 2 (3 / 4)]).m_myClId ∧
      (handleAll sampleReceiver anns2).m_clFitnessScore =
        (handleAll sampleReceiver [sampleAnnouncement 3 (1 / 2), sampleAnnouncement 7 (3 / 4),
          sampleAnnouncement 2 (3 / 4)]).m_clFitnessScore) :=
  HandleCLAnnouncementPacket_accepts_best sampleReceiver
    [sampleAnnouncement 3 (1 / 2), sampleAnnouncement 7 (3 / 4), sampleAnnouncement 2 (3 / 4)]
    (by decide) (by decide) (by decide) (by decide)

/-- On the sample input the receiver settles on announcer 2 (fitness 3/4). -/
theorem handleAll_sample :
    (handleAll sampleReceiver [sampleAnnouncement 3 (1 / 2), sampleAnnouncement 7 (3 / 4),
      sampleAnnouncement 2 (3 / 4)]).m_myClId = 2 := by
  simp [handleAll, HandleCLAnnouncementPacket, sampleReceiver, sampleAnnouncement, Node.init,
    isBetterCandidate, shouldUpdate]
  norm_num

theorem election_clId_of_unset (s : Node) (h : s.m_myClId = 0xFFFF) :
    (TimerCallback_CLElection s).m_myClId = s.nodeId ∧
    (TimerCallback_CLElection s).m_myChId = s.nodeId ∧
    (TimerCallback_CLElection s).m_myRole = NodeRole.CELL_LEADER := by
  simp [TimerCallback_CLElection, h]

theorem election_clId_of_set (s : Node) (h : s.m_myClId ≠ 0xFFFF) :
    (TimerCallback_CLElection s).m_myClId = s.m_myClId ∧
    (TimerCallback_CLElection s).m_myRole = s.m_myRole := by
  unfold TimerCallback_CLElection
  simp only [h, if_false]
  split_ifs <;> exact ⟨rfl, rfl⟩

theorem election_keeps (s : Node) :
    (TimerCallback_CLElection s).nodeId = s.nodeId ∧
    (TimerCallback_CLElection s).m_myCellId = s.m_myCellId ∧
    (TimerCallback_CLElection s).m_fitnessScore = s.m_fitnessScore ∧
    (TimerCallback_CLElection s).m_clFitnessScore = s.m_clFitnessScore ∧
    (TimerCallback_CLElection s).m_myColor = s.m_myColor ∧
    (TimerCallback_CLElection s).xCoord = s.xCoord ∧
    (TimerCallback_CLElection s).yCoord = s.yCoord := by
  unfold TimerCallback_CLElection
  simp only
  split_ifs <;> exact ⟨rfl, rfl, rfl, rfl, rfl, rfl, rfl⟩

/-- C3. `TimerCallback_CLElection`: with no accepted leader (`m_myClId = 0xFFFF`)
the node becomes `CELL_LEADER` with `m_myClId = m_myChId =` its own id, whatever
its neighbour table holds (also the empty table); with an accepted leader, role
and `m_myClId` are unchanged; and for a node whose id is not `0xFFFF`, `m_myClId`
is different from `0xFFFF` afterwards in every case. -/
theorem TimerCallback_CLElection_elects (n : Node) :
    (n.m_myClId = 0xFFFF →
      (TimerCallback_CLElection n).m_myRole = NodeRole.CELL_LEADER ∧
      (TimerCallback_CLElection n).m_myClId = n.nodeId ∧
      (TimerCallback_CLElection n).m_myChId = n.nodeId) ∧
    (n.m_myClId = 0xFFFF →
      (TimerCallback_CLElection { n with m_neighborTable := [] }).m_myRole
          = NodeRole.CELL_LEADER ∧
      (TimerCallback_CLElection { n with m_neighborTable := [] }).m_myClId = n.nodeId ∧
      (TimerCallback_CLElection { n with m_neighborTable := [] }).m_myChId = n.nodeId) ∧
    (n.m_myClId ≠ 0xFFFF →
      (TimerCallback_CLElection n).m_myRole = n.m_myRole ∧
      (TimerCallback_CLElection n).m_myClId = n.m_myClId) ∧
    (n.nodeId ≠ 0xFFFF → (TimerCallback_CLElection n).m_myClId ≠ 0xFFFF) := by
  refine ⟨?_, ?_, ?_, ?_⟩
  · intro h
    obtain ⟨h1, h2, h3⟩ := election_clId_of_unset n h
    exact ⟨h3, h1, h2⟩
  · intro h
    obtain ⟨h1, h2, h3⟩ := election_clId_of_unset { n with m_neighborTable := [] } h
    exact ⟨h3, h1, h2⟩
  · intro h
    obtain ⟨h1, h2⟩ := election_clId_of_set n h
    exact ⟨h2, h1⟩
  · intro hid
    by_cases h : n.m_myClId = 0xFFFF
    · rw [(election_clId_of_unset n h).1]; exact hid
    · rw [(election_clId_of_set n h).1]; exact h

/-- Witness for C3: the isolated sample receiver (id 5, empty neighbour table, no
leader accepted) elects itself. -/
theorem TimerCallback_CLElection_elects_witness :
    sampleReceiver.m_myClId = 0xFFFF ∧ sampleReceiver.nodeId ≠ 0xFFFF ∧
    sampleReceiver.m_neighborTable = [] ∧
    (TimerCallback_CLElection sampleReceiver).m_myRole = NodeRole.CELL_LEADER ∧
    (TimerCallback_CLElection sampleReceiver).m_myClId = 5 ∧
    (TimerCallback_CLElection sampleReceiver).m_myChId = 5 ∧
    (TimerCallback_CLElection sampleReceiver).m_myClId ≠ 0xFFFF :=
  ⟨by decide, by decide, rfl,
    ((TimerCallback_CLElection_elects sampleReceiver).1 (by decide)).1,
    ((TimerCallback_CLElection_elects sampleReceiver).1 (by decide)).2.1,
    ((TimerCallback_CLElection_elects sampleReceiver).1 (by decide)).2.2,
    (TimerCallback_CLElection_elects sampleReceiver).2.2.2 (by decide)⟩

theorem sameSetup_step (A B : Node) (p : TwoNodes) (e : Event) (h : SameSetup A B p) :
    SameSetup A B (p.step e) := by
  obtain ⟨h1, h2, h3, h4, h5, h6⟩ := h
  cases e
  · exact ⟨h1, h2, h3, by simp only [TwoNodes.step, handle_nodeId, h4],
      by simp only [TwoNodes.step, handle_cellId, h5],
      by simp only [TwoNodes.step, handle_fitness, h6]⟩
  · exact ⟨by simp only [TwoNodes.step, handle_nodeId, h1],
      by simp only [TwoNodes.step, handle_cellId, h2],
      by simp only [TwoNodes.step, handle_fitness, h3], h4, h5, h6⟩
  · obtain ⟨k1, k2, k3, _⟩ := election_keeps p.a
    exact ⟨by simp only [TwoNodes.step, k1, h1], by simp only [TwoNodes.step, k2, h2],
      by simp only [TwoNodes.step, k3, h3], h4, h5, h6⟩
  · obtain ⟨k1, k2, k3, _⟩ := election_keeps p.b
    exact ⟨h1, h2, h3, by simp only [TwoNodes.step, k1, h4],
      by simp only [TwoNodes.step, k2, h5], by simp only [TwoNodes.step, k3, h6]⟩

/-- Node `a` never accepts the announcement of the higher-id node `b`. -/
theorem a_rejects_b (A B : Node) (p : TwoNodes) (hfit : A.m_fitnessScore = B.m_fitnessScore)
    (hlt : A.nodeId < B.nodeId) (h : SameSetup A B p) :
    ¬ accepts p.a (SendCLAnnouncement p.b) := by
  obtain ⟨h1, _, h3, h4, _, h6⟩ := h
  rintro ⟨_, _, c, _⟩
  simp only [SendCLAnnouncement, h1, h3, h4, h6, hfit, gt_iff_lt, lt_self_iff_false,
    true_and, false_or] at c
  exact absurd c (not_lt.2 (le_of_lt hlt))

theorem aUnsetOrSelf_step (A B : Node) (p : TwoNodes) (e : Event)
    (hfit : A.m_fitnessScore = B.m_fitnessScore) (hlt : A.nodeId < B.nodeId)
    (hA : A.nodeId ≠ 0xFFFF) (h : SameSetup A B p) (ha : AUnsetOrSelf A p) :
    AUnsetOrSelf A (p.step e) ∧ (e = Event.timeoutA → ASelf A (p.step e)) := by
  cases e
  · exact ⟨ha, fun c => by cases c⟩
  · refine ⟨?_, fun c => by cases c⟩
    obtain ⟨r1, _⟩ := handle_reject p.a (SendCLAnnouncement p.b) p.b.nodeId
      (a_rejects_b A B p hfit hlt h)
    unfold AUnsetOrSelf
    simp only [TwoNodes.step, r1, handle_role]
    exact ha
  · have key : ASelf A (p.step Event.timeoutA) := by
      unfold ASelf
      simp only [TwoNodes.step]
      rcases ha with ha | ⟨ha1, ha2⟩
      · obtain ⟨k1, _, k3⟩ := election_clId_of_unset p.a ha
        exact ⟨by rw [k1, h.1], k3⟩
      · obtain ⟨k1, k2⟩ := election_clId_of_set p.a (by rw [ha1]; exact hA)
        exact ⟨by rw [k1, ha1], by rw [k2, ha2]⟩
    exact ⟨Or.inr key, fun _ => key⟩
  · exact ⟨ha, fun c => by cases c⟩

theorem aSelf_step (A B : Node) (p : TwoNodes) (e : Event)
    (hfit : A.m_fitnessScore = B.m_fitnessScore) (hlt : A.nodeId < B.nodeId)
    (hA : A.nodeId ≠ 0xFFFF) (h : SameSetup A B p) (ha : ASelf A p) :
    ASelf A (p.step e) := by
  cases e
  · exact ha
  · obtain ⟨r1, _⟩ := handle_reject p.a (SendCLAnnouncement p.b) p.b.nodeId
      (a_rejects_b A B p hfit hlt h)
    unfold ASelf
    simp only [TwoNodes.step, r1, handle_role]
    exact ha
  · exact (aUnsetOrSelf_step A B p Event.timeoutA hfit hlt hA h (Or.inr ha)).2 rfl
  · exact ha

/-- Delivering `a`'s announcement to `b` makes `b` accept `a`, or keep `a`. -/
theorem b_accepts_a (A B : Node) (p : TwoNodes) (hcell : A.m_myCellId = B.m_myCellId)
    (hfit : A.m_fitnessScore = B.m_fitnessScore) (hlt : A.nodeId < B.nodeId)
    (hA : A.nodeId ≠ 0xFFFF) (h : SameSetup A B p) (hb : BUnsetOrA A p) :
    BAcceptedA A (p.step Event.deliverAtoB) := by
  obtain ⟨h1, h2, h3, h4, h5, h6⟩ := h
  obtain ⟨hrole, hb⟩ := hb
  unfold BAcceptedA
  simp only [TwoNodes.step, handle_role]
  refine ⟨hrole, ?_⟩
  rcases hb with hb | ⟨hb1, hb2⟩
  · have hacc : accepts p.b (SendCLAnnouncement p.a) := by
      refine ⟨?_, ?_, ?_, Or.inl hb⟩
      · simp only [SendCLAnnouncement, h1, h4]; exact ne_of_lt hlt
      · simp only [SendCLAnnouncement, h2, h5]; exact hcell
      · simp only [SendCLAnnouncement, h1, h3, h4, h6]
        exact Or.inr ⟨hfit, hlt⟩
    obtain ⟨r1, r2⟩ := handle_accept p.b (SendCLAnnouncement p.a) p.a.nodeId hacc
    rw [r1, r2]
    exact ⟨h1, h3⟩
  · have hrej : ¬ accepts p.b (SendCLAnnouncement p.a) := by
      rintro ⟨_, _, _, c | c | ⟨_, c⟩⟩
      · rw [hb1] at c
        exact hA c
      · simp only [SendCLAnnouncement, h3, hb2, gt_iff_lt, lt_self_iff_false] at c
      · simp only [SendCLAnnouncement, h1, hb1, lt_self_iff_false] at c
    obtain ⟨r1, r2⟩ := handle_reject p.b (SendCLAnnouncement p.a) p.a.nodeId hrej
    rw [r1, r2]
    exact ⟨hb1, hb2⟩

theorem bUnsetOrA_step (A B : Node) (p : TwoNodes) (e : Event)
    (hcell : A.m_myCellId = B.m_myCellId)
    (hfit : A.m_fitnessScore = B.m_fitnessScore) (hlt : A.nodeId < B.nodeId)
    (hA : A.nodeId ≠ 0xFFFF) (he : e ≠ Event.timeoutB)
    (h : SameSetup A B p) (hb : BUnsetOrA A p) :
    BUnsetOrA A (p.step e) := by
  cases e
  · obtain ⟨k1, k2, k3⟩ := b_accepts_a A B p hcell hfit hlt hA h hb
    exact ⟨k1, Or.inr ⟨k2, k3⟩⟩
  · exact hb
  · exact hb
  · exact absurd rfl he

theorem bAcceptedA_step (A B : Node) (p : TwoNodes) (e : Event)
    (hcell : A.m_myCellId = B.m_myCellId)
    (hfit : A.m_fitnessScore = B.m_fitnessScore) (hlt : A.nodeId < B.nodeId)
    (hA : A.nodeId ≠ 0xFFFF) (h : SameSetup A B p) (hb : BAcceptedA A p) :
    BAcceptedA A (p.step e) := by
  cases e
  · exact b_accepts_a A B p hcell hfit hlt hA h ⟨hb.1, Or.inr hb.2⟩
  · exact hb
  · exact hb
  · obtain ⟨b1, b2, b3⟩ := hb
    obtain ⟨k1, k2⟩ := election_clId_of_set p.b (by rw [b2]; exact hA)
    obtain ⟨_, _, _, k4, _⟩ := election_keeps p.b
    exact ⟨by simp only [TwoNodes.step, k2, b1], by simp only [TwoNodes.step, k1, b2],
      by simp only [TwoNodes.step, k4, b3]⟩

theorem sameSetup_run (A B : Node) (es : List Event) (p : TwoNodes) (h : SameSetup A B p) :
    SameSetup A B (p.run es) := by
  induction es generalizing p with
  | nil => exact h
  | cons e es ih => exact ih (p.step e) (sameSetup_step A B p e h)

theorem run_append (p : TwoNodes) (es fs : List Event) :
    p.run (es ++ fs) = (p.run es).run fs := by
  simp [TwoNodes.run, List.foldl_append]

theorem run_cons (p : TwoNodes) (e : Event) (es : List Event) :
    p.run (e :: es) = (p.step e).run es := rfl

theorem aUnsetOrSelf_run (A B : Node) (es : List Event) (p : TwoNodes)
    (hfit : A.m_fitnessScore = B.m_fitnessScore) (hlt : A.nodeId < B.nodeId)
    (hA : A.nodeId ≠ 0xFFFF) (h : SameSetup A B p) (ha : AUnsetOrSelf A p) :
    AUnsetOrSelf A (p.run es) := by
  induction es generalizing p with
  | nil => exact ha
  | cons e es ih =>
    exact ih (p.step e) (sameSetup_step A B p e h)
      (aUnsetOrSelf_step A B p e hfit hlt hA h ha).1

theorem aSelf_run (A B : Node) (es : List Event) (p : TwoNodes)
    (hfit : A.m_fitnessScore = B.m_fitnessScore) (hlt : A.nodeId < B.nodeId)
    (hA : A.nodeId ≠ 0xFFFF) (h : SameSetup A B p) (ha : ASelf A p) :
    ASelf A (p.run es) := by
  induction es generalizing p with
  | nil => exact ha
  | cons e es ih =>
    exact ih (p.step e) (sameSetup_step A B p e h) (aSelf_step A B p e hfit hlt hA h ha)

theorem bUnsetOrA_run (A B : Node) (es : List Event) (p : TwoNodes)
    (hcell : A.m_myCellId = B.m_myCellId)
    (hfit : A.m_fitnessScore = B.m_fitnessScore) (hlt : A.nodeId < B.nodeId)
    (hA : A.nodeId ≠ 0xFFFF) (hes : Event.timeoutB ∉ es)
    (h : SameSetup A B p) (hb : BUnsetOrA A p) :
    BUnsetOrA A (p.run es) := by
  induction es generalizing p with
  | nil => exact hb
  | cons e es ih =>
    have he : e ≠ Event.timeoutB := fun c => hes (by simp [c])
    exact ih (p.step e) (fun c => hes (by simp [c])) (sameSetup_step A B p e h)
      (bUnsetOrA_step A B p e hcell hfit hlt hA he h hb)

theorem bAcceptedA_run (A B : Node) (es : List Event) (p : TwoNodes)
    (hcell : A.m_myCellId = B.m_myCellId)
    (hfit : A.m_fitnessScore = B.m_fitnessScore) (hlt : A.nodeId < B.nodeId)
    (hA : A.nodeId ≠ 0xFFFF) (h : SameSetup A B p) (hb : BAcceptedA A p) :
    BAcceptedA A (p.run es) := by
  induction es generalizing p with
  | nil => exact hb
  | cons e es ih =>
    exact ih (p.step e) (sameSetup_step A B p e h)
      (bAcceptedA_step A B p e hcell hfit hlt hA h hb)

/-- C2. Two nodes `a` and `b` of one cell with identical fitness and ids `a < b`
(both different from `0xFFFF`), each starting with no accepted leader (`b` as a
normal node): in every schedule in which both election timeouts fire and `b`
handles `a`'s CL announcement before `b`'s first election timeout, whenever `a`
handles `b`'s announcement, node `a` ends as `CELL_LEADER` with `m_myClId = a` and
node `b` ends as `NORMAL_NODE` with `m_myClId = a`. -/
theorem lower_id_elected_on_tie (A B : Node) (es pre post : List Event)
    (hcell : A.m_myCellId = B.m_myCellId)
    (hfit : A.m_fitnessScore = B.m_fitnessScore) (hlt : A.nodeId < B.nodeId)
    (hA : A.nodeId ≠ 0xFFFF) (_hB : B.nodeId ≠ 0xFFFF)
    (hAunset : A.m_myClId = 0xFFFF) (hBunset : B.m_myClId = 0xFFFF)
    (hBrole : B.m_myRole = NodeRole.NORMAL_NODE)
    (htA : Event.timeoutA ∈ es) (_htB : Event.timeoutB ∈ es)
    (hsplit : es = pre ++ Event.deliverAtoB :: post) (hpre : Event.timeoutB ∉ pre) :
    ((TwoNodes.mk A B).run es).a.m_myRole = NodeRole.CELL_LEADER ∧
    ((TwoNodes.mk A B).run es).a.m_myClId = A.nodeId ∧
    ((TwoNodes.mk A B).run es).b.m_myRole = NodeRole.NORMAL_NODE ∧
    ((TwoNodes.mk A B).run es).b.m_myClId = A.nodeId := by
  have h0 : SameSetup A B (TwoNodes.mk A B) := ⟨rfl, rfl, rfl, rfl, rfl, rfl⟩
  have hb : BAcceptedA A ((TwoNodes.mk A B).run es) := by
    rw [hsplit, run_append, run_cons]
    have s1 := sameSetup_run A B pre _ h0
    have b1 := bUnsetOrA_run A B pre _ hcell hfit hlt hA hpre h0 ⟨hBrole, Or.inl hBunset⟩
    have b2 := b_accepts_a A B _ hcell hfit hlt hA s1 b1
    exact bAcceptedA_run A B post _ hcell hfit hlt hA
      (sameSetup_step A B _ _ s1) b2
  have ha : ASelf A ((TwoNodes.mk A B).run es) := by
    obtain ⟨l, r, hlr⟩ := List.append_of_mem htA
    rw [hlr, run_append, run_cons]
    have s1 := sameSetup_run A B l _ h0
    have a1 := aUnsetOrSelf_run A B l _ hfit hlt hA h0 (Or.inl hAunset)
    have a2 := (aUnsetOrSelf_step A B _ Event.timeoutA hfit hlt hA s1 a1).2 rfl
    exact aSelf_run A B r _ hfit hlt hA (sameSetup_step A B _ _ s1) a2
  exact ⟨ha.2, ha.1, hb.1, hb.2.1⟩

/-- Witness for C2: nodes 1 and 2 with fitness 1/6; `b`'s announcement reaches `a`
first, then `a`'s reaches `b`, then `b` and `a` time out. -/
theorem lower_id_elected_on_tie_witness :
    ((TwoNodes.mk sampleNodeA sampleNodeB).run
      [Event.deliverBtoA, Event.deliverAtoB, Event.timeoutB, Event.timeoutA]).a.m_myRole
        = NodeRole.CELL_LEADER ∧
    ((TwoNodes.mk sampleNodeA sampleNodeB).run
      [Event.deliverBtoA, Event.deliverAtoB, Event.timeoutB, Event.timeoutA]).a.m_myClId
        = sampleNodeA.nodeId ∧
    ((TwoNodes.mk sampleNodeA sampleNodeB).run
      [Event.deliverBtoA, Event.deliverAtoB, Event.timeoutB, Event.timeoutA]).b.m_myRole
        = NodeRole.NORMAL_NODE ∧
    ((TwoNodes.mk sampleNodeA sampleNodeB).run
      [Event.deliverBtoA, Event.deliverAtoB, Event.timeoutB, Event.timeoutA]).b.m_myClId
        = sampleNodeA.nodeId :=
  lower_id_elected_on_tie sampleNodeA sampleNodeB
    [Event.deliverBtoA, Event.deliverAtoB, Event.timeoutB, Event.timeoutA]
    [Event.deliverBtoA] [Event.timeoutB, Event.timeoutA]
    rfl rfl (by decide) (by decide) (by decide) rfl rfl rfl (by decide) (by decide) rfl
    (by decide)

end Peece

/-! ## Properties of the hexagonal cell mapping -/

namespace HexGrid

theorem correctRounding_sum {K : Type} [LinearOrderedField K] (q r s : Int)
    (q_diff r_diff s_diff : K) :
    (correctRounding q r s q_diff r_diff s_diff).1 +
      (correctRounding q r s q_diff r_diff s_diff).2.1 +
      (correctRounding q r s q_diff r_diff s_diff).2.2 = 0 := by
  unfold correctRounding
  split_ifs <;> simp only <;> ring

/-- C5. For every position `(x, y)`, cell radius `R > 0` and grid offset, the
integers `(q, r, s)` that `CalculateCellInfo` holds after its error-correction
step satisfy `q + r + s = 0`; the correction step yields a zero sum whatever the
three rounded values and their rounding errors were. -/
theorem CalculateCellInfo_cube_sum_zero {K : Type} [LinearOrderedField K] [FloorRing K]
    (sqrtF : K → K) (x y R : K) (G : Int) (_hR : 0 < R) :
    (CalculateCellInfo sqrtF x y R G).q + (CalculateCellInfo sqrtF x y R G).r +
        (CalculateCellInfo sqrtF x y R G).s = 0 ∧
    ∀ (q r s : Int) (q_diff r_diff s_diff : K),
      (correctRounding q r s q_diff r_diff s_diff).1 +
        (correctRounding q r s q_diff r_diff s_diff).2.1 +
        (correctRounding q r s q_diff r_diff s_diff).2.2 = 0 :=
  ⟨correctRounding_sum _ _ _ _ _ _, correctRounding_sum⟩

/-- Witness for C5: the position (30, 40) with radius 25 and grid offset 100. -/
theorem CalculateCellInfo_cube_sum_zero_witness :
    (0 : ℚ) < 25 ∧
    (CalculateCellInfo (fun _ => (7 / 4 : ℚ)) 30 40 25 100).q +
      (CalculateCellInfo (fun _ => (7 / 4 : ℚ)) 30 40 25 100).r +
      (CalculateCellInfo (fun _ => (7 / 4 : ℚ)) 30 40 25 100).s = 0 :=
  ⟨by norm_num,
    (CalculateCellInfo_cube_sum_zero (fun _ => (7 / 4 : ℚ)) 30 40 25 100 (by norm_num)).1⟩

theorem tmod_neg_num (e b : Int) : Int.tmod (-e) b = -(Int.tmod e b) := by
  rw [Int.tmod_def, Int.tmod_def, Int.neg_tdiv]
  ring

theorem GetCellCenterAxial_nonneg (G q r : Int) (hG : 0 < G) (hq : 0 ≤ q) (hq2 : q < G)
    (hr : 0 ≤ r) : GetCellCenterAxial (q + r * G) G = (q, r) := by
  have h0 : 0 ≤ q + r * G := by positivity
  unfold GetCellCenterAxial
  rw [Int.tmod_eq_emod h0 (le_of_lt hG), Int.tdiv_eq_ediv h0 (le_of_lt hG),
    Int.add_mul_emod_self, Int.emod_eq_of_lt hq hq2,
    Int.add_mul_ediv_right _ _ (ne_of_gt hG), Int.ediv_eq_zero_of_lt hq hq2, zero_add]

/-- Where `CellForming::GetCellCenter` does invert the cell-id linearisation: on
the hexes whose coordinates do not have opposite signs.  For every grid offset
`G > 0` and integers `q`, `r` with `0 ≤ q < G` and `0 ≤ r`, or `-G < q ≤ 0` and
`r ≤ 0`, the pair recovered from `cellId = q + r * G` (`q' = cellId % G`,
`r' = cellId / G`, truncating) is `(q, r)`, and the centre returned is the centre
of hex `(q, r)`. -/
theorem GetCellCenter_inverse_same_sign {K : Type} [LinearOrderedField K] [FloorRing K]
    (sqrtF : K → K) (R : K) (G q r : Int) (hG : 0 < G)
    (h : (0 ≤ q ∧ q < G ∧ 0 ≤ r) ∨ (-G < q ∧ q ≤ 0 ∧ r ≤ 0)) :
    GetCellCenterAxial (q + r * G) G = (q, r) ∧
    GetCellCenter sqrtF R G (q + r * G) = hexCenter sqrtF R q r := by
  have key : GetCellCenterAxial (q + r * G) G = (q, r) := by
    rcases h with ⟨h1, h2, h3⟩ | ⟨h1, h2, h3⟩
    · exact GetCellCenterAxial_nonneg G q r hG h1 h2 h3
    · have hn := GetCellCenterAxial_nonneg G (-q) (-r) hG (by omega) (by omega) (by omega)
      have e : q + r * G = -(-q + -r * G) := by ring
      unfold GetCellCenterAxial at hn ⊢
      rw [e, tmod_neg_num, Int.neg_tdiv]
      have h1 := congrArg Prod.fst hn
      have h2 := congrArg Prod.snd hn
      simp only at h1 h2
      rw [h1, h2]
      simp
  exact ⟨key, by simp only [GetCellCenter, key]⟩

/-- An instance of the inversion: grid offset 100 and hex `(-3, -2)`. -/
theorem GetCellCenter_inverse_same_sign_witness :
    GetCellCenterAxial (-3 + -2 * 100) 100 = (-3, -2) ∧
    GetCellCenter (fun _ => (7 / 4 : ℚ)) 100 100 (-3 + -2 * 100)
      = hexCenter (fun _ => (7 / 4 : ℚ)) 100 (-3) (-2) :=
  GetCellCenter_inverse_same_sign (fun _ => (7 / 4 : ℚ)) 100 100 (-3) (-2) (by decide)
    (Or.inr ⟨by decide, by decide, by decide⟩)

/-- Two ways in which the pair recovered differs from the hex.  With grid offset
100, hex `(100, 0)` has cell id 100, which is also the id of hex `(0, 1)`, the pair
that `GetCellCenter` recovers; and hex `(-1, 1)` has cell id 99, from which
`GetCellCenter` recovers `(99, 0)`, returning a centre with `y = 0` instead of
`y = 150` for radius 100. -/
theorem GetCellCenter_not_inverse :
    GetCellCenterAxial (100 + 0 * 100) 100 = (0, 1) ∧
    GetCellCenterAxial (-1 + 1 * 100) 100 = (99, 0) ∧
    GetCellCenterAxial (-1 + 1 * 100) 100 ≠ (-1, 1) ∧
    (GetCellCenter (fun _ => (7 / 4 : ℚ)) 100 100 (-1 + 1 * 100)).2 = 0 ∧
    (hexCenter (fun _ => (7 / 4 : ℚ)) 100 (-1) 1).2 = 150 := by
  refine ⟨by decide, by decide, by decide, ?_, ?_⟩
  · have h : GetCellCenterAxial (-1 + 1 * 100) 100 = (99, 0) := by decide
    simp only [GetCellCenter, h, hexCenter]
    norm_num
  · simp only [hexCenter]
    norm_num

theorem colorOf_eq_emod (q r : Int) : colorOf q r = (q - r) % 3 := by
  unfold colorOf
  rcases le_or_lt 0 (q - r) with h | h
  · have h1 : Int.tmod (q - r) 3 = (q - r) % 3 := Int.tmod_eq_emod h (by norm_num)
    rw [h1, Int.tmod_eq_emod (by omega) (by norm_num)]
    omega
  · obtain ⟨e, he⟩ : ∃ e, q - r = -e := ⟨-(q - r), by ring⟩
    rw [he] at h ⊢
    have h1 : Int.tmod e 3 = e % 3 := Int.tmod_eq_emod (by omega) (by norm_num)
    rw [tmod_neg_num, h1, Int.tmod_eq_emod (by omega) (by norm_num)]
    omega

/-- C8. For all 32-bit integers `q` and `r` whose difference does not overflow,
the colour `((q - r) % 3 + 3) % 3` with the truncating remainder lies in
`{0, 1, 2}` and is congruent to `q - r` modulo 3, also for negative `q - r`. -/
theorem colorOf_range_and_congruent (q r : Int)
    (_hq : -2 ^ 31 ≤ q ∧ q < 2 ^ 31) (_hr : -2 ^ 31 ≤ r ∧ r < 2 ^ 31)
    (_hd : -2 ^ 31 ≤ q - r ∧ q - r < 2 ^ 31) :
    (colorOf q r = 0 ∨ colorOf q r = 1 ∨ colorOf q r = 2) ∧
    (3 : Int) ∣ (colorOf q r - (q - r)) ∧
    (-2 ^ 31 ≤ Int.tmod (q - r) 3 + 3 ∧ Int.tmod (q - r) 3 + 3 < 2 ^ 31) := by
  rw [colorOf_eq_emod]
  refine ⟨by omega, by omega, ?_⟩
  rcases le_or_lt 0 (q - r) with h | h
  · have h1 : Int.tmod (q - r) 3 = (q - r) % 3 := Int.tmod_eq_emod h (by norm_num)
    rw [h1]
    omega
  · obtain ⟨e, he⟩ : ∃ e, q - r = -e := ⟨-(q - r), by ring⟩
    rw [he] at h ⊢
    have h1 : Int.tmod e 3 = e % 3 := Int.tmod_eq_emod (by omega) (by norm_num)
    rw [tmod_neg_num, h1]
    omega

/-- Witness for C8: `q = -5`, `r = 2`, so `q - r = -7` and the colour is 2. -/
theorem colorOf_range_and_congruent_witness :
    colorOf (-5) 2 = 2 ∧
    ((colorOf (-5) 2 = 0 ∨ colorOf (-5) 2 = 1 ∨ colorOf (-5) 2 = 2) ∧
      (3 : Int) ∣ (colorOf (-5) 2 - (-5 - 2)) ∧
      (-2 ^ 31 ≤ Int.tmod (-5 - 2) 3 + 3 ∧ Int.tmod (-5 - 2) 3 + 3 < 2 ^ 31)) :=
  ⟨by decide, colorOf_range_and_congruent (-5) 2 (by decide) (by decide) (by decide)⟩

theorem cround_intCast {K : Type} [LinearOrderedField K] [FloorRing K] (z : Int) :
    cround (z : K) = z := by
  unfold cround
  split_ifs
  · rw [Int.floor_eq_iff]
    constructor <;> linarith
  · rw [Int.ceil_eq_iff]
    constructor <;> linarith

/-- At the centre of hex `(q, r)`, with an exact square root of 3,
`CalculateCellInfo` finds `(q, r)` and the cell id `q + r * G`. -/
theorem CalculateCellInfo_at_center {K : Type} [LinearOrderedField K] [FloorRing K]
    (sqrtF : K → K) (R : K) (G q r : Int) (hR : 0 < R) (h3 : sqrtF 3 * sqrtF 3 = 3) :
    (CalculateCellInfo sqrtF (hexCenter sqrtF R q r).1 (hexCenter sqrtF R q r).2 R G).q = q ∧
    (CalculateCellInfo sqrtF (hexCenter sqrtF R q r).1 (hexCenter sqrtF R q r).2 R G).r = r ∧
    (CalculateCellInfo sqrtF (hexCenter sqrtF R q r).1 (hexCenter sqrtF R q r).2 R G).cellId
      = q + r * G := by
  have hR0 : R ≠ 0 := ne_of_gt hR
  have fq : (sqrtF 3 / 3 * (R * (sqrtF 3 * q + sqrtF 3 / 2 * r)) - 1 / 3 * (R * (3 / 2 * r))) / R
      = (q : K) := by
    field_simp
    linear_combination (2 * R * (q : K) + R * (r : K)) * h3
  have fr : (2 / 3 * (R * (3 / 2 * (r : K)))) / R = (r : K) := by
    field_simp
    ring
  have fs : -(q : K) - (r : K) = ((-q - r : Int) : K) := by push_cast; ring
  have key : correctRounding q r (-q - r) (0 : K) 0 0 = (q, r, -q - r) := by
    simp [correctRounding]
  simp only [CalculateCellInfo, hexCenter, fq, fr, fs, cround_intCast, sub_self, abs_zero, key,
    and_self]

/-- For `-G < 2 q < G`, `CalculateCellCenter` recovers `(q, r)` from `q + r * G`. -/
theorem CalculateCellCenterAxial_decode {K : Type} [LinearOrderedField K] [FloorRing K]
    (G q r : Int) (hG : 0 < G) (hlo : -G < 2 * q) (hhi : 2 * q < G) :
    CalculateCellCenterAxial K (q + r * G) G = (q, r) := by
  have hGK : (0 : K) < (G : K) := by exact_mod_cast hG
  have hloK : -(G : K) < 2 * (q : K) := by exact_mod_cast hlo
  have hhiK : 2 * (q : K) < (G : K) := by exact_mod_cast hhi
  have hval : (((q + r * G : Int) : K)) / (G : K) = (r : K) + (q : K) / (G : K) := by
    push_cast
    field_simp
    ring
  have h1 : -(1 / 2 : K) < (q : K) / (G : K) := by
    rw [lt_div_iff₀ hGK]
    linarith
  have h2 : (q : K) / (G : K) < 1 / 2 := by
    rw [div_lt_iff₀ hGK]
    linarith
  have hr : cround ((((q + r * G : Int) : K)) / (G : K)) = r := by
    rw [hval]
    unfold cround
    split_ifs
    · rw [Int.floor_eq_iff]
      constructor <;> linarith
    · rw [Int.ceil_eq_iff]
      constructor <;> linarith
  simp only [CalculateCellCenterAxial, hr]
  congr 1
  ring

/-- C7 (amended). In exact arithmetic (`sqrtF 3` is a square root of 3), for every
cell radius `R > 0`, grid offset `G > 0` and integers `q`, `r` with
`-G < 2 q < G`: the cell id that `CalculateCellInfo` assigns to the centre `p` of
hex `(q, r)`, decoded by `CalculateCellCenter`, yields a point within distance
`R` of `p`. -/
theorem center_round_trip {K : Type} [LinearOrderedField K] [FloorRing K]
    (sqrtF : K → K) (R : K) (G q r : Int) (hR : 0 < R) (hG : 0 < G)
    (h3 : sqrtF 3 * sqrtF 3 = 3) (hlo : -G < 2 * q) (hhi : 2 * q < G) :
    withinDistance (hexCenter sqrtF R q r)
      (CalculateCellCenter sqrtF R G
        (CalculateCellInfo sqrtF (hexCenter sqrtF R q r).1 (hexCenter sqrtF R q r).2 R G).cellId)
      R := by
  rw [(CalculateCellInfo_at_center sqrtF R G q r hR h3).2.2]
  simp only [CalculateCellCenter, CalculateCellCenterAxial_decode G q r hG hlo hhi,
    withinDistance, sub_self]
  nlinarith [sq_nonneg R]

/-- Witness for C7 (amended): real arithmetic, `R = 1`, `G = 100`, hex `(3, -2)`. -/
theorem center_round_trip_witness :
    withinDistance (hexCenter Real.sqrt 1 3 (-2))
      (CalculateCellCenter Real.sqrt 1 100
        (CalculateCellInfo Real.sqrt (hexCenter Real.sqrt 1 3 (-2)).1
          (hexCenter Real.sqrt 1 3 (-2)).2 1 100).cellId)
      1 :=
  center_round_trip Real.sqrt 1 100 3 (-2) (by norm_num) (by norm_num)
    (Real.mul_self_sqrt (by norm_num)) (by norm_num) (by norm_num)

/-- C7 as stated fails: in real arithmetic with `R = 1` and `G = 100`, the centre of
hex `(50, 0)` gets cell id 50, which `CalculateCellCenter` decodes as hex
`(-50, 1)`, whose centre is farther than `R` from the centre of hex `(50, 0)`. -/
theorem center_round_trip_fails :
    (0 : ℝ) < 1 ∧ (0 : Int) < 100 ∧
    (CalculateCellInfo Real.sqrt (hexCenter Real.sqrt 1 50 0).1
      (hexCenter Real.sqrt 1 50 0).2 1 100).cellId = 50 ∧
    CalculateCellCenterAxial ℝ 50 100 = (-50, 1) ∧
    ¬ withinDistance (hexCenter Real.sqrt 1 50 0)
      (CalculateCellCenter Real.sqrt 1 100
        (CalculateCellInfo Real.sqrt (hexCenter Real.sqrt 1 50 0).1
          (hexCenter Real.sqrt 1 50 0).2 1 100).cellId)
      1 := by
  have hid : (CalculateCellInfo Real.sqrt (hexCenter Real.sqrt 1 50 0).1
      (hexCenter Real.sqrt 1 50 0).2 1 100).cellId = 50 := by
    rw [(CalculateCellInfo_at_center Real.sqrt 1 100 50 0 (by norm_num)
      (Real.mul_self_sqrt (by norm_num))).2.2]
    norm_num
  have hdec : CalculateCellCenterAxial ℝ 50 100 = (-50, 1) := by
    have hr : cround (((50 : Int) : ℝ) / ((100 : Int) : ℝ)) = 1 := by
      unfold cround
      rw [if_pos (by norm_num)]
      rw [Int.floor_eq_iff]
      constructor <;> norm_num
    simp only [CalculateCellCenterAxial, hr]
    norm_num
  refine ⟨by norm_num, by norm_num, hid, hdec, ?_⟩
  rw [hid]
  simp only [CalculateCellCenter, hdec, withinDistance, hexCenter]
  intro h
  nlinarith [sq_nonneg (1 * (Real.sqrt 3 * ((-50 : Int) : ℝ) + Real.sqrt 3 / 2 * ((1 : Int) : ℝ)) -
    1 * (Real.sqrt 3 * ((50 : Int) : ℝ) + Real.sqrt 3 / 2 * ((0 : Int) : ℝ))), h]

end HexGrid

/-! ## Properties of the end of the HELLO phase -/

namespace Peece

/-- The comparison of `FindBestCandidateInCell`: the known node `kv` counts for
cell `cellId` and beats the running best. -/
theorem findBest_step_self (cellId : Int) (self : Nat) (f : ℚ)
    (l : List (Nat × KnownNodeInfo)) (best : Nat × ℚ)
    (hkey : ∀ kv ∈ l, kv.2.cellId = cellId → kv.2.hasFitness = true → kv.1 ≠ self) :
    (best.1 ≠ self →
      (l.foldl
        (fun best kv =>
          if kv.2.cellId ≠ cellId ∨ kv.2.hasFitness = false then best
          else if kv.2.fitness > best.2 ∨ (kv.2.fitness = best.2 ∧ kv.1 < best.1) then
            (kv.1, kv.2.fitness)
          else best) best).1 ≠ self) ∧
    (best = (self, f) →
      (l.foldl
        (fun best kv =>
          if kv.2.cellId ≠ cellId ∨ kv.2.hasFitness = false then best
          else if kv.2.fitness > best.2 ∨ (kv.2.fitness = best.2 ∧ kv.1 < best.1) then
            (kv.1, kv.2.fitness)
          else best) best).1 = self →
      ∀ kv ∈ l, kv.2.cellId = cellId → kv.2.hasFitness = true →
        ¬ (kv.2.fitness > f ∨ (kv.2.fitness = f ∧ kv.1 < self))) := by
  induction l generalizing best with
  | nil => exact ⟨fun h => h, fun _ _ kv hkv => by cases hkv⟩
  | cons a l ih =>
    have hkey2 : ∀ kv ∈ l, kv.2.cellId = cellId → kv.2.hasFitness = true → kv.1 ≠ self :=
      fun kv hkv => hkey kv (List.mem_cons_of_mem _ hkv)
    constructor
    · intro hb
      simp only [List.foldl_cons]
      split_ifs with c1 c2
      · exact (ih best hkey2).1 hb
      · apply (ih _ hkey2).1
        push_neg at c1
        exact hkey a (List.mem_cons_self _ _) c1.1 (by simpa using c1.2)
      · exact (ih best hkey2).1 hb
    · intro hb hres kv hkv hc hf
      subst hb
      simp only [List.foldl_cons] at hres
      by_cases c1 : a.2.cellId ≠ cellId ∨ a.2.hasFitness = false
      · rw [if_pos c1] at hres
        rcases List.mem_cons.1 hkv with rfl | hkv
        · rcases c1 with c1 | c1
          · exact absurd hc c1
          · rw [hf] at c1; cases c1
        · exact (ih (self, f) hkey2).2 rfl hres kv hkv hc hf
      · rw [if_neg c1] at hres
        push_neg at c1
        by_cases c2 : a.2.fitness > f ∨ (a.2.fitness = f ∧ a.1 < self)
        · rw [if_pos c2] at hres
          exact absurd hres ((ih _ hkey2).1
            (hkey a (List.mem_cons_self _ _) c1.1 (by simpa using c1.2)))
        · rw [if_neg c2] at hres
          rcases List.mem_cons.1 hkv with rfl | hkv
          · exact c2
          · exact (ih (self, f) hkey2).2 rfl hres kv hkv hc hf

theorem mem_mapSet_self (m : List (Nat × KnownNodeInfo)) (k : Nat) (v : KnownNodeInfo) :
    (k, v) ∈ mapSet m k v := by
  induction m with
  | nil => simp [mapSet]
  | cons a m ih =>
    obtain ⟨k1, v1⟩ := a
    unfold mapSet
    split_ifs
    · simp
    · simp
    · exact List.mem_cons_of_mem _ ih

theorem mem_mapSet_of_ne (m : List (Nat × KnownNodeInfo)) (k : Nat) (v : KnownNodeInfo)
    (x : Nat × KnownNodeInfo) (hx : x ∈ m) (hne : x.1 ≠ k) : x ∈ mapSet m k v := by
  induction m with
  | nil => cases hx
  | cons a m ih =>
    obtain ⟨k1, v1⟩ := a
    unfold mapSet
    split_ifs with c1 c2
    · exact List.mem_cons_of_mem _ hx
    · rcases List.mem_cons.1 hx with rfl | hx
      · exact absurd c2.symm hne
      · exact List.mem_cons_of_mem _ hx
    · rcases List.mem_cons.1 hx with rfl | hx
      · exact List.mem_cons_self _ _
      · exact List.mem_cons_of_mem _ (ih hx)

theorem mem_mapSet_cases (m : List (Nat × KnownNodeInfo)) (k : Nat) (v : KnownNodeInfo)
    (x : Nat × KnownNodeInfo) (hx : x ∈ mapSet m k v) : x = (k, v) ∨ x ∈ m := by
  induction m with
  | nil => left; simpa [mapSet] using hx
  | cons a m ih =>
    obtain ⟨k1, v1⟩ := a
    unfold mapSet at hx
    split_ifs at hx with c1 c2
    · rcases List.mem_cons.1 hx with rfl | hx
      · exact Or.inl rfl
      · exact Or.inr hx
    · rcases List.mem_cons.1 hx with rfl | hx
      · exact Or.inl rfl
      · exact Or.inr (List.mem_cons_of_mem _ hx)
    · rcases List.mem_cons.1 hx with rfl | hx
      · exact Or.inr (List.mem_cons_self _ _)
      · rcases ih hx with h | h
        · exact Or.inl h
        · exact Or.inr (List.mem_cons_of_mem _ h)

theorem record_keeps (sqrtF : ℚ → ℚ) (n : Node) (t : List NeighborRecord)
    (m : List (Nat × KnownNodeInfo)) (x : Nat × KnownNodeInfo) (hx : x ∈ m)
    (hne : ∀ nb ∈ t, nb.nodeId ≠ x.1) : x ∈ t.foldl (recordStep sqrtF n) m := by
  induction t generalizing m with
  | nil => exact hx
  | cons a t ih =>
    simp only [List.foldl_cons]
    apply ih
    · unfold recordStep
      split_ifs
      · exact hx
      · exact mem_mapSet_of_ne m _ _ x hx (fun h => hne a (List.mem_cons_self _ _) h.symm)
    · exact fun nb hnb => hne nb (List.mem_cons_of_mem _ hnb)

/-- With one record per neighbour id, the loop leaves every same-cell neighbour in
`m_knownNodes` with its fitness and `hasFitness = true`. -/
theorem record_has (sqrtF : ℚ → ℚ) (n : Node) (t : List NeighborRecord)
    (m : List (Nat × KnownNodeInfo)) (hnd : (t.map NeighborRecord.nodeId).Nodup)
    (nb : NeighborRecord) (hnb : nb ∈ t) (hc : nb.cellId = n.m_myCellId) :
    (nb.nodeId,
      ({ x := nb.x, y := nb.y, cellId := nb.cellId,
         fitness := ComputeFitness sqrtF n nb.x nb.y n.m_myCellId,
         hasFitness := true } : KnownNodeInfo)) ∈ t.foldl (recordStep sqrtF n) m := by
  induction t generalizing m with
  | nil => cases hnb
  | cons a t ih =>
    simp only [List.map_cons, List.nodup_cons] at hnd
    simp only [List.foldl_cons]
    rcases List.mem_cons.1 hnb with rfl | hnb
    · apply record_keeps
      · unfold recordStep
        rw [if_neg (by simpa using hc)]
        exact mem_mapSet_self _ _ _
      · intro nb2 hnb2 heq
        have heq2 : nb2.nodeId = nb.nodeId := heq
        exact hnd.1 (by rw [← heq2]; exact List.mem_map_of_mem _ hnb2)
    · exact ih _ hnd.2 hnb

theorem record_only (sqrtF : ℚ → ℚ) (n : Node) (t : List NeighborRecord)
    (m : List (Nat × KnownNodeInfo)) (x : Nat × KnownNodeInfo)
    (hx : x ∈ t.foldl (recordStep sqrtF n) m) :
    x ∈ m ∨ ∃ nb ∈ t, x.1 = nb.nodeId := by
  induction t generalizing m with
  | nil => exact Or.inl hx
  | cons a t ih =>
    simp only [List.foldl_cons] at hx
    rcases ih _ hx with h | ⟨nb, hnb, h⟩
    · unfold recordStep at h
      split_ifs at h
      · exact Or.inl h
      · rcases mem_mapSet_cases _ _ _ _ h with h | h
        · exact Or.inr ⟨a, List.mem_cons_self _ _, by rw [h]⟩
        · exact Or.inl h
    · exact Or.inr ⟨nb, List.mem_cons_of_mem _ hnb, h⟩

/-- With a trace sink attached, `TimerCallback_HelloTimeout` schedules the node's
own CL announcement only if no same-cell neighbour of the neighbour table beats
it (strictly higher fitness, or equal fitness and a lower id).  The neighbour
table holds one record per neighbour id, none with the node's own id, and
`m_knownNodes` holds no fitness yet, as `HandleHelloPacket` leaves them. -/
theorem HelloTimeout_traced_announces_only_if_best (sqrtF : ℚ → ℚ) (n : Node)
    (ht : n.m_trace = true)
    (hnd : (n.m_neighborTable.map NeighborRecord.nodeId).Nodup)
    (hself : ∀ nb ∈ n.m_neighborTable, nb.nodeId ≠ n.nodeId)
    (hknown : ∀ kv ∈ n.m_knownNodes, kv.2.hasFitness = false)
    (hann : (TimerCallback_HelloTimeout sqrtF n).scheduledCLAnnouncement
      = n.scheduledCLAnnouncement + 1) :
    ∀ nb ∈ n.m_neighborTable, nb.cellId = n.m_myCellId →
      ¬ (ComputeFitness sqrtF n nb.x nb.y n.m_myCellId
            > (TimerCallback_HelloTimeout sqrtF n).m_fitnessScore ∨
          (ComputeFitness sqrtF n nb.x nb.y n.m_myCellId
              = (TimerCallback_HelloTimeout sqrtF n).m_fitnessScore ∧
            nb.nodeId < n.nodeId)) := by
  intro nb hnb hc
  have hfit : (TimerCallback_HelloTimeout sqrtF n).m_fitnessScore
      = (CalculateFitnessScore sqrtF n).m_fitnessScore := by
    unfold TimerCallback_HelloTimeout
    simp only
    split_ifs <;> rfl
  have hbest : (FindBestCandidateInCell (CalculateFitnessScore sqrtF n)
      (CalculateFitnessScore sqrtF n).m_myCellId).1 = (CalculateFitnessScore sqrtF n).nodeId := by
    by_contra hne
    unfold TimerCallback_HelloTimeout at hann
    simp only [decide_eq_true_eq] at hann
    rw [if_neg (fun h => hne h.2.2)] at hann
    have h0 : (CalculateFitnessScore sqrtF n).scheduledCLAnnouncement
        = n.scheduledCLAnnouncement := by
      unfold CalculateFitnessScore
      simp only [ht, if_true]
    simp only [h0] at hann
    omega
  have hk : (CalculateFitnessScore sqrtF n).m_knownNodes
      = n.m_neighborTable.foldl (recordStep sqrtF n) n.m_knownNodes := by
    unfold CalculateFitnessScore
    simp only [ht, if_true]
    rfl
  have hid : (CalculateFitnessScore sqrtF n).nodeId = n.nodeId := by
    unfold CalculateFitnessScore
    simp only [ht, if_true]
  have hcell : (CalculateFitnessScore sqrtF n).m_myCellId = n.m_myCellId := by
    unfold CalculateFitnessScore
    simp only [ht, if_true]
  have hkey : ∀ kv ∈ n.m_neighborTable.foldl (recordStep sqrtF n) n.m_knownNodes,
      kv.2.cellId = n.m_myCellId → kv.2.hasFitness = true → kv.1 ≠ n.nodeId := by
    intro kv hkv _ hf
    rcases record_only sqrtF n _ _ kv hkv with h | ⟨nb2, hnb2, h⟩
    · rw [hknown kv h] at hf
      cases hf
    · rw [h]
      exact hself nb2 hnb2
  unfold FindBestCandidateInCell at hbest
  rw [hk, hid, hcell] at hbest
  rw [hfit]
  exact (findBest_step_self n.m_myCellId n.nodeId (CalculateFitnessScore sqrtF n).m_fitnessScore
    _ _ hkey).2 rfl hbest _ (record_has sqrtF n _ _ hnd nb hnb hc) hc rfl

theorem findBest_skips (cellId : Int) (l : List (Nat × KnownNodeInfo)) (best : Nat × ℚ)
    (h : ∀ kv ∈ l, kv.2.hasFitness = false) :
    l.foldl
      (fun best kv =>
        if kv.2.cellId ≠ cellId ∨ kv.2.hasFitness = false then best
        else if kv.2.fitness > best.2 ∨ (kv.2.fitness = best.2 ∧ kv.1 < best.1) then
          (kv.1, kv.2.fitness)
        else best) best = best := by
  induction l generalizing best with
  | nil => rfl
  | cons a l ih =>
    simp only [List.foldl_cons]
    rw [if_pos (Or.inr (h a (List.mem_cons_self _ _)))]
    exact ih best (fun kv hkv => h kv (List.mem_cons_of_mem _ hkv))

/-- Without a trace sink no neighbour fitness is ever recorded, so a node with
neighbours and positive fitness always schedules its own CL announcement. -/
theorem HelloTimeout_untraced_always_announces (sqrtF : ℚ → ℚ) (n : Node)
    (ht : n.m_trace = false)
    (hknown : ∀ kv ∈ n.m_knownNodes, kv.2.hasFitness = false)
    (hpos : (CalculateFitnessScore sqrtF n).m_fitnessScore > 0)
    (hne : n.m_neighborTable.length > 0) :
    (TimerCallback_HelloTimeout sqrtF n).scheduledCLAnnouncement
      = n.scheduledCLAnnouncement + 1 := by
  have hk : (CalculateFitnessScore sqrtF n).m_knownNodes = n.m_knownNodes := by
    unfold CalculateFitnessScore
    simp [ht]
  have ht2 : (CalculateFitnessScore sqrtF n).m_neighborTable = n.m_neighborTable := by
    unfold CalculateFitnessScore
    simp [ht]
  have hs : (CalculateFitnessScore sqrtF n).scheduledCLAnnouncement
      = n.scheduledCLAnnouncement := by
    unfold CalculateFitnessScore
    simp [ht]
  have hbest : (FindBestCandidateInCell (CalculateFitnessScore sqrtF n)
      (CalculateFitnessScore sqrtF n).m_myCellId).1 = (CalculateFitnessScore sqrtF n).nodeId := by
    unfold FindBestCandidateInCell
    rw [hk, findBest_skips _ _ _ hknown]
  unfold TimerCallback_HelloTimeout
  simp only [decide_eq_true_eq]
  rw [if_pos ⟨hpos, by rw [ht2]; exact hne, hbest⟩]
  simp only [hs]

/-- C4. Without a trace sink, node 2 at (3, 4) (fitness 1/6) schedules its CL
announcement at the end of the HELLO phase although its neighbour table records
node 1 of the same cell on the cell centre (fitness 1); with a trace sink
attached the same node schedules none. -/
theorem HelloTimeout_announces_despite_better_neighbor :
    (TimerCallback_HelloTimeout sampleSqrt (sampleHelloNode false)).scheduledCLAnnouncement = 1 ∧
    (TimerCallback_HelloTimeout sampleSqrt (sampleHelloNode false)).m_fitnessScore = 1 / 6 ∧
    (∃ nb ∈ (sampleHelloNode false).m_neighborTable,
      nb.cellId = (sampleHelloNode false).m_myCellId ∧
      ComputeFitness sampleSqrt (sampleHelloNode false) nb.x nb.y
          (sampleHelloNode false).m_myCellId
        > (TimerCallback_HelloTimeout sampleSqrt (sampleHelloNode false)).m_fitnessScore) ∧
    (TimerCallback_HelloTimeout sampleSqrt (sampleHelloNode true)).scheduledCLAnnouncement = 0 := by
  have hr : HexGrid.cround (0 : ℚ) = 0 := by
    norm_num [HexGrid.cround]
  have hf : (TimerCallback_HelloTimeout sampleSqrt (sampleHelloNode false)).m_fitnessScore
      = 1 / 6 := by
    simp only [TimerCallback_HelloTimeout, CalculateFitnessScore, FindBestCandidateInCell,
      sampleHelloNode, Node.init, HexGrid.CalculateCellCenter, HexGrid.CalculateCellCenterAxial,
      HexGrid.hexCenter, HexGrid.CalculateDistance]
    norm_num [hr, sampleSqrt]
  refine ⟨?_, hf, ?_, ?_⟩
  · simp only [TimerCallback_HelloTimeout, CalculateFitnessScore, FindBestCandidateInCell,
      sampleHelloNode, Node.init, HexGrid.CalculateCellCenter, HexGrid.CalculateCellCenterAxial,
      HexGrid.hexCenter, HexGrid.CalculateDistance]
    norm_num [hr, sampleSqrt]
  · refine ⟨{ nodeId := 1, x := 0, y := 0, cellId := 0, neighborNodeIds := [] }, ?_, rfl, ?_⟩
    · simp [sampleHelloNode]
    · rw [hf]
      simp only [ComputeFitness, sampleHelloNode, Node.init, HexGrid.CalculateCellCenter,
        HexGrid.CalculateCellCenterAxial, HexGrid.hexCenter, HexGrid.CalculateDistance]
      norm_num [hr, sampleSqrt]
  · simp only [TimerCallback_HelloTimeout, CalculateFitnessScore, FindBestCandidateInCell,
      recordNeighborFitness, recordStep, mapSet, ComputeFitness,
      sampleHelloNode, Node.init, HexGrid.CalculateCellCenter, HexGrid.CalculateCellCenterAxial,
      HexGrid.hexCenter, HexGrid.CalculateDistance]
    norm_num [hr, sampleSqrt, mapSet, recordStep, ComputeFitness, HexGrid.CalculateCellCenter,
      HexGrid.CalculateCellCenterAxial, HexGrid.hexCenter, HexGrid.CalculateDistance]

end Peece

/-! ## Properties of the CH announcement flood -/

namespace Pecee

/-- C9. Cluster head 3 of cell 7 queues, in `sendCHAnnouncement`, an intra-cell
copy with `cellPath = [7, -1, -1]` (recorded entries pairwise distinct); member 5
of cell 7, handling that copy, pushes a copy toward cell 8 whose `cellPath` is
`[7, -1, 7]`: cell 7 twice. -/
theorem handleCHAnnouncementPacket_repeats_cell :
    (sendCHAnnouncement sampleCH).announcementQueue =
      [(chAnnouncementHeader sampleCH 8, 8), (sampleIntraCopy, 7)] ∧
    sampleIntraCopy.m_cellPath = [7, -1, -1] ∧
    distinctCells sampleIntraCopy.m_cellPath ∧
    (handleCHAnnouncementPacket sampleMember sampleIntraCopy).announcementQueue =
      [(interCellCopy sampleMember sampleIntraCopy 8 5, 8)] ∧
    (interCellCopy sampleMember sampleIntraCopy 8 5).m_cellPath = [7, -1, 7] ∧
    (interCellCopy sampleMember sampleIntraCopy 8 5).m_cellHopCount = 2 ∧
    ¬ distinctCells (interCellCopy sampleMember sampleIntraCopy 8 5).m_cellPath := by
  refine ⟨by decide, by decide, by decide, by decide, by decide, by decide, by decide⟩

/-- The same copy as it arrives after `sendAnnouncementQueue` has taken one unit
of TTL and the 16-bit serialisation has turned the unused slots `-1` into `65535`:
member 5 pushes a copy with `cellPath = [7, 65535, 7]`. -/
theorem repeats_cell_as_transmitted :
    (handleCHAnnouncementPacket sampleMember
      { sampleIntraCopy with m_ttl := 59, m_cellPath := [7, 65535, 65535] }).announcementQueue.map
        (fun c => (c.1.m_cellPath, c.1.m_cellHopCount, c.1.m_ttl, c.2))
      = [([7, 65535, 7], 2, 58, 8)] := by
  decide

theorem frame_refl (a : State) : Frame a a := ⟨rfl, rfl, rfl, rfl⟩

theorem frame_trans {a b c : State} (h1 : Frame a b) (h2 : Frame b c) : Frame a c :=
  ⟨h2.1.trans h1.1, h2.2.1.trans h1.2.1, h2.2.2.1.trans h1.2.2.1, h2.2.2.2.trans h1.2.2.2⟩

theorem foldl_frame {α : Type} (f : State → α → State) (hf : ∀ s a, Frame s (f s a))
    (l : List α) (s : State) : Frame s (l.foldl f s) := by
  induction l generalizing s with
  | nil => exact frame_refl s
  | cons a l ih => exact frame_trans (hf s a) (ih (f s a))

theorem selectClusterHead_frame (st : State) : Frame st (selectClusterHead st) := by
  unfold selectClusterHead ScheduleTimer
  simp only
  split_ifs <;> exact ⟨rfl, rfl, rfl, rfl⟩

theorem notifyMember_frame (s : State) (m : Int) : Frame s (notifyMember s m) := by
  unfold notifyMember
  split_ifs <;> exact ⟨rfl, rfl, rfl, rfl⟩

theorem notifyMembers_frame (st : State) : Frame st (notifyMembers st) := by
  unfold notifyMembers
  simp only
  split_ifs
  · exact frame_trans (foldl_frame notifyMember notifyMember_frame _ st) ⟨rfl, rfl, rfl, rfl⟩
  · exact frame_refl st

theorem storeCHAndPath_frame (st : State) (header : PeceeHeader) :
    Frame st (storeCHAndPath st header) := ⟨rfl, rfl, rfl, rfl⟩

theorem acceptAsCL_frame (st : State) (header : PeceeHeader) :
    Frame st (acceptAsCL st header) :=
  frame_trans (storeCHAndPath_frame st header)
    (frame_trans (selectClusterHead_frame _) (notifyMembers_frame _))

theorem forwardToCell_frame (cellData : PeceeCellData) (header : PeceeHeader) (s : State)
    (c : Int) : Frame s (forwardToCell cellData header s c) := by
  unfold forwardToCell
  split_ifs
  · exact frame_refl s
  · split
    · exact frame_refl s
    · exact ⟨rfl, rfl, rfl, rfl⟩

theorem broadcastToMember_frame (header : PeceeHeader) (s : State) (m : Int) :
    Frame s (broadcastToMember header s m) := by
  unfold broadcastToMember
  split_ifs <;> exact ⟨rfl, rfl, rfl, rfl⟩

theorem forwardLoops_frame (cellData : PeceeCellData) (header : PeceeHeader) (st : State) :
    Frame st (forwardLoops cellData header st) := by
  have h1 := foldl_frame (forwardToCell cellData header) (forwardToCell_frame cellData header)
    cellData.neighbors st
  unfold forwardLoops
  simp only
  split_ifs
  · exact frame_trans h1
      (foldl_frame (broadcastToMember header) (broadcastToMember_frame header) _ _)
  · exact h1

theorem forwardCHAnnouncement_frame (st : State) (header : PeceeHeader) :
    Frame st (forwardCHAnnouncement st header) := by
  unfold forwardCHAnnouncement
  simp only
  split_ifs
  · exact frame_refl st
  · exact frame_trans (forwardLoops_frame _ header st) ⟨rfl, rfl, rfl, rfl⟩
  · exact forwardLoops_frame _ header st

theorem refreshCLStatus_frame (st : State) : Frame st (refreshCLStatus st) := by
  unfold refreshCLStatus
  split_ifs <;> exact ⟨rfl, rfl, rfl, rfl⟩

theorem afterRecord_frame (st : State) (header : PeceeHeader) :
    Frame st (afterRecord st header) := by
  unfold afterRecord
  simp only
  split_ifs
  · exact frame_refl st
  · exact frame_trans (acceptAsCL_frame st header) ⟨rfl, rfl, rfl, rfl⟩
  · exact acceptAsCL_frame st header
  · exact frame_trans (acceptAsCL_frame st header) (forwardCHAnnouncement_frame _ header)
  · exact ⟨rfl, rfl, rfl, rfl⟩
  · exact frame_refl st
  · exact forwardCHAnnouncement_frame _ header

/-- After `handleCHAnnouncementPacket` the pair `(chId, cellSent)` of the handled
announcement is recorded, and identity, cell and cluster-head flag are unchanged. -/
theorem handle_records (st : State) (header : PeceeHeader) :
    (handleCHAnnouncementPacket st header).self = st.self ∧
    (handleCHAnnouncementPacket st header).isCH = st.isCH ∧
    (handleCHAnnouncementPacket st header).myCellId = st.myCellId ∧
    (header.chId, header.m_cellSent) ∈
      (handleCHAnnouncementPacket st header).receivedCHAFromCells := by
  obtain ⟨r1, r2, r3, r4⟩ := refreshCLStatus_frame st
  unfold handleCHAnnouncementPacket
  simp only
  split_ifs with h
  · exact ⟨r1, r2, r3, h.2.2.2⟩
  · obtain ⟨a1, a2, a3, a4⟩ := afterRecord_frame
      (recordCHA (refreshCLStatus st) header.chId header.m_cellSent) header
    have hrec : (header.chId, header.m_cellSent) ∈
        (recordCHA (refreshCLStatus st) header.chId header.m_cellSent).receivedCHAFromCells := by
      unfold recordCHA
      split_ifs with hm
      · exact hm
      · simp
    have b1 : (recordCHA (refreshCLStatus st) header.chId header.m_cellSent).self
        = (refreshCLStatus st).self := by
      unfold recordCHA; split_ifs <;> rfl
    have b2 : (recordCHA (refreshCLStatus st) header.chId header.m_cellSent).isCH
        = (refreshCLStatus st).isCH := by
      unfold recordCHA; split_ifs <;> rfl
    have b3 : (recordCHA (refreshCLStatus st) header.chId header.m_cellSent).myCellId
        = (refreshCLStatus st).myCellId := by
      unfold recordCHA; split_ifs <;> rfl
    exact ⟨by rw [a1, b1, r1], by rw [a2, b2, r2], by rw [a3, b3, r3], by rw [a4]; exact hrec⟩

/-- A cluster head that handles its own announcement (`chId = self`,
`cellSent = myCellId`) with the pair already recorded returns at once. -/
theorem handle_own_again (st : State) (header : PeceeHeader)
    (hCH : st.isCH = true) (hid : header.chId = st.self)
    (hcell : header.m_cellSent = st.myCellId)
    (hrec : (header.chId, header.m_cellSent) ∈ st.receivedCHAFromCells) :
    handleCHAnnouncementPacket st header = refreshCLStatus st := by
  obtain ⟨r1, r2, r3, r4⟩ := refreshCLStatus_frame st
  unfold handleCHAnnouncementPacket
  simp only
  rw [if_pos]
  exact ⟨by rw [r2, hCH], by rw [r1, hid], by rw [r3, hcell], by rw [r4]; exact hrec⟩

theorem refreshCLStatus_queues (st : State) :
    (refreshCLStatus st).announcementQueue = st.announcementQueue ∧
    (refreshCLStatus st).boardcastAnnouncementQueue = st.boardcastAnnouncementQueue := by
  unfold refreshCLStatus
  split_ifs <;> exact ⟨rfl, rfl⟩

theorem foldl_withReceived {α : Type} (f : State → α → State) (R : List (Int × Int))
    (hf : ∀ s a, f (withReceived s R) a = withReceived (f s a) R) (l : List α) (s : State) :
    l.foldl f (withReceived s R) = withReceived (l.foldl f s) R := by
  induction l generalizing s with
  | nil => rfl
  | cons a l ih => simp only [List.foldl_cons, hf, ih]

theorem getCellData_withReceived (st : State) (R : List (Int × Int)) (c : Int) :
    getCellData (withReceived st R) c = getCellData st c := rfl

theorem refreshCLStatus_withReceived (st : State) (R : List (Int × Int)) :
    refreshCLStatus (withReceived st R) = withReceived (refreshCLStatus st) R := by
  simp only [refreshCLStatus, withReceived, getCellData]
  split_ifs <;> rfl

theorem selectClusterHead_withReceived (st : State) (R : List (Int × Int)) :
    selectClusterHead (withReceived st R) = withReceived (selectClusterHead st) R := by
  simp only [selectClusterHead, ScheduleTimer, withReceived, getCellData]
  split_ifs <;> rfl

theorem notifyMember_withReceived (R : List (Int × Int)) (s : State) (m : Int) :
    notifyMember (withReceived s R) m = withReceived (notifyMember s m) R := by
  simp only [notifyMember, withReceived, memberHeader]
  split_ifs <;> rfl

theorem notifyMembers_withReceived (st : State) (R : List (Int × Int)) :
    notifyMembers (withReceived st R) = withReceived (notifyMembers st) R := by
  unfold notifyMembers
  simp only [getCellData_withReceived]
  rw [foldl_withReceived notifyMember R (notifyMember_withReceived R)]
  simp only [withReceived, ScheduleTimer]
  split_ifs <;> rfl

theorem acceptAsCL_withReceived (st : State) (header : PeceeHeader) (R : List (Int × Int)) :
    acceptAsCL (withReceived st R) header = withReceived (acceptAsCL st header) R := by
  unfold acceptAsCL
  have h : storeCHAndPath (withReceived st R) header
      = withReceived (storeCHAndPath st header) R := rfl
  rw [h, selectClusterHead_withReceived, notifyMembers_withReceived]

theorem forwardToCell_withReceived (cellData : PeceeCellData) (header : PeceeHeader)
    (R : List (Int × Int)) (s : State) (c : Int) :
    forwardToCell cellData header (withReceived s R) c
      = withReceived (forwardToCell cellData header s c) R := by
  unfold forwardToCell
  split_ifs
  · rfl
  · split <;> rfl

theorem broadcastToMember_withReceived (header : PeceeHeader) (R : List (Int × Int))
    (s : State) (m : Int) :
    broadcastToMember header (withReceived s R) m
      = withReceived (broadcastToMember header s m) R := by
  simp only [broadcastToMember, withReceived, intraCellCopy]
  split_ifs <;> rfl

theorem forwardLoops_withReceived (cellData : PeceeCellData) (header : PeceeHeader)
    (st : State) (R : List (Int × Int)) :
    forwardLoops cellData header (withReceived st R)
      = withReceived (forwardLoops cellData header st) R := by
  unfold forwardLoops
  simp only
  rw [foldl_withReceived _ R (forwardToCell_withReceived cellData header R)]
  have hc : (withReceived (cellData.neighbors.foldl (forwardToCell cellData header) st) R).myCellId
      = (cellData.neighbors.foldl (forwardToCell cellData header) st).myCellId := rfl
  rw [hc]
  split_ifs
  · exact foldl_withReceived _ R (broadcastToMember_withReceived header R) _ _
  · rfl

theorem forwardCHAnnouncement_withReceived (st : State) (header : PeceeHeader)
    (R : List (Int × Int)) :
    forwardCHAnnouncement (withReceived st R) header
      = withReceived (forwardCHAnnouncement st header) R := by
  unfold forwardCHAnnouncement
  simp only [getCellData_withReceived]
  have hm : (withReceived st R).myCellId = st.myCellId := rfl
  have hq : (withReceived st R).announcementQueue = st.announcementQueue := rfl
  have hq2 : (withReceived (forwardLoops (getCellData st st.myCellId) header st)
      R).announcementQueue
      = (forwardLoops (getCellData st st.myCellId) header st).announcementQueue := rfl
  simp only [hm, hq, forwardLoops_withReceived, hq2]
  split_ifs <;> rfl

theorem afterRecord_withReceived (st : State) (header : PeceeHeader) (R : List (Int × Int)) :
    afterRecord (withReceived st R) header = withReceived (afterRecord st header) R := by
  unfold afterRecord
  simp only
  have h1 : (withReceived st R).myCellId = st.myCellId := rfl
  have h2 : (withReceived st R).isCL = st.isCL := rfl
  have h3 : (withReceived st R).myCHId = st.myCHId := rfl
  rw [h1, h2, h3]
  by_cases hl : header.m_cellSent ≠ st.myCellId ∧
      cellLoopDetected header header.m_cellHopCount st.myCellId = true
  · rw [if_pos hl, if_pos hl]
  · rw [if_neg hl, if_neg hl]
    by_cases ha : st.isCL ∧ st.myCHId = -1
    · rw [if_pos ha, if_pos ha, acceptAsCL_withReceived, forwardCHAnnouncement_withReceived]
      simp only [withReceived]
      split_ifs <;> rfl
    · rw [if_neg ha, if_neg ha, forwardCHAnnouncement_withReceived]
      simp only [withReceived]
      split_ifs <;> rfl

theorem recordCHA_withReceived (st : State) (R : List (Int × Int)) (chId cellSent : Int) :
    ∃ R2, recordCHA (withReceived st R) chId cellSent = withReceived st R2 := by
  unfold recordCHA
  split_ifs
  · exact ⟨R, rfl⟩
  · exact ⟨R ++ [(chId, cellSent)], rfl⟩

/-- On a node that is not a cluster head, the handler is `afterRecord` on the
refreshed state, whatever the duplicate record holds. -/
theorem handle_nonCH (st : State) (header : PeceeHeader) (R : List (Int × Int))
    (hCH : st.isCH = false) :
    ∃ R2, handleCHAnnouncementPacket (withReceived st R) header
      = withReceived (afterRecord (refreshCLStatus st) header) R2 := by
  have hch : (withReceived (refreshCLStatus st) R).isCH = false := by
    have := (refreshCLStatus_frame st).2.1
    show (refreshCLStatus st).isCH = false
    rw [this, hCH]
  obtain ⟨R2, hR2⟩ := recordCHA_withReceived (refreshCLStatus st) R header.chId header.m_cellSent
  refine ⟨R2, ?_⟩
  unfold handleCHAnnouncementPacket
  simp only [refreshCLStatus_withReceived]
  rw [if_neg, hR2, afterRecord_withReceived]
  rw [hch]
  simp

/-- C10 (amended). On a node that is not a cluster head the record of handled
`(chId, cellSent)` pairs has no effect on what `handleCHAnnouncementPacket` pushes:
the two queues end the same whatever the record held, so a repeated announcement
is forwarded like a first one.  Only a cluster head handling its own announcement
(`chId = self`, `cellSent = myCellId`) a second time pushes no copy. -/
theorem duplicate_record_effect (st : State) (header : PeceeHeader) :
    (st.isCH = false → ∀ R R2 : List (Int × Int),
      (handleCHAnnouncementPacket (withReceived st R) header).announcementQueue =
        (handleCHAnnouncementPacket (withReceived st R2) header).announcementQueue ∧
      (handleCHAnnouncementPacket (withReceived st R) header).boardcastAnnouncementQueue =
        (handleCHAnnouncementPacket (withReceived st R2) header).boardcastAnnouncementQueue) ∧
    (st.isCH = true → header.chId = st.self → header.m_cellSent = st.myCellId →
      (handleCHAnnouncementPacket (handleCHAnnouncementPacket st header) header).announcementQueue
        = (handleCHAnnouncementPacket st header).announcementQueue ∧
      (handleCHAnnouncementPacket (handleCHAnnouncementPacket st header)
          header).boardcastAnnouncementQueue
        = (handleCHAnnouncementPacket st header).boardcastAnnouncementQueue) := by
  constructor
  · intro hCH R R2
    obtain ⟨A, hA⟩ := handle_nonCH st header R hCH
    obtain ⟨B, hB⟩ := handle_nonCH st header R2 hCH
    rw [hA, hB]
    exact ⟨rfl, rfl⟩
  · intro hCH hid hcell
    obtain ⟨k1, k2, k3, k4⟩ := handle_records st header
    rw [handle_own_again (handleCHAnnouncementPacket st header) header (by rw [k2, hCH])
      (by rw [k1, hid]) (by rw [k3, hcell]) k4]
    exact refreshCLStatus_queues _

/-- Witness for C10 (amended): member 5 with an empty record and with the pair
`(3, 7)` recorded, and cluster head 3 handling its own announcement twice. -/
theorem duplicate_record_effect_witness :
    ((handleCHAnnouncementPacket (withReceived sampleMember []) sampleIntraCopy).announcementQueue
      = (handleCHAnnouncementPacket (withReceived sampleMember [(3, 7)])
          sampleIntraCopy).announcementQueue) ∧
    ((handleCHAnnouncementPacket (handleCHAnnouncementPacket sampleCH sampleIntraCopy)
        sampleIntraCopy).announcementQueue
      = (handleCHAnnouncementPacket sampleCH sampleIntraCopy).announcementQueue) :=
  ⟨((duplicate_record_effect sampleMember sampleIntraCopy).1 (by decide) [] [(3, 7)]).1,
   ((duplicate_record_effect sampleCH sampleIntraCopy).2 (by decide) (by decide) (by decide)).1⟩

/-- C10 as stated fails: member 5 (not a cluster head) has handled the announcement
with the pair `(3, 7)`; handling it again pushes one more copy toward cell 8. -/
theorem duplicate_is_forwarded_again :
    (handleCHAnnouncementPacket sampleMember sampleIntraCopy).isCH = false ∧
    (sampleIntraCopy.chId, sampleIntraCopy.m_cellSent) = (3, 7) ∧
    (3, 7) ∈ (handleCHAnnouncementPacket sampleMember sampleIntraCopy).receivedCHAFromCells ∧
    (handleCHAnnouncementPacket (handleCHAnnouncementPacket sampleMember sampleIntraCopy)
        sampleIntraCopy).announcementQueue
      = (handleCHAnnouncementPacket sampleMember sampleIntraCopy).announcementQueue ++
          [(interCellCopy sampleMember sampleIntraCopy 8 5, 8)] := by
  refine ⟨by decide, by decide, by decide, by decide⟩


/-! ## Relaying, transmission and rotation in the cluster-head flood -/

/-- C11. Node 6 of cell 8 receives the announcement of cluster head 3 with hop
count 1 and `cellPath = [7, 65535, 65535]` (one recorded cell, unused slots as
serialised).  The copy it queues toward cell 9 has hop count 2 and
`cellPath = [7, 65535, 8]`: the own cell is written to slot 2, not appended at
slot 1. -/
theorem interCellCopy_skips_path_slot :
    relayReceived.m_cellHopCount = 1 ∧
    relayReceived.m_cellPath = [7, 65535, 65535] ∧
    (handleCHAnnouncementPacket relayNode relayReceived).announcementQueue.map
        (fun c => (c.1.m_cellHopCount, c.1.m_cellPath, c.2))
      = [(2, [7, 65535, 8], 9)] := by
  decide

/-- C12. Node 6 receives the announcement of cluster head 3 with TTL 59, queues
its copy toward cell 9 in `handleCHAnnouncementPacket` and transmits it from
`sendAnnouncementQueue` to node 10 with TTL 57: the relay has cost two units. -/
theorem relay_costs_two_ttl_units :
    relayReceived.m_ttl = 59 ∧
    (handleCHAnnouncementPacket relayNode relayReceived).announcementQueue.map
        (fun c => (c.1.m_ttl, c.2)) = [(58, 9)] ∧
    (sendAnnouncementQueue (handleCHAnnouncementPacket relayNode relayReceived)).sent.map
        (fun p => (p.1.m_ttl, p.2))
      = [(57, 10)] := by
  decide

/-- The inter-cell copy of `handleCHAnnouncementPacket` has hop count `h + 1` and
TTL `t - 1`; for `h = 1` its path is the received one with slot 2 overwritten, for
`h = 2` the received one unchanged. -/
theorem interCellCopy_cellPath (st : State) (header : PeceeHeader) (c g : Int) :
    (interCellCopy st header c g).m_cellHopCount = header.m_cellHopCount + 1 ∧
    (interCellCopy st header c g).m_ttl = header.m_ttl - 1 ∧
    (header.m_cellHopCount = 1 →
      (interCellCopy st header c g).m_cellPath = header.m_cellPath.set 2 st.myCellId) ∧
    (header.m_cellHopCount = 2 →
      (interCellCopy st header c g).m_cellPath = header.m_cellPath) := by
  refine ⟨?_, ?_, ?_, ?_⟩
  · unfold interCellCopy PeceeHeader.SetCellPath
    simp only
    split_ifs <;> rfl
  · unfold interCellCopy PeceeHeader.SetCellPath
    simp only
  · intro h
    unfold interCellCopy PeceeHeader.SetCellPath
    simp [h]
  · intro h
    unfold interCellCopy PeceeHeader.SetCellPath
    simp [h]

theorem rescheduleQueue_sent (st : State) : (rescheduleQueue st).sent = st.sent := by
  unfold rescheduleQueue ScheduleTimer
  split_ifs <;> rfl

theorem rescheduleQueue_queue (st : State) :
    (rescheduleQueue st).announcementQueue = st.announcementQueue := by
  unfold rescheduleQueue ScheduleTimer
  split_ifs <;> rfl

theorem touchRoutingEntry_sent (st : State) (n c : Int) :
    (touchRoutingEntry st n c).sent = st.sent := by
  unfold touchRoutingEntry
  split <;> rfl

theorem touchRoutingEntry_queue (st : State) (n c : Int) :
    (touchRoutingEntry st n c).announcementQueue = st.announcementQueue := by
  unfold touchRoutingEntry
  split <;> rfl

theorem touchRoutingEntry_self (st : State) (n c : Int) :
    (touchRoutingEntry st n c).self = st.self := by
  unfold touchRoutingEntry
  split <;> rfl

theorem touchRoutingEntry_nodes (st : State) (n c : Int) :
    (touchRoutingEntry st n c).g_ssNodesDataList = st.g_ssNodesDataList := by
  unfold touchRoutingEntry
  split <;> rfl

theorem sendIfInRange_queue (st : State) (header : PeceeHeader) (nextHopId : Int) :
    (sendIfInRange st header nextHopId).announcementQueue = st.announcementQueue := by
  unfold sendIfInRange
  split_ifs <;> simp only [rescheduleQueue_queue, SendPacket]

theorem sendIfInRange_sent (st : State) (header : PeceeHeader) (nextHopId : Int) :
    (sendIfInRange st header nextHopId).sent =
      if nextHopId ≠ -1 ∧ nextHopId ≠ st.self ∧
          nextHopId ∈ (getNodeData st st.self).neighbors then
        st.sent ++ [(header, toU16 nextHopId)]
      else st.sent := by
  unfold sendIfInRange
  by_cases h1 : nextHopId = -1
  · simp [h1, rescheduleQueue_sent]
  · by_cases h2 : nextHopId = st.self
    · simp [h1, h2, rescheduleQueue_sent]
    · by_cases h3 : nextHopId ∈ (getNodeData st st.self).neighbors
      · simp [h1, h2, h3, rescheduleQueue_sent, SendPacket]
      · simp [h1, h2, h3, rescheduleQueue_sent]

/-- C13. `sendAnnouncementQueue` on a non-empty queue removes the front element
and hands it to `SendPacket` exactly when its TTL after the decrement is positive
and the chosen next hop (routing entry toward another cell, front of the broadcast
queue for the own cell) is not `-1`, not the node itself and in the node's
neighbour list; the packet sent carries the decremented TTL.  In every other case
nothing is transmitted and the element is gone from the queue all the same. -/
theorem sendAnnouncementQueue_sends_only_checked (st : State) (pkt : PeceeHeader)
    (nextCellId : Int) (rest : List (PeceeHeader × Int))
    (hq : st.announcementQueue = (pkt, nextCellId) :: rest) :
    (sendAnnouncementQueue st).announcementQueue = rest ∧
    (sendAnnouncementQueue st).sent =
      match chosenNextHop st nextCellId with
      | some nextHop =>
          if 0 < pkt.wire.m_ttl - 1 ∧ nextHop ≠ -1 ∧ nextHop ≠ st.self ∧
              nextHop ∈ (getNodeData st st.self).neighbors then
            st.sent ++ [({ pkt.wire with m_ttl := pkt.wire.m_ttl - 1 }, toU16 nextHop)]
          else st.sent
      | none => st.sent := by
  unfold sendAnnouncementQueue chosenNextHop
  rw [hq]
  simp only
  by_cases ht : pkt.wire.m_ttl - 1 ≤ 0
  · have ht2 : ¬ (0 < pkt.wire.m_ttl - 1) := not_lt.mpr ht
    simp only [ht, if_true, rescheduleQueue_sent, rescheduleQueue_queue, ht2, false_and, if_false]
    refine ⟨trivial, ?_⟩
    split <;> rfl
  · have ht2 : 0 < pkt.wire.m_ttl - 1 := not_le.mp ht
    simp only [ht, if_false, ht2, true_and]
    by_cases hc : nextCellId = st.myCellId
    · simp only [hc, ne_eq, not_true_eq_false, if_false]
      cases hb : st.boardcastAnnouncementQueue with
      | nil => simp [rescheduleQueue_sent, rescheduleQueue_queue]
      | cons nextHop targets =>
          simp only [List.head?_cons, sendIfInRange_queue, sendIfInRange_sent]
          exact ⟨trivial, rfl⟩
    · simp only [ne_eq, hc, not_false_eq_true, if_true]
      have hg : getNodeData (touchRoutingEntry { st with announcementQueue := rest } st.self
          nextCellId) st.self = getNodeData st st.self := by
        unfold getNodeData
        rw [touchRoutingEntry_nodes]
      have hr : routingEntry { st with announcementQueue := rest } st.self nextCellId
          = routingEntry st st.self nextCellId := rfl
      rw [hr]
      by_cases hn : routingEntry st st.self nextCellId = -1
      · simp [hn, rescheduleQueue_sent, rescheduleQueue_queue, touchRoutingEntry_sent,
          touchRoutingEntry_queue]
      · simp only [hn, if_false, sendIfInRange_queue, sendIfInRange_sent,
          touchRoutingEntry_queue, touchRoutingEntry_sent, touchRoutingEntry_self, hg, true_and]
        simp [hn]

theorem sendAnnouncementQueue_empty (st : State) (hq : st.announcementQueue = []) :
    sendAnnouncementQueue st = st := by
  unfold sendAnnouncementQueue
  rw [hq]

theorem sendAnnouncementQueue_sends_only_checked_witness :
    (sendCHAnnouncement relayCH).announcementQueue = [(chAnnouncementHeader relayCH 8, 8)] ∧
    (sendAnnouncementQueue (sendCHAnnouncement relayCH)).announcementQueue = [] ∧
    (sendAnnouncementQueue (sendCHAnnouncement relayCH)).sent =
      match chosenNextHop (sendCHAnnouncement relayCH) 8 with
      | some nextHop =>
          if 0 < (chAnnouncementHeader relayCH 8).wire.m_ttl - 1 ∧ nextHop ≠ -1 ∧
              nextHop ≠ (sendCHAnnouncement relayCH).self ∧
              nextHop ∈ (getNodeData (sendCHAnnouncement relayCH)
                (sendCHAnnouncement relayCH).self).neighbors then
            (sendCHAnnouncement relayCH).sent ++
              [({ (chAnnouncementHeader relayCH 8).wire with
                    m_ttl := (chAnnouncementHeader relayCH 8).wire.m_ttl - 1 }, toU16 nextHop)]
          else (sendCHAnnouncement relayCH).sent
      | none => (sendCHAnnouncement relayCH).sent :=
  ⟨by decide,
   sendAnnouncementQueue_sends_only_checked (sendCHAnnouncement relayCH)
     (chAnnouncementHeader relayCH 8) 8 [] (by decide)⟩

/-- The parts of a state that `chAnnouncementHeader` reads. -/
theorem chAnnouncementHeader_congr (s t : State) (h1 : s.self = t.self)
    (h2 : s.myCellId = t.myCellId) (h3 : s.maxHopCount = t.maxHopCount) (c : Int) :
    chAnnouncementHeader s c = chAnnouncementHeader t c := by
  unfold chAnnouncementHeader
  rw [h1, h2, h3]

theorem chAnnouncementHeader_fields (st : State) (c : Int) :
    (chAnnouncementHeader st c).m_cellHopCount = 1 ∧
    (chAnnouncementHeader st c).m_ttl = st.maxHopCount ∧
    (chAnnouncementHeader st c).m_cellPath = [st.myCellId, -1, -1] ∧
    (chAnnouncementHeader st c).m_cellNext = c ∧
    (chAnnouncementHeader st c).chId = st.self := by
  refine ⟨rfl, rfl, ?_, rfl, rfl⟩
  simp [chAnnouncementHeader, PeceeHeader.SetCellPath, PeceeHeader.default]

theorem interCell_fold (l : List Int) (s : State) :
    let r := l.foldl
      (fun (s : State) neighborCellId =>
        { s with announcementQueue :=
            s.announcementQueue ++ [(chAnnouncementHeader s neighborCellId, neighborCellId)] })
      s
    r.announcementQueue = s.announcementQueue ++ l.map (fun c => (chAnnouncementHeader s c, c)) ∧
    r.boardcastAnnouncementQueue = s.boardcastAnnouncementQueue ∧
    r.self = s.self ∧ r.myCellId = s.myCellId ∧ r.maxHopCount = s.maxHopCount := by
  induction l generalizing s with
  | nil => simp
  | cons c l ih =>
      simp only [List.foldl_cons, List.map_cons]
      obtain ⟨h1, h2, h3, h4, h5⟩ := ih
        { s with announcementQueue :=
            s.announcementQueue ++ [(chAnnouncementHeader s c, c)] }
      refine ⟨?_, h2, h3, h4, h5⟩
      rw [h1]
      simp only [List.append_assoc, List.singleton_append]
      congr 2

theorem intraCell_fold (l : List Int) (s : State) :
    let r := l.foldl
      (fun (s : State) memberId =>
        if memberId ≠ s.self then
          { s with
            boardcastAnnouncementQueue := s.boardcastAnnouncementQueue ++ [memberId]
            announcementQueue :=
              s.announcementQueue ++ [(chAnnouncementHeader s s.myCellId, s.myCellId)] }
        else s)
      s
    r.announcementQueue = s.announcementQueue ++
      (l.filter (fun m => decide (m ≠ s.self))).map
        (fun _ => (chAnnouncementHeader s s.myCellId, s.myCellId)) ∧
    r.boardcastAnnouncementQueue = s.boardcastAnnouncementQueue ++
      l.filter (fun m => decide (m ≠ s.self)) ∧
    r.self = s.self ∧ r.myCellId = s.myCellId ∧ r.maxHopCount = s.maxHopCount := by
  induction l generalizing s with
  | nil => simp
  | cons m l ih =>
      simp only [List.foldl_cons]
      by_cases hm : m = s.self
      · simp only [hm, ne_eq, not_true_eq_false, if_false, List.filter_cons, decide_False]
        simpa using ih s
      · obtain ⟨h1, h2, h3, h4, h5⟩ := ih
          { s with
            boardcastAnnouncementQueue := s.boardcastAnnouncementQueue ++ [m]
            announcementQueue :=
              s.announcementQueue ++ [(chAnnouncementHeader s s.myCellId, s.myCellId)] }
        simp only [ne_eq, hm, not_false_eq_true, if_true, List.filter_cons, decide_True,
          List.map_cons]
        refine ⟨?_, ?_, h3, h4, h5⟩
        · rw [h1]
          simp only [List.append_assoc, List.singleton_append]
          rfl
        · rw [h2]
          simp only [List.append_assoc, List.singleton_append]

theorem selectClusterHead_queues (st : State) :
    (selectClusterHead st).announcementQueue = st.announcementQueue ∧
    (selectClusterHead st).boardcastAnnouncementQueue = st.boardcastAnnouncementQueue := by
  unfold selectClusterHead ScheduleTimer
  simp only
  split_ifs <;> exact ⟨rfl, rfl⟩

/-- What `sendCHAnnouncement` of a cluster head queues: one copy per adjacent cell
and one copy per member other than itself, every copy built by
`chAnnouncementHeader` (hop count 1, TTL `maxHopCount`, path `[myCellId]`). -/
theorem sendCHAnnouncement_queue (st : State) (hCH : st.isCH = true)
    (hm : (getCellData st st.myCellId).members ≠ []) :
    (sendCHAnnouncement st).announcementQueue =
      st.announcementQueue ++
      (getCellData st st.myCellId).neighbors.map (fun c => (chAnnouncementHeader st c, c)) ++
      ((getCellData st st.myCellId).members.filter (fun m => decide (m ≠ st.self))).map
        (fun _ => (chAnnouncementHeader st st.myCellId, st.myCellId)) ∧
    (sendCHAnnouncement st).boardcastAnnouncementQueue =
      st.boardcastAnnouncementQueue ++
      (getCellData st st.myCellId).members.filter (fun m => decide (m ≠ st.self)) := by
  have hm2 : (getCellData st st.myCellId).members.isEmpty = false := by
    cases h : (getCellData st st.myCellId).members with
    | nil => exact absurd h hm
    | cons a l => rfl
  unfold sendCHAnnouncement
  rw [if_neg (not_not.mpr hCH)]
  simp only [hm2, Bool.false_eq_true, if_false]
  have hq := selectClusterHead_queues
  simp only [ScheduleTimer, hq]
  obtain ⟨a1, a2, a3, a4, a5⟩ := interCell_fold (getCellData st st.myCellId).neighbors
    { st with
      myCHId := st.self
      myCellPathToCH := Function.update st.myCellPathToCH 0 st.myCellId }
  obtain ⟨b1, b2, b3, b4, b5⟩ := intraCell_fold (getCellData st st.myCellId).members
    ((getCellData st st.myCellId).neighbors.foldl
      (fun (s : State) neighborCellId =>
        { s with announcementQueue :=
            s.announcementQueue ++ [(chAnnouncementHeader s neighborCellId, neighborCellId)] })
      { st with
        myCHId := st.self
        myCellPathToCH := Function.update st.myCellPathToCH 0 st.myCellId })
  simp only at a1 a2 a3 a4 a5 b1 b2 b3 b4 b5
  refine ⟨?_, ?_⟩
  · rw [b1, a1, a3, a4]
    rw [chAnnouncementHeader_congr _ st a3 a4 a5]
    rfl
  · rw [b2, a2, a3]

theorem sendCHAnnouncement_nonCH (st : State) (h : st.isCH = false) :
    sendCHAnnouncement st = st := by
  unfold sendCHAnnouncement
  simp [h]

/-- C14. `sendCHAnnouncement` of cluster head 3 (cell 7 with members 3 and 5,
adjacent to cell 8) queues one copy toward cell 8 and one copy for member 5, both
with hop count 1, TTL 60 and `cellPath = [7, -1, -1]`: the intra-cell copy carries
hop count 1, while the notification a cell leader builds for a member carries 0. -/
theorem sendCHAnnouncement_intra_copy_hop_count :
    (sendCHAnnouncement sampleCH).announcementQueue.map
        (fun c => (c.1.m_cellHopCount, c.1.m_ttl, c.1.m_cellPath, c.2))
      = [(1, 60, [7, -1, -1], 8), (1, 60, [7, -1, -1], 7)] ∧
    (sendCHAnnouncement sampleCH).boardcastAnnouncementQueue = [5] ∧
    (memberHeader sampleCH 5).m_cellHopCount = 0 := by
  decide

theorem sensorDataDecision_forward_ttl (st : State) (header fwdHeader : PeceeHeader)
    (nextHop : Int) (h : sensorDataDecision st header = SensorOutcome.forward fwdHeader nextHop) :
    0 < header.m_ttl ∧ fwdHeader.m_ttl = header.m_ttl - 1 := by
  unfold sensorDataDecision at h
  simp only at h
  split_ifs at h with h1 h2
  split at h
  · exact absurd h (by simp)
  · split_ifs at h with h3
    injection h with h4 h5
    subst h4
    exact ⟨not_le.mp h2, rfl⟩

theorem wire_ttl_le (h : PeceeHeader) (h0 : 0 ≤ h.m_ttl) :
    h.wire.m_ttl.toNat ≤ h.m_ttl.toNat := by
  have : h.wire.m_ttl = h.m_ttl % 65536 := rfl
  rw [this]
  omega

theorem forwardCount_le (route : List State) (header : PeceeHeader) :
    forwardCount route header ≤ header.m_ttl.toNat := by
  induction route generalizing header with
  | nil => simp [forwardCount]
  | cons st route ih =>
      unfold forwardCount
      split
      · rename_i fwdHeader nextHop hd
        obtain ⟨h1, h2⟩ := sensorDataDecision_forward_ttl st header fwdHeader nextHop hd
        have h3 := ih fwdHeader.wire
        have h4 := wire_ttl_le fwdHeader (by omega)
        omega
      · exact Nat.zero_le _

/-- C19. `handleSensorDataPacket` decides in this order: a packet for the node's
own cell is delivered and nothing is sent, whatever its TTL; otherwise a packet with
`ttl ≤ 0` is dropped; otherwise it is dropped when the routing table has no entry
for `(self, target cell)` or the entry is `-1` or the node itself; otherwise exactly
one packet is handed to `SendPacket`, addressed to the entry (as `uint16_t`), whose
header is the received one with TTL `ttl - 1`.  Along any sequence of nodes the
packet is forwarded at most `ttl` times. -/
theorem handleSensorDataPacket_decides (st : State) (header : PeceeHeader) :
    (header.m_cellDestination = st.myCellId →
      sensorDataDecision st header = SensorOutcome.delivered ∧
      handleSensorDataPacket st header = st) ∧
    (header.m_cellDestination ≠ st.myCellId → header.m_ttl ≤ 0 →
      sensorDataDecision st header = SensorOutcome.ttlExpired ∧
      handleSensorDataPacket st header = st) ∧
    (header.m_cellDestination ≠ st.myCellId → 0 < header.m_ttl →
      (st.g_ssRoutingTable st.self header.m_cellDestination = none ∨
       st.g_ssRoutingTable st.self header.m_cellDestination = some (-1) ∨
       st.g_ssRoutingTable st.self header.m_cellDestination = some st.self) →
      (sensorDataDecision st header = SensorOutcome.noRoute ∨
       sensorDataDecision st header = SensorOutcome.noNextHop) ∧
      handleSensorDataPacket st header = st) ∧
    (∀ nextHop : Int, header.m_cellDestination ≠ st.myCellId → 0 < header.m_ttl →
      st.g_ssRoutingTable st.self header.m_cellDestination = some nextHop →
      nextHop ≠ -1 → nextHop ≠ st.self →
      (handleSensorDataPacket st header).sent =
        st.sent ++ [({ header with m_ttl := header.m_ttl - 1 }, toU16 nextHop)]) ∧
    (∀ route : List State, forwardCount route header ≤ header.m_ttl.toNat) := by
  refine ⟨?_, ?_, ?_, ?_, fun route => forwardCount_le route header⟩
  · intro hd
    have h1 : sensorDataDecision st header = SensorOutcome.delivered := by
      unfold sensorDataDecision
      simp only [hd, if_true]
    refine ⟨h1, ?_⟩
    unfold handleSensorDataPacket
    rw [h1]
  · intro hd ht
    have h1 : sensorDataDecision st header = SensorOutcome.ttlExpired := by
      unfold sensorDataDecision
      simp only [hd, if_false, ht, if_true]
    refine ⟨h1, ?_⟩
    unfold handleSensorDataPacket
    rw [h1]
  · intro hd ht hr
    have ht2 : ¬ header.m_ttl ≤ 0 := not_le.mpr ht
    rcases hr with hr | hr | hr
    · have h1 : sensorDataDecision st header = SensorOutcome.noRoute := by
        unfold sensorDataDecision
        simp only [hd, if_false, ht2, hr]
      refine ⟨Or.inl h1, ?_⟩
      unfold handleSensorDataPacket
      rw [h1]
    · have h1 : sensorDataDecision st header = SensorOutcome.noNextHop := by
        unfold sensorDataDecision
        simp only [hd, if_false, ht2, hr, true_or, if_true]
      refine ⟨Or.inr h1, ?_⟩
      unfold handleSensorDataPacket
      rw [h1]
    · have h1 : sensorDataDecision st header = SensorOutcome.noNextHop := by
        unfold sensorDataDecision
        simp only [hd, if_false, ht2, hr, or_true, if_true]
      refine ⟨Or.inr h1, ?_⟩
      unfold handleSensorDataPacket
      rw [h1]
  · intro nextHop hd ht hr h1 h2
    have ht2 : ¬ header.m_ttl ≤ 0 := not_le.mpr ht
    have h3 : sensorDataDecision st header =
        SensorOutcome.forward { header with m_ttl := header.m_ttl - 1 } nextHop := by
      unfold sensorDataDecision
      simp only [hd, if_false, ht2, hr, h1, h2, or_self]
    unfold handleSensorDataPacket
    rw [h3]
    rfl

theorem handleSensorDataPacket_decides_witness :
    (handleSensorDataPacket relayNode sampleSensorData).sent =
      [({ sampleSensorData with m_ttl := 29 }, 10)] :=
  (handleSensorDataPacket_decides relayNode sampleSensorData).2.2.2.1 10
    (by decide) (by decide) (by decide) (by decide) (by decide)

/-- C20. Nodes 1 and 2 of cell 1 execute `rotationCH` one after the other on the
shared tables, none marked cluster head before; node 1 draws index 0 and node 2
draws index 1.  Afterwards both nodes have their local `isCH` set, while the cell
records `chId = 2` and the node table marks node 2 only. -/
theorem rotationCH_two_local_cluster_heads :
    (rotationEpoch rotationCells rotationNodes
        [(rotationState 1, fun _ => 0), (rotationState 2, fun _ => 1)]).1.map
        (fun s => (s.self, s.isCH, s.myCHId)) = [(1, true, 1), (2, true, 2)] ∧
    (rotationEpoch rotationCells rotationNodes
        [(rotationState 1, fun _ => 0), (rotationState 2, fun _ => 1)]).2.1.map
        (fun c => (c.cellId, c.chId)) = [(1, 2)] ∧
    (rotationEpoch rotationCells rotationNodes
        [(rotationState 1, fun _ => 0), (rotationState 2, fun _ => 1)]).2.2.map
        (fun n => (n.id, n.isCH)) = [(1, false), (2, true)] := by
  decide

end Pecee

namespace Peece

/-! ## Next hop toward the leader -/

/-- The second loop of `CalculateMyNextHop` either leaves `best` as it was, every
same-cell neighbour being at least `best.1` away, or ends on a same-cell neighbour
that is closer than `best.1` and at minimal distance among the same-cell
neighbours. -/
theorem nextHop_fold (sqrtF : ℚ → ℚ) (n : Node) (l : List NeighborRecord) (best : ℚ × Nat) :
    (l.foldl (nextHopStep sqrtF n) best = best ∧
      ∀ nb ∈ l, nb.cellId = n.m_myCellId → best.1 ≤ neighborDistance sqrtF n nb) ∨
    (∃ nb ∈ l, nb.cellId = n.m_myCellId ∧
      l.foldl (nextHopStep sqrtF n) best = (neighborDistance sqrtF n nb, nb.nodeId) ∧
      neighborDistance sqrtF n nb < best.1 ∧
      ∀ nb2 ∈ l, nb2.cellId = n.m_myCellId →
        neighborDistance sqrtF n nb ≤ neighborDistance sqrtF n nb2) := by
  induction l generalizing best with
  | nil => left; simp
  | cons a l ih =>
      simp only [List.foldl_cons]
      by_cases hc : a.cellId = n.m_myCellId ∧ neighborDistance sqrtF n a < best.1
      · have hs : nextHopStep sqrtF n best a = (neighborDistance sqrtF n a, a.nodeId) := by
          unfold nextHopStep
          simp only [hc.1, hc.2, if_true]
        rw [hs]
        rcases ih (neighborDistance sqrtF n a, a.nodeId) with ⟨h1, h2⟩ | ⟨nb, hnb, h1, h2, h3, h4⟩
        · right
          refine ⟨a, List.mem_cons_self _ _, hc.1, h1, hc.2, ?_⟩
          intro nb2 hnb2 hcell
          rcases List.mem_cons.mp hnb2 with rfl | hmem
          · exact le_refl _
          · exact h2 nb2 hmem hcell
        · right
          refine ⟨nb, List.mem_cons_of_mem _ hnb, h1, h2, lt_trans h3 hc.2, ?_⟩
          intro nb2 hnb2 hcell
          rcases List.mem_cons.mp hnb2 with rfl | hmem
          · exact le_of_lt h3
          · exact h4 nb2 hmem hcell
      · have hs : nextHopStep sqrtF n best a = best := by
          unfold nextHopStep
          by_cases h1 : a.cellId = n.m_myCellId
          · have h2 : ¬ neighborDistance sqrtF n a < best.1 := fun h => hc ⟨h1, h⟩
            simp only [h1, h2, if_true, if_false]
          · simp only [h1, if_false]
        rw [hs]
        have ha : a.cellId = n.m_myCellId → best.1 ≤ neighborDistance sqrtF n a := by
          intro h1
          exact not_lt.mp (fun h => hc ⟨h1, h⟩)
        rcases ih best with ⟨h1, h2⟩ | ⟨nb, hnb, h1, h2, h3, h4⟩
        · left
          refine ⟨h1, ?_⟩
          intro nb2 hnb2 hcell
          rcases List.mem_cons.mp hnb2 with rfl | hmem
          · exact ha hcell
          · exact h2 nb2 hmem hcell
        · right
          refine ⟨nb, List.mem_cons_of_mem _ hnb, h1, h2, h3, ?_⟩
          intro nb2 hnb2 hcell
          rcases List.mem_cons.mp hnb2 with rfl | hmem
          · exact le_trans (le_of_lt h3) (ha hcell)
          · exact h4 nb2 hmem hcell

/-- Counterexample to C17 as stated: node 2 of cell 0, not the leader, with leader 9
assigned and not in its neighbour table, has no same-cell neighbour; its only
neighbour, node 7, lies in cell 1.  `CalculateMyNextHop` sets the next hop to
node 7: a node of a different cell, and not the unset value `0xFFFF`. -/
theorem CalculateMyNextHop_leaves_cell :
    sampleStrayNode.m_myChId ≠ sampleStrayNode.nodeId ∧
    sampleStrayNode.m_myChId ≠ 0xFFFF ∧
    (∀ nb ∈ sampleStrayNode.m_neighborTable, nb.cellId ≠ sampleStrayNode.m_myCellId) ∧
    (CalculateMyNextHop sampleSqrt sampleStrayNode).m_myNextHopId = 7 ∧
    (sampleStrayNode.m_neighborTable.map (fun nb => (nb.nodeId, nb.cellId))) = [(7, 1)] := by
  refine ⟨by decide, by decide, by decide, ?_, by decide⟩
  simp [CalculateMyNextHop, sampleStrayNode, Node.init, nextHopStep]

/-- C17 (amended). `CalculateMyNextHop` on a node that is not the leader and has
a leader assigned, with neighbour ids other than `0xFFFF` and same-cell neighbours
closer than `10^9`: the next hop is the leader when the leader is in the neighbour
table; otherwise, when the node has a same-cell neighbour, it is a same-cell
neighbour at minimal distance from the node; and when the node has no same-cell
neighbour it is the first entry of the neighbour table, whatever its cell, and
unset (`0xFFFF`) only when the table is empty. -/
theorem CalculateMyNextHop_chooses (sqrtF : ℚ → ℚ) (n : Node)
    (hself : n.m_myChId ≠ n.nodeId) (hset : n.m_myChId ≠ 0xFFFF)
    (hid : ∀ nb ∈ n.m_neighborTable, nb.nodeId ≠ 0xFFFF)
    (hd : ∀ nb ∈ n.m_neighborTable, nb.cellId = n.m_myCellId →
      neighborDistance sqrtF n nb < 1000000000) :
    ((∃ nb ∈ n.m_neighborTable, nb.nodeId = n.m_myChId) →
      (CalculateMyNextHop sqrtF n).m_myNextHopId = n.m_myChId) ∧
    ((∀ nb ∈ n.m_neighborTable, nb.nodeId ≠ n.m_myChId) →
      (∃ nb ∈ n.m_neighborTable, nb.cellId = n.m_myCellId) →
      ∃ nb ∈ n.m_neighborTable, nb.cellId = n.m_myCellId ∧
        (CalculateMyNextHop sqrtF n).m_myNextHopId = nb.nodeId ∧
        ∀ nb2 ∈ n.m_neighborTable, nb2.cellId = n.m_myCellId →
          neighborDistance sqrtF n nb ≤ neighborDistance sqrtF n nb2) ∧
    ((∀ nb ∈ n.m_neighborTable, nb.nodeId ≠ n.m_myChId) →
      (∀ nb ∈ n.m_neighborTable, nb.cellId ≠ n.m_myCellId) →
      (CalculateMyNextHop sqrtF n).m_myNextHopId =
        match n.m_neighborTable with
        | first :: _ => first.nodeId
        | [] => 0xFFFF) := by
  have hany : (∀ nb ∈ n.m_neighborTable, nb.nodeId ≠ n.m_myChId) →
      n.m_neighborTable.any (fun neighbor => decide (neighbor.nodeId = n.m_myChId)) = false := by
    intro h
    rw [Bool.eq_false_iff]
    intro hc
    obtain ⟨nb, hnb, heq⟩ := List.any_eq_true.mp hc
    exact h nb hnb (of_decide_eq_true heq)
  refine ⟨?_, ?_, ?_⟩
  · rintro ⟨nb, hnb, heq⟩
    have : n.m_neighborTable.any (fun neighbor => decide (neighbor.nodeId = n.m_myChId)) = true :=
      List.any_eq_true.mpr ⟨nb, hnb, decide_eq_true heq⟩
    unfold CalculateMyNextHop
    simp only [hself, hset, if_false, this, if_true]
  · intro hno ⟨nb0, hnb0, hcell0⟩
    rcases nextHop_fold sqrtF n n.m_neighborTable (1000000000, 0xFFFF) with
      ⟨_, h2⟩ | ⟨nb, hnb, h1, h2, _, h4⟩
    · exact absurd (hd nb0 hnb0 hcell0) (not_lt.mpr (h2 nb0 hnb0 hcell0))
    · refine ⟨nb, hnb, h1, ?_, h4⟩
      unfold CalculateMyNextHop
      simp only [hself, hset, if_false, hany hno, Bool.false_eq_true, h2]
      have hne := hid nb hnb
      split
      · simp only [hne, if_false]
      · rfl
  · intro hno hcell
    rcases nextHop_fold sqrtF n n.m_neighborTable (1000000000, 0xFFFF) with
      ⟨h1, _⟩ | ⟨nb, hnb, h1, _, _, _⟩
    · unfold CalculateMyNextHop
      simp only [hself, hset, if_false, hany hno, Bool.false_eq_true, h1]
      cases hT : n.m_neighborTable <;> simp
    · exact absurd h1 (hcell nb hnb)

theorem CalculateMyNextHop_chooses_witness :
    ∃ nb ∈ sampleRoutedNode.m_neighborTable, nb.cellId = sampleRoutedNode.m_myCellId ∧
      (CalculateMyNextHop sampleSqrt sampleRoutedNode).m_myNextHopId = nb.nodeId ∧
      ∀ nb2 ∈ sampleRoutedNode.m_neighborTable, nb2.cellId = sampleRoutedNode.m_myCellId →
        neighborDistance sampleSqrt sampleRoutedNode nb ≤
          neighborDistance sampleSqrt sampleRoutedNode nb2 :=
  (CalculateMyNextHop_chooses sampleSqrt sampleRoutedNode (by decide) (by decide)
    (by decide)
    (by
      intro nb hnb hcell
      simp only [sampleRoutedNode, List.mem_cons, List.mem_singleton, List.not_mem_nil,
        or_false] at hnb
      rcases hnb with rfl | rfl
      · exact absurd hcell (by decide)
      · norm_num [neighborDistance, sampleRoutedNode, Node.init, sampleSqrt])).2.1
    (by decide) ⟨_, List.mem_cons_of_mem _ (List.mem_cons_self _ _), by decide⟩

end Peece

namespace Pecee

/-! ## Gateways and routing tables of `PrecalculateSimulationResults` -/

/-! ### The routing table as a sequence of assignments -/

theorem applyWrites_orPrevious (writes : List RouteWrite) (table : Int → Int → Option Int)
    (node cell : Int) :
    applyWrites table writes node cell = orPrevious (lastWrite writes node cell) (table node cell) := by
  unfold lastWrite
  induction writes generalizing table with
  | nil => rfl
  | cons w ws ih =>
      simp only [applyWrites, List.foldl_cons] at ih ⊢
      rw [ih (routeSet table w), ih (routeSet (fun _ _ => none) w)]
      cases h : List.foldl routeSet (fun _ _ => none) ws node cell with
      | some v => rfl
      | none =>
          simp only [orPrevious, routeSet]
          split_ifs <;> rfl

theorem lastWrite_nil (node cell : Int) : lastWrite [] node cell = none := rfl

theorem lastWrite_append (a b : List RouteWrite) (node cell : Int) :
    lastWrite (a ++ b) node cell = orPrevious (lastWrite b node cell) (lastWrite a node cell) := by
  have h : lastWrite (a ++ b) node cell
      = applyWrites (applyWrites (fun _ _ => none) a) b node cell := by
    unfold lastWrite applyWrites
    rw [List.foldl_append]
  rw [h, applyWrites_orPrevious]
  rfl

theorem lastWrite_singleton (w : RouteWrite) (node cell : Int) :
    lastWrite [w] node cell = if node = w.1 ∧ cell = w.2.1 then some w.2.2 else none := rfl

/-- A block without an assignment to the entry leaves no last value for it. -/
theorem lastWrite_none (writes : List RouteWrite) (node cell : Int)
    (h : ∀ w ∈ writes, ¬ (w.1 = node ∧ w.2.1 = cell)) : lastWrite writes node cell = none := by
  induction writes using List.reverseRecOn with
  | nil => rfl
  | append_singleton ws w ih =>
      rw [lastWrite_append, lastWrite_singleton]
      have hw := h w (by simp)
      have hw2 : ¬ (node = w.1 ∧ cell = w.2.1) := fun hc => hw ⟨hc.1.symm, hc.2.symm⟩
      rw [if_neg hw2]
      simp only [orPrevious]
      exact ih (fun w2 hw2 => h w2 (by simp [hw2]))

/-- When every assignment to the entry writes `x` and there is one, the last value
is `x`. -/
theorem lastWrite_all_eq (writes : List RouteWrite) (node cell x : Int)
    (h : ∀ w ∈ writes, w.1 = node ∧ w.2.1 = cell → w.2.2 = x)
    (hex : ∃ w ∈ writes, w.1 = node ∧ w.2.1 = cell) : lastWrite writes node cell = some x := by
  induction writes using List.reverseRecOn with
  | nil => obtain ⟨w, hw, _⟩ := hex; exact absurd hw (List.not_mem_nil _)
  | append_singleton ws w ih =>
      rw [lastWrite_append, lastWrite_singleton]
      by_cases hk : node = w.1 ∧ cell = w.2.1
      · rw [if_pos hk]
        simp only [orPrevious]
        rw [h w (by simp) ⟨hk.1.symm, hk.2.symm⟩]
      · rw [if_neg hk]
        simp only [orPrevious]
        apply ih (fun w2 hw2 => h w2 (by simp [hw2]))
        obtain ⟨w2, hw2, hkey⟩ := hex
        rcases List.mem_append.mp hw2 with hmem | hmem
        · exact ⟨w2, hmem, hkey⟩
        · rw [List.mem_singleton] at hmem
          subst hmem
          exact absurd ⟨hkey.1.symm, hkey.2.symm⟩ hk

theorem lastWrite_flatMap_none {α : Type} (l : List α) (f : α → List RouteWrite)
    (node cell : Int) (h : ∀ a ∈ l, lastWrite (f a) node cell = none) :
    lastWrite (l.flatMap f) node cell = none := by
  induction l using List.reverseRecOn with
  | nil => rfl
  | append_singleton l a ih =>
      rw [List.flatMap_append, lastWrite_append]
      simp only [List.flatMap_cons, List.flatMap_nil, List.append_nil]
      rw [h a (by simp)]
      simp only [orPrevious]
      exact ih (fun b hb => h b (by simp [hb]))

/-- When the blocks of a loop either do not assign the entry or leave `x` there, and
one block leaves `x`, the loop leaves `x`. -/
theorem lastWrite_flatMap_some {α : Type} (l : List α) (f : α → List RouteWrite)
    (node cell x : Int)
    (h : ∀ a ∈ l, lastWrite (f a) node cell = none ∨ lastWrite (f a) node cell = some x)
    (hex : ∃ a ∈ l, lastWrite (f a) node cell = some x) :
    lastWrite (l.flatMap f) node cell = some x := by
  induction l using List.reverseRecOn with
  | nil => obtain ⟨a, ha, _⟩ := hex; exact absurd ha (List.not_mem_nil _)
  | append_singleton l a ih =>
      rw [List.flatMap_append, lastWrite_append]
      simp only [List.flatMap_cons, List.flatMap_nil, List.append_nil]
      rcases h a (by simp) with hn | hs
      · rw [hn]
        simp only [orPrevious]
        apply ih (fun b hb => h b (by simp [hb]))
        obtain ⟨b, hb, hbx⟩ := hex
        rcases List.mem_append.mp hb with hmem | hmem
        · exact ⟨b, hmem, hbx⟩
        · rw [List.mem_singleton] at hmem
          subst hmem
          rw [hn] at hbx
          exact absurd hbx (by simp)
      · rw [hs]
        rfl

/-! ### The gateway map -/

theorem gatewayGet_set_eq (gw : List (Int × Int)) (k v : Int) :
    gatewayGet (gatewaySet gw k v) k = v := by
  induction gw with
  | nil => simp [gatewaySet, gatewayGet]
  | cons p rest ih =>
      obtain ⟨k1, v1⟩ := p
      unfold gatewaySet
      by_cases h : k1 = k
      · simp [h, gatewayGet]
      · simp only [h, if_false]
        unfold gatewayGet at ih ⊢
        simp only [List.find?_cons, h, decide_False]
        exact ih

theorem gatewayGet_set_ne (gw : List (Int × Int)) (k v k2 : Int) (hne : k2 ≠ k) :
    gatewayGet (gatewaySet gw k v) k2 = gatewayGet gw k2 := by
  induction gw with
  | nil =>
      have : ¬ k = k2 := fun h => hne h.symm
      simp [gatewaySet, gatewayGet, this]
  | cons p rest ih =>
      obtain ⟨k1, v1⟩ := p
      unfold gatewaySet
      by_cases h : k1 = k
      · have h2 : ¬ k1 = k2 := fun hc => hne (hc.symm.trans h)
        have h3 : ¬ k = k2 := fun hc => hne hc.symm
        simp [h, gatewayGet, h3]
      · simp only [h, if_false]
        unfold gatewayGet at ih ⊢
        simp only [List.find?_cons]
        by_cases h2 : k1 = k2
        · simp [h2]
        · simp only [h2, decide_False]
          exact ih


/-! ### The two searches -/

/-- The gateway search over a non-empty list of links shorter than 9999: the
distance found is the minimum; the pair found belongs to a link less than `1e-6`
longer than the minimum; and its first node has an id not above that of any link
of minimal length. -/
theorem linkStep_fold (links : List (ℚ × Int × Int)) (hne : links ≠ [])
    (hlt : ∀ l ∈ links, l.1 < 9999) :
    (∀ l ∈ links, (links.foldl linkStep (9999, -1, -1)).1 ≤ l.1) ∧
    (∃ l ∈ links, l.1 = (links.foldl linkStep (9999, -1, -1)).1) ∧
    (∃ l ∈ links, l.2 = (links.foldl linkStep (9999, -1, -1)).2 ∧
      l.1 < (links.foldl linkStep (9999, -1, -1)).1 + 1 / 1000000) ∧
    (∀ l ∈ links, l.1 = (links.foldl linkStep (9999, -1, -1)).1 →
      (links.foldl linkStep (9999, -1, -1)).2.1 ≤ l.2.1) := by
  induction links using List.reverseRecOn with
  | nil => exact absurd rfl hne
  | append_singleton P a ih =>
      rw [List.foldl_append]
      simp only [List.foldl_cons, List.foldl_nil]
      by_cases hP : P = []
      · subst hP
        have ha : a.1 < 9999 := hlt a (by simp)
        have hs : linkStep (9999, -1, -1) a = a := by
          unfold linkStep
          simp only [ha, if_true]
        simp only [List.foldl_nil, hs, List.nil_append, List.mem_singleton]
        refine ⟨?_, ⟨a, rfl, rfl⟩, ⟨a, rfl, rfl, by linarith⟩, ?_⟩
        · rintro l rfl; exact le_refl _
        · rintro l rfl _; exact le_refl _
      · obtain ⟨h1, ⟨lm, hlm, hlm1⟩, ⟨lc, hlc, hlc2, hlc1⟩, h4⟩ :=
          ih hP (fun l hl => hlt l (by simp [hl]))
        generalize P.foldl linkStep (9999, -1, -1) = r at h1 hlm1 hlc2 hlc1 h4 ⊢
        by_cases c1 : a.1 < r.1
        · have hs : linkStep r a = a := by
            unfold linkStep
            simp only [c1, if_true]
          rw [hs]
          refine ⟨?_, ⟨a, by simp, rfl⟩, ⟨a, by simp, rfl, by linarith⟩, ?_⟩
          · intro l hl
            rcases List.mem_append.mp hl with hm | hm
            · exact le_of_lt (lt_of_lt_of_le c1 (h1 l hm))
            · rw [List.mem_singleton] at hm; subst hm; exact le_refl _
          · intro l hl heq
            rcases List.mem_append.mp hl with hm | hm
            · have := h1 l hm
              rw [heq] at this
              exact absurd c1 (not_lt.mpr this)
            · rw [List.mem_singleton] at hm; subst hm; exact le_refl _
        · have c1le : r.1 ≤ a.1 := not_lt.mp c1
          by_cases c2 : |a.1 - r.1| < 1 / 1000000
          · by_cases c3 : a.2.1 < r.2.1
            · have hs : linkStep r a = (r.1, a.2.1, a.2.2) := by
                unfold linkStep
                simp only [c1, if_false, c2, if_true, c3]
              rw [hs]
              refine ⟨?_, ⟨lm, by simp [hlm], hlm1⟩, ⟨a, by simp, rfl, ?_⟩, ?_⟩
              · intro l hl
                rcases List.mem_append.mp hl with hm | hm
                · exact h1 l hm
                · rw [List.mem_singleton] at hm; subst hm; exact c1le
              · have := (abs_lt.mp c2).2
                show a.1 < r.1 + 1 / 1000000
                linarith
              · intro l hl heq
                rcases List.mem_append.mp hl with hm | hm
                · exact le_of_lt (lt_of_lt_of_le c3 (h4 l hm heq))
                · rw [List.mem_singleton] at hm; subst hm; exact le_refl _
            · have hs : linkStep r a = r := by
                unfold linkStep
                simp only [c1, if_false, c2, if_true, c3]
              rw [hs]
              refine ⟨?_, ⟨lm, by simp [hlm], hlm1⟩, ⟨lc, by simp [hlc], hlc2, hlc1⟩, ?_⟩
              · intro l hl
                rcases List.mem_append.mp hl with hm | hm
                · exact h1 l hm
                · rw [List.mem_singleton] at hm; subst hm; exact c1le
              · intro l hl heq
                rcases List.mem_append.mp hl with hm | hm
                · exact h4 l hm heq
                · rw [List.mem_singleton] at hm; subst hm; exact not_lt.mp c3
          · have hs : linkStep r a = r := by
              unfold linkStep
              simp only [c1, if_false, c2]
            rw [hs]
            refine ⟨?_, ⟨lm, by simp [hlm], hlm1⟩, ⟨lc, by simp [hlc], hlc2, hlc1⟩, ?_⟩
            · intro l hl
              rcases List.mem_append.mp hl with hm | hm
              · exact h1 l hm
              · rw [List.mem_singleton] at hm; subst hm; exact c1le
            · intro l hl heq
              rcases List.mem_append.mp hl with hm | hm
              · exact h4 l hm heq
              · rw [List.mem_singleton] at hm; subst hm
                rw [heq] at c2
                simp at c2

/-- The two-hop search over candidates with sums below 9999: without a candidate
the result is `(9999, -1)`; otherwise it is a candidate with minimal sum, and the
lowest id among the candidates with that sum. -/
theorem twoHopStep_fold (cands : List (ℚ × Int)) (hlt : ∀ c ∈ cands, c.1 < 9999) :
    (cands = [] → cands.foldl twoHopStep (9999, -1) = (9999, -1)) ∧
    (cands ≠ [] →
      cands.foldl twoHopStep (9999, -1) ∈ cands ∧
      ∀ c ∈ cands, (cands.foldl twoHopStep (9999, -1)).1 ≤ c.1 ∧
        (c.1 = (cands.foldl twoHopStep (9999, -1)).1 →
          (cands.foldl twoHopStep (9999, -1)).2 ≤ c.2)) := by
  induction cands using List.reverseRecOn with
  | nil => exact ⟨fun _ => rfl, fun h => absurd rfl h⟩
  | append_singleton P a ih =>
      refine ⟨fun h => absurd h (by simp), fun _ => ?_⟩
      rw [List.foldl_append]
      simp only [List.foldl_cons, List.foldl_nil]
      obtain ⟨ih0, ih1⟩ := ih (fun c hc => hlt c (by simp [hc]))
      by_cases hP : P = []
      · subst hP
        have ha : a.1 < 9999 := hlt a (by simp)
        have hs : twoHopStep (9999, -1) a = a := by
          unfold twoHopStep
          simp only [ha, if_true]
        simp only [List.foldl_nil, hs, List.nil_append, List.mem_singleton, true_and]
        rintro c rfl
        exact ⟨le_refl _, fun _ => le_refl _⟩
      · obtain ⟨hmem, hmin⟩ := ih1 hP
        generalize P.foldl twoHopStep (9999, -1) = r at hmem hmin ⊢
        by_cases c1 : a.1 < r.1
        · have hs : twoHopStep r a = a := by
            unfold twoHopStep
            simp only [c1, if_true]
          rw [hs]
          refine ⟨by simp, ?_⟩
          intro c hc
          rcases List.mem_append.mp hc with hm | hm
          · have := (hmin c hm).1
            exact ⟨le_of_lt (lt_of_lt_of_le c1 this), fun heq => by
              rw [heq] at this; exact absurd c1 (not_lt.mpr this)⟩
          · rw [List.mem_singleton] at hm; subst hm
            exact ⟨le_refl _, fun _ => le_refl _⟩
        · have c1le : r.1 ≤ a.1 := not_lt.mp c1
          by_cases c2 : a.1 = r.1
          · by_cases c3 : a.2 < r.2
            · have hs : twoHopStep r a = a := by
                unfold twoHopStep
                rw [if_neg c1, if_pos c2, if_pos c3, ← c2]
              rw [hs]
              refine ⟨by simp, ?_⟩
              intro c hc
              rcases List.mem_append.mp hc with hm | hm
              · have := hmin c hm
                refine ⟨by rw [c2]; exact this.1, fun heq => ?_⟩
                exact le_of_lt (lt_of_lt_of_le c3 (this.2 (by rw [heq, c2])))
              · rw [List.mem_singleton] at hm; subst hm
                exact ⟨le_refl _, fun _ => le_refl _⟩
            · have hs : twoHopStep r a = r := by
                unfold twoHopStep
                rw [if_neg c1, if_pos c2, if_neg c3]
              rw [hs]
              refine ⟨by simp [hmem], ?_⟩
              intro c hc
              rcases List.mem_append.mp hc with hm | hm
              · exact hmin c hm
              · rw [List.mem_singleton] at hm; subst hm
                exact ⟨c1le, fun _ => not_lt.mp c3⟩
          · have hs : twoHopStep r a = r := by
              unfold twoHopStep
              rw [if_neg c1, if_neg c2]
            rw [hs]
            refine ⟨by simp [hmem], ?_⟩
            intro c hc
            rcases List.mem_append.mp hc with hm | hm
            · exact hmin c hm
            · rw [List.mem_singleton] at hm; subst hm
              exact ⟨c1le, fun heq => absurd heq c2⟩


/-! ### Looking up nodes -/

theorem find_node_of_mem (N : List PeceeNodeData) (hnd : (N.map (fun n => n.id)).Nodup)
    (n : PeceeNodeData) (hn : n ∈ N) :
    N.find? (fun m => decide (m.id = n.id)) = some n := by
  induction N with
  | nil => exact absurd hn (List.not_mem_nil _)
  | cons a N ih =>
      rw [List.map_cons, List.nodup_cons] at hnd
      rcases List.mem_cons.mp hn with rfl | hmem
      · simp
      · have hne : a.id ≠ n.id := by
          intro h
          apply hnd.1
          rw [h]
          exact List.mem_map_of_mem _ hmem
        simp only [List.find?_cons, hne, decide_False]
        exact ih hnd.2 hmem

theorem getNodeData_of_mem (st : State)
    (hnd : (st.g_ssNodesDataList.map (fun n => n.id)).Nodup)
    (n : PeceeNodeData) (hn : n ∈ st.g_ssNodesDataList) : getNodeData st n.id = n := by
  unfold getNodeData
  rw [find_node_of_mem _ hnd n hn]

theorem getNodeData_congr (s t : State) (h : s.g_ssNodesDataList = t.g_ssNodesDataList)
    (i : Int) : getNodeData s i = getNodeData t i := by
  unfold getNodeData
  rw [h]

/-! ### The gateway stage -/

theorem mem_cellLinks (sqrtF : ℚ → ℚ) (st : State) (A B : Int) (l : ℚ × Int × Int) :
    l ∈ cellLinks sqrtF st A B ↔
      ∃ u ∈ st.g_ssNodesDataList, u.cellId = A ∧ ∃ i ∈ u.neighbors,
        (getNodeData st i).cellId = B ∧
        l = (linkLength sqrtF u (getNodeData st i), u.id, (getNodeData st i).id) := by
  unfold cellLinks
  simp only [List.mem_flatMap, List.mem_filter, List.mem_map, decide_eq_true_eq]
  constructor
  · rintro ⟨u, ⟨hu, hA⟩, v, ⟨⟨i, hi, rfl⟩, hB⟩, rfl⟩
    exact ⟨u, hu, hA, i, hi, hB, rfl⟩
  · rintro ⟨u, hu, hA, i, hi, hB, rfl⟩
    exact ⟨u, ⟨hu, hA⟩, getNodeData st i, ⟨⟨i, hi, rfl⟩, hB⟩, rfl⟩

/-- In a surveyed state the links of the search are the pairs of a node of the
cell and a neighbour of it in the neighbour cell. -/
theorem mem_cellLinks_surveyed (sqrtF : ℚ → ℚ) (st : State) (hs : Surveyed sqrtF st)
    (A B : Int) (l : ℚ × Int × Int) :
    l ∈ cellLinks sqrtF st A B ↔
      ∃ u ∈ st.g_ssNodesDataList, ∃ v ∈ st.g_ssNodesDataList,
        u.cellId = A ∧ v.id ∈ u.neighbors ∧ v.cellId = B ∧
        l = (linkLength sqrtF u v, u.id, v.id) := by
  rw [mem_cellLinks]
  constructor
  · rintro ⟨u, hu, hA, i, hi, hB, rfl⟩
    obtain ⟨o, ho, hoi, _⟩ := hs.neighbor_node u hu i hi
    have hg : getNodeData st i = o := by
      rw [← hoi]; exact getNodeData_of_mem st hs.ids_nodup o ho
    rw [hg] at hB ⊢
    exact ⟨u, hu, o, ho, hA, by rw [hoi]; exact hi, hB, rfl⟩
  · rintro ⟨u, hu, v, hv, hA, hi, hB, rfl⟩
    have hg : getNodeData st v.id = v := getNodeData_of_mem st hs.ids_nodup v hv
    exact ⟨u, hu, hA, v.id, hi, by rw [hg]; exact hB, by rw [hg]⟩

/-- The neighbour loop of the gateway stage for one cell. -/
theorem gatewayStep_fold (sqrtF : ℚ → ℚ) (st : State) (cellId : Int) (l : List Int)
    (acc : List (Int × Int) × List RouteWrite) (hnd : l.Nodup)
    (hunset : ∀ B ∈ l, gatewayGet acc.1 B = -1) :
    (l.foldl (gatewayStep sqrtF st cellId) acc).2 =
      acc.2 ++ l.flatMap (gatewayWrites sqrtF st cellId) ∧
    (∀ B ∈ l, gatewayGet (l.foldl (gatewayStep sqrtF st cellId) acc).1 B =
      chosenGateway sqrtF st cellId B) ∧
    (∀ B, B ∉ l → gatewayGet (l.foldl (gatewayStep sqrtF st cellId) acc).1 B =
      gatewayGet acc.1 B) := by
  induction l generalizing acc with
  | nil => simp
  | cons B l ih =>
      rw [List.nodup_cons] at hnd
      have hB : gatewayGet acc.1 B = -1 := hunset B (List.mem_cons_self _ _)
      have hstep1 : gatewayGet (gatewayStep sqrtF st cellId acc B).1 B
          = chosenGateway sqrtF st cellId B := by
        unfold gatewayStep chosenGateway
        simp only [hB, decide_True, if_true, true_and]
        split_ifs with hc
        · exact gatewayGet_set_eq _ _ _
        · exact hB
      have hstep2 : ∀ B2, B2 ≠ B → gatewayGet (gatewayStep sqrtF st cellId acc B).1 B2
          = gatewayGet acc.1 B2 := by
        intro B2 hne
        unfold gatewayStep
        simp only [hB, decide_True, if_true, true_and]
        split_ifs with hc
        · exact gatewayGet_set_ne _ _ _ _ hne
        · rfl
      have hstep3 : (gatewayStep sqrtF st cellId acc B).2
          = acc.2 ++ gatewayWrites sqrtF st cellId B := by
        have h1 := hstep1
        unfold gatewayStep at h1 ⊢
        unfold gatewayWrites
        simp only [hB, decide_True, if_true, true_and] at h1 ⊢
        rw [h1]
      obtain ⟨h1, h2, h3⟩ := ih (gatewayStep sqrtF st cellId acc B) hnd.2 (by
        intro B2 hB2
        have hne : B2 ≠ B := fun h => hnd.1 (h ▸ hB2)
        rw [hstep2 B2 hne]
        exact hunset B2 (List.mem_cons_of_mem _ hB2))
      simp only [List.foldl_cons, List.flatMap_cons]
      refine ⟨?_, ?_, ?_⟩
      · rw [h1, hstep3, List.append_assoc]
      · intro B2 hB2
        rcases List.mem_cons.mp hB2 with rfl | hmem
        · rw [h3 B2 hnd.1, hstep1]
        · exact h2 B2 hmem
      · intro B2 hB2
        have hne : B2 ≠ B := fun h => hB2 (h ▸ List.mem_cons_self _ _)
        have hnm : B2 ∉ l := fun h => hB2 (List.mem_cons_of_mem _ h)
        rw [h3 B2 hnm, hstep2 B2 hne]


theorem node_eq_of_id (st : State)
    (hnd : (st.g_ssNodesDataList.map (fun n => n.id)).Nodup)
    (a b : PeceeNodeData) (ha : a ∈ st.g_ssNodesDataList) (hb : b ∈ st.g_ssNodesDataList)
    (h : a.id = b.id) : a = b := by
  have h1 := getNodeData_of_mem st hnd a ha
  have h2 := getNodeData_of_mem st hnd b hb
  rw [h] at h1
  exact h1.symm.trans h2

theorem find_cell_of_mem (C : List PeceeCellData) (hnd : (C.map (fun c => c.cellId)).Nodup)
    (c : PeceeCellData) (hc : c ∈ C) :
    C.find? (fun d => decide (d.cellId = c.cellId)) = some c := by
  induction C with
  | nil => exact absurd hc (List.not_mem_nil _)
  | cons a C ih =>
      rw [List.map_cons, List.nodup_cons] at hnd
      rcases List.mem_cons.mp hc with rfl | hmem
      · simp
      · have hne : a.cellId ≠ c.cellId := by
          intro h
          apply hnd.1
          rw [h]
          exact List.mem_map_of_mem _ hmem
        simp only [List.find?_cons, hne, decide_False]
        exact ih hnd.2 hmem

theorem cell_eq_of_id (C : List PeceeCellData) (hnd : (C.map (fun c => c.cellId)).Nodup)
    (a b : PeceeCellData) (ha : a ∈ C) (hb : b ∈ C) (h : a.cellId = b.cellId) : a = b := by
  have h1 := find_cell_of_mem C hnd a ha
  have h2 := find_cell_of_mem C hnd b hb
  rw [h] at h1
  exact Option.some.inj (h1.symm.trans h2)

/-- In a surveyed state with cell radius below 9999 the gateway search for a cell
and a neighbour cell of it finds a link `(u, v)`: `u` is the node chosen, `v` the
second node of the pair found; the link is less than `1e-6` longer than any link
between the two cells, and the id of `u` is not above that of the first node of any
link of minimal length. -/
theorem chosenGateway_spec (sqrtF : ℚ → ℚ) (st : State) (hs : Surveyed sqrtF st)
    (hR : st.cellRadius < 9999) (A : PeceeCellData) (hA : A ∈ st.g_ssCellDataList)
    (B : Int) (hB : B ∈ A.neighbors) :
    ∃ u ∈ st.g_ssNodesDataList, ∃ v ∈ st.g_ssNodesDataList,
      chosenGateway sqrtF st A.cellId B = u.id ∧
      (selectGateway sqrtF st A.cellId B).2.2 = v.id ∧
      u.cellId = A.cellId ∧ v.id ∈ u.neighbors ∧ v.cellId = B ∧
      ∀ u2 ∈ st.g_ssNodesDataList, ∀ v2 ∈ st.g_ssNodesDataList,
        u2.cellId = A.cellId → v2.id ∈ u2.neighbors → v2.cellId = B →
        linkLength sqrtF u v < linkLength sqrtF u2 v2 + 1 / 1000000 ∧
        ((∀ u3 ∈ st.g_ssNodesDataList, ∀ v3 ∈ st.g_ssNodesDataList,
            u3.cellId = A.cellId → v3.id ∈ u3.neighbors → v3.cellId = B →
            linkLength sqrtF u2 v2 ≤ linkLength sqrtF u3 v3) → u.id ≤ u2.id) := by
  have hne : cellLinks sqrtF st A.cellId B ≠ [] := by
    obtain ⟨n, hn, hcell, i, hi, hiB⟩ := hs.neighbor_link A hA B hB
    have : (linkLength sqrtF n (getNodeData st i), n.id, (getNodeData st i).id)
        ∈ cellLinks sqrtF st A.cellId B :=
      (mem_cellLinks sqrtF st A.cellId B _).mpr ⟨n, hn, hcell, i, hi, hiB, rfl⟩
    exact List.ne_nil_of_mem this
  have hlen : ∀ u ∈ st.g_ssNodesDataList, ∀ v ∈ st.g_ssNodesDataList, v.id ∈ u.neighbors →
      linkLength sqrtF u v ≤ st.cellRadius := by
    intro u hu v hv hi
    obtain ⟨o, ho, hoi, hle⟩ := hs.neighbor_node u hu v.id hi
    rw [node_eq_of_id st hs.ids_nodup o v ho hv hoi] at hle
    exact hle
  have hlt : ∀ l ∈ cellLinks sqrtF st A.cellId B, l.1 < 9999 := by
    intro l hl
    obtain ⟨u, hu, v, hv, _, hi, _, rfl⟩ := (mem_cellLinks_surveyed sqrtF st hs _ _ l).mp hl
    exact lt_of_le_of_lt (hlen u hu v hv hi) hR
  obtain ⟨h1, ⟨lm, hlm, hlm1⟩, ⟨lc, hlc, hlc2, hlc1⟩, h4⟩ :=
    linkStep_fold (cellLinks sqrtF st A.cellId B) hne hlt
  obtain ⟨u, hu, v, hv, hcell, hi, hvB, rfl⟩ :=
    (mem_cellLinks_surveyed sqrtF st hs _ _ lc).mp hlc
  have hsel : (selectGateway sqrtF st A.cellId B).2 = (u.id, v.id) := hlc2.symm
  have hsel1 : (selectGateway sqrtF st A.cellId B).2.1 = u.id := by rw [hsel]
  have hsel2 : (selectGateway sqrtF st A.cellId B).2.2 = v.id := by rw [hsel]
  refine ⟨u, hu, v, hv, ?_, hsel2, hcell, hi, hvB, ?_⟩
  · unfold chosenGateway
    rw [hsel1, hsel2]
    simp only [hs.ids_ne u hu, hs.ids_ne v hv, ne_eq, not_false_eq_true, and_self, if_true]
  · intro u2 hu2 v2 hv2 hcell2 hi2 hvB2
    have hl2 : (linkLength sqrtF u2 v2, u2.id, v2.id) ∈ cellLinks sqrtF st A.cellId B :=
      (mem_cellLinks_surveyed sqrtF st hs _ _ _).mpr ⟨u2, hu2, v2, hv2, hcell2, hi2, hvB2, rfl⟩
    refine ⟨?_, ?_⟩
    · have := h1 _ hl2
      have hc : linkLength sqrtF u v <
          ((cellLinks sqrtF st A.cellId B).foldl linkStep (9999, -1, -1)).1 + 1 / 1000000 :=
        hlc1
      simp only at this
      linarith
    · intro hmin
      obtain ⟨u3, hu3, v3, hv3, hcell3, hi3, hvB3, rfl⟩ :=
        (mem_cellLinks_surveyed sqrtF st hs _ _ lm).mp hlm
      have hle := hmin u3 hu3 v3 hv3 hcell3 hi3 hvB3
      have hge := h1 _ hl2
      simp only at hlm1 hge
      have heq : linkLength sqrtF u2 v2 =
          ((cellLinks sqrtF st A.cellId B).foldl linkStep (9999, -1, -1)).1 := by
        apply le_antisymm
        · rw [← hlm1]; exact hle
        · exact hge
      have := h4 _ hl2 heq
      rw [← hsel1]
      exact this


theorem cellGateways_spec (sqrtF : ℚ → ℚ) (st : State) (hs : Surveyed sqrtF st)
    (hun : GatewaysUnset st) (A : PeceeCellData) (hA : A ∈ st.g_ssCellDataList) :
    (cellGateways sqrtF st A).2 = A.neighbors.flatMap (gatewayWrites sqrtF st A.cellId) ∧
    ∀ B ∈ A.neighbors,
      gatewayGet (cellGateways sqrtF st A).1 B = chosenGateway sqrtF st A.cellId B := by
  obtain ⟨h1, h2, _⟩ := gatewayStep_fold sqrtF st A.cellId A.neighbors (A.gateways, [])
    (hs.neighbors_nodup A hA) (hun A hA)
  exact ⟨by simpa using h1, h2⟩

theorem calcGateways_nodes (sqrtF : ℚ → ℚ) (st : State) :
    (calcGateways sqrtF st).g_ssNodesDataList = st.g_ssNodesDataList := rfl

theorem calcRoutes_nodes (sqrtF : ℚ → ℚ) (st : State) :
    (calcRoutes sqrtF st).g_ssNodesDataList = st.g_ssNodesDataList := rfl

theorem calcRoutes_cells (sqrtF : ℚ → ℚ) (st : State) :
    (calcRoutes sqrtF st).g_ssCellDataList = st.g_ssCellDataList := rfl

theorem mem_calcGateways_cells (sqrtF : ℚ → ℚ) (st : State) (A2 : PeceeCellData) :
    A2 ∈ (calcGateways sqrtF st).g_ssCellDataList ↔
      ∃ A ∈ st.g_ssCellDataList, A2 = { A with gateways := (cellGateways sqrtF st A).1 } := by
  unfold calcGateways
  simp only [List.mem_map]
  constructor
  · rintro ⟨A, hA, rfl⟩; exact ⟨A, hA, rfl⟩
  · rintro ⟨A, hA, rfl⟩; exact ⟨A, hA, rfl⟩

/-- The entry the gateway stage leaves for a chosen gateway `u` of the cell `A`
toward the neighbour cell `B` is the second node of the pair found. -/
theorem calcGateways_entry (sqrtF : ℚ → ℚ) (st : State) (hs : Surveyed sqrtF st)
    (hun : GatewaysUnset st) (hR : st.cellRadius < 9999) (A : PeceeCellData) (hA : A ∈ st.g_ssCellDataList)
    (B : Int) (hB : B ∈ A.neighbors) (u : PeceeNodeData) (hu : u ∈ st.g_ssNodesDataList)
    (hch : chosenGateway sqrtF st A.cellId B = u.id) :
    (calcGateways sqrtF st).g_ssRoutingTable u.id B =
      some (selectGateway sqrtF st A.cellId B).2.2 := by
  have hrt : (calcGateways sqrtF st).g_ssRoutingTable = applyWrites st.g_ssRoutingTable
      (st.g_ssCellDataList.flatMap (fun cellData => (cellGateways sqrtF st cellData).2)) := rfl
  rw [hrt, applyWrites_orPrevious]
  have hlast : lastWrite
      (st.g_ssCellDataList.flatMap (fun cellData => (cellGateways sqrtF st cellData).2)) u.id B
      = some (selectGateway sqrtF st A.cellId B).2.2 := by
    apply lastWrite_all_eq
    · intro w hw hkey
      obtain ⟨c, hc, hwc⟩ := List.mem_flatMap.mp hw
      rw [(cellGateways_spec sqrtF st hs hun c hc).1] at hwc
      obtain ⟨B2, hB2, hwB⟩ := List.mem_flatMap.mp hwc
      unfold gatewayWrites at hwB
      simp only [List.mem_map, List.mem_filter, decide_eq_true_eq] at hwB
      obtain ⟨n, ⟨hn, hnid⟩, rfl⟩ := hwB
      simp only at hkey ⊢
      obtain ⟨hk1, hk2⟩ := hkey
      subst hk2
      obtain ⟨u2, hu2, _, _, hch2, _, hcell2, _, _, _⟩ :=
        chosenGateway_spec sqrtF st hs hR c hc B2 hB2
      have hu2u : u2 = u := by
        apply node_eq_of_id st hs.ids_nodup u2 u hu2 hu
        rw [← hch2, ← hnid, hk1]
      have hcA : c = A := by
        apply cell_eq_of_id _ hs.cells_nodup c A hc hA
        obtain ⟨u3, hu3, _, _, hch3, _, hcell3, _, _, _⟩ :=
          chosenGateway_spec sqrtF st hs hR A hA B2 hB
        have hu3u : u3 = u :=
          node_eq_of_id st hs.ids_nodup u3 u hu3 hu (by rw [← hch3, hch])
        rw [← hcell2, hu2u, ← hu3u, hcell3]
      rw [hcA]
    · refine ⟨(u.id, B, (selectGateway sqrtF st A.cellId B).2.2), ?_, rfl, rfl⟩
      apply List.mem_flatMap.mpr
      refine ⟨A, hA, ?_⟩
      rw [(cellGateways_spec sqrtF st hs hun A hA).1]
      apply List.mem_flatMap.mpr
      refine ⟨B, hB, ?_⟩
      unfold gatewayWrites
      simp only [List.mem_map, List.mem_filter, decide_eq_true_eq]
      exact ⟨u, ⟨hu, hch.symm⟩, rfl⟩
  rw [hlast]
  rfl


/-! ### The routing stage -/

theorem memberRouteWrites_key (sqrtF : ℚ → ℚ) (st : State) (g B m : Int)
    (hid : (getNodeData st m).id = m) :
    ∀ w ∈ memberRouteWrites sqrtF st g B m, w.1 = m ∧ w.2.1 = B := by
  intro w hw
  unfold memberRouteWrites at hw
  by_cases h1 : m = g
  · rw [if_neg (not_not.mpr h1)] at hw
    exact absurd hw (List.not_mem_nil _)
  · rw [if_pos h1] at hw
    simp only [List.mem_append] at hw
    rcases hw with (h | h) | h
    · rw [List.mem_singleton] at h
      rw [h]
      exact ⟨rfl, rfl⟩
    · rw [List.mem_map] at h
      obtain ⟨_, _, h⟩ := h
      rw [← h]
      exact ⟨rfl, rfl⟩
    · by_cases h2 : g ∈ (getNodeData st m).neighbors
      · rw [if_pos h2] at h
        exact absurd h (List.not_mem_nil _)
      · rw [if_neg h2] at h
        by_cases h3 : twoHopBest sqrtF st (getNodeData st m) g ≠ -1
        · rw [if_pos h3, List.mem_singleton] at h
          rw [h]
          exact ⟨hid, rfl⟩
        · rw [if_neg h3] at h
          exact absurd h (List.not_mem_nil _)

theorem leaderRouteWrites_key (sqrtF : ℚ → ℚ) (st : State) (c : PeceeCellData) (m : Int)
    (hid : (getNodeData st m).id = m) :
    ∀ w ∈ leaderRouteWrites sqrtF st c m, w.1 = m ∧ w.2.1 = c.cellId := by
  intro w hw
  unfold leaderRouteWrites at hw
  by_cases h1 : m = c.clId
  · rw [if_pos h1] at hw
    exact absurd hw (List.not_mem_nil _)
  · rw [if_neg h1] at hw
    simp only [List.mem_append] at hw
    rcases hw with h | h
    · rw [List.mem_singleton] at h
      rw [h]
      exact ⟨rfl, rfl⟩
    · by_cases h2 : c.clId ∈ (getNodeData st m).neighbors
      · rw [if_pos h2, List.mem_singleton] at h
        rw [h]
        exact ⟨rfl, rfl⟩
      · rw [if_neg h2] at h
        by_cases h3 : twoHopBest sqrtF st (getNodeData st m) c.clId ≠ -1
        · rw [if_pos h3, List.mem_singleton] at h
          rw [h]
          exact ⟨hid, rfl⟩
        · rw [if_neg h3] at h
          exact absurd h (List.not_mem_nil _)

/-- The last value the block of one member leaves in the member's entry. -/
theorem memberRouteWrites_last (sqrtF : ℚ → ℚ) (st : State) (g B m : Int)
    (hid : (getNodeData st m).id = m) (hne : m ≠ g) :
    lastWrite (memberRouteWrites sqrtF st g B m) m B = some (memberRoute sqrtF st g m) := by
  unfold memberRouteWrites memberRoute
  rw [if_pos hne]
  simp only
  by_cases hin : g ∈ (getNodeData st m).neighbors
  · rw [if_pos hin, if_pos hin, List.append_nil, lastWrite_append]
    have h2 : lastWrite
        (((getNodeData st m).neighbors.filter
          (fun neighborNodeId => decide (neighborNodeId = g))).map
          (fun _ => ((m, B, g) : RouteWrite))) m B = some g := by
      apply lastWrite_all_eq
      · intro w hw _
        simp only [List.mem_map] at hw
        obtain ⟨_, _, rfl⟩ := hw
        rfl
      · refine ⟨(m, B, g), ?_, rfl, rfl⟩
        rw [List.mem_map]
        exact ⟨g, List.mem_filter.mpr ⟨hin, decide_eq_true rfl⟩, rfl⟩
    rw [h2]
    rfl
  · rw [if_neg hin, if_neg hin]
    have hfil : (getNodeData st m).neighbors.filter
        (fun neighborNodeId => decide (neighborNodeId = g)) = [] := by
      rw [List.filter_eq_nil_iff]
      intro a ha hc
      rw [decide_eq_true_eq] at hc
      exact hin (hc ▸ ha)
    rw [hfil, List.map_nil, List.append_nil]
    by_cases hb : twoHopBest sqrtF st (getNodeData st m) g = -1
    · have hb2 : ¬ twoHopBest sqrtF st (getNodeData st m) g ≠ -1 := not_not.mpr hb
      rw [if_neg hb2, if_neg hb2, List.append_nil, lastWrite_singleton]
      simp
    · rw [if_pos hb, if_pos hb, lastWrite_append, lastWrite_singleton, hid]
      simp [orPrevious]

/-- The keys of the routing entries written for one cell: a member of the cell,
toward a neighbour cell whose gateway is another node, or toward the cell itself. -/
theorem cellRouteWrites_key (sqrtF : ℚ → ℚ) (st : State) (c : PeceeCellData)
    (hid : ∀ m ∈ c.members, (getNodeData st m).id = m) :
    ∀ w ∈ cellRouteWrites sqrtF st c, w.1 ∈ c.members ∧
      ((w.2.1 ∈ c.neighbors ∧ w.1 ≠ gatewayGet c.gateways w.2.1) ∨ w.2.1 = c.cellId) := by
  intro w hw
  unfold cellRouteWrites at hw
  rcases List.mem_append.mp hw with h | h
  · obtain ⟨B, hB, hwB⟩ := List.mem_flatMap.mp h
    unfold gatewayRouteWrites at hwB
    simp only at hwB
    split_ifs at hwB with hg
    · obtain ⟨m, hm, hwm⟩ := List.mem_flatMap.mp hwB
      have hne : m ≠ gatewayGet c.gateways B := by
        intro heq
        unfold memberRouteWrites at hwm
        rw [if_neg (not_not.mpr heq)] at hwm
        exact absurd hwm (List.not_mem_nil _)
      obtain ⟨h1, h2⟩ := memberRouteWrites_key sqrtF st _ B m (hid m hm) w hwm
      rw [h1, h2]
      exact ⟨hm, Or.inl ⟨hB, hne⟩⟩
    · exact absurd hwB (List.not_mem_nil _)
  · obtain ⟨m, hm, hwm⟩ := List.mem_flatMap.mp h
    obtain ⟨h1, h2⟩ := leaderRouteWrites_key sqrtF st c m (hid m hm) w hwm
    rw [h1, h2]
    exact ⟨hm, Or.inr rfl⟩

theorem member_id (sqrtF : ℚ → ℚ) (st : State) (hs : Surveyed sqrtF st)
    (c : PeceeCellData) (hc : c ∈ st.g_ssCellDataList) (m : Int) (hm : m ∈ c.members) :
    (getNodeData st m).id = m ∧ (getNodeData st m).cellId = c.cellId ∧
    getNodeData st m ∈ st.g_ssNodesDataList := by
  obtain ⟨n, hn, hnm, hcell⟩ := hs.member_node c hc m hm
  have := getNodeData_of_mem st hs.ids_nodup n hn
  rw [hnm] at this
  rw [this]
  exact ⟨hnm, hcell, hn⟩

/-- A member of a cell is a member of no other cell. -/
theorem member_cell_unique (sqrtF : ℚ → ℚ) (st : State) (hs : Surveyed sqrtF st)
    (c d : PeceeCellData) (hc : c ∈ st.g_ssCellDataList) (hd : d ∈ st.g_ssCellDataList)
    (m : Int) (hmc : m ∈ c.members) (hmd : m ∈ d.members) : c = d := by
  apply cell_eq_of_id _ hs.cells_nodup c d hc hd
  rw [← (member_id sqrtF st hs c hc m hmc).2.1, ← (member_id sqrtF st hs d hd m hmd).2.1]

/-- The routing stage leaves the entry of a gateway toward its neighbour cell as it
found it. -/
theorem calcRoutes_gateway_entry (sqrtF : ℚ → ℚ) (st : State) (hs : Surveyed sqrtF st)
    (A : PeceeCellData) (hA : A ∈ st.g_ssCellDataList) (B : Int) (hB : B ∈ A.neighbors)
    (u : PeceeNodeData) (hu : u ∈ st.g_ssNodesDataList)
    (hg : gatewayGet A.gateways B = u.id) (hcell : u.cellId = A.cellId) :
    (calcRoutes sqrtF st).g_ssRoutingTable (gatewayGet A.gateways B) B =
      st.g_ssRoutingTable (gatewayGet A.gateways B) B := by
  have hrt : (calcRoutes sqrtF st).g_ssRoutingTable = applyWrites st.g_ssRoutingTable
      (st.g_ssCellDataList.flatMap (cellRouteWrites sqrtF st)) := rfl
  rw [hrt, applyWrites_orPrevious]
  have hnone : lastWrite (st.g_ssCellDataList.flatMap (cellRouteWrites sqrtF st))
      (gatewayGet A.gateways B) B = none := by
    apply lastWrite_none
    intro w hw hkey
    obtain ⟨c, hc, hwc⟩ := List.mem_flatMap.mp hw
    obtain ⟨hm, hcase⟩ := cellRouteWrites_key sqrtF st c
      (fun m hm => (member_id sqrtF st hs c hc m hm).1) w hwc
    rw [hkey.1] at hm hcase
    rw [hkey.2] at hcase
    have hcA : c = A := by
      apply cell_eq_of_id _ hs.cells_nodup c A hc hA
      have h1 := (member_id sqrtF st hs c hc _ hm).2.1
      rw [hg, getNodeData_of_mem st hs.ids_nodup u hu] at h1
      rw [← h1, hcell]
    subst hcA
    rcases hcase with ⟨_, hne⟩ | heq
    · exact hne rfl
    · exact hs.own_not_neighbor c hc (heq ▸ hB)
  rw [hnone]
  rfl

/-- The entry the routing stage leaves for a member of a cell, other than the
gateway, toward a neighbour cell with a gateway. -/
theorem calcRoutes_member_entry (sqrtF : ℚ → ℚ) (st : State) (hs : Surveyed sqrtF st)
    (A : PeceeCellData) (hA : A ∈ st.g_ssCellDataList) (B : Int) (hB : B ∈ A.neighbors)
    (hg : gatewayGet A.gateways B ≠ -1) (m : Int) (hm : m ∈ A.members)
    (hne : m ≠ gatewayGet A.gateways B) :
    (calcRoutes sqrtF st).g_ssRoutingTable m B =
      some (memberRoute sqrtF st (gatewayGet A.gateways B) m) := by
  have hrt : (calcRoutes sqrtF st).g_ssRoutingTable = applyWrites st.g_ssRoutingTable
      (st.g_ssCellDataList.flatMap (cellRouteWrites sqrtF st)) := rfl
  rw [hrt, applyWrites_orPrevious]
  have hmid := (member_id sqrtF st hs A hA m hm).1
  have hcellA : lastWrite (cellRouteWrites sqrtF st A) m B
      = some (memberRoute sqrtF st (gatewayGet A.gateways B) m) := by
    unfold cellRouteWrites
    rw [lastWrite_append]
    have hl : lastWrite (A.members.flatMap (leaderRouteWrites sqrtF st A)) m B = none := by
      apply lastWrite_none
      intro w hw hkey
      obtain ⟨m2, hm2, hw2⟩ := List.mem_flatMap.mp hw
      have := (leaderRouteWrites_key sqrtF st A m2
        (member_id sqrtF st hs A hA m2 hm2).1 w hw2).2
      rw [hkey.2] at this
      exact hs.own_not_neighbor A hA (this ▸ hB)
    rw [hl]
    simp only [orPrevious]
    apply lastWrite_flatMap_some
    · intro B2 hB2
      by_cases hBB : B2 = B
      · subst hBB
        right
        unfold gatewayRouteWrites
        simp only
        rw [if_pos hg]
        apply lastWrite_flatMap_some
        · intro m2 hm2
          by_cases hmm : m2 = m
          · subst hmm
            right
            exact memberRouteWrites_last sqrtF st _ B2 m2 hmid hne
          · left
            apply lastWrite_none
            intro w hw hkey
            have := (memberRouteWrites_key sqrtF st _ B2 m2
              (member_id sqrtF st hs A hA m2 hm2).1 w hw).1
            exact hmm (this.symm.trans hkey.1)
        · exact ⟨m, hm, memberRouteWrites_last sqrtF st _ B2 m hmid hne⟩
      · left
        apply lastWrite_none
        intro w hw hkey
        unfold gatewayRouteWrites at hw
        simp only at hw
        split_ifs at hw with hg2
        · obtain ⟨m2, hm2, hw2⟩ := List.mem_flatMap.mp hw
          have := (memberRouteWrites_key sqrtF st _ B2 m2
            (member_id sqrtF st hs A hA m2 hm2).1 w hw2).2
          exact hBB (this.symm.trans hkey.2)
        · exact absurd hw (List.not_mem_nil _)
    · refine ⟨B, hB, ?_⟩
      unfold gatewayRouteWrites
      simp only
      rw [if_pos hg]
      apply lastWrite_flatMap_some
      · intro m2 hm2
        by_cases hmm : m2 = m
        · subst hmm
          right
          exact memberRouteWrites_last sqrtF st _ B m2 hmid hne
        · left
          apply lastWrite_none
          intro w hw hkey
          have := (memberRouteWrites_key sqrtF st _ B m2
            (member_id sqrtF st hs A hA m2 hm2).1 w hw).1
          exact hmm (this.symm.trans hkey.1)
      · exact ⟨m, hm, memberRouteWrites_last sqrtF st _ B m hmid hne⟩
  have hlast : lastWrite (st.g_ssCellDataList.flatMap (cellRouteWrites sqrtF st)) m B
      = some (memberRoute sqrtF st (gatewayGet A.gateways B) m) := by
    apply lastWrite_flatMap_some
    · intro c hc
      by_cases hcm : m ∈ c.members
      · right
        rw [member_cell_unique sqrtF st hs c A hc hA m hcm hm]
        exact hcellA
      · left
        apply lastWrite_none
        intro w hw hkey
        have := (cellRouteWrites_key sqrtF st c
          (fun m hm => (member_id sqrtF st hs c hc m hm).1) w hw).1
        rw [hkey.1] at this
        exact hcm this
    · exact ⟨A, hA, hcellA⟩
  rw [hlast]
  rfl


theorem mem_twoHopCandidates (sqrtF : ℚ → ℚ) (st : State) (hs : Surveyed sqrtF st)
    (member gnode : PeceeNodeData) (hg : gnode ∈ st.g_ssNodesDataList) (c : ℚ × Int) :
    c ∈ twoHopCandidates sqrtF st member gnode.id ↔
      ∃ n ∈ st.g_ssNodesDataList, n.id ∈ member.neighbors ∧ gnode.id ∈ n.neighbors ∧
        c = (linkLength sqrtF member n + linkLength sqrtF n gnode, n.id) := by
  unfold twoHopCandidates
  simp only [List.mem_map, List.mem_filter, List.any_eq_true, Bool.and_eq_true,
    decide_eq_true_eq]
  rw [getNodeData_of_mem st hs.ids_nodup gnode hg]
  constructor
  · rintro ⟨i, ⟨hi, n, hn, hni, hgn⟩, rfl⟩
    subst hni
    rw [getNodeData_of_mem st hs.ids_nodup n hn]
    exact ⟨n, hn, hi, hgn, rfl⟩
  · rintro ⟨n, hn, hi, hgn, rfl⟩
    refine ⟨n.id, ⟨hi, n, hn, rfl, hgn⟩, ?_⟩
    rw [getNodeData_of_mem st hs.ids_nodup n hn]

/-- In a surveyed state with `2 * cellRadius < 9999` the two-hop search from a node
toward a node `g` gives `-1` when no neighbour of the node has `g` as a neighbour,
and otherwise such a neighbour with minimal path length, of lowest id among those of
that length. -/
theorem twoHopBest_spec (sqrtF : ℚ → ℚ) (st : State) (hs : Surveyed sqrtF st)
    (h2R : 2 * st.cellRadius < 9999)
    (member gnode : PeceeNodeData) (hm : member ∈ st.g_ssNodesDataList)
    (hg : gnode ∈ st.g_ssNodesDataList) :
    ((∀ n ∈ st.g_ssNodesDataList, n.id ∈ member.neighbors → gnode.id ∉ n.neighbors) →
      twoHopBest sqrtF st member gnode.id = -1) ∧
    (∀ n0 ∈ st.g_ssNodesDataList, n0.id ∈ member.neighbors → gnode.id ∈ n0.neighbors →
      ∃ n ∈ st.g_ssNodesDataList, n.id ∈ member.neighbors ∧ gnode.id ∈ n.neighbors ∧
        twoHopBest sqrtF st member gnode.id = n.id ∧
        ∀ n2 ∈ st.g_ssNodesDataList, n2.id ∈ member.neighbors → gnode.id ∈ n2.neighbors →
          linkLength sqrtF member n + linkLength sqrtF n gnode ≤
            linkLength sqrtF member n2 + linkLength sqrtF n2 gnode ∧
          (linkLength sqrtF member n2 + linkLength sqrtF n2 gnode =
            linkLength sqrtF member n + linkLength sqrtF n gnode → n.id ≤ n2.id)) := by
  have hlen : ∀ a ∈ st.g_ssNodesDataList, ∀ b ∈ st.g_ssNodesDataList, b.id ∈ a.neighbors →
      linkLength sqrtF a b ≤ st.cellRadius := by
    intro a ha b hb hi
    obtain ⟨o, ho, hoi, hle⟩ := hs.neighbor_node a ha b.id hi
    rw [node_eq_of_id st hs.ids_nodup o b ho hb hoi] at hle
    exact hle
  have hlt : ∀ c ∈ twoHopCandidates sqrtF st member gnode.id, c.1 < 9999 := by
    intro c hc
    obtain ⟨n, hn, hi, hgn, rfl⟩ := (mem_twoHopCandidates sqrtF st hs member gnode hg c).mp hc
    have h1 := hlen member hm n hn hi
    have h2 := hlen n hn gnode hg hgn
    simp only
    linarith
  obtain ⟨h0, h1⟩ := twoHopStep_fold (twoHopCandidates sqrtF st member gnode.id) hlt
  refine ⟨?_, ?_⟩
  · intro hno
    have hnil : twoHopCandidates sqrtF st member gnode.id = [] := by
      rw [List.eq_nil_iff_forall_not_mem]
      intro c hc
      obtain ⟨n, hn, hi, hgn, _⟩ := (mem_twoHopCandidates sqrtF st hs member gnode hg c).mp hc
      exact hno n hn hi hgn
    unfold twoHopBest
    rw [h0 hnil]
  · intro n0 hn0 hi0 hg0
    have hne : twoHopCandidates sqrtF st member gnode.id ≠ [] :=
      List.ne_nil_of_mem ((mem_twoHopCandidates sqrtF st hs member gnode hg _).mpr
        ⟨n0, hn0, hi0, hg0, rfl⟩)
    obtain ⟨hmem, hmin⟩ := h1 hne
    obtain ⟨n, hn, hi, hgn, hr⟩ :=
      (mem_twoHopCandidates sqrtF st hs member gnode hg _).mp hmem
    have hbest : twoHopBest sqrtF st member gnode.id = n.id := by
      unfold twoHopBest
      rw [hr]
    refine ⟨n, hn, hi, hgn, hbest, ?_⟩
    intro n2 hn2 hi2 hg2
    have := hmin _ ((mem_twoHopCandidates sqrtF st hs member gnode hg _).mpr
      ⟨n2, hn2, hi2, hg2, rfl⟩)
    rw [hr] at this
    exact this

theorem surveyed_calcGateways (sqrtF : ℚ → ℚ) (st : State) (hs : Surveyed sqrtF st) :
    Surveyed sqrtF (calcGateways sqrtF st) := by
  have hcells : ∀ c2 ∈ (calcGateways sqrtF st).g_ssCellDataList,
      ∃ c ∈ st.g_ssCellDataList, c2.cellId = c.cellId ∧ c2.members = c.members ∧
        c2.neighbors = c.neighbors := by
    intro c2 hc2
    obtain ⟨c, hc, rfl⟩ := (mem_calcGateways_cells sqrtF st c2).mp hc2
    exact ⟨c, hc, rfl, rfl, rfl⟩
  refine ⟨hs.ids_nodup, hs.ids_ne, ?_, ?_, ?_, ?_, ?_, hs.neighbor_node⟩
  · have : (calcGateways sqrtF st).g_ssCellDataList.map (fun c => c.cellId)
        = st.g_ssCellDataList.map (fun c => c.cellId) := by
      unfold calcGateways
      simp only [List.map_map]
      rfl
    rw [this]
    exact hs.cells_nodup
  · intro c2 hc2 m hm
    obtain ⟨c, hc, h1, h2, _⟩ := hcells c2 hc2
    rw [h1]
    rw [h2] at hm
    exact hs.member_node c hc m hm
  · intro c2 hc2
    obtain ⟨c, hc, _, _, h3⟩ := hcells c2 hc2
    rw [h3]
    exact hs.neighbors_nodup c hc
  · intro c2 hc2
    obtain ⟨c, hc, h1, _, h3⟩ := hcells c2 hc2
    rw [h1, h3]
    exact hs.own_not_neighbor c hc
  · intro c2 hc2 B hB
    obtain ⟨c, hc, h1, _, h3⟩ := hcells c2 hc2
    rw [h1]
    rw [h3] at hB
    exact hs.neighbor_link c hc B hB


/-! ### The stages before the gateway stage -/

theorem find_node_core (N N2 : List PeceeNodeData) (h : N2.map nodeCore = N.map nodeCore)
    (i : Int) :
    (N2.find? (fun n => decide (n.id = i))).map nodeCore =
      (N.find? (fun n => decide (n.id = i))).map nodeCore := by
  induction N generalizing N2 with
  | nil =>
      have : N2 = [] := by simpa using h
      rw [this]
  | cons a N ih =>
      cases N2 with
      | nil => simp at h
      | cons b N2 =>
          simp only [List.map_cons, List.cons.injEq] at h
          have hid : b.id = a.id := congrArg (fun t => t.1) h.1
          simp only [List.find?_cons, hid]
          by_cases hc : a.id = i
          · simp only [hc, decide_True, Option.map_some', h.1]
          · simp only [hc, decide_False]
            exact ih N2 h.2

theorem getNodeData_core (s t : State)
    (h : t.g_ssNodesDataList.map nodeCore = s.g_ssNodesDataList.map nodeCore) (i : Int) :
    nodeCore (getNodeData t i) = nodeCore (getNodeData s i) := by
  have := find_node_core s.g_ssNodesDataList t.g_ssNodesDataList h i
  unfold getNodeData
  cases h1 : t.g_ssNodesDataList.find? (fun n => decide (n.id = i)) with
  | none =>
      cases h2 : s.g_ssNodesDataList.find? (fun n => decide (n.id = i)) with
      | none => rfl
      | some b => rw [h1, h2] at this; simp at this
  | some a =>
      cases h2 : s.g_ssNodesDataList.find? (fun n => decide (n.id = i)) with
      | none => rw [h1, h2] at this; simp at this
      | some b =>
          rw [h1, h2] at this
          simpa using this

theorem mem_of_map_eq {α β : Type} (f : α → β) (l l2 : List α) (h : l2.map f = l.map f)
    (a : α) (ha : a ∈ l2) : ∃ b ∈ l, f a = f b := by
  have : f a ∈ l.map f := by rw [← h]; exact List.mem_map_of_mem f ha
  obtain ⟨b, hb, hfb⟩ := List.mem_map.mp this
  exact ⟨b, hb, hfb.symm⟩

/-- The facts of a surveyed state depend on the node and cell tables only through
the fields that the leader stage leaves unchanged. -/
theorem surveyed_of_cores (sqrtF : ℚ → ℚ) (s t : State)
    (hn : t.g_ssNodesDataList.map nodeCore = s.g_ssNodesDataList.map nodeCore)
    (hc : t.g_ssCellDataList.map cellCore = s.g_ssCellDataList.map cellCore)
    (hr : t.cellRadius = s.cellRadius) (hs : Surveyed sqrtF s) (hun : GatewaysUnset s) :
    Surveyed sqrtF t ∧ GatewaysUnset t := by
  have hids : t.g_ssNodesDataList.map (fun n => n.id) = s.g_ssNodesDataList.map (fun n => n.id) := by
    have := congrArg (List.map (fun (p : Int × ℚ × ℚ × Int × List Int) => p.1)) hn
    simpa [List.map_map, Function.comp, nodeCore] using this
  have hcids : t.g_ssCellDataList.map (fun c => c.cellId)
      = s.g_ssCellDataList.map (fun c => c.cellId) := by
    have := congrArg (List.map
      (fun (p : Int × List Int × List Int × List (Int × Int)) => p.1)) hc
    simpa [List.map_map, Function.comp, cellCore] using this
  have hnode : ∀ n ∈ t.g_ssNodesDataList, ∃ m ∈ s.g_ssNodesDataList, nodeCore n = nodeCore m :=
    mem_of_map_eq nodeCore _ _ hn
  have hnode2 : ∀ n ∈ s.g_ssNodesDataList, ∃ m ∈ t.g_ssNodesDataList, nodeCore n = nodeCore m :=
    mem_of_map_eq nodeCore _ _ hn.symm
  have hcell : ∀ c ∈ t.g_ssCellDataList, ∃ d ∈ s.g_ssCellDataList, cellCore c = cellCore d :=
    mem_of_map_eq cellCore _ _ hc
  have core_id : ∀ a b : PeceeNodeData, nodeCore a = nodeCore b →
      a.id = b.id ∧ a.x = b.x ∧ a.y = b.y ∧ a.cellId = b.cellId ∧ a.neighbors = b.neighbors := by
    intro a b h
    simp only [nodeCore, Prod.mk.injEq] at h
    exact h
  have ccore : ∀ a b : PeceeCellData, cellCore a = cellCore b →
      a.cellId = b.cellId ∧ a.members = b.members ∧ a.neighbors = b.neighbors ∧
        a.gateways = b.gateways := by
    intro a b h
    simp only [cellCore, Prod.mk.injEq] at h
    exact h
  refine ⟨⟨?_, ?_, ?_, ?_, ?_, ?_, ?_, ?_⟩, ?_⟩
  · rw [hids]; exact hs.ids_nodup
  · intro n hn2
    obtain ⟨m, hm, hcore⟩ := hnode n hn2
    rw [(core_id n m hcore).1]
    exact hs.ids_ne m hm
  · rw [hcids]; exact hs.cells_nodup
  · intro c hc2 m hm
    obtain ⟨d, hd, hcore⟩ := hcell c hc2
    obtain ⟨h1, h2, _, _⟩ := ccore c d hcore
    rw [h2] at hm
    obtain ⟨n, hn2, hnid, hncell⟩ := hs.member_node d hd m hm
    obtain ⟨n2, hn3, hcore2⟩ := hnode2 n hn2
    obtain ⟨g1, _, _, g4, _⟩ := core_id n n2 hcore2
    exact ⟨n2, hn3, by rw [← g1, hnid], by rw [← g4, hncell, h1]⟩
  · intro c hc2
    obtain ⟨d, hd, hcore⟩ := hcell c hc2
    rw [(ccore c d hcore).2.2.1]
    exact hs.neighbors_nodup d hd
  · intro c hc2
    obtain ⟨d, hd, hcore⟩ := hcell c hc2
    rw [(ccore c d hcore).2.2.1, (ccore c d hcore).1]
    exact hs.own_not_neighbor d hd
  · intro c hc2 B hB
    obtain ⟨d, hd, hcore⟩ := hcell c hc2
    obtain ⟨h1, _, h3, _⟩ := ccore c d hcore
    rw [h3] at hB
    obtain ⟨n, hn2, hncell, v, hv, hvB⟩ := hs.neighbor_link d hd B hB
    obtain ⟨n2, hn3, hcore2⟩ := hnode2 n hn2
    obtain ⟨_, _, _, g4, g5⟩ := core_id n n2 hcore2
    refine ⟨n2, hn3, by rw [← g4, hncell, h1], v, by rw [← g5]; exact hv, ?_⟩
    rw [(core_id _ _ (getNodeData_core s t hn v)).2.2.2.1]
    exact hvB
  · intro n hn2 v hv
    obtain ⟨m, hm, hcore⟩ := hnode n hn2
    obtain ⟨_, g2, g3, _, g5⟩ := core_id n m hcore
    rw [g5] at hv
    obtain ⟨o, ho, hoi, hle⟩ := hs.neighbor_node m hm v hv
    obtain ⟨o2, ho2, hcore2⟩ := hnode2 o ho
    obtain ⟨k1, k2, k3, _, _⟩ := core_id o o2 hcore2
    refine ⟨o2, ho2, by rw [← k1, hoi], ?_⟩
    rw [hr]
    unfold linkLength at hle ⊢
    rw [g2, g3, ← k2, ← k3]
    exact hle
  · intro c hc2 B hB
    obtain ⟨d, hd, hcore⟩ := hcell c hc2
    obtain ⟨_, _, h3, h4⟩ := ccore c d hcore
    rw [h4]
    rw [h3] at hB
    exact hun d hd B hB

theorem setCellClId_core (C : List PeceeCellData) (cellId v : Int) :
    (setCellClId C cellId v).map cellCore = C.map cellCore := by
  induction C with
  | nil => rfl
  | cons a C ih =>
      unfold setCellClId
      split_ifs
      · rfl
      · simp only [List.map_cons, ih]

theorem electCellLeader_cores (sqrtF : ℚ → ℚ) (st : State) (c : PeceeCellData) :
    (electCellLeader sqrtF st c).g_ssNodesDataList.map nodeCore
      = st.g_ssNodesDataList.map nodeCore ∧
    (electCellLeader sqrtF st c).g_ssCellDataList.map cellCore
      = st.g_ssCellDataList.map cellCore ∧
    (electCellLeader sqrtF st c).cellRadius = st.cellRadius := by
  refine ⟨?_, setCellClId_core _ _ _, rfl⟩
  unfold electCellLeader
  simp only [List.map_map]
  apply List.map_congr_left
  intro n _
  simp only [Function.comp]
  split_ifs <;> rfl

theorem electCellLeader_fold_cores (sqrtF : ℚ → ℚ) (l : List PeceeCellData) (st : State) :
    (l.foldl (electCellLeader sqrtF) st).g_ssNodesDataList.map nodeCore
      = st.g_ssNodesDataList.map nodeCore ∧
    (l.foldl (electCellLeader sqrtF) st).g_ssCellDataList.map cellCore
      = st.g_ssCellDataList.map cellCore ∧
    (l.foldl (electCellLeader sqrtF) st).cellRadius = st.cellRadius := by
  induction l generalizing st with
  | nil => exact ⟨rfl, rfl, rfl⟩
  | cons c l ih =>
      simp only [List.foldl_cons]
      obtain ⟨h1, h2, h3⟩ := ih (electCellLeader sqrtF st c)
      obtain ⟨k1, k2, k3⟩ := electCellLeader_cores sqrtF st c
      exact ⟨h1.trans k1, h2.trans k2, h3.trans k3⟩

theorem calcCellLeaders_cores (sqrtF : ℚ → ℚ) (st : State) :
    (calcCellLeaders sqrtF st).g_ssNodesDataList.map nodeCore
      = st.g_ssNodesDataList.map nodeCore ∧
    (calcCellLeaders sqrtF st).g_ssCellDataList.map cellCore
      = st.g_ssCellDataList.map cellCore ∧
    (calcCellLeaders sqrtF st).cellRadius = st.cellRadius :=
  electCellLeader_fold_cores sqrtF st.g_ssCellDataList st


/-- The node table after the neighbour stage: the ids are those registered, and
every neighbour of a node is a node at distance at most `cellRadius`. -/
theorem calcNodeNeighbors_spec (sqrtF : ℚ → ℚ) (st : State) :
    (calcNodeNeighbors sqrtF (resetTables st)).g_ssNodesDataList.map (fun n => n.id)
      = st.g_ssNodesDataList.map (fun n => n.id) ∧
    (calcNodeNeighbors sqrtF (resetTables st)).cellRadius = st.cellRadius ∧
    (calcNodeNeighbors sqrtF (resetTables st)).g_ssCellDataList = [] ∧
    ∀ n ∈ (calcNodeNeighbors sqrtF (resetTables st)).g_ssNodesDataList, ∀ v ∈ n.neighbors,
      ∃ o ∈ (calcNodeNeighbors sqrtF (resetTables st)).g_ssNodesDataList,
        o.id = v ∧ linkLength sqrtF n o ≤ st.cellRadius := by
  refine ⟨?_, rfl, rfl, ?_⟩
  · unfold calcNodeNeighbors resetTables
    simp only [List.map_map]
    rfl
  · intro n hn v hv
    unfold calcNodeNeighbors at hn ⊢
    simp only [List.mem_map] at hn ⊢
    obtain ⟨a0, ha0, rfl⟩ := hn
    simp only [nodeNeighbors, List.mem_append, List.mem_map, List.mem_filter,
      Bool.and_eq_true, decide_eq_true_eq] at hv
    have ha0n : a0.neighbors = [] := by
      unfold resetTables at ha0
      simp only [List.mem_map] at ha0
      obtain ⟨a, _, rfl⟩ := ha0
      rfl
    rcases hv with hv | ⟨b0, ⟨hb0, _, hdist⟩, rfl⟩
    · rw [ha0n] at hv
      exact absurd hv (List.not_mem_nil _)
    · exact ⟨_, ⟨b0, hb0, rfl⟩, rfl, hdist⟩

theorem pushMember_spec (cells : List PeceeCellData) (cid id : Int) :
    (pushMember cells cid id).map (fun c => c.cellId) = cells.map (fun c => c.cellId) ∧
    ∀ c2 ∈ pushMember cells cid id, ∃ c ∈ cells,
      c2.cellId = c.cellId ∧ c2.neighbors = c.neighbors ∧ c2.gateways = c.gateways ∧
      ∀ m ∈ c2.members, m ∈ c.members ∨ (m = id ∧ c.cellId = cid) := by
  induction cells with
  | nil => exact ⟨rfl, fun c2 h => absurd h (List.not_mem_nil _)⟩
  | cons a cells ih =>
      unfold pushMember
      by_cases h : a.cellId = cid
      · rw [if_pos h]
        refine ⟨rfl, ?_⟩
        intro c2 hc2
        rcases List.mem_cons.mp hc2 with rfl | hmem
        · refine ⟨a, List.mem_cons_self _ _, rfl, rfl, rfl, ?_⟩
          intro m hm
          simp only [List.mem_append, List.mem_singleton] at hm
          rcases hm with hm | hm
          · exact Or.inl hm
          · exact Or.inr ⟨hm, h⟩
        · exact ⟨c2, List.mem_cons_of_mem _ hmem, rfl, rfl, rfl, fun m hm => Or.inl hm⟩
      · rw [if_neg h]
        refine ⟨by simp only [List.map_cons, ih.1], ?_⟩
        intro c2 hc2
        rcases List.mem_cons.mp hc2 with rfl | hmem
        · exact ⟨c2, List.mem_cons_self _ _, rfl, rfl, rfl, fun m hm => Or.inl hm⟩
        · obtain ⟨c, hc, h1, h2, h3, h4⟩ := ih.2 c2 hmem
          exact ⟨c, List.mem_cons_of_mem _ hc, h1, h2, h3, h4⟩

/-- The cell table after the member stage: the cell ids are pairwise distinct, every
member is a node of the cell, and no cell has neighbours or gateways yet. -/
theorem addCellMember_fold (P : List PeceeNodeData) :
    ((P.foldl addCellMember []).map (fun c => c.cellId)).Nodup ∧
    ∀ c ∈ P.foldl addCellMember [],
      (∀ m ∈ c.members, ∃ n ∈ P, n.id = m ∧ n.cellId = c.cellId) ∧
      c.neighbors = [] ∧ c.gateways = [] := by
  induction P using List.reverseRecOn with
  | nil => exact ⟨List.nodup_nil, fun c h => absurd h (List.not_mem_nil _)⟩
  | append_singleton P a ih =>
      rw [List.foldl_append]
      simp only [List.foldl_cons, List.foldl_nil]
      obtain ⟨ih1, ih2⟩ := ih
      generalize P.foldl addCellMember [] = cells at ih1 ih2 ⊢
      unfold addCellMember
      by_cases hany : cells.any (fun cellData => decide (cellData.cellId = a.cellId)) = true
      · rw [if_pos hany]
        obtain ⟨h1, h2⟩ := pushMember_spec cells a.cellId a.id
        refine ⟨by rw [h1]; exact ih1, ?_⟩
        intro c2 hc2
        obtain ⟨c, hc, k1, k2, k3, k4⟩ := h2 c2 hc2
        obtain ⟨j1, j2, j3⟩ := ih2 c hc
        refine ⟨?_, by rw [k2, j2], by rw [k3, j3]⟩
        intro m hm
        rcases k4 m hm with hmem | ⟨rfl, hcid⟩
        · obtain ⟨n, hn, hnid, hncell⟩ := j1 m hmem
          exact ⟨n, List.mem_append_left _ hn, hnid, by rw [hncell, k1]⟩
        · exact ⟨a, by simp, rfl, by rw [k1, hcid]⟩
      · rw [if_neg hany]
        have hnot : a.cellId ∉ cells.map (fun c => c.cellId) := by
          intro hmem
          apply hany
          obtain ⟨c, hc, hcid⟩ := List.mem_map.mp hmem
          exact List.any_eq_true.mpr ⟨c, hc, decide_eq_true hcid⟩
        refine ⟨?_, ?_⟩
        · rw [List.map_append, List.nodup_append]
          refine ⟨ih1, by simp, ?_⟩
          intro x hx hx2
          simp only [List.map_cons, List.map_nil, List.mem_singleton] at hx2
          exact hnot (hx2 ▸ hx)
        · intro c2 hc2
          rcases List.mem_append.mp hc2 with hmem | hmem
          · obtain ⟨j1, j2, j3⟩ := ih2 c2 hmem
            refine ⟨?_, j2, j3⟩
            intro m hm
            obtain ⟨n, hn, hnid, hncell⟩ := j1 m hm
            exact ⟨n, List.mem_append_left _ hn, hnid, hncell⟩
          · rw [List.mem_singleton] at hmem
            subst hmem
            refine ⟨?_, rfl, rfl⟩
            intro m hm
            simp only [List.mem_singleton] at hm
            exact ⟨a, by simp, hm.symm, rfl⟩

/-- The loop that collects the neighbour cells of one cell. -/
theorem addCellNeighbor_fold (L : List Int) (c : PeceeCellData)
    (h1 : c.neighbors.Nodup) (h2 : c.cellId ∉ c.neighbors)
    (h3 : ∀ B ∈ c.neighbors, gatewayGet c.gateways B = -1) :
    (L.foldl addCellNeighbor c).cellId = c.cellId ∧
    (L.foldl addCellNeighbor c).members = c.members ∧
    (L.foldl addCellNeighbor c).neighbors.Nodup ∧
    (L.foldl addCellNeighbor c).cellId ∉ (L.foldl addCellNeighbor c).neighbors ∧
    (∀ B ∈ (L.foldl addCellNeighbor c).neighbors,
      gatewayGet (L.foldl addCellNeighbor c).gateways B = -1) ∧
    (∀ B ∈ (L.foldl addCellNeighbor c).neighbors, B ∈ c.neighbors ∨ B ∈ L) := by
  induction L generalizing c with
  | nil => exact ⟨rfl, rfl, h1, h2, h3, fun B hB => Or.inl hB⟩
  | cons B0 L ih =>
      simp only [List.foldl_cons]
      by_cases hc : B0 ≠ c.cellId ∧ B0 ∉ c.neighbors
      · have hstep : addCellNeighbor c B0 =
            { c with neighbors := c.neighbors ++ [B0]
                     gateways := gatewaySet c.gateways B0 (-1) } := by
          unfold addCellNeighbor
          rw [if_pos hc]
        rw [hstep]
        obtain ⟨k1, k2, k3, k4, k5, k6⟩ := ih
          { c with neighbors := c.neighbors ++ [B0]
                   gateways := gatewaySet c.gateways B0 (-1) }
          (by
            simp only
            rw [List.nodup_append]
            refine ⟨h1, List.nodup_singleton _, ?_⟩
            intro x hx hx2
            rw [List.mem_singleton] at hx2
            exact hc.2 (hx2 ▸ hx))
          (by
            simp only [List.mem_append, List.mem_singleton]
            rintro (h | h)
            · exact h2 h
            · exact hc.1 h.symm)
          (by
            simp only [List.mem_append, List.mem_singleton]
            rintro B (hB | hB)
            · have hne : B ≠ B0 := fun h => hc.2 (h ▸ hB)
              rw [gatewayGet_set_ne _ _ _ _ hne]
              exact h3 B hB
            · rw [hB]
              exact gatewayGet_set_eq _ _ _)
        refine ⟨k1, k2, k3, k4, k5, ?_⟩
        intro B hB
        rcases k6 B hB with h | h
        · simp only [List.mem_append, List.mem_singleton] at h
          rcases h with h | h
          · exact Or.inl h
          · exact Or.inr (h ▸ List.mem_cons_self _ _)
        · exact Or.inr (List.mem_cons_of_mem _ h)
      · have hstep : addCellNeighbor c B0 = c := by
          unfold addCellNeighbor
          rw [if_neg hc]
        rw [hstep]
        obtain ⟨k1, k2, k3, k4, k5, k6⟩ := ih c h1 h2 h3
        refine ⟨k1, k2, k3, k4, k5, ?_⟩
        intro B hB
        rcases k6 B hB with h | h
        · exact Or.inl h
        · exact Or.inr (List.mem_cons_of_mem _ h)


/-- The tables after the neighbour, member and cell-neighbour stages are
surveyed, and no gateway is set. -/
theorem surveyed_calcCellNeighbors (sqrtF : ℚ → ℚ) (st : State)
    (hnd : (st.g_ssNodesDataList.map (fun n => n.id)).Nodup)
    (hne : ∀ n ∈ st.g_ssNodesDataList, n.id ≠ -1) :
    Surveyed sqrtF
      (calcCellNeighbors (calcCellMembers (calcNodeNeighbors sqrtF (resetTables st)))) ∧
    GatewaysUnset
      (calcCellNeighbors (calcCellMembers (calcNodeNeighbors sqrtF (resetTables st)))) := by
  obtain ⟨hid, _, hcells, hnb⟩ := calcNodeNeighbors_spec sqrtF st
  generalize hs1 : calcNodeNeighbors sqrtF (resetTables st) = s1 at hid hcells hnb
  have hrad : s1.cellRadius = st.cellRadius := by rw [← hs1]; rfl
  obtain ⟨hm1, hm2⟩ := addCellMember_fold s1.g_ssNodesDataList
  have hc2 : (calcCellMembers s1).g_ssCellDataList
      = s1.g_ssNodesDataList.foldl addCellMember [] := by
    unfold calcCellMembers
    rw [hcells]
  generalize hs2 : calcCellMembers s1 = s2 at hc2
  have hn2 : s2.g_ssNodesDataList = s1.g_ssNodesDataList := by rw [← hs2]; rfl
  have hr2 : s2.cellRadius = st.cellRadius := by rw [← hs2]; exact hrad
  rw [← hc2] at hm1 hm2
  -- the cells of the third stage
  have hfold : ∀ c ∈ s2.g_ssCellDataList,
      ((neighborCellIds s2 c.cellId).foldl addCellNeighbor c).cellId = c.cellId ∧
      ((neighborCellIds s2 c.cellId).foldl addCellNeighbor c).members = c.members ∧
      ((neighborCellIds s2 c.cellId).foldl addCellNeighbor c).neighbors.Nodup ∧
      ((neighborCellIds s2 c.cellId).foldl addCellNeighbor c).cellId ∉
        ((neighborCellIds s2 c.cellId).foldl addCellNeighbor c).neighbors ∧
      (∀ B ∈ ((neighborCellIds s2 c.cellId).foldl addCellNeighbor c).neighbors,
        gatewayGet ((neighborCellIds s2 c.cellId).foldl addCellNeighbor c).gateways B = -1) ∧
      (∀ B ∈ ((neighborCellIds s2 c.cellId).foldl addCellNeighbor c).neighbors,
        B ∈ neighborCellIds s2 c.cellId) := by
    intro c hc
    obtain ⟨_, j2, _⟩ := hm2 c hc
    obtain ⟨k1, k2, k3, k4, k5, k6⟩ := addCellNeighbor_fold (neighborCellIds s2 c.cellId) c
      (by rw [j2]; exact List.nodup_nil) (by rw [j2]; exact List.not_mem_nil _)
      (by rw [j2]; intro B hB; exact absurd hB (List.not_mem_nil _))
    refine ⟨k1, k2, k3, k4, k5, ?_⟩
    intro B hB
    rcases k6 B hB with h | h
    · rw [j2] at h; exact absurd h (List.not_mem_nil _)
    · exact h
  have hmem3 : ∀ c3 ∈ (calcCellNeighbors s2).g_ssCellDataList, ∃ c ∈ s2.g_ssCellDataList,
      c3 = (neighborCellIds s2 c.cellId).foldl addCellNeighbor c := by
    intro c3 hc3
    unfold calcCellNeighbors at hc3
    simp only [List.mem_map] at hc3
    obtain ⟨c, hc, rfl⟩ := hc3
    exact ⟨c, hc, rfl⟩
  have hn3 : (calcCellNeighbors s2).g_ssNodesDataList = s1.g_ssNodesDataList := hn2
  refine ⟨⟨?_, ?_, ?_, ?_, ?_, ?_, ?_, ?_⟩, ?_⟩
  · rw [hn3, hid]; exact hnd
  · intro n hn
    rw [hn3] at hn
    have : n.id ∈ st.g_ssNodesDataList.map (fun n => n.id) := by
      rw [← hid]; exact List.mem_map_of_mem _ hn
    obtain ⟨m, hm, hmid⟩ := List.mem_map.mp this
    rw [← hmid]
    exact hne m hm
  · have : (calcCellNeighbors s2).g_ssCellDataList.map (fun c => c.cellId)
        = s2.g_ssCellDataList.map (fun c => c.cellId) := by
      unfold calcCellNeighbors
      simp only [List.map_map]
      apply List.map_congr_left
      intro c hc
      exact (hfold c hc).1
    rw [this]
    exact hm1
  · intro c3 hc3 m hm
    obtain ⟨c, hc, rfl⟩ := hmem3 c3 hc3
    obtain ⟨k1, k2, _⟩ := hfold c hc
    rw [k2] at hm
    rw [k1, hn3]
    exact (hm2 c hc).1 m hm
  · intro c3 hc3
    obtain ⟨c, hc, rfl⟩ := hmem3 c3 hc3
    exact (hfold c hc).2.2.1
  · intro c3 hc3
    obtain ⟨c, hc, rfl⟩ := hmem3 c3 hc3
    exact (hfold c hc).2.2.2.1
  · intro c3 hc3 B hB
    obtain ⟨c, hc, rfl⟩ := hmem3 c3 hc3
    obtain ⟨k1, _, _, _, _, k6⟩ := hfold c hc
    have hB2 := k6 B hB
    unfold neighborCellIds at hB2
    simp only [List.mem_flatMap, List.mem_filter, List.mem_map, decide_eq_true_eq] at hB2
    obtain ⟨n, ⟨hn, hcell⟩, i, hi, hiB⟩ := hB2
    rw [k1]
    exact ⟨n, hn, hcell, i, hi, hiB⟩
  · intro n hn v hv
    rw [hn3] at hn
    obtain ⟨o, ho, h1, h2⟩ := hnb n hn v hv
    refine ⟨o, by rw [hn3]; exact ho, h1, ?_⟩
    have : (calcCellNeighbors s2).cellRadius = st.cellRadius := hr2
    rw [this]
    exact h2
  · intro c3 hc3 B hB
    obtain ⟨c, hc, rfl⟩ := hmem3 c3 hc3
    exact (hfold c hc).2.2.2.2.1 B hB

/-- The tables `PrecalculateSimulationResults` hands to its gateway stage are
surveyed and have no gateway set, when the registered node ids are pairwise distinct
and none is `-1`. -/
theorem surveyed_calcCellLeaders (sqrtF : ℚ → ℚ) (st : State)
    (hnd : (st.g_ssNodesDataList.map (fun n => n.id)).Nodup)
    (hne : ∀ n ∈ st.g_ssNodesDataList, n.id ≠ -1) :
    Surveyed sqrtF (calcCellLeaders sqrtF
      (calcCellNeighbors (calcCellMembers (calcNodeNeighbors sqrtF (resetTables st))))) ∧
    GatewaysUnset (calcCellLeaders sqrtF
      (calcCellNeighbors (calcCellMembers (calcNodeNeighbors sqrtF (resetTables st))))) ∧
    (calcCellLeaders sqrtF
      (calcCellNeighbors (calcCellMembers (calcNodeNeighbors sqrtF (resetTables st))))).cellRadius
      = st.cellRadius := by
  obtain ⟨h1, h2⟩ := surveyed_calcCellNeighbors sqrtF st hnd hne
  obtain ⟨k1, k2, k3⟩ := calcCellLeaders_cores sqrtF
    (calcCellNeighbors (calcCellMembers (calcNodeNeighbors sqrtF (resetTables st))))
  obtain ⟨j1, j2⟩ := surveyed_of_cores sqrtF _ _ k1 k2 k3 h1 h2
  exact ⟨j1, j2, k3⟩


/-! ### Gateways, routing entries and routes of `PrecalculateSimulationResults` -/

theorem precalc_eq (sqrtF : ℚ → ℚ) (st : State) :
    PrecalculateSimulationResults sqrtF st =
      calcRoutes sqrtF (calcGateways sqrtF (calcCellLeaders sqrtF
        (calcCellNeighbors (calcCellMembers (calcNodeNeighbors sqrtF (resetTables st)))))) :=
  rfl

/-- The pair of nodes found by the gateway search, for every cell and every
neighbour cell recorded for it. -/
theorem gateway_search_result (sqrtF : ℚ → ℚ) (st : State)
    (hnd : (st.g_ssNodesDataList.map (fun n => n.id)).Nodup)
    (hne : ∀ n ∈ st.g_ssNodesDataList, n.id ≠ -1)
    (hR : st.cellRadius < 9999) :
    ∀ A ∈ (PrecalculateSimulationResults sqrtF st).g_ssCellDataList, ∀ B ∈ A.neighbors,
      ∃ u ∈ (PrecalculateSimulationResults sqrtF st).g_ssNodesDataList,
      ∃ v ∈ (PrecalculateSimulationResults sqrtF st).g_ssNodesDataList,
        gatewayGet A.gateways B = u.id ∧ u.cellId = A.cellId ∧
        v.id ∈ u.neighbors ∧ v.cellId = B ∧
        (PrecalculateSimulationResults sqrtF st).g_ssRoutingTable u.id B = some v.id ∧
        ∀ u2 ∈ (PrecalculateSimulationResults sqrtF st).g_ssNodesDataList,
        ∀ v2 ∈ (PrecalculateSimulationResults sqrtF st).g_ssNodesDataList,
          u2.cellId = A.cellId → v2.id ∈ u2.neighbors → v2.cellId = B →
          linkLength sqrtF u v < linkLength sqrtF u2 v2 + 1 / 1000000 ∧
          ((∀ u3 ∈ (PrecalculateSimulationResults sqrtF st).g_ssNodesDataList,
            ∀ v3 ∈ (PrecalculateSimulationResults sqrtF st).g_ssNodesDataList,
              u3.cellId = A.cellId → v3.id ∈ u3.neighbors → v3.cellId = B →
              linkLength sqrtF u2 v2 ≤ linkLength sqrtF u3 v3) → u.id ≤ u2.id) := by
  obtain ⟨hs, hun, hrad⟩ := surveyed_calcCellLeaders sqrtF st hnd hne
  rw [precalc_eq]
  generalize calcCellLeaders sqrtF
    (calcCellNeighbors (calcCellMembers (calcNodeNeighbors sqrtF (resetTables st)))) = s
    at hs hun hrad
  have hRs : s.cellRadius < 9999 := by rw [hrad]; exact hR
  intro A hA B hB
  obtain ⟨A0, hA0, rfl⟩ := (mem_calcGateways_cells sqrtF s A).mp hA
  have hB0 : B ∈ A0.neighbors := hB
  obtain ⟨u, hu, v, hv, hch, hsel, hcell, hi, hvB, hmin⟩ :=
    chosenGateway_spec sqrtF s hs hRs A0 hA0 B hB0
  have hgw : gatewayGet (cellGateways sqrtF s A0).1 B = u.id := by
    rw [(cellGateways_spec sqrtF s hs hun A0 hA0).2 B hB0, hch]
  refine ⟨u, hu, v, hv, hgw, hcell, hi, hvB, ?_, hmin⟩
  have h1 := calcRoutes_gateway_entry sqrtF (calcGateways sqrtF s)
    (surveyed_calcGateways sqrtF s hs)
    { A0 with gateways := (cellGateways sqrtF s A0).1 } hA B hB u hu hgw hcell
  simp only [hgw] at h1
  rw [h1, calcGateways_entry sqrtF s hs hun hRs A0 hA0 B hB0 u hu hch, hsel]

/-- Counterexample to C16 as stated: with cell radius 6000, nodes 1, 2 and 3 of
cell 0 lie 5000 apart on a line and node 4 of cell 1 lies next to node 3, the
gateway toward cell 1.  Node 2 is a one-hop neighbour of node 1 and of the gateway,
the only one, yet the entry of node 1 toward cell 1 is `-1`: the path over node 2
has length 10000, not below the initial value 9999 of the search. -/
theorem two_hop_relay_missed :
    (PrecalculateSimulationResults sampleRoot farRelayState).g_ssCellDataList.map
      (fun c => (c.cellId, c.members, c.neighbors, c.gateways))
      = [(0, [1, 2, 3], [1], [(1, 3)]), (1, [4], [0], [(0, 4)])] ∧
    (PrecalculateSimulationResults sampleRoot farRelayState).g_ssNodesDataList.map
      (fun n => (n.id, n.cellId, n.neighbors))
      = [(1, 0, [2]), (2, 0, [1, 3, 4]), (3, 0, [2, 4]), (4, 1, [2, 3])] ∧
    linkLength sampleRoot
      (getNodeData (PrecalculateSimulationResults sampleRoot farRelayState) 1)
      (getNodeData (PrecalculateSimulationResults sampleRoot farRelayState) 2) +
    linkLength sampleRoot
      (getNodeData (PrecalculateSimulationResults sampleRoot farRelayState) 2)
      (getNodeData (PrecalculateSimulationResults sampleRoot farRelayState) 3)
      = 10000 ∧
    (PrecalculateSimulationResults sampleRoot farRelayState).g_ssRoutingTable 1 1
      = some (-1) := by
  refine ⟨by decide!, by decide!, by decide!, by decide!⟩

/-- The entries the routing stage leaves in a surveyed state with
`2 * cellRadius < 9999`, for a member `m` of a cell other than the gateway `u`
stored toward the neighbour cell `B`. -/
theorem member_routes_surveyed (sqrtF : ℚ → ℚ) (t : State) (hs : Surveyed sqrtF t)
    (h2R : 2 * t.cellRadius < 9999)
    (A : PeceeCellData) (hA : A ∈ t.g_ssCellDataList) (B : Int) (hB : B ∈ A.neighbors)
    (u : PeceeNodeData) (hu : u ∈ t.g_ssNodesDataList) (hg : gatewayGet A.gateways B = u.id)
    (m : Int) (hm : m ∈ A.members) (hmu : m ≠ u.id) :
    (u.id ∈ (getNodeData t m).neighbors →
      (calcRoutes sqrtF t).g_ssRoutingTable m B = some u.id) ∧
    (u.id ∉ (getNodeData t m).neighbors →
      ((∀ n ∈ t.g_ssNodesDataList, n.id ∈ (getNodeData t m).neighbors →
          u.id ∉ n.neighbors) →
        (calcRoutes sqrtF t).g_ssRoutingTable m B = some (-1)) ∧
      (∀ n0 ∈ t.g_ssNodesDataList, n0.id ∈ (getNodeData t m).neighbors →
          u.id ∈ n0.neighbors →
        ∃ n ∈ t.g_ssNodesDataList, n.id ∈ (getNodeData t m).neighbors ∧
          u.id ∈ n.neighbors ∧
          (calcRoutes sqrtF t).g_ssRoutingTable m B = some n.id ∧
          ∀ n2 ∈ t.g_ssNodesDataList, n2.id ∈ (getNodeData t m).neighbors →
            u.id ∈ n2.neighbors →
            linkLength sqrtF (getNodeData t m) n + linkLength sqrtF n u ≤
              linkLength sqrtF (getNodeData t m) n2 + linkLength sqrtF n2 u ∧
            (linkLength sqrtF (getNodeData t m) n2 + linkLength sqrtF n2 u =
              linkLength sqrtF (getNodeData t m) n + linkLength sqrtF n u →
              n.id ≤ n2.id))) := by
  have hgne : gatewayGet A.gateways B ≠ -1 := by rw [hg]; exact hs.ids_ne u hu
  have hentry := calcRoutes_member_entry sqrtF t hs A hA B hB hgne m hm (by rw [hg]; exact hmu)
  rw [hg] at hentry
  have hmem := (member_id sqrtF t hs A hA m hm).2.2
  obtain ⟨hb0, hb1⟩ := twoHopBest_spec sqrtF t hs h2R (getNodeData t m) u hmem hu
  refine ⟨?_, ?_⟩
  · intro hin
    rw [hentry]
    unfold memberRoute
    rw [if_pos hin]
  · intro hnin
    refine ⟨?_, ?_⟩
    · intro hno
      rw [hentry]
      unfold memberRoute
      rw [if_neg hnin, hb0 hno]
      simp
    · intro n0 hn0 hi0 hg0
      obtain ⟨n, hn, hi, hgn, hbest, hmin⟩ := hb1 n0 hn0 hi0 hg0
      refine ⟨n, hn, hi, hgn, ?_, hmin⟩
      rw [hentry]
      unfold memberRoute
      rw [if_neg hnin, hbest, if_pos (hs.ids_ne n hn)]

/-- C16 (amended). Inter-cell routing entries in
`PrecalculateSimulationResults`, for registered nodes with pairwise distinct ids
other than `-1` and a cell radius below 4999.5: for every cell, every neighbour cell
`B` with stored gateway `g`, and every member `m` other than `g`, the entry of `m`
toward `B` is `g` when `g` is a one-hop neighbour of `m`; otherwise it is `-1` when
no one-hop neighbour of `m` has `g` as a one-hop neighbour, and else such a
neighbour `n` minimising `dist(m, n) + dist(n, g)`, of lowest id among those of equal
sum.  Every entry other than `-1` is a one-hop neighbour of `m`. -/
theorem member_routes (sqrtF : ℚ → ℚ) (st : State)
    (hnd : (st.g_ssNodesDataList.map (fun n => n.id)).Nodup)
    (hne : ∀ n ∈ st.g_ssNodesDataList, n.id ≠ -1)
    (h2R : 2 * st.cellRadius < 9999) :
    ∀ A ∈ (PrecalculateSimulationResults sqrtF st).g_ssCellDataList, ∀ B ∈ A.neighbors,
    ∀ m ∈ A.members, m ≠ gatewayGet A.gateways B →
      (gatewayGet A.gateways B ∈
          (getNodeData (PrecalculateSimulationResults sqrtF st) m).neighbors →
        (PrecalculateSimulationResults sqrtF st).g_ssRoutingTable m B
          = some (gatewayGet A.gateways B)) ∧
      (gatewayGet A.gateways B ∉
          (getNodeData (PrecalculateSimulationResults sqrtF st) m).neighbors →
        ((∀ n ∈ (PrecalculateSimulationResults sqrtF st).g_ssNodesDataList,
            n.id ∈ (getNodeData (PrecalculateSimulationResults sqrtF st) m).neighbors →
            gatewayGet A.gateways B ∉ n.neighbors) →
          (PrecalculateSimulationResults sqrtF st).g_ssRoutingTable m B = some (-1)) ∧
        (∀ n0 ∈ (PrecalculateSimulationResults sqrtF st).g_ssNodesDataList,
            n0.id ∈ (getNodeData (PrecalculateSimulationResults sqrtF st) m).neighbors →
            gatewayGet A.gateways B ∈ n0.neighbors →
          ∃ n ∈ (PrecalculateSimulationResults sqrtF st).g_ssNodesDataList,
            n.id ∈ (getNodeData (PrecalculateSimulationResults sqrtF st) m).neighbors ∧
            gatewayGet A.gateways B ∈ n.neighbors ∧
            (PrecalculateSimulationResults sqrtF st).g_ssRoutingTable m B = some n.id ∧
            ∀ n2 ∈ (PrecalculateSimulationResults sqrtF st).g_ssNodesDataList,
              n2.id ∈ (getNodeData (PrecalculateSimulationResults sqrtF st) m).neighbors →
              gatewayGet A.gateways B ∈ n2.neighbors →
              linkLength sqrtF (getNodeData (PrecalculateSimulationResults sqrtF st) m) n +
                linkLength sqrtF n (getNodeData (PrecalculateSimulationResults sqrtF st)
                  (gatewayGet A.gateways B)) ≤
              linkLength sqrtF (getNodeData (PrecalculateSimulationResults sqrtF st) m) n2 +
                linkLength sqrtF n2 (getNodeData (PrecalculateSimulationResults sqrtF st)
                  (gatewayGet A.gateways B)) ∧
              (linkLength sqrtF (getNodeData (PrecalculateSimulationResults sqrtF st) m) n2 +
                linkLength sqrtF n2 (getNodeData (PrecalculateSimulationResults sqrtF st)
                  (gatewayGet A.gateways B)) =
               linkLength sqrtF (getNodeData (PrecalculateSimulationResults sqrtF st) m) n +
                linkLength sqrtF n (getNodeData (PrecalculateSimulationResults sqrtF st)
                  (gatewayGet A.gateways B)) → n.id ≤ n2.id))) ∧
      (∀ x, (PrecalculateSimulationResults sqrtF st).g_ssRoutingTable m B = some x →
        x ≠ -1 → x ∈ (getNodeData (PrecalculateSimulationResults sqrtF st) m).neighbors) := by
  obtain ⟨hs, hun, hrad⟩ := surveyed_calcCellLeaders sqrtF st hnd hne
  have hR : st.cellRadius < 9999 := by linarith
  intro A hA B hB m hm hmg
  obtain ⟨u, hu, v, hv, hg, hcell, hi, hvB, hrt, _⟩ :=
    gateway_search_result sqrtF st hnd hne hR A hA B hB
  rw [precalc_eq] at hA hu ⊢
  generalize calcCellLeaders sqrtF
    (calcCellNeighbors (calcCellMembers (calcNodeNeighbors sqrtF (resetTables st)))) = s
    at hs hun hrad hA hu
  have hst := surveyed_calcGateways sqrtF s hs
  have h2Rt : 2 * (calcGateways sqrtF s).cellRadius < 9999 := by
    have : (calcGateways sqrtF s).cellRadius = s.cellRadius := rfl
    rw [this, hrad]
    exact h2R
  have hgd : ∀ i, getNodeData (calcRoutes sqrtF (calcGateways sqrtF s)) i
      = getNodeData (calcGateways sqrtF s) i := fun i => rfl
  have hgu : getNodeData (calcGateways sqrtF s) u.id = u :=
    getNodeData_of_mem _ hst.ids_nodup u hu
  rw [hg] at hmg ⊢
  simp only [hgd, hgu]
  obtain ⟨h1, h2⟩ := member_routes_surveyed sqrtF (calcGateways sqrtF s) hst h2Rt A hA B hB
    u hu hg m hm hmg
  refine ⟨h1, h2, ?_⟩
  intro x hx hx1
  by_cases hin : u.id ∈ (getNodeData (calcGateways sqrtF s) m).neighbors
  · have := h1 hin
    rw [this] at hx
    rw [← Option.some.inj hx]
    exact hin
  · obtain ⟨h3, h4⟩ := h2 hin
    by_cases hex : ∃ n0 ∈ (calcGateways sqrtF s).g_ssNodesDataList,
        n0.id ∈ (getNodeData (calcGateways sqrtF s) m).neighbors ∧ u.id ∈ n0.neighbors
    · obtain ⟨n0, hn0, hi0, hg0⟩ := hex
      obtain ⟨n, _, hni, _, hnrt, _⟩ := h4 n0 hn0 hi0 hg0
      rw [hnrt] at hx
      rw [← Option.some.inj hx]
      exact hni
    · have := h3 (fun n hn hni hgn => hex ⟨n, hn, hni, hgn⟩)
      rw [this] at hx
      exact absurd (Option.some.inj hx).symm hx1

theorem member_routes_witness :
    (PrecalculateSimulationResults sampleRoot nearTieState).g_ssRoutingTable 5 1
      = some (gatewayGet
          (getCellData (PrecalculateSimulationResults sampleRoot nearTieState) 0).gateways 1) :=
  (member_routes sampleRoot nearTieState (by decide) (by decide) (by decide!)
    (getCellData (PrecalculateSimulationResults sampleRoot nearTieState) 0) (by decide!)
    1 (by decide!) 5 (by decide!) (by decide!)).1 (by decide!)

/-- Entries are stored toward the neighbour cells of a node's own cell only: nodes
1, 2 and 3 lie in the cells 0, 1 and 2, with one-hop links 1 – 2 and 2 – 3, and
node 3 is the leader of cell 2.  No entry is stored for node 1 toward cell 2, so
following the entries from node 1 toward cell 2 stops at once, whatever the number
of steps allowed. -/
theorem route_missing_beyond_adjacent_cell :
    (PrecalculateSimulationResults sampleRoot lineState).g_ssNodesDataList.map
      (fun n => (n.id, n.cellId, n.neighbors))
      = [(1, 0, [2]), (2, 1, [1, 3]), (3, 2, [2])] ∧
    (PrecalculateSimulationResults sampleRoot lineState).g_ssCellDataList.map
      (fun c => (c.cellId, c.clId, c.members, c.neighbors))
      = [(0, 1, [1], [1]), (1, 2, [2], [0, 2]), (2, 3, [3], [1])] ∧
    (PrecalculateSimulationResults sampleRoot lineState).g_ssRoutingTable 1 2 = none ∧
    ∀ fuel : Nat,
      followRoute (PrecalculateSimulationResults sampleRoot lineState) 2 fuel 1 = none := by
  refine ⟨by decide!, by decide!, by decide!, ?_⟩
  intro fuel
  cases fuel with
  | zero => rfl
  | succ k =>
      have h1 : (getNodeData (PrecalculateSimulationResults sampleRoot lineState) 1).cellId = 0 := by
        decide!
      have h2 : (PrecalculateSimulationResults sampleRoot lineState).g_ssRoutingTable 1 2
          = none := by decide!
      simp [followRoute, h1, h2]

/-- Routing toward a neighbour cell from the gateway and its one-hop neighbours,
for registered nodes with pairwise distinct ids other than `-1` and a cell radius
below 9999: for every cell
`A`, every neighbour cell `B` recorded for `A` with stored gateway `g`, and every
member `m` of `A` that is `g` or has `g` as a one-hop neighbour, following the
next-hop entries stored for `B` from `m` reaches a node of `B` after at most two
hops, without meeting a missing or `-1` entry. -/
theorem route_reaches_neighbor_cell (sqrtF : ℚ → ℚ) (st : State)
    (hnd : (st.g_ssNodesDataList.map (fun n => n.id)).Nodup)
    (hne : ∀ n ∈ st.g_ssNodesDataList, n.id ≠ -1)
    (hR : st.cellRadius < 9999) :
    ∀ A ∈ (PrecalculateSimulationResults sqrtF st).g_ssCellDataList, ∀ B ∈ A.neighbors,
    ∀ m ∈ A.members,
      (m = gatewayGet A.gateways B ∨ gatewayGet A.gateways B ∈
        (getNodeData (PrecalculateSimulationResults sqrtF st) m).neighbors) →
      ∃ v, followRoute (PrecalculateSimulationResults sqrtF st) B 3 m = some v ∧
        (getNodeData (PrecalculateSimulationResults sqrtF st) v).cellId = B := by
  obtain ⟨hs, hun, hrad⟩ := surveyed_calcCellLeaders sqrtF st hnd hne
  intro A hA B hB m hm hcase
  obtain ⟨u, hu, v, hv, hg, hcell, hi, hvB, hrt, _⟩ :=
    gateway_search_result sqrtF st hnd hne hR A hA B hB
  rw [precalc_eq] at hA hu hv hrt hcase ⊢
  generalize calcCellLeaders sqrtF
    (calcCellNeighbors (calcCellMembers (calcNodeNeighbors sqrtF (resetTables st)))) = s
    at hs hun hrad hA hu hv hrt hcase
  have hst := surveyed_calcGateways sqrtF s hs
  have hgd : ∀ i, getNodeData (calcRoutes sqrtF (calcGateways sqrtF s)) i
      = getNodeData (calcGateways sqrtF s) i := fun i => rfl
  have hgu : getNodeData (calcGateways sqrtF s) u.id = u :=
    getNodeData_of_mem _ hst.ids_nodup u hu
  have hgv : getNodeData (calcGateways sqrtF s) v.id = v :=
    getNodeData_of_mem _ hst.ids_nodup v hv
  have hAB : A.cellId ≠ B := fun h => hst.own_not_neighbor A hA (h ▸ hB)
  have hvne : v.id ≠ -1 := hst.ids_ne v hv
  have hune : u.id ≠ -1 := hst.ids_ne u hu
  -- from the gateway one step reaches `v`
  have hfromu : ∀ k : Nat, followRoute (calcRoutes sqrtF (calcGateways sqrtF s)) B (k + 2) u.id
      = some v.id := by
    intro k
    have hc : ¬ (getNodeData (calcRoutes sqrtF (calcGateways sqrtF s)) u.id).cellId = B := by
      rw [hgd, hgu, hcell]; exact hAB
    have hc2 : (getNodeData (calcRoutes sqrtF (calcGateways sqrtF s)) v.id).cellId = B := by
      rw [hgd, hgv]; exact hvB
    simp only [followRoute, hc, if_false, hrt, hvne, hc2, if_true]
  refine ⟨v.id, ?_, by rw [hgd, hgv]; exact hvB⟩
  rw [hg] at hcase
  rcases hcase with hmu | hin
  · rw [hmu]
    exact hfromu 1
  · by_cases hmu : m = u.id
    · rw [hmu]
      exact hfromu 1
    · have h2 := calcRoutes_member_entry sqrtF (calcGateways sqrtF s) hst A hA B hB
        (by rw [hg]; exact hune) m hm (by rw [hg]; exact hmu)
      rw [hg] at h2
      have hroute : memberRoute sqrtF (calcGateways sqrtF s) u.id m = u.id := by
        unfold memberRoute
        rw [hgd] at hin
        rw [if_pos hin]
      rw [hroute] at h2
      have hc : ¬ (getNodeData (calcRoutes sqrtF (calcGateways sqrtF s)) m).cellId = B := by
        rw [hgd, (member_id sqrtF _ hst A hA m hm).2.1]; exact hAB
      have := hfromu 0
      simp only [Nat.zero_add] at this
      simp only [followRoute, hc, if_false, h2, hune] at this ⊢
      exact this

theorem route_reaches_neighbor_cell_witness :
    ∃ v, followRoute (PrecalculateSimulationResults sampleRoot nearTieState) 1 3 5 = some v ∧
      (getNodeData (PrecalculateSimulationResults sampleRoot nearTieState) v).cellId = 1 :=
  route_reaches_neighbor_cell sampleRoot nearTieState (by decide) (by decide) (by decide!)
    (getCellData (PrecalculateSimulationResults sampleRoot nearTieState) 0) (by decide!)
    1 (by decide!) 5 (by decide!) (Or.inr (by decide!))

/-- The cell ids of the three sample tables are those `calculateCellInfo` assigns to
the sample positions (grid offset 100, `sqrt 3` as in `sampleRoot`). -/
theorem sample_cell_ids :
    nearTieState.g_ssNodesDataList.map
        (fun n => (HexGrid.CalculateCellInfo sampleRoot n.x n.y nearTieState.cellRadius 100).cellId)
      = nearTieState.g_ssNodesDataList.map (fun n => n.cellId) ∧
    farRelayState.g_ssNodesDataList.map
        (fun n => (HexGrid.CalculateCellInfo sampleRoot n.x n.y farRelayState.cellRadius 100).cellId)
      = farRelayState.g_ssNodesDataList.map (fun n => n.cellId) ∧
    lineState.g_ssNodesDataList.map
        (fun n => (HexGrid.CalculateCellInfo sampleRoot n.x n.y lineState.cellRadius 100).cellId)
      = lineState.g_ssNodesDataList.map (fun n => n.cellId) := by
  refine ⟨by decide!, by decide!, by decide!⟩

end Pecee

namespace Pecee

/-! ## The header on the wire -/

theorem castU16_lt (x : Int) : castU16 x < 65536 := by
  unfold castU16 toU16
  omega

theorem castU16_cast (x : Int) : ((castU16 x : Nat) : Int) = toU16 x := by
  unfold castU16 toU16
  omega

theorem castU16_join (x : Int) :
    castU16 x % 256 + 256 * (castU16 x / 256 % 256) = castU16 x := by
  have := castU16_lt x
  omega

theorem castU16_join4 (x y : Int) :
    castU16 x % 256 + 256 * (castU16 x / 256 % 256) + 65536 * (castU16 y % 256) +
      16777216 * (castU16 y / 256 % 256) = castU16 x + 65536 * castU16 y := by
  have := castU16_lt x
  have := castU16_lt y
  omega

theorem toCode_join (t : PeceePacketType) :
    t.toCode % 256 + 256 * (t.toCode / 256 % 256) = t.toCode := by
  cases t <;> decide

theorem ofCode_toCode (t : PeceePacketType) : PeceePacketType.ofCode t.toCode = t := by
  cases t <;> rfl

theorem list_of_length_three (l : List Int) (h : l.length = 3) :
    l = [l.getD 0 (-1), l.getD 1 (-1), l.getD 2 (-1)] := by
  match l, h with
  | [a, b, c], _ => rfl

/-- What `Deserialize` reads from the bytes written by `Serialize` is the header
`wire` describes, for a header whose two path arrays have their three entries. -/
theorem Deserialize_Serialize (h0 h : PeceeHeader) (start : Iterator)
    (hp : h.m_cellPath.length = 3) (hq : h.m_cellHopAnnouncementData.cellPath.length = 3) :
    PeceeHeader.Deserialize h0 { data := (h.Serialize start).data, current := start.current }
      = h.wire := by
  have e1 := list_of_length_three _ hp
  have e2 := list_of_length_three _ hq
  simp only [PeceeHeader.Deserialize, WsnRoutingHeader.Deserialize, PeceeHeader.wire]
  rw [e1, e2]
  simp [PeceeHeader.Serialize, WsnRoutingHeader.Serialize, Iterator.WriteU16, Iterator.WriteU8,
    Iterator.WriteU32, Iterator.ReadU16, Iterator.ReadU8, Iterator.ReadU32,
    List.range_succ, Function.update_apply, Nat.add_assoc, castU16_join, toCode_join,
    ofCode_toCode, castU16_cast, castU16_join4]
  have key : ∀ x y : Int,
      ((castU16 x : Nat) : ℚ) +
          (65536 * ((castU16 y % 256 : Nat) : ℚ) + 16777216 * ((castU16 y / 256 % 256 : Nat) : ℚ))
        = ((toU16 x : Int) : ℚ) + 65536 * ((toU16 y : Int) : ℚ) := by
    intro x y
    have a := castU16_cast x
    have b := castU16_cast y
    have c := castU16_lt y
    have d : ((castU16 x : Nat) : Int) +
          (65536 * ((castU16 y % 256 : Nat) : Int) + 16777216 * ((castU16 y / 256 % 256 : Nat) : Int))
        = toU16 x + 65536 * toU16 y := by
      rw [← a, ← b]
      omega
    have e := congrArg (Int.cast : Int → ℚ) d
    push_cast at e ⊢
    exact e
  refine ⟨⟨key _ _, key _ _⟩, ?_⟩
  have a := congrArg (Int.cast : Int → ℚ) (castU16_cast (truncToInt h.m_sensorData.dataId))
  push_cast at a ⊢
  exact a

/-- The inherited members after a round trip, for every header: the bytes they
are read from are those the derived class wrote last. -/
theorem Deserialize_Serialize_inherited (h0 h : PeceeHeader) (start : Iterator) :
    (PeceeHeader.Deserialize h0
        { data := (h.Serialize start).data, current := start.current }).m_source
      = h.m_packetType.toCode ∧
    (PeceeHeader.Deserialize h0
        { data := (h.Serialize start).data, current := start.current }).m_destination
      = toU16 h.m_clusterHead ∧
    (PeceeHeader.Deserialize h0
        { data := (h.Serialize start).data, current := start.current }).m_sequenceNumber
      = toU16 h.m_cellSent := by
  simp [PeceeHeader.Deserialize, WsnRoutingHeader.Deserialize,
    PeceeHeader.Serialize, WsnRoutingHeader.Serialize, Iterator.WriteU16, Iterator.WriteU8,
    Iterator.WriteU32, Iterator.ReadU16, Iterator.ReadU8, Iterator.ReadU32,
    List.range_succ, Function.update_apply, Nat.add_assoc, castU16_join, toCode_join,
    castU16_cast]

/-- The base class alone round-trips its members: `WsnRoutingHeader::Deserialize`
on the bytes written by `WsnRoutingHeader::Serialize` gives back source,
destination and sequence number as `uint16_t`. -/
theorem WsnRoutingHeader_round_trip (h0 h : PeceeHeader) (start : Iterator) :
    (WsnRoutingHeader.Deserialize h0
        { data := (WsnRoutingHeader.Serialize h start).data, current := start.current }).m_source
      = toU16 h.m_source ∧
    (WsnRoutingHeader.Deserialize h0
        { data := (WsnRoutingHeader.Serialize h start).data,
          current := start.current }).m_destination
      = toU16 h.m_destination ∧
    (WsnRoutingHeader.Deserialize h0
        { data := (WsnRoutingHeader.Serialize h start).data,
          current := start.current }).m_sequenceNumber
      = toU16 h.m_sequenceNumber := by
  simp [WsnRoutingHeader.Deserialize, WsnRoutingHeader.Serialize, Iterator.WriteU16,
    Iterator.WriteU8, Iterator.WriteU32, Iterator.ReadU16, Iterator.ReadU8, Iterator.ReadU32,
    Function.update_apply, Nat.add_assoc, castU16_join, castU16_cast]

/-- C29. The sensor-data header of node 3 (source 3, destination 9, sequence
number 1, packet type `SENSOR_DATA`, `m_clusterHead = m_cellSent = -1`) is
serialised into an empty buffer and deserialised from it.  The header read back
has source 14 (the code of `SENSOR_DATA`), destination 65535 and sequence number
65535: the inherited members are not those of the header written. -/
theorem Serialize_Deserialize_loses_inherited_fields :
    (sampleSensorData.m_source, sampleSensorData.m_destination,
      sampleSensorData.m_sequenceNumber) = (3, 9, 1) ∧
    (PeceeHeader.Deserialize PeceeHeader.default
        { data := (sampleSensorData.Serialize { data := fun _ => 0, current := 0 }).data,
          current := 0 }).m_source = 14 ∧
    (PeceeHeader.Deserialize PeceeHeader.default
        { data := (sampleSensorData.Serialize { data := fun _ => 0, current := 0 }).data,
          current := 0 }).m_destination = 65535 ∧
    (PeceeHeader.Deserialize PeceeHeader.default
        { data := (sampleSensorData.Serialize { data := fun _ => 0, current := 0 }).data,
          current := 0 }).m_sequenceNumber = 65535 := by
  decide

end Pecee

namespace Pecee

/-! ## Rotation and the pending queues -/

/-- What `rotationCH` does to the per-epoch propagation state, for every node and
every sequence of draws: the loop-detection record and the announcement queue are
emptied, the queue of intra-cell targets is left as it was. -/
theorem rotationCH_queues (st : State) (draws : Nat → Nat) :
    (rotationCH st draws).receivedCHAFromCells = [] ∧
    (rotationCH st draws).announcementQueue = [] ∧
    (rotationCH st draws).boardcastAnnouncementQueue = st.boardcastAnnouncementQueue := by
  unfold rotationCH
  simp only
  split_ifs <;> exact ⟨rfl, rfl, rfl⟩

/-- C21. Cluster head 3 of cell 7 has queued its announcement (one copy toward
cell 8, one for member 5 with the target 5 in `boardcastAnnouncementQueue`) when
the rotation timer fires.  After `rotationCH` the loop-detection record and the
announcement queue are empty, but `boardcastAnnouncementQueue` still holds the
target 5 of the old epoch. -/
theorem rotationCH_keeps_broadcast_targets :
    (sendCHAnnouncement sampleCH).announcementQueue.length = 2 ∧
    (sendCHAnnouncement sampleCH).boardcastAnnouncementQueue = [5] ∧
    (rotationCH (sendCHAnnouncement sampleCH) (fun _ => 0)).receivedCHAFromCells = [] ∧
    (rotationCH (sendCHAnnouncement sampleCH) (fun _ => 0)).announcementQueue = [] ∧
    (rotationCH (sendCHAnnouncement sampleCH) (fun _ => 0)).boardcastAnnouncementQueue = [5] := by
  decide

/-! ## The neighbour filter of `FromMacLayer` -/

/-- The filter lets a packet pass exactly when the neighbour list of the node is
empty or begins with the sender. -/
theorem FromMacLayerFilter_iff (st : State) (src : Nat) :
    FromMacLayerFilter st src = true ↔
      (getNodeData st st.self).neighbors = [] ∨
      (getNodeData st st.self).neighbors.head? = some (src : Int) := by
  unfold FromMacLayerFilter
  cases (getNodeData st st.self).neighbors with
  | nil => simp [neighborFilterLoop]
  | cons a l => simp [neighborFilterLoop]

/-- C27. Node 6 of the relay network has the neighbour list `[3, 10]`.  A packet
from neighbour 3 passes the filter of `FromMacLayer`, a packet from neighbour 10
is dropped; and a node with an empty neighbour list lets a packet from any
sender, here 9, pass. -/
theorem FromMacLayer_drops_second_neighbor :
    (getNodeData relayNode relayNode.self).neighbors = [3, 10] ∧
    FromMacLayerFilter relayNode 3 = true ∧
    FromMacLayerFilter relayNode 10 = false ∧
    (getNodeData { relayNode with g_ssNodesDataList := [] } relayNode.self).neighbors = [] ∧
    FromMacLayerFilter { relayNode with g_ssNodesDataList := [] } 9 = true := by
  decide

end Pecee

namespace Peece

/-! ## Role and accepted leader -/

/-- `HandleCLAnnouncementPacket` never writes `m_myRole`. -/
theorem HandleCLAnnouncementPacket_role (n : Node) (header : PeeceHeader) (src : Nat) :
    (HandleCLAnnouncementPacket n header src).m_myRole = n.m_myRole := by
  unfold HandleCLAnnouncementPacket
  simp only
  split_ifs <;> rfl

/-- The election timeout keeps role and leader consistent: if a cell leader has
its own id as `m_myClId` before the call, it has so after it. -/
theorem TimerCallback_CLElection_consistent (n : Node)
    (h : n.m_myRole = NodeRole.CELL_LEADER → n.m_myClId = n.nodeId) :
    (TimerCallback_CLElection n).m_myRole = NodeRole.CELL_LEADER →
      (TimerCallback_CLElection n).m_myClId = (TimerCallback_CLElection n).nodeId := by
  unfold TimerCallback_CLElection
  simp only
  split_ifs with h1 h2
  · intro _; rfl
  · exact h
  · exact h

/-- C28. Node 1 (fitness 1/6, cell 0) reaches its election timeout without a
leader and elects itself; the announcement of node 2 with fitness 1/2 for cell 0
arrives afterwards.  The node then has role `CELL_LEADER` and `m_myClId = 2`.  The
same happens from the constructor state (cell id and fitness still `-1`) with an
announcement that names cell `-1`. -/
theorem cell_leader_role_outlives_leadership :
    (sampleNodeA.runCalls
        [Call.electionTimeout,
          Call.announcement (sampleAnnouncement 2 (1 / 2)).1 2]).m_myRole
      = NodeRole.CELL_LEADER ∧
    (sampleNodeA.runCalls
        [Call.electionTimeout,
          Call.announcement (sampleAnnouncement 2 (1 / 2)).1 2]).m_myClId = 2 ∧
    (sampleNodeA.runCalls
        [Call.electionTimeout,
          Call.announcement (sampleAnnouncement 2 (1 / 2)).1 2]).nodeId = 1 ∧
    ((Node.init 1 3 4 false).runCalls
        [Call.electionTimeout,
          Call.announcement
            { source := 2, destination := 0xFFFF, ttl := 2,
              clInfo := { x := 0, y := 0, cellId := -1, color := 0, fitnessScore := 1 / 2 } }
            2]).m_myRole = NodeRole.CELL_LEADER ∧
    ((Node.init 1 3 4 false).runCalls
        [Call.electionTimeout,
          Call.announcement
            { source := 2, destination := 0xFFFF, ttl := 2,
              clInfo := { x := 0, y := 0, cellId := -1, color := 0, fitnessScore := 1 / 2 } }
            2]).m_myClId = 2 := by
  decide!

end Peece

namespace Peece

/-! ## The announcement delay -/

theorem CalculateFitnessScore_counter (sqrtF : ℚ → ℚ) (n : Node) :
    (CalculateFitnessScore sqrtF n).scheduledCLAnnouncement = n.scheduledCLAnnouncement ∧
    (CalculateFitnessScore sqrtF n).nodeId = n.nodeId := by
  unfold CalculateFitnessScore
  simp only
  split_ifs <;> exact ⟨rfl, rfl⟩

theorem CalculateFitnessScore_fitness (sqrtF : ℚ → ℚ) (n : Node) :
    (CalculateFitnessScore sqrtF n).m_fitnessScore =
      1 / (1 + HexGrid.CalculateDistance sqrtF n.xCoord n.yCoord
        (HexGrid.CalculateCellCenter sqrtF n.m_cellRadius n.m_gridOffset n.m_myCellId).1
        (HexGrid.CalculateCellCenter sqrtF n.m_cellRadius n.m_gridOffset n.m_myCellId).2) := by
  unfold CalculateFitnessScore
  simp only
  split_ifs <;> rfl

/-- A node that schedules its announcement in `TimerCallback_HelloTimeout` has a
positive fitness and schedules it with the delay
`100 + (1 - fitness) * 1900 + (nodeId mod 100) / 2`. -/
theorem TimerCallback_HelloTimeout_delay (sqrtF : ℚ → ℚ) (n : Node)
    (h : (TimerCallback_HelloTimeout sqrtF n).scheduledCLAnnouncement
      = n.scheduledCLAnnouncement + 1) :
    (TimerCallback_HelloTimeout sqrtF n).clAnnouncementDelay =
      some (100 + (1 - (TimerCallback_HelloTimeout sqrtF n).m_fitnessScore) * 1900
        + ((n.nodeId % 100 : Nat) : ℚ) * (1 / 2)) ∧
    0 < (TimerCallback_HelloTimeout sqrtF n).m_fitnessScore := by
  have hc := CalculateFitnessScore_counter sqrtF n
  unfold TimerCallback_HelloTimeout at h ⊢
  simp only at h ⊢
  split_ifs at h ⊢ with hcond
  · refine ⟨?_, hcond.1⟩
    simp only [announcementDelay, hc.2]
  · simp only [hc.1] at h
    omega

/-- The fitness computed by `TimerCallback_HelloTimeout` is at most 1 when
`sqrtF` takes no negative value. -/
theorem TimerCallback_HelloTimeout_fitness_le_one (sqrtF : ℚ → ℚ) (hs : ∀ x, 0 ≤ sqrtF x)
    (n : Node) : (TimerCallback_HelloTimeout sqrtF n).m_fitnessScore ≤ 1 := by
  have hf : (TimerCallback_HelloTimeout sqrtF n).m_fitnessScore
      = (CalculateFitnessScore sqrtF n).m_fitnessScore := by
    unfold TimerCallback_HelloTimeout
    simp only
    split_ifs <;> rfl
  rw [hf, CalculateFitnessScore_fitness]
  have hd : 0 ≤ HexGrid.CalculateDistance sqrtF n.xCoord n.yCoord
        (HexGrid.CalculateCellCenter sqrtF n.m_cellRadius n.m_gridOffset n.m_myCellId).1
        (HexGrid.CalculateCellCenter sqrtF n.m_cellRadius n.m_gridOffset n.m_myCellId).2 := by
    unfold HexGrid.CalculateDistance
    exact hs _
  rw [div_le_one (by linarith)]
  linarith

/-- Counterexample to C24 as stated: nodes 99 and 100 of cell 0 both schedule their
announcement; node 99 at distance 19/10 from the centre has the strictly higher
fitness (10/29 against 1/3) and gets the strictly larger delay (80871/58 ms
against 4100/3 ms). -/
theorem higher_fitness_announces_later :
    (TimerCallback_HelloTimeout Pecee.sampleRoot (sampleAnnouncer 99 (19 / 10))).m_fitnessScore
      = 10 / 29 ∧
    (TimerCallback_HelloTimeout Pecee.sampleRoot (sampleAnnouncer 100 2)).m_fitnessScore
      = 1 / 3 ∧
    (TimerCallback_HelloTimeout Pecee.sampleRoot
        (sampleAnnouncer 99 (19 / 10))).scheduledCLAnnouncement = 1 ∧
    (TimerCallback_HelloTimeout Pecee.sampleRoot (sampleAnnouncer 100 2)).scheduledCLAnnouncement
      = 1 ∧
    (TimerCallback_HelloTimeout Pecee.sampleRoot
        (sampleAnnouncer 99 (19 / 10))).clAnnouncementDelay = some (80871 / 58) ∧
    (TimerCallback_HelloTimeout Pecee.sampleRoot (sampleAnnouncer 100 2)).clAnnouncementDelay
      = some (4100 / 3) ∧
    ((1 : ℚ) / 3 < 10 / 29 ∧ (4100 : ℚ) / 3 < 80871 / 58) := by
  decide!

/-- C24 (amended). Two nodes that both schedule their CL announcement in
`TimerCallback_HelloTimeout` do so with the delays
`100 + (1 - fitness) * 1900 + (nodeId mod 100) / 2` ms, their fitness being
positive (and at most 1 when `sqrtF` takes no negative value).  Node `a` gets the
strictly smaller delay exactly when 1900 times its fitness lead exceeds half the
difference of the ids mod 100; so the strictly fitter node announces first when
its id mod 100 is not the larger one, and whenever its fitness lead exceeds
99/3800. -/
theorem announcement_delay_order (sqrtF : ℚ → ℚ) (a b : Node)
    (ha : (TimerCallback_HelloTimeout sqrtF a).scheduledCLAnnouncement
      = a.scheduledCLAnnouncement + 1)
    (hb : (TimerCallback_HelloTimeout sqrtF b).scheduledCLAnnouncement
      = b.scheduledCLAnnouncement + 1) :
    ∃ da db : ℚ,
      (TimerCallback_HelloTimeout sqrtF a).clAnnouncementDelay = some da ∧
      (TimerCallback_HelloTimeout sqrtF b).clAnnouncementDelay = some db ∧
      da = 100 + (1 - (TimerCallback_HelloTimeout sqrtF a).m_fitnessScore) * 1900
        + ((a.nodeId % 100 : Nat) : ℚ) * (1 / 2) ∧
      db = 100 + (1 - (TimerCallback_HelloTimeout sqrtF b).m_fitnessScore) * 1900
        + ((b.nodeId % 100 : Nat) : ℚ) * (1 / 2) ∧
      0 < (TimerCallback_HelloTimeout sqrtF a).m_fitnessScore ∧
      0 < (TimerCallback_HelloTimeout sqrtF b).m_fitnessScore ∧
      ((∀ x, 0 ≤ sqrtF x) →
        (TimerCallback_HelloTimeout sqrtF a).m_fitnessScore ≤ 1 ∧
        (TimerCallback_HelloTimeout sqrtF b).m_fitnessScore ≤ 1) ∧
      (da < db ↔
        (((a.nodeId % 100 : Nat) : ℚ) - ((b.nodeId % 100 : Nat) : ℚ)) / 2
          < ((TimerCallback_HelloTimeout sqrtF a).m_fitnessScore
              - (TimerCallback_HelloTimeout sqrtF b).m_fitnessScore) * 1900) ∧
      ((TimerCallback_HelloTimeout sqrtF b).m_fitnessScore
          < (TimerCallback_HelloTimeout sqrtF a).m_fitnessScore →
        a.nodeId % 100 ≤ b.nodeId % 100 → da < db) ∧
      (99 / 3800 < (TimerCallback_HelloTimeout sqrtF a).m_fitnessScore
          - (TimerCallback_HelloTimeout sqrtF b).m_fitnessScore → da < db) := by
  obtain ⟨hda, hfa⟩ := TimerCallback_HelloTimeout_delay sqrtF a ha
  obtain ⟨hdb, hfb⟩ := TimerCallback_HelloTimeout_delay sqrtF b hb
  refine ⟨_, _, hda, hdb, rfl, rfl, hfa, hfb, ?_, ?_, ?_, ?_⟩
  · intro hs
    exact ⟨TimerCallback_HelloTimeout_fitness_le_one sqrtF hs a,
      TimerCallback_HelloTimeout_fitness_le_one sqrtF hs b⟩
  · constructor <;> intro h <;> linarith
  · intro hlt hid
    have : ((a.nodeId % 100 : Nat) : ℚ) ≤ ((b.nodeId % 100 : Nat) : ℚ) := by exact_mod_cast hid
    linarith
  · intro hgap
    have h1 : ((a.nodeId % 100 : Nat) : ℚ) ≤ 99 := by
      have : a.nodeId % 100 ≤ 99 := by omega
      exact_mod_cast this
    have h2 : (0 : ℚ) ≤ ((b.nodeId % 100 : Nat) : ℚ) := by positivity
    linarith

theorem announcement_delay_order_witness :
    ∃ da db : ℚ,
      (TimerCallback_HelloTimeout Pecee.sampleRoot (sampleAnnouncer 3 1)).clAnnouncementDelay
        = some da ∧
      (TimerCallback_HelloTimeout Pecee.sampleRoot (sampleAnnouncer 100 2)).clAnnouncementDelay
        = some db ∧ da < db := by
  obtain ⟨da, db, h1, h2, -, -, -, -, -, -, -, h3⟩ :=
    announcement_delay_order Pecee.sampleRoot (sampleAnnouncer 3 1) (sampleAnnouncer 100 2)
      (by decide!) (by decide!)
  exact ⟨da, db, h1, h2, h3 (by decide!)⟩

end Peece

namespace Peece

/-! ## HELLO packets from beyond the cell radius -/

theorem updateKnownNeighbor_none (helloData : HelloPacketInfo) (src : Nat)
    (table : List NeighborRecord) (h : ∀ nb ∈ table, nb.nodeId ≠ src) :
    updateKnownNeighbor helloData src table = none := by
  induction table with
  | nil => rfl
  | cons a l ih =>
      have ha : a.nodeId ≠ src := h a (List.mem_cons_self _ _)
      have hl := ih (fun nb hnb => h nb (List.mem_cons_of_mem _ hnb))
      simp [updateKnownNeighbor, ha, hl]

/-- A HELLO from beyond the cell radius whose sender is not in the neighbour table
changes nothing. -/
theorem HandleHelloPacket_far_unknown (sqrtF : ℚ → ℚ) (n : Node) (helloData : HelloPacketInfo)
    (src : Nat) (hnew : ∀ nb ∈ n.m_neighborTable, nb.nodeId ≠ src)
    (hfar : HexGrid.CalculateDistance sqrtF n.xCoord n.yCoord helloData.x helloData.y
      > n.m_cellRadius) :
    HandleHelloPacket sqrtF n helloData src = n := by
  unfold HandleHelloPacket
  rw [updateKnownNeighbor_none helloData src _ hnew]
  simp only
  rw [if_pos hfar]

/-- A HELLO whose sender heads the neighbour table rewrites that entry, whatever
the advertised position. -/
theorem HandleHelloPacket_known_head (sqrtF : ℚ → ℚ) (n : Node) (helloData : HelloPacketInfo)
    (src : Nat) (neighbor : NeighborRecord) (rest : List NeighborRecord)
    (ht : n.m_neighborTable = neighbor :: rest) (hsrc : neighbor.nodeId = src) :
    (HandleHelloPacket sqrtF n helloData src).m_neighborTable =
      { neighbor with
        x := helloData.x, y := helloData.y, cellId := helloData.cellId,
        neighborNodeIds := twoHopIds helloData src } :: rest := by
  unfold HandleHelloPacket
  rw [ht]
  simp [updateKnownNeighbor, hsrc]

/-- The update of a known sender is not guarded by the distance check.  Applied to
a node 2 at (3, 4) with cell radius 25 whose table holds node 1 at (0, 0), a HELLO
from node 1 advertising the position (33, 44), at distance 50, rewrites the entry
of node 1; the same HELLO from node 9, which is not in the table, changes
nothing.  No node reaches the first situation, since a sender advertises the
position that its entry holds (see the section on the states a node reaches). -/
theorem HandleHelloPacket_updates_far_neighbor :
    HexGrid.CalculateDistance Pecee.sampleRoot (sampleHelloNode false).xCoord
        (sampleHelloNode false).yCoord sampleFarHello.x sampleFarHello.y = 50 ∧
    (sampleHelloNode false).m_cellRadius = 25 ∧
    (sampleHelloNode false).m_neighborTable =
      [{ nodeId := 1, x := 0, y := 0, cellId := 0, neighborNodeIds := [] }] ∧
    (HandleHelloPacket Pecee.sampleRoot (sampleHelloNode false) sampleFarHello 1).m_neighborTable =
      [{ nodeId := 1, x := 33, y := 44, cellId := 1, neighborNodeIds := [7] }] ∧
    (HandleHelloPacket Pecee.sampleRoot (sampleHelloNode false) sampleFarHello 9).m_neighborTable =
      (sampleHelloNode false).m_neighborTable ∧
    (HandleHelloPacket Pecee.sampleRoot (sampleHelloNode false) sampleFarHello 9).m_knownNodes =
      (sampleHelloNode false).m_knownNodes := by
  decide!

end Peece

namespace CellForming

/-! ## Leader election of `CellForming` -/

/-- With an accepted leader whose id is not 0, `HandleCLAnnouncement` changes the
leader only for an announcer of the node's cell with strictly greater fitness, or
with equal fitness and a strictly lower id. -/
theorem HandleCLAnnouncement_no_downgrade (n : Node) (announcement : CLAnnouncementPacket)
    (hset : n.m_cellLeaderId ≠ 0)
    (hchg : (HandleCLAnnouncement n announcement).m_cellLeaderId ≠ n.m_cellLeaderId) :
    announcement.cellId = n.m_cellId ∧
    (HandleCLAnnouncement n announcement).m_cellLeaderId = announcement.senderId ∧
    (announcement.fitnessScore > n.m_myCellLeaderFitness ∨
      (announcement.fitnessScore = n.m_myCellLeaderFitness ∧
        announcement.senderId < n.m_cellLeaderId)) := by
  unfold HandleCLAnnouncement at hchg ⊢
  by_cases hc : announcement.cellId ≠ n.m_cellId
  · rw [if_pos hc] at hchg
    exact absurd rfl hchg
  · rw [if_neg hc] at hchg ⊢
    simp only at hchg ⊢
    by_cases hu : n.m_cellLeaderId = 0 ∨ announcement.fitnessScore > n.m_myCellLeaderFitness ∨
        (announcement.fitnessScore = n.m_myCellLeaderFitness ∧
          announcement.senderId < n.m_cellLeaderId)
    · rw [if_pos hu] at hchg ⊢
      refine ⟨not_not.mp hc, ?_, ?_⟩
      · split_ifs <;> rfl
      · rcases hu with h0 | h1
        · exact absurd h0 hset
        · exact h1
    · rw [if_neg hu] at hchg
      exfalso
      apply hchg
      split_ifs <;> rfl

/-- The leader id 0 is replaced by every announcer of the node's cell. -/
theorem HandleCLAnnouncement_replaces_zero (n : Node) (announcement : CLAnnouncementPacket)
    (hzero : n.m_cellLeaderId = 0) (hcell : announcement.cellId = n.m_cellId) :
    (HandleCLAnnouncement n announcement).m_cellLeaderId = announcement.senderId ∧
    (HandleCLAnnouncement n announcement).m_myCellLeaderFitness = announcement.fitnessScore := by
  unfold HandleCLAnnouncement
  rw [if_neg (not_not.mpr hcell)]
  simp only
  rw [if_pos (Or.inl hzero)]
  split_ifs <;> exact ⟨rfl, rfl⟩

/-- C25. Node 5 of cell 0 has accepted node 0, announcing fitness 1/2, as its
leader.  The announcement of node 7 with the lower fitness 1/10 replaces it: the
accepted leader is then node 7 with fitness 1/10.  With node 3 accepted in place
of node 0, the same announcement changes nothing. -/
theorem HandleCLAnnouncement_downgrades_leader_zero :
    (HandleCLAnnouncement sampleMember (sampleAnnouncement 0 (1 / 2))).m_cellLeaderId = 0 ∧
    (HandleCLAnnouncement sampleMember (sampleAnnouncement 0 (1 / 2))).m_myCellLeaderFitness
      = 1 / 2 ∧
    (HandleCLAnnouncement (HandleCLAnnouncement sampleMember (sampleAnnouncement 0 (1 / 2)))
        (sampleAnnouncement 7 (1 / 10))).m_cellLeaderId = 7 ∧
    (HandleCLAnnouncement (HandleCLAnnouncement sampleMember (sampleAnnouncement 0 (1 / 2)))
        (sampleAnnouncement 7 (1 / 10))).m_myCellLeaderFitness = 1 / 10 ∧
    (HandleCLAnnouncement (HandleCLAnnouncement sampleMember (sampleAnnouncement 3 (1 / 2)))
        (sampleAnnouncement 7 (1 / 10))).m_cellLeaderId = 3 := by
  decide!

/-- `PerformCLElection` elects the node exactly when `shouldBeCL` holds; otherwise
the node waits for an announcement and sends none. -/
theorem PerformCLElection_outcome (sqrtF : ℚ → ℚ) (n : Node) :
    (shouldBeCL sqrtF n = true →
      (PerformCLElection sqrtF n).m_state = State.ELECTED_CL ∧
      (PerformCLElection sqrtF n).m_cellLeaderId = n.m_nodeId ∧
      (PerformCLElection sqrtF n).announced = n.announced ++
        [{ senderId := n.m_nodeId, senderPosition := n.m_position, cellId := n.m_cellId,
           fitnessScore := CalculateFitness sqrtF n }]) ∧
    (shouldBeCL sqrtF n = false →
      (PerformCLElection sqrtF n).m_state = State.AWAITING_CL ∧
      (PerformCLElection sqrtF n).m_cellLeaderId = n.m_cellLeaderId ∧
      (PerformCLElection sqrtF n).announced = n.announced) := by
  constructor
  · intro h
    unfold PerformCLElection
    rw [if_pos h]
    unfold SendCLAnnouncement SetState
    simp only
    split_ifs with h1
    · exact ⟨h1, rfl, rfl⟩
    · exact ⟨rfl, rfl, rfl⟩
  · intro h
    unfold PerformCLElection
    rw [if_neg (by simp [h])]
    unfold SetState
    split_ifs with h1
    · exact ⟨h1, rfl, rfl⟩
    · exact ⟨rfl, rfl, rfl⟩

/-- A node that has received no announcement (`m_cellLeaderId = 0`) and whose
fitness equals the best fitness among its neighbours does not elect itself,
whatever the ids. -/
theorem PerformCLElection_tie_without_announcement (sqrtF : ℚ → ℚ) (n : Node)
    (hnone : n.m_cellLeaderId = 0)
    (htie : CalculateFitness sqrtF n = bestNeighborFitness sqrtF n)
    (hpos : 0 ≤ bestNeighborFitness sqrtF n) :
    (PerformCLElection sqrtF n).m_state = State.AWAITING_CL ∧
    (PerformCLElection sqrtF n).m_cellLeaderId = 0 ∧
    (PerformCLElection sqrtF n).announced = n.announced := by
  have hs : shouldBeCL sqrtF n = false := by
    unfold shouldBeCL
    simp [hnone, htie, not_lt.mpr hpos]
  have h := (PerformCLElection_outcome sqrtF n).2 hs
  rw [hnone] at h
  exact h

/-- C26. Nodes 1 and 2 of cell 0 sit at (3, 4) and (3, -4), both 5 away from the
cell centre (fitness 1/6); each has the other as its only neighbour and has
received no announcement.  `PerformCLElection` of node 1, the lower id, leaves it
in `AWAITING_CL` with leader id 0 and no announcement sent, and so does
`PerformCLElection` of node 2: neither node is elected. -/
theorem PerformCLElection_tie_elects_nobody :
    CalculateFitness Pecee.sampleRoot (samplePair 1 { x := 3, y := 4 } 2 { x := 3, y := -4 })
      = 1 / 6 ∧
    bestNeighborFitness Pecee.sampleRoot (samplePair 1 { x := 3, y := 4 } 2 { x := 3, y := -4 })
      = 1 / 6 ∧
    (PerformCLElection Pecee.sampleRoot
        (samplePair 1 { x := 3, y := 4 } 2 { x := 3, y := -4 })).m_state = State.AWAITING_CL ∧
    (PerformCLElection Pecee.sampleRoot
        (samplePair 1 { x := 3, y := 4 } 2 { x := 3, y := -4 })).m_cellLeaderId = 0 ∧
    (PerformCLElection Pecee.sampleRoot
        (samplePair 1 { x := 3, y := 4 } 2 { x := 3, y := -4 })).announced = [] ∧
    (PerformCLElection Pecee.sampleRoot
        (samplePair 2 { x := 3, y := -4 } 1 { x := 3, y := 4 })).m_state = State.AWAITING_CL ∧
    (PerformCLElection Pecee.sampleRoot
        (samplePair 2 { x := 3, y := -4 } 1 { x := 3, y := 4 })).announced = [] := by
  decide!

end CellForming

namespace Pecee

/-! ## The leader stage of `PrecalculateSimulationResults` -/

theorem leaderFitness_eq (sqrtF : ℚ → ℚ) (st : State) (cellId : Int) (member : PeceeNodeData) :
    leaderFitness sqrtF st cellId member
      = truncToInt (1000 / (1 + leaderDistance sqrtF st cellId member)) := rfl

theorem leaderDistance_congr (sqrtF : ℚ → ℚ) (s t : State) (hr : t.cellRadius = s.cellRadius)
    (hg : t.grid_offset = s.grid_offset) (cellId : Int) (m m2 : PeceeNodeData)
    (hx : m2.x = m.x) (hy : m2.y = m.y) :
    leaderDistance sqrtF t cellId m2 = leaderDistance sqrtF s cellId m := by
  unfold leaderDistance
  rw [hr, hg, hx, hy]

theorem leaderDistance_core (sqrtF : ℚ → ℚ) (s t : State)
    (hn : t.g_ssNodesDataList.map nodeCore = s.g_ssNodesDataList.map nodeCore)
    (hr : t.cellRadius = s.cellRadius) (hg : t.grid_offset = s.grid_offset)
    (cellId m : Int) :
    leaderDistance sqrtF t cellId (getNodeData t m)
      = leaderDistance sqrtF s cellId (getNodeData s m) ∧
    (getNodeData t m).id = (getNodeData s m).id := by
  have hc := getNodeData_core s t hn m
  simp only [nodeCore, Prod.mk.injEq] at hc
  exact ⟨leaderDistance_congr sqrtF s t hr hg cellId _ _ hc.2.1 hc.2.2.1, hc.1⟩

theorem leaderStep_core (sqrtF : ℚ → ℚ) (s t : State)
    (hn : t.g_ssNodesDataList.map nodeCore = s.g_ssNodesDataList.map nodeCore)
    (hr : t.cellRadius = s.cellRadius) (hg : t.grid_offset = s.grid_offset) :
    leaderStep sqrtF t = leaderStep sqrtF s := by
  funext cellId best m
  obtain ⟨h1, h2⟩ := leaderDistance_core sqrtF s t hn hr hg cellId m
  unfold leaderStep
  simp only [leaderFitness_eq, h1, h2]

/-- The fitness score is not negative when `sqrtF` takes no negative value. -/
theorem leaderFitness_nonneg (sqrtF : ℚ → ℚ) (hsq : ∀ x, 0 ≤ sqrtF x) (st : State)
    (cellId : Int) (member : PeceeNodeData) : 0 ≤ leaderFitness sqrtF st cellId member := by
  rw [leaderFitness_eq]
  have hd : 0 ≤ leaderDistance sqrtF st cellId member := hsq _
  have hq : (0 : ℚ) ≤ 1000 / (1 + leaderDistance sqrtF st cellId member) := by positivity
  unfold truncToInt
  rw [if_pos hq]
  exact Int.floor_nonneg.mpr hq

/-- Members whose fitness scores are ordered have distances ordered up to one unit
of the score. -/
theorem leaderFitness_le_distance (sqrtF : ℚ → ℚ) (hsq : ∀ x, 0 ≤ sqrtF x) (st : State)
    (cellId : Int) (m u : PeceeNodeData)
    (h : leaderFitness sqrtF st cellId m ≤ leaderFitness sqrtF st cellId u) :
    1000 / (1 + leaderDistance sqrtF st cellId m)
      < 1000 / (1 + leaderDistance sqrtF st cellId u) + 1 := by
  rw [leaderFitness_eq, leaderFitness_eq] at h
  have hdm : 0 ≤ leaderDistance sqrtF st cellId m := hsq _
  have hdu : 0 ≤ leaderDistance sqrtF st cellId u := hsq _
  have hqm : (0 : ℚ) ≤ 1000 / (1 + leaderDistance sqrtF st cellId m) := by positivity
  have hqu : (0 : ℚ) ≤ 1000 / (1 + leaderDistance sqrtF st cellId u) := by positivity
  unfold truncToInt at h
  rw [if_pos hqm, if_pos hqu] at h
  have h1 := Int.lt_floor_add_one (1000 / (1 + leaderDistance sqrtF st cellId m))
  have h2 := Int.floor_le (1000 / (1 + leaderDistance sqrtF st cellId u))
  have h3 : ((⌊1000 / (1 + leaderDistance sqrtF st cellId m)⌋ : Int) : ℚ)
      ≤ ((⌊1000 / (1 + leaderDistance sqrtF st cellId u)⌋ : Int) : ℚ) := by exact_mod_cast h
  linarith

/-- The member loop of "Calculate cell leaders" ends on the first member of maximal
fitness score, if some member's score exceeds the starting value. -/
theorem leaderStep_fold (sqrtF : ℚ → ℚ) (st : State) (cellId : Int) (l : List Int)
    (b : Int × Int) :
    (l.foldl (leaderStep sqrtF st cellId) b = b ∧
      ∀ m ∈ l, leaderFitness sqrtF st cellId (getNodeData st m) ≤ b.1) ∨
    (∃ l1 m l2, l = l1 ++ m :: l2 ∧
      l.foldl (leaderStep sqrtF st cellId) b
        = (leaderFitness sqrtF st cellId (getNodeData st m), (getNodeData st m).id) ∧
      b.1 < leaderFitness sqrtF st cellId (getNodeData st m) ∧
      (∀ m2 ∈ l1, leaderFitness sqrtF st cellId (getNodeData st m2)
        < leaderFitness sqrtF st cellId (getNodeData st m)) ∧
      (∀ m2 ∈ l2, leaderFitness sqrtF st cellId (getNodeData st m2)
        ≤ leaderFitness sqrtF st cellId (getNodeData st m))) := by
  induction l using List.reverseRecOn with
  | nil => exact Or.inl ⟨rfl, fun m h => absurd h (List.not_mem_nil _)⟩
  | append_singleton l a ih =>
      rw [List.foldl_append]
      simp only [List.foldl_cons, List.foldl_nil]
      rcases ih with ⟨hr, hall⟩ | ⟨l1, m, l2, hl, hr, hb, h1, h2⟩
      · rw [hr]
        unfold leaderStep
        simp only
        by_cases hgt : leaderFitness sqrtF st cellId (getNodeData st a) > b.1
        · rw [if_pos hgt]
          refine Or.inr ⟨l, a, [], rfl, rfl, hgt, ?_, fun m2 h => absurd h (List.not_mem_nil _)⟩
          intro m2 hm2
          exact lt_of_le_of_lt (hall m2 hm2) hgt
        · rw [if_neg hgt]
          refine Or.inl ⟨rfl, ?_⟩
          intro m2 hm2
          rcases List.mem_append.mp hm2 with h | h
          · exact hall m2 h
          · rw [List.mem_singleton] at h
            rw [h]
            exact not_lt.mp hgt
      · rw [hr]
        unfold leaderStep
        simp only
        by_cases hgt : leaderFitness sqrtF st cellId (getNodeData st a)
            > leaderFitness sqrtF st cellId (getNodeData st m)
        · rw [if_pos hgt]
          refine Or.inr ⟨l, a, [], rfl, rfl, lt_trans hb hgt, ?_,
            fun m2 h => absurd h (List.not_mem_nil _)⟩
          intro m2 hm2
          rw [hl] at hm2
          rcases List.mem_append.mp hm2 with h | h
          · exact lt_trans (h1 m2 h) hgt
          · rcases List.mem_cons.mp h with h | h
            · rw [h]; exact hgt
            · exact lt_of_le_of_lt (h2 m2 h) hgt
        · rw [if_neg hgt]
          refine Or.inr ⟨l1, m, l2 ++ [a], by rw [hl]; simp, rfl, hb, h1, ?_⟩
          intro m2 hm2
          rcases List.mem_append.mp hm2 with h | h
          · exact h2 m2 h
          · rw [List.mem_singleton] at h
            rw [h]
            exact not_lt.mp hgt

theorem setCellClId_mem (X : List PeceeCellData) (hX : (X.map (fun c => c.cellId)).Nodup)
    (cellId v : Int) (A : PeceeCellData) (hA : A ∈ setCellClId X cellId v) :
    (A ∈ X ∧ A.cellId ≠ cellId) ∨
    (∃ A0 ∈ X, A0.cellId = cellId ∧ A = { A0 with clId := v }) := by
  induction X with
  | nil => exact absurd hA (List.not_mem_nil _)
  | cons a X ih =>
      rw [List.map_cons, List.nodup_cons] at hX
      unfold setCellClId at hA
      by_cases h : a.cellId = cellId
      · rw [if_pos h] at hA
        rcases List.mem_cons.mp hA with rfl | hmem
        · exact Or.inr ⟨a, List.mem_cons_self _ _, h, rfl⟩
        · refine Or.inl ⟨List.mem_cons_of_mem _ hmem, ?_⟩
          intro hc
          apply hX.1
          rw [h, ← hc]
          exact List.mem_map_of_mem _ hmem
      · rw [if_neg h] at hA
        rcases List.mem_cons.mp hA with rfl | hmem
        · exact Or.inl ⟨List.mem_cons_self _ _, h⟩
        · rcases ih hX.2 hmem with ⟨h1, h2⟩ | ⟨A0, h1, h2, h3⟩
          · exact Or.inl ⟨List.mem_cons_of_mem _ h1, h2⟩
          · exact Or.inr ⟨A0, List.mem_cons_of_mem _ h1, h2, h3⟩

theorem electCellLeader_fold_offset (sqrtF : ℚ → ℚ) (l : List PeceeCellData) (st : State) :
    (l.foldl (electCellLeader sqrtF) st).grid_offset = st.grid_offset := by
  induction l generalizing st with
  | nil => rfl
  | cons c l ih =>
      simp only [List.foldl_cons]
      rw [ih]
      rfl

theorem cellIds_of_cores (X Y : List PeceeCellData) (h : Y.map cellCore = X.map cellCore) :
    Y.map (fun c => c.cellId) = X.map (fun c => c.cellId) := by
  have := congrArg (List.map (fun (p : Int × List Int × List Int × List (Int × Int)) => p.1)) h
  simpa [List.map_map, Function.comp, cellCore] using this

/-- The cell table after the rounds of "Calculate cell leaders" for the cells `l`:
a cell of `l` holds the member found by the member loop, the other cells are as
they were. -/
theorem electCellLeader_fold_leaders (sqrtF : ℚ → ℚ) (s0 : State) (l : List PeceeCellData)
    (st : State)
    (hn : st.g_ssNodesDataList.map nodeCore = s0.g_ssNodesDataList.map nodeCore)
    (hc : st.g_ssCellDataList.map cellCore = s0.g_ssCellDataList.map cellCore)
    (hr : st.cellRadius = s0.cellRadius) (hg : st.grid_offset = s0.grid_offset)
    (hX : (s0.g_ssCellDataList.map (fun c => c.cellId)).Nodup) :
    ∀ A ∈ (l.foldl (electCellLeader sqrtF) st).g_ssCellDataList,
      (∃ c ∈ l, c.cellId = A.cellId ∧
        A.clId = (c.members.foldl (leaderStep sqrtF s0 c.cellId) (-1, -1)).2) ∨
      (A ∈ st.g_ssCellDataList ∧ ∀ c ∈ l, c.cellId ≠ A.cellId) := by
  induction l generalizing st with
  | nil =>
      intro A hA
      exact Or.inr ⟨hA, fun c h => absurd h (List.not_mem_nil _)⟩
  | cons c l ih =>
      intro A hA
      simp only [List.foldl_cons] at hA
      obtain ⟨k1, k2, k3⟩ := electCellLeader_cores sqrtF st c
      have k4 : (electCellLeader sqrtF st c).grid_offset = st.grid_offset := rfl
      rcases ih (electCellLeader sqrtF st c) (k1.trans hn) (k2.trans hc) (k3.trans hr)
          (k4.trans hg) A hA with ⟨c2, hc2, h1, h2⟩ | ⟨hmem, hall⟩
      · exact Or.inl ⟨c2, List.mem_cons_of_mem _ hc2, h1, h2⟩
      · have hXs : (st.g_ssCellDataList.map (fun c => c.cellId)).Nodup := by
          rw [cellIds_of_cores _ _ hc]; exact hX
        have hmem2 : A ∈ setCellClId st.g_ssCellDataList c.cellId
            (c.members.foldl (leaderStep sqrtF st c.cellId) (-1, -1)).2 := hmem
        rcases setCellClId_mem _ hXs _ _ A hmem2 with ⟨h1, h2⟩ | ⟨A0, _, h2, h3⟩
        · refine Or.inr ⟨h1, ?_⟩
          intro c2 hc2
          rcases List.mem_cons.mp hc2 with rfl | h
          · exact fun e => h2 e.symm
          · exact hall c2 h
        · refine Or.inl ⟨c, List.mem_cons_self _ _, ?_, ?_⟩
          · rw [h3]; exact h2.symm
          · rw [h3, leaderStep_core sqrtF s0 st hn hr hg]

theorem pushMember_nonempty (cells : List PeceeCellData) (cid id : Int)
    (h : ∀ c ∈ cells, c.members ≠ []) : ∀ c ∈ pushMember cells cid id, c.members ≠ [] := by
  induction cells with
  | nil => exact fun c hc => absurd hc (List.not_mem_nil _)
  | cons a cells ih =>
      intro c hc
      unfold pushMember at hc
      split_ifs at hc
      · rcases List.mem_cons.mp hc with rfl | hmem
        · simp
        · exact h c (List.mem_cons_of_mem _ hmem)
      · rcases List.mem_cons.mp hc with rfl | hmem
        · exact h c (List.mem_cons_self _ _)
        · exact ih (fun c2 hc2 => h c2 (List.mem_cons_of_mem _ hc2)) c hmem

theorem addCellMember_fold_nonempty (P : List PeceeNodeData) :
    ∀ c ∈ P.foldl addCellMember [], c.members ≠ [] := by
  induction P using List.reverseRecOn with
  | nil => exact fun c hc => absurd hc (List.not_mem_nil _)
  | append_singleton P a ih =>
      rw [List.foldl_append]
      simp only [List.foldl_cons, List.foldl_nil]
      generalize P.foldl addCellMember [] = cells at ih ⊢
      unfold addCellMember
      split_ifs
      · exact pushMember_nonempty cells _ _ ih
      · intro c hc
        rcases List.mem_append.mp hc with h | h
        · exact ih c h
        · rw [List.mem_singleton] at h
          rw [h]
          simp

theorem addCellNeighbor_fold_members (L : List Int) (c : PeceeCellData) :
    (L.foldl addCellNeighbor c).members = c.members := by
  induction L generalizing c with
  | nil => rfl
  | cons a L ih =>
      simp only [List.foldl_cons]
      rw [ih]
      unfold addCellNeighbor
      split_ifs <;> rfl

/-- Every cell that the member stage creates has a member. -/
theorem members_nonempty (sqrtF : ℚ → ℚ) (st : State) :
    ∀ c ∈ (calcCellNeighbors (calcCellMembers (calcNodeNeighbors sqrtF
      (resetTables st)))).g_ssCellDataList, c.members ≠ [] := by
  intro c hc
  unfold calcCellNeighbors at hc
  simp only [List.mem_map] at hc
  obtain ⟨c0, hc0, rfl⟩ := hc
  rw [addCellNeighbor_fold_members]
  exact addCellMember_fold_nonempty _ c0 hc0

/-- The leader stored for a cell after the leader stage, in a state whose tables
have come through the neighbour stage. -/
theorem calcCellLeaders_leader (sqrtF : ℚ → ℚ) (hsq : ∀ x, 0 ≤ sqrtF x) (s0 : State)
    (hs : Surveyed sqrtF s0) (hmem : ∀ c ∈ s0.g_ssCellDataList, c.members ≠ []) :
    ∀ A ∈ (calcCellLeaders sqrtF s0).g_ssCellDataList,
      ∃ l1 l2, A.members = l1 ++ A.clId :: l2 ∧
        (getNodeData s0 A.clId).id = A.clId ∧ (getNodeData s0 A.clId).cellId = A.cellId ∧
        (∀ m ∈ l1, leaderFitness sqrtF s0 A.cellId (getNodeData s0 m)
          < leaderFitness sqrtF s0 A.cellId (getNodeData s0 A.clId)) ∧
        (∀ m ∈ l2, leaderFitness sqrtF s0 A.cellId (getNodeData s0 m)
          ≤ leaderFitness sqrtF s0 A.cellId (getNodeData s0 A.clId)) := by
  intro A hA
  obtain ⟨_, k2, _⟩ := calcCellLeaders_cores sqrtF s0
  rcases electCellLeader_fold_leaders sqrtF s0 s0.g_ssCellDataList s0 rfl rfl rfl rfl
      hs.cells_nodup A hA with ⟨c, hc, h1, h2⟩ | ⟨hin, hall⟩
  · obtain ⟨b, hb, hcore⟩ := mem_of_map_eq cellCore _ _ k2 A hA
    simp only [cellCore, Prod.mk.injEq] at hcore
    have hbc : b = c := cell_eq_of_id _ hs.cells_nodup b c hb hc (hcore.1.symm.trans h1.symm)
    have hmembers : A.members = c.members := by rw [hcore.2.1, hbc]
    rcases leaderStep_fold sqrtF s0 c.cellId c.members (-1, -1) with
      ⟨_, hall⟩ | ⟨l1, m, l2, hl, hr, _, hl1, hl2⟩
    · exfalso
      cases hm : c.members with
      | nil => exact hmem c hc hm
      | cons a rest =>
          have := hall a (by rw [hm]; exact List.mem_cons_self _ _)
          have h0 := leaderFitness_nonneg sqrtF hsq s0 c.cellId (getNodeData s0 a)
          simp only at this
          omega
    · have hmc : m ∈ c.members := by rw [hl]; simp
      obtain ⟨hid, hcell, _⟩ := member_id sqrtF s0 hs c hc m hmc
      have hcl : A.clId = m := by rw [h2, hr]; exact hid
      rw [hcl, hmembers, ← h1]
      exact ⟨l1, l2, hl, hid, hcell, hl1, hl2⟩
  · exact absurd rfl (hall A hin)

theorem sampleRoot_nonneg (t : ℚ) : 0 ≤ sampleRoot t := by
  unfold sampleRoot
  split_ifs
  · norm_num
  · positivity

/-- Counterexample to C23 as stated: with cell radius 100, nodes 5 at (10.05, 0) and 3 at
(10, 0) form cell 0, whose centre is the origin.  Both have the fitness score 90,
and the leader stored for the cell is node 5, the first of the two, although
node 3 is closer to the centre. -/
theorem leader_not_closest :
    (PrecalculateSimulationResults sampleRoot leaderTieState).g_ssCellDataList.map
      (fun c => (c.cellId, c.members, c.clId)) = [(0, [5, 3], 5)] ∧
    leaderDistance sampleRoot (PrecalculateSimulationResults sampleRoot leaderTieState) 0
      (getNodeData (PrecalculateSimulationResults sampleRoot leaderTieState) 5) = 201 / 20 ∧
    leaderDistance sampleRoot (PrecalculateSimulationResults sampleRoot leaderTieState) 0
      (getNodeData (PrecalculateSimulationResults sampleRoot leaderTieState) 3) = 10 ∧
    leaderFitness sampleRoot (PrecalculateSimulationResults sampleRoot leaderTieState) 0
      (getNodeData (PrecalculateSimulationResults sampleRoot leaderTieState) 5) = 90 ∧
    leaderFitness sampleRoot (PrecalculateSimulationResults sampleRoot leaderTieState) 0
      (getNodeData (PrecalculateSimulationResults sampleRoot leaderTieState) 3) = 90 := by
  decide!

/-- C23 (amended). Leader election in `PrecalculateSimulationResults`, for
registered nodes with pairwise distinct ids other than `-1` and a square root
that takes no negative value: in every cell the leader stored is a member of the
cell, a node of that cell, whose fitness score `(int)(1000 / (1 + distance))` is
maximal among the members and which is the first member with that score; so for
every member `m`, `1000 / (1 + distance of m)` is less than
`1000 / (1 + distance of the leader) + 1`.  For the nodes 0, 1, 2 at (0, 0),
(10, 0), (20, 0) with cell radius 100, all three lie in cell 0, node 0 is its
leader, and the routing entries of nodes 1 and 2 toward cell 0 are node 0. -/
theorem leader_election (sqrtF : ℚ → ℚ) (st : State)
    (hnd : (st.g_ssNodesDataList.map (fun n => n.id)).Nodup)
    (hne : ∀ n ∈ st.g_ssNodesDataList, n.id ≠ -1)
    (hsq : ∀ x, 0 ≤ sqrtF x) :
    (∀ A ∈ (PrecalculateSimulationResults sqrtF st).g_ssCellDataList,
      A.clId ∈ A.members ∧
      (getNodeData (PrecalculateSimulationResults sqrtF st) A.clId).id = A.clId ∧
      (getNodeData (PrecalculateSimulationResults sqrtF st) A.clId).cellId = A.cellId ∧
      (∀ m ∈ A.members,
        leaderFitness sqrtF (PrecalculateSimulationResults sqrtF st) A.cellId
            (getNodeData (PrecalculateSimulationResults sqrtF st) m)
          ≤ leaderFitness sqrtF (PrecalculateSimulationResults sqrtF st) A.cellId
            (getNodeData (PrecalculateSimulationResults sqrtF st) A.clId)) ∧
      (∃ l1 l2, A.members = l1 ++ A.clId :: l2 ∧
        ∀ m ∈ l1,
          leaderFitness sqrtF (PrecalculateSimulationResults sqrtF st) A.cellId
              (getNodeData (PrecalculateSimulationResults sqrtF st) m)
            < leaderFitness sqrtF (PrecalculateSimulationResults sqrtF st) A.cellId
              (getNodeData (PrecalculateSimulationResults sqrtF st) A.clId)) ∧
      (∀ m ∈ A.members,
        1000 / (1 + leaderDistance sqrtF (PrecalculateSimulationResults sqrtF st) A.cellId
            (getNodeData (PrecalculateSimulationResults sqrtF st) m))
          < 1000 / (1 + leaderDistance sqrtF (PrecalculateSimulationResults sqrtF st) A.cellId
            (getNodeData (PrecalculateSimulationResults sqrtF st) A.clId)) + 1)) ∧
    ((HexGrid.CalculateCellInfo sampleRoot 0 0 100 100).cellId = 0 ∧
      (HexGrid.CalculateCellInfo sampleRoot 10 0 100 100).cellId = 0 ∧
      (HexGrid.CalculateCellInfo sampleRoot 20 0 100 100).cellId = 0 ∧
      (PrecalculateSimulationResults sampleRoot lineLeaderState).g_ssCellDataList.map
        (fun c => (c.cellId, c.members, c.clId)) = [(0, [0, 1, 2], 0)] ∧
      (PrecalculateSimulationResults sampleRoot lineLeaderState).g_ssRoutingTable 1 0 = some 0 ∧
      (PrecalculateSimulationResults sampleRoot lineLeaderState).g_ssRoutingTable 2 0
        = some 0) := by
  refine ⟨?_, by decide!⟩
  obtain ⟨hs0, _⟩ := surveyed_calcCellNeighbors sqrtF st hnd hne
  have hne0 := members_nonempty sqrtF st
  rw [precalc_eq]
  generalize calcCellNeighbors (calcCellMembers (calcNodeNeighbors sqrtF (resetTables st))) = s0
    at hs0 hne0
  obtain ⟨k1, _, k3⟩ := calcCellLeaders_cores sqrtF s0
  have k4 : (calcCellLeaders sqrtF s0).grid_offset = s0.grid_offset :=
    electCellLeader_fold_offset sqrtF s0.g_ssCellDataList s0
  have hlead := calcCellLeaders_leader sqrtF hsq s0 hs0 hne0
  generalize calcCellLeaders sqrtF s0 = s1 at k1 k3 k4 hlead
  have hn : (calcRoutes sqrtF (calcGateways sqrtF s1)).g_ssNodesDataList.map nodeCore
      = s0.g_ssNodesDataList.map nodeCore := k1
  have hr : (calcRoutes sqrtF (calcGateways sqrtF s1)).cellRadius = s0.cellRadius := k3
  have hg : (calcRoutes sqrtF (calcGateways sqrtF s1)).grid_offset = s0.grid_offset := k4
  intro A hA
  obtain ⟨A1, hA1, rfl⟩ := (mem_calcGateways_cells sqrtF s1 A).mp hA
  obtain ⟨l1, l2, hl, hid, hcell, hl1, hl2⟩ := hlead A1 hA1
  have hd : ∀ m, leaderDistance sqrtF (calcRoutes sqrtF (calcGateways sqrtF s1)) A1.cellId
        (getNodeData (calcRoutes sqrtF (calcGateways sqrtF s1)) m)
      = leaderDistance sqrtF s0 A1.cellId (getNodeData s0 m) :=
    fun m => (leaderDistance_core sqrtF s0 _ hn hr hg A1.cellId m).1
  have hf : ∀ m, leaderFitness sqrtF (calcRoutes sqrtF (calcGateways sqrtF s1)) A1.cellId
        (getNodeData (calcRoutes sqrtF (calcGateways sqrtF s1)) m)
      = leaderFitness sqrtF s0 A1.cellId (getNodeData s0 m) := by
    intro m
    rw [leaderFitness_eq, leaderFitness_eq, hd]
  have hcore := getNodeData_core s0 (calcRoutes sqrtF (calcGateways sqrtF s1)) hn A1.clId
  simp only [nodeCore, Prod.mk.injEq] at hcore
  have hle : ∀ m ∈ A1.members, leaderFitness sqrtF s0 A1.cellId (getNodeData s0 m)
      ≤ leaderFitness sqrtF s0 A1.cellId (getNodeData s0 A1.clId) := by
    intro m hm
    rw [hl] at hm
    rcases List.mem_append.mp hm with h | h
    · exact le_of_lt (hl1 m h)
    · rcases List.mem_cons.mp h with h | h
      · rw [h]
      · exact hl2 m h
  simp only [hf, hd]
  refine ⟨by rw [hl]; simp, hcore.1.trans hid, hcore.2.2.2.1.trans hcell, hle,
    ⟨l1, l2, hl, hl1⟩, ?_⟩
  intro m hm
  exact leaderFitness_le_distance sqrtF hsq s0 A1.cellId _ _ (hle m hm)

theorem leader_election_witness :
    (getCellData (PrecalculateSimulationResults sampleRoot lineLeaderState) 0).clId
      ∈ (getCellData (PrecalculateSimulationResults sampleRoot lineLeaderState) 0).members :=
  ((leader_election sampleRoot lineLeaderState (by decide) (by decide) sampleRoot_nonneg).1
    (getCellData (PrecalculateSimulationResults sampleRoot lineLeaderState) 0)
    (by decide!)).1

end Pecee

namespace HexGrid

/-! ## Every position lies within the cell radius of its cell centre -/

theorem cround_error {K : Type} [LinearOrderedField K] [FloorRing K] (x : K) :
    |((cround x : Int) : K) - x| ≤ 1 / 2 := by
  unfold cround
  split_ifs with h
  · have h1 := Int.floor_le (x + 1 / 2)
    have h2 := Int.lt_floor_add_one (x + 1 / 2)
    rw [abs_le]
    constructor <;> linarith
  · have h1 := Int.le_ceil (x - 1 / 2)
    have h2 := Int.ceil_lt_add_one (x - 1 / 2)
    rw [abs_le]
    constructor <;> linarith

theorem hex_error_bound_one {K : Type} [LinearOrderedField K] (u v : K)
    (hu : |u| ≤ |1 - u - v|) (hv : |v| ≤ |1 - u - v|) (hw : |1 - u - v| ≤ 1 / 2) :
    u ^ 2 + u * v + v ^ 2 ≤ 1 / 3 := by
  have hu2 := abs_le.mp (le_trans hu hw)
  have hv2 := abs_le.mp (le_trans hv hw)
  have hw2 := abs_le.mp hw
  have hw0 : 0 ≤ 1 - u - v := by linarith [hu2.2, hv2.2]
  rw [abs_of_nonneg hw0] at hu hv
  have hp : 0 ≤ 1 - 2 * u - v := by linarith [le_of_abs_le hu]
  have hq : 0 ≤ 1 - u - 2 * v := by linarith [le_of_abs_le hv]
  have hu0 : 0 ≤ u := by linarith [hw2.2, hv2.2]
  have hv0 : 0 ≤ v := by linarith [hw2.2, hu2.2]
  nlinarith [mul_nonneg hu0 hp, mul_nonneg hv0 hq]

theorem hex_error_bound_zero {K : Type} [LinearOrderedField K] (u v : K)
    (hu : |u| ≤ |u + v|) (hv : |v| ≤ |u + v|) (hw : |u + v| ≤ 1 / 2) :
    u ^ 2 + u * v + v ^ 2 ≤ 1 / 3 := by
  have a : u ^ 2 ≤ (u + v) ^ 2 := sq_le_sq.mpr hu
  have b : v ^ 2 ≤ (u + v) ^ 2 := sq_le_sq.mpr hv
  have c : (u + v) ^ 2 ≤ (1 / 2) ^ 2 := by
    apply sq_le_sq.mpr
    rw [abs_of_pos (by norm_num : (0 : K) < 1 / 2)]
    exact hw
  have a2 : 0 ≤ 2 * u * v + v ^ 2 := by nlinarith
  have b2 : 0 ≤ 2 * u * v + u ^ 2 := by nlinarith
  have huv : 0 ≤ u * v := by
    by_contra hneg
    push_neg at hneg
    nlinarith [mul_nonneg a2 b2, sq_nonneg u, sq_nonneg v, mul_pos_of_neg_of_neg hneg hneg]
  nlinarith

/-- Three rounding errors that sum to an integer, the third being the largest in
absolute value and at most 1/2: the quadratic form of the other two is at most
1/3. -/
theorem hex_error_bound {K : Type} [LinearOrderedField K] (u v w : K) (k : Int)
    (hk : u + v + w = (k : K)) (hu : |u| ≤ |w|) (hv : |v| ≤ |w|) (hw : |w| ≤ 1 / 2) :
    u ^ 2 + u * v + v ^ 2 ≤ 1 / 3 := by
  have hu2 : |u| ≤ 1 / 2 := le_trans hu hw
  have hv2 : |v| ≤ 1 / 2 := le_trans hv hw
  have hk1 : |(k : K)| < 2 := by
    rw [← hk]
    have := abs_add_three u v w
    linarith
  have hk2 : |k| < 2 := by exact_mod_cast hk1
  have hk3 : k = -1 ∨ k = 0 ∨ k = 1 := by
    rw [abs_lt] at hk2
    omega
  rcases hk3 with rfl | rfl | rfl
  · have hw3 : w = -(1 - (-u) - (-v)) := by push_cast at hk; linarith
    rw [hw3, abs_neg] at hu hv hw
    rw [← abs_neg u] at hu
    rw [← abs_neg v] at hv
    have := hex_error_bound_one (-u) (-v) hu hv hw
    nlinarith
  · have hw3 : w = -(u + v) := by push_cast at hk; linarith
    rw [hw3, abs_neg] at hu hv hw
    exact hex_error_bound_zero u v hu hv hw
  · have hw3 : w = 1 - u - v := by push_cast at hk; linarith
    rw [hw3] at hu hv hw
    exact hex_error_bound_one u v hu hv hw

/-- The squared distance between a position and the centre of hex `(q, r)`, in
terms of the differences between `(q, r)` and the fractional coordinates of the
position. -/
theorem hexCenter_dist_sq {K : Type} [LinearOrderedField K] (sqrtF : K → K) (x y R fq fr : K)
    (q r : Int) (h3 : sqrtF 3 * sqrtF 3 = 3)
    (hq : R * fq = sqrtF 3 / 3 * x - 1 / 3 * y) (hr : R * fr = 2 / 3 * y) :
    ((hexCenter sqrtF R q r).1 - x) ^ 2 + ((hexCenter sqrtF R q r).2 - y) ^ 2
      = 3 * R ^ 2 * (((q : K) - fq) ^ 2 + ((q : K) - fq) * ((r : K) - fr) + ((r : K) - fr) ^ 2) := by
  have hsx : sqrtF 3 * x = 3 * (R * fq) + 3 / 2 * (R * fr) := by rw [hq, hr]; ring
  have hx : x = sqrtF 3 * (R * (fq + fr / 2)) := by
    calc x = (sqrtF 3 * sqrtF 3) * x / 3 := by rw [h3]; ring
      _ = sqrtF 3 * (sqrtF 3 * x) / 3 := by ring
      _ = sqrtF 3 * (R * (fq + fr / 2)) := by rw [hsx]; ring
  have hy : y = 3 / 2 * (R * fr) := by rw [hr]; ring
  simp only [hexCenter]
  rw [hx, hy]
  linear_combination (R ^ 2 * ((q : K) + (r : K) / 2 - fq - fr / 2) ^ 2) * h3

/-- C30. For every position `(x, y)` and cell radius `R > 0`, with a square root
whose value at 3 squares to 3, the centre of the hex `(q, r)` that
`CalculateCellInfo` selects lies within distance `R` of the position. -/
theorem CalculateCellInfo_center_within_radius {K : Type} [LinearOrderedField K] [FloorRing K]
    (sqrtF : K → K) (x y R : K) (G : Int) (hR : 0 < R) (h3 : sqrtF 3 * sqrtF 3 = 3) :
    withinDistance (x, y)
      (hexCenter sqrtF R (CalculateCellInfo sqrtF x y R G).q (CalculateCellInfo sqrtF x y R G).r)
      R := by
  have hR0 : R ≠ 0 := ne_of_gt hR
  set fq : K := (sqrtF 3 / 3 * x - 1 / 3 * y) / R with hfq
  set fr : K := (2 / 3 * y) / R with hfr
  have hq : R * fq = sqrtF 3 / 3 * x - 1 / 3 * y := by rw [hfq]; field_simp; ring
  have hr : R * fr = 2 / 3 * y := by rw [hfr]; field_simp; ring
  have eq1 := cround_error fq
  have er1 := cround_error fr
  have es1 := cround_error (-fq - fr)
  have hsum : ((cround fq : Int) : K) - fq + (((cround fr : Int) : K) - fr)
      + (((cround (-fq - fr) : Int) : K) - (-fq - fr))
      = ((cround fq + cround fr + cround (-fq - fr) : Int) : K) := by
    push_cast
    ring
  have hgoal : ∀ q r : Int,
      ((q : K) - fq) ^ 2 + ((q : K) - fq) * ((r : K) - fr) + ((r : K) - fr) ^ 2 ≤ 1 / 3 →
      withinDistance (x, y) (hexCenter sqrtF R q r) R := by
    intro q r h
    unfold withinDistance
    simp only
    rw [hexCenter_dist_sq sqrtF x y R fq fr q r h3 hq hr]
    have hR2 : 0 ≤ 3 * R ^ 2 := by positivity
    calc 3 * R ^ 2 * (((q : K) - fq) ^ 2 + ((q : K) - fq) * ((r : K) - fr) + ((r : K) - fr) ^ 2)
        ≤ 3 * R ^ 2 * (1 / 3) := mul_le_mul_of_nonneg_left h hR2
      _ = R ^ 2 := by ring
  have hc : (CalculateCellInfo sqrtF x y R G).q
        = (correctRounding (cround fq) (cround fr) (cround (-fq - fr))
            |((cround fq : Int) : K) - fq| |((cround fr : Int) : K) - fr|
            |((cround (-fq - fr) : Int) : K) - (-fq - fr)|).1 ∧
      (CalculateCellInfo sqrtF x y R G).r
        = (correctRounding (cround fq) (cround fr) (cround (-fq - fr))
            |((cround fq : Int) : K) - fq| |((cround fr : Int) : K) - fr|
            |((cround (-fq - fr) : Int) : K) - (-fq - fr)|).2.1 := ⟨rfl, rfl⟩
  rw [hc.1, hc.2]
  apply hgoal
  generalize hq0 : cround fq = q at eq1 hsum ⊢
  generalize hr0 : cround fr = r at er1 hsum ⊢
  generalize hs0 : cround (-fq - fr) = s at es1 hsum ⊢
  set eq : K := (q : K) - fq with heq
  set er : K := (r : K) - fr with her
  set es : K := (s : K) - (-fq - fr) with hes
  unfold correctRounding
  by_cases h1 : |eq| > |er| ∧ |eq| > |es|
  · rw [if_pos h1]
    simp only
    have hb := hex_error_bound er es eq (q + r + s) (by rw [← hsum]; ring)
      (le_of_lt h1.1) (le_of_lt h1.2) eq1
    have ha : (((-r - s : Int) : K) - fq) = -er - es := by
      rw [her, hes]; push_cast; ring
    rw [ha]
    calc (-er - es) ^ 2 + (-er - es) * er + er ^ 2 = er ^ 2 + er * es + es ^ 2 := by ring
      _ ≤ 1 / 3 := hb
  · rw [if_neg h1]
    by_cases h2 : |er| > |es|
    · rw [if_pos h2]
      simp only
      have hle : |eq| ≤ |er| := by
        by_contra hlt
        push_neg at hlt
        exact h1 ⟨hlt, lt_trans h2 hlt⟩
      have hb := hex_error_bound eq es er (q + r + s) (by rw [← hsum]; ring)
        hle (le_of_lt h2) er1
      have ha : (((-q - s : Int) : K) - fr) = -eq - es := by
        rw [heq, hes]; push_cast; ring
      rw [ha]
      calc eq ^ 2 + eq * (-eq - es) + (-eq - es) ^ 2 = eq ^ 2 + eq * es + es ^ 2 := by ring
        _ ≤ 1 / 3 := hb
    · rw [if_neg h2]
      simp only
      have hle2 : |er| ≤ |es| := not_lt.mp h2
      have hle : |eq| ≤ |es| := by
        by_contra hlt
        push_neg at hlt
        exact h1 ⟨lt_of_le_of_lt hle2 hlt, hlt⟩
      exact hex_error_bound eq er es (q + r + s) hsum hle hle2 es1

theorem CalculateCellInfo_center_within_radius_witness :
    (0 : ℝ) < 25 ∧ Real.sqrt 3 * Real.sqrt 3 = 3 ∧
    withinDistance ((30 : ℝ), (40 : ℝ))
      (hexCenter Real.sqrt 25 (CalculateCellInfo Real.sqrt 30 40 25 100).q
        (CalculateCellInfo Real.sqrt 30 40 25 100).r) 25 :=
  ⟨by norm_num, Real.mul_self_sqrt (by norm_num),
    CalculateCellInfo_center_within_radius Real.sqrt 30 40 25 100 (by norm_num)
      (Real.mul_self_sqrt (by norm_num))⟩

end HexGrid

namespace Peece

/-! ## HELLO packets on the states a node reaches -/

theorem updateKnownNeighbor_mem (helloData : HelloPacketInfo) (src : Nat)
    (table table2 : List NeighborRecord)
    (h : updateKnownNeighbor helloData src table = some table2) :
    ∀ nb2 ∈ table2, nb2 ∈ table ∨
      ∃ nb ∈ table, nb.nodeId = src ∧ nb2.nodeId = src ∧
        nb2.x = helloData.x ∧ nb2.y = helloData.y := by
  induction table generalizing table2 with
  | nil => simp [updateKnownNeighbor] at h
  | cons a l ih =>
      unfold updateKnownNeighbor at h
      by_cases ha : a.nodeId = src
      · rw [if_pos ha] at h
        rw [← Option.some.inj h]
        intro nb2 hnb2
        rcases List.mem_cons.mp hnb2 with rfl | hmem
        · exact Or.inr ⟨a, List.mem_cons_self _ _, ha, ha, rfl, rfl⟩
        · exact Or.inl (List.mem_cons_of_mem _ hmem)
      · rw [if_neg ha] at h
        cases hrec : updateKnownNeighbor helloData src l with
        | none => rw [hrec] at h; simp at h
        | some t =>
            rw [hrec] at h
            simp only [Option.map_some', Option.some.injEq] at h
            rw [← h]
            intro nb2 hnb2
            rcases List.mem_cons.mp hnb2 with rfl | hmem
            · exact Or.inl (List.mem_cons_self _ _)
            · rcases ih t hrec nb2 hmem with h1 | ⟨nb, h1, h2⟩
              · exact Or.inl (List.mem_cons_of_mem _ h1)
              · exact Or.inr ⟨nb, List.mem_cons_of_mem _ h1, h2⟩

theorem updateKnownNeighbor_some (helloData : HelloPacketInfo) (src : Nat)
    (table : List NeighborRecord) (nb : NeighborRecord) (hnb : nb ∈ table)
    (hsrc : nb.nodeId = src) : updateKnownNeighbor helloData src table ≠ none := by
  induction table with
  | nil => exact absurd hnb (List.not_mem_nil _)
  | cons a l ih =>
      unfold updateKnownNeighbor
      by_cases ha : a.nodeId = src
      · rw [if_pos ha]; simp
      · rw [if_neg ha]
        rcases List.mem_cons.mp hnb with rfl | hmem
        · exact absurd hsrc ha
        · have := ih hmem
          cases hrec : updateKnownNeighbor helloData src l with
          | none => exact absurd hrec this
          | some t => simp

theorem registerTwoHop_fold (src : Nat) (ids : List Nat)
    (acc : NeighborRecord × List (Nat × KnownNodeInfo)) :
    (ids.foldl (registerTwoHop src) acc).1.nodeId = acc.1.nodeId ∧
    (ids.foldl (registerTwoHop src) acc).1.x = acc.1.x ∧
    (ids.foldl (registerTwoHop src) acc).1.y = acc.1.y := by
  induction ids generalizing acc with
  | nil => exact ⟨rfl, rfl, rfl⟩
  | cons a l ih =>
      simp only [List.foldl_cons]
      obtain ⟨h1, h2, h3⟩ := ih (registerTwoHop src acc a)
      rw [h1, h2, h3]
      unfold registerTwoHop
      split_ifs <;> exact ⟨rfl, rfl, rfl⟩

/-- `HandleHelloPacket` writes neither the position of the node nor its cell
radius. -/
theorem HandleHelloPacket_frame (sqrtF : ℚ → ℚ) (n : Node) (helloData : HelloPacketInfo)
    (src : Nat) :
    (HandleHelloPacket sqrtF n helloData src).xCoord = n.xCoord ∧
    (HandleHelloPacket sqrtF n helloData src).yCoord = n.yCoord ∧
    (HandleHelloPacket sqrtF n helloData src).m_cellRadius = n.m_cellRadius := by
  unfold HandleHelloPacket
  split
  · exact ⟨rfl, rfl, rfl⟩
  · simp only
    split_ifs <;> exact ⟨rfl, rfl, rfl⟩

/-- A HELLO that carries the place of its sender keeps the neighbour table within
the cell radius. -/
theorem HandleHelloPacket_tableWithin (sqrtF : ℚ → ℚ) (place : Nat → ℚ × ℚ) (n : Node)
    (helloData : HelloPacketInfo) (src : Nat) (hinv : TableWithin sqrtF place n)
    (hx : helloData.x = (place src).1) (hy : helloData.y = (place src).2) :
    TableWithin sqrtF place (HandleHelloPacket sqrtF n helloData src) := by
  obtain ⟨f1, f2, f3⟩ := HandleHelloPacket_frame sqrtF n helloData src
  intro nb2 hnb2
  rw [f1, f2, f3]
  unfold HandleHelloPacket at hnb2
  cases hupd : updateKnownNeighbor helloData src n.m_neighborTable with
  | some table =>
      rw [hupd] at hnb2
      rcases updateKnownNeighbor_mem helloData src _ table hupd nb2 hnb2 with
        h | ⟨nb, hnb, h1, h2, h3, h4⟩
      · exact hinv nb2 h
      · obtain ⟨k1, k2, k3⟩ := hinv nb hnb
        rw [h1] at k1 k2
        refine ⟨by rw [h2, h3, hx], by rw [h2, h4, hy], ?_⟩
        rw [h3, h4, hx, hy, ← k1, ← k2]
        exact k3
  | none =>
      rw [hupd] at hnb2
      simp only at hnb2
      by_cases hfar : HexGrid.CalculateDistance sqrtF n.xCoord n.yCoord helloData.x helloData.y
          > n.m_cellRadius
      · rw [if_pos hfar] at hnb2
        exact hinv nb2 hnb2
      · rw [if_neg hfar] at hnb2
        simp only [List.mem_append, List.mem_singleton] at hnb2
        rcases hnb2 with h | h
        · exact hinv nb2 h
        · obtain ⟨g1, g2, g3⟩ := registerTwoHop_fold src
            (helloData.neighborIds.take helloData.neighborCount)
            ({ nodeId := src, x := helloData.x, y := helloData.y, cellId := helloData.cellId,
               neighborNodeIds := [] },
              mapSet n.m_knownNodes src
                { (mapFind n.m_knownNodes src).getD KnownNodeInfo.fresh with
                  x := helloData.x, y := helloData.y, cellId := helloData.cellId,
                  hasFitness := false })
          rw [h, g1, g2, g3]
          simp only
          exact ⟨hx, hy, hfar⟩

theorem tableWithin_of_frame (sqrtF : ℚ → ℚ) (place : Nat → ℚ × ℚ) (n n2 : Node)
    (h : n2.m_neighborTable = n.m_neighborTable ∧ n2.xCoord = n.xCoord ∧
      n2.yCoord = n.yCoord ∧ n2.m_cellRadius = n.m_cellRadius)
    (hinv : TableWithin sqrtF place n) : TableWithin sqrtF place n2 := by
  obtain ⟨h1, h2, h3, h4⟩ := h
  intro nb hnb
  rw [h2, h3, h4]
  rw [h1] at hnb
  exact hinv nb hnb

theorem HandleCLAnnouncementPacket_frame (n : Node) (header : PeeceHeader) (src : Nat) :
    (HandleCLAnnouncementPacket n header src).m_neighborTable = n.m_neighborTable ∧
    (HandleCLAnnouncementPacket n header src).xCoord = n.xCoord ∧
    (HandleCLAnnouncementPacket n header src).yCoord = n.yCoord ∧
    (HandleCLAnnouncementPacket n header src).m_cellRadius = n.m_cellRadius := by
  unfold HandleCLAnnouncementPacket
  simp only
  split_ifs <;> exact ⟨rfl, rfl, rfl, rfl⟩

theorem TimerCallback_HelloTimeout_frame (sqrtF : ℚ → ℚ) (n : Node) :
    (TimerCallback_HelloTimeout sqrtF n).m_neighborTable = n.m_neighborTable ∧
    (TimerCallback_HelloTimeout sqrtF n).xCoord = n.xCoord ∧
    (TimerCallback_HelloTimeout sqrtF n).yCoord = n.yCoord ∧
    (TimerCallback_HelloTimeout sqrtF n).m_cellRadius = n.m_cellRadius := by
  have hc : (CalculateFitnessScore sqrtF n).m_neighborTable = n.m_neighborTable ∧
      (CalculateFitnessScore sqrtF n).xCoord = n.xCoord ∧
      (CalculateFitnessScore sqrtF n).yCoord = n.yCoord ∧
      (CalculateFitnessScore sqrtF n).m_cellRadius = n.m_cellRadius := by
    unfold CalculateFitnessScore
    simp only
    split_ifs <;> exact ⟨rfl, rfl, rfl, rfl⟩
  unfold TimerCallback_HelloTimeout
  simp only
  split_ifs <;> exact hc

theorem TimerCallback_CLElection_frame (n : Node) :
    (TimerCallback_CLElection n).m_neighborTable = n.m_neighborTable ∧
    (TimerCallback_CLElection n).xCoord = n.xCoord ∧
    (TimerCallback_CLElection n).yCoord = n.yCoord ∧
    (TimerCallback_CLElection n).m_cellRadius = n.m_cellRadius := by
  unfold TimerCallback_CLElection
  simp only
  split_ifs <;> exact ⟨rfl, rfl, rfl, rfl⟩

theorem CalculateMyNextHop_frame (sqrtF : ℚ → ℚ) (n : Node) :
    (CalculateMyNextHop sqrtF n).m_neighborTable = n.m_neighborTable ∧
    (CalculateMyNextHop sqrtF n).xCoord = n.xCoord ∧
    (CalculateMyNextHop sqrtF n).yCoord = n.yCoord ∧
    (CalculateMyNextHop sqrtF n).m_cellRadius = n.m_cellRadius := by
  unfold CalculateMyNextHop
  split_ifs
  · exact ⟨rfl, rfl, rfl, rfl⟩
  · exact ⟨rfl, rfl, rfl, rfl⟩
  · exact ⟨rfl, rfl, rfl, rfl⟩
  · cases hT : n.m_neighborTable with
    | nil => exact ⟨rfl, rfl, rfl, rfl⟩
    | cons a l =>
        simp only
        split_ifs <;> exact ⟨rfl, rfl, rfl, rfl⟩

/-- Every step keeps the neighbour table within the cell radius, a HELLO step
provided that its sender sits at its place. -/
theorem step_tableWithin (sqrtF : ℚ → ℚ) (place : Nat → ℚ × ℚ) (n : Node) (s : Step)
    (hs : s.Placed place) (hinv : TableWithin sqrtF place n) :
    TableWithin sqrtF place (n.step sqrtF s) := by
  cases s with
  | hello sender =>
      exact HandleHelloPacket_tableWithin sqrtF place n _ _ hinv hs.1 hs.2
  | clAnnouncement header src =>
      exact tableWithin_of_frame sqrtF place n _ (HandleCLAnnouncementPacket_frame n header src)
        hinv
  | helloTimeout =>
      exact tableWithin_of_frame sqrtF place n _ (TimerCallback_HelloTimeout_frame sqrtF n) hinv
  | clElection =>
      exact tableWithin_of_frame sqrtF place n _ (TimerCallback_CLElection_frame n) hinv
  | nextHop =>
      exact tableWithin_of_frame sqrtF place n _ (CalculateMyNextHop_frame sqrtF n) hinv
  | clearNeighborTable =>
      intro nb hnb
      exact absurd hnb (List.not_mem_nil _)

theorem run_tableWithin (sqrtF : ℚ → ℚ) (place : Nat → ℚ × ℚ) (steps : List Step) (n : Node)
    (hs : ∀ s ∈ steps, s.Placed place) (hinv : TableWithin sqrtF place n) :
    TableWithin sqrtF place (n.run sqrtF steps) := by
  induction steps generalizing n with
  | nil => exact hinv
  | cons s l ih =>
      unfold Node.run
      simp only [List.foldl_cons]
      exact ih (n.step sqrtF s) (fun t ht => hs t (List.mem_cons_of_mem _ ht))
        (step_tableWithin sqrtF place n s (hs s (List.mem_cons_self _ _)) hinv)

/-- C22. A node starts with an empty neighbour table and goes through any sequence
of steps (HELLOs received from senders at their fixed places, CL announcements,
the HELLO and election timeouts, the next-hop calculation, clearing of the
table).  A HELLO that a sender at its place has built and whose advertised
position is farther than the cell radius from the node is then discarded:
neighbour table and known-node map, and indeed the whole state of the node, are
the same after `HandleHelloPacket` as before. -/
theorem HandleHelloPacket_discards_far_hello (sqrtF : ℚ → ℚ) (place : Nat → ℚ × ℚ)
    (n0 : Node) (steps : List Step) (sender : Node)
    (hempty : n0.m_neighborTable = [])
    (hsteps : ∀ s ∈ steps, s.Placed place) (hsender : PlacedAt place sender)
    (hfar : HexGrid.CalculateDistance sqrtF (n0.run sqrtF steps).xCoord
        (n0.run sqrtF steps).yCoord (SendHelloPacket sender).x (SendHelloPacket sender).y
      > (n0.run sqrtF steps).m_cellRadius) :
    (HandleHelloPacket sqrtF (n0.run sqrtF steps) (SendHelloPacket sender)
        sender.nodeId).m_neighborTable = (n0.run sqrtF steps).m_neighborTable ∧
    (HandleHelloPacket sqrtF (n0.run sqrtF steps) (SendHelloPacket sender)
        sender.nodeId).m_knownNodes = (n0.run sqrtF steps).m_knownNodes ∧
    HandleHelloPacket sqrtF (n0.run sqrtF steps) (SendHelloPacket sender) sender.nodeId
      = n0.run sqrtF steps := by
  have h0 : TableWithin sqrtF place n0 := by
    intro nb hnb
    rw [hempty] at hnb
    exact absurd hnb (List.not_mem_nil _)
  have hinv := run_tableWithin sqrtF place steps n0 hsteps h0
  have hnew : ∀ nb ∈ (n0.run sqrtF steps).m_neighborTable, nb.nodeId ≠ sender.nodeId := by
    intro nb hnb heq
    obtain ⟨k1, k2, k3⟩ := hinv nb hnb
    apply k3
    have ex : (SendHelloPacket sender).x = nb.x := by
      rw [k1, heq, ← hsender.1]; rfl
    have ey : (SendHelloPacket sender).y = nb.y := by
      rw [k2, heq, ← hsender.2]; rfl
    rw [← ex, ← ey]
    exact hfar
  have key := HandleHelloPacket_far_unknown sqrtF (n0.run sqrtF steps) (SendHelloPacket sender)
    sender.nodeId hnew hfar
  rw [key]
  exact ⟨rfl, rfl, rfl⟩

theorem HandleHelloPacket_discards_far_hello_witness :
    (HandleHelloPacket Pecee.sampleRoot
        (sampleReceiver.run Pecee.sampleRoot [Step.hello sampleNearSender, Step.helloTimeout])
        (SendHelloPacket sampleFarSender) 9).m_neighborTable
      = [{ nodeId := 1, x := 0, y := 0, cellId := 0, neighborNodeIds := [] }] :=
  ((HandleHelloPacket_discards_far_hello Pecee.sampleRoot samplePlace sampleReceiver
    [Step.hello sampleNearSender, Step.helloTimeout] sampleFarSender rfl
    (by
      intro s hs
      simp only [List.mem_cons, List.mem_singleton, List.not_mem_nil, or_false] at hs
      rcases hs with rfl | rfl
      · exact ⟨by decide!, by decide!⟩
      · exact trivial)
    ⟨by decide!, by decide!⟩ (by decide!)).1).trans (by decide!)

end Peece

namespace HexGrid

/-! ## Cell ids of hexes with a negative column -/

theorem CalculateCellInfo_zero_column (sqrtF : ℚ → ℚ) (y R : ℚ) (G : Int) :
    CalculateCellInfo sqrtF 0 y R G = CalculateCellInfo (fun _ => 0) 0 y R G := by
  simp [CalculateCellInfo]

/-- C6. A node at (0, 400) with cell radius 150 and grid offset 100 is assigned hex
`(-1, 2)` and cell id `-1 + 2 * 100 = 199` by `CalculateCellInfo`, whatever the
value of the square root.  From 199 `GetCellCenter` recovers `(99, 1)`, not
`(-1, 2)`, and the centre it returns is farther than the cell radius from the node;
the rounding decoder `CalculateCellCenter` recovers `(-1, 2)`.  The same happens
for hex `(-1, 1)`, id 99, which is decoded as `(99, 0)`. -/
theorem GetCellCenter_misses_negative_column (sqrtF : ℚ → ℚ) :
    (CalculateCellInfo sqrtF 0 400 150 100).q = -1 ∧
    (CalculateCellInfo sqrtF 0 400 150 100).r = 2 ∧
    (CalculateCellInfo sqrtF 0 400 150 100).cellId = 199 ∧
    GetCellCenterAxial 199 100 = (99, 1) ∧
    CalculateCellCenterAxial ℚ 199 100 = (-1, 2) ∧
    (GetCellCenter sqrtF 150 100 199).2 = 225 ∧
    (hexCenter sqrtF 150 (-1) 2).2 = 450 ∧
    ¬ withinDistance ((0 : ℚ), (400 : ℚ)) (GetCellCenter sqrtF 150 100 199) 150 ∧
    GetCellCenterAxial (-1 + 1 * 100) 100 = (99, 0) := by
  have hax : GetCellCenterAxial 199 100 = (99, 1) := by decide
  have hy : (GetCellCenter sqrtF 150 100 199).2 = 225 := by
    simp only [GetCellCenter, hax, hexCenter]
    norm_num
  rw [CalculateCellInfo_zero_column]
  refine ⟨by decide!, by decide!, by decide!, hax, by decide!, hy, ?_, ?_, by decide⟩
  · simp only [hexCenter]
    norm_num
  · unfold withinDistance
    simp only
    rw [hy]
    nlinarith [sq_nonneg ((GetCellCenter sqrtF 150 100 199).1 - 0)]

end HexGrid

namespace Pecee

/-! ## Routes toward a neighbouring cell through a relay -/

theorem followRoute_mono (st : State) (target : Int) (fuel : Nat) (node v : Int)
    (h : followRoute st target fuel node = some v) :
    followRoute st target (fuel + 1) node = some v := by
  induction fuel generalizing node with
  | zero => simp [followRoute] at h
  | succ k ih =>
      unfold followRoute at h ⊢
      by_cases hc : (getNodeData st node).cellId = target
      · rw [if_pos hc] at h ⊢
        exact h
      · rw [if_neg hc] at h ⊢
        cases he : st.g_ssRoutingTable node target with
        | none => rw [he] at h; simp at h
        | some nextHop =>
            rw [he] at h
            simp only at h ⊢
            by_cases h1 : nextHop = -1
            · rw [if_pos h1] at h; simp at h
            · rw [if_neg h1] at h ⊢
              exact ih nextHop h

/-- Routing toward a neighbour cell through a relay of the own cell, for registered
nodes with pairwise distinct ids other than `-1` and `2 * cellRadius < 9999`: for
every cell `A`, every neighbour cell `B` recorded for `A` and every member `m` of
`A` whose entry toward `B` is a member of `A`, following the entries stored for
`B` from `m` reaches a node of `B` after at most three hops. -/
theorem route_reaches_through_member_relay (sqrtF : ℚ → ℚ) (st : State)
    (hnd : (st.g_ssNodesDataList.map (fun n => n.id)).Nodup)
    (hne : ∀ n ∈ st.g_ssNodesDataList, n.id ≠ -1)
    (h2R : 2 * st.cellRadius < 9999) :
    ∀ A ∈ (PrecalculateSimulationResults sqrtF st).g_ssCellDataList, ∀ B ∈ A.neighbors,
    ∀ m ∈ A.members, ∀ x ∈ A.members,
      (PrecalculateSimulationResults sqrtF st).g_ssRoutingTable m B = some x →
      ∃ v, followRoute (PrecalculateSimulationResults sqrtF st) B 4 m = some v ∧
        (getNodeData (PrecalculateSimulationResults sqrtF st) v).cellId = B := by
  obtain ⟨hs, hun, hrad⟩ := surveyed_calcCellLeaders sqrtF st hnd hne
  have hR : st.cellRadius < 9999 := by linarith
  intro A hA B hB m hm x hx hentry
  obtain ⟨u, hu, v, hv, hg, hcell, hi, hvB, hrt, _⟩ :=
    gateway_search_result sqrtF st hnd hne hR A hA B hB
  rw [precalc_eq] at hA hu hv hrt hentry ⊢
  generalize calcCellLeaders sqrtF
    (calcCellNeighbors (calcCellMembers (calcNodeNeighbors sqrtF (resetTables st)))) = s
    at hs hun hrad hA hu hv hrt hentry
  have hst := surveyed_calcGateways sqrtF s hs
  have h2Rt : 2 * (calcGateways sqrtF s).cellRadius < 9999 := by
    have : (calcGateways sqrtF s).cellRadius = s.cellRadius := rfl
    rw [this, hrad]
    exact h2R
  have hgd : ∀ i, getNodeData (calcRoutes sqrtF (calcGateways sqrtF s)) i
      = getNodeData (calcGateways sqrtF s) i := fun i => rfl
  have hgu : getNodeData (calcGateways sqrtF s) u.id = u :=
    getNodeData_of_mem _ hst.ids_nodup u hu
  have hgv : getNodeData (calcGateways sqrtF s) v.id = v :=
    getNodeData_of_mem _ hst.ids_nodup v hv
  have hAB : A.cellId ≠ B := fun h => hst.own_not_neighbor A hA (h ▸ hB)
  have hvne : v.id ≠ -1 := hst.ids_ne v hv
  have hune : u.id ≠ -1 := hst.ids_ne u hu
  have hfromu : ∀ k : Nat, followRoute (calcRoutes sqrtF (calcGateways sqrtF s)) B (k + 2) u.id
      = some v.id := by
    intro k
    have hc : ¬ (getNodeData (calcRoutes sqrtF (calcGateways sqrtF s)) u.id).cellId = B := by
      rw [hgd, hgu, hcell]; exact hAB
    have hc2 : (getNodeData (calcRoutes sqrtF (calcGateways sqrtF s)) v.id).cellId = B := by
      rw [hgd, hgv]; exact hvB
    simp only [followRoute, hc, if_false, hrt, hvne, hc2, if_true]
  have hcm : ∀ y ∈ A.members,
      ¬ (getNodeData (calcRoutes sqrtF (calcGateways sqrtF s)) y).cellId = B := by
    intro y hy
    rw [hgd, (member_id sqrtF _ hst A hA y hy).2.1]
    exact hAB
  obtain ⟨hxid, hxcell, hxmem⟩ := member_id sqrtF _ hst A hA x hx
  have hxne : x ≠ -1 := by
    have := hst.ids_ne _ hxmem
    rw [hxid] at this
    exact this
  refine ⟨v.id, ?_, by rw [hgd, hgv]; exact hvB⟩
  -- the first hop leads to `x`
  have hstep : followRoute (calcRoutes sqrtF (calcGateways sqrtF s)) B 4 m
      = followRoute (calcRoutes sqrtF (calcGateways sqrtF s)) B 3 x := by
    have hc := hcm m hm
    simp only [followRoute, hc, if_false, hentry, hxne]
  rw [hstep]
  by_cases hxu : x = u.id
  · rw [hxu]
    exact hfromu 1
  · -- `x` is a relay: the gateway is a neighbour of `x`
    have hmu : m ≠ u.id := by
      intro hmu
      rw [hmu, hrt] at hentry
      have hxv : v.id = x := Option.some.inj hentry
      have := hcm x hx
      rw [← hxv, hgd, hgv] at this
      exact this hvB
    obtain ⟨h1, h2⟩ := member_routes_surveyed sqrtF (calcGateways sqrtF s) hst h2Rt A hA B hB
      u hu hg m hm hmu
    have hux : u.id ∈ (getNodeData (calcGateways sqrtF s) x).neighbors := by
      by_cases hin : u.id ∈ (getNodeData (calcGateways sqrtF s) m).neighbors
      · have := h1 hin
        rw [this] at hentry
        exact absurd (Option.some.inj hentry).symm hxu
      · obtain ⟨h3, h4⟩ := h2 hin
        by_cases hex : ∃ n0 ∈ (calcGateways sqrtF s).g_ssNodesDataList,
            n0.id ∈ (getNodeData (calcGateways sqrtF s) m).neighbors ∧ u.id ∈ n0.neighbors
        · obtain ⟨n0, hn0, hi0, hg0⟩ := hex
          obtain ⟨n, hn, _, hgn, hnrt, _⟩ := h4 n0 hn0 hi0 hg0
          rw [hnrt] at hentry
          have hnx : n.id = x := Option.some.inj hentry
          rw [← hnx, getNodeData_of_mem _ hst.ids_nodup n hn]
          exact hgn
        · have := h3 (fun n hn hni hgn => hex ⟨n, hn, hni, hgn⟩)
          rw [this] at hentry
          exact absurd (Option.some.inj hentry).symm hxne
    obtain ⟨k1, _⟩ := member_routes_surveyed sqrtF (calcGateways sqrtF s) hst h2Rt A hA B hB
      u hu hg x hx hxu
    have hxe := k1 hux
    have hc := hcm x hx
    have := hfromu 0
    simp only [Nat.zero_add] at this
    simp only [followRoute, hc, if_false, hxe, hune] at this ⊢
    exact this

/-- C18. Cell radius 20; nodes 1 and 3 form cell 0, node 2 is the only node of
cell 1 and node 4 the only node, and leader, of cell 100; the one-hop links are
1 – 2, 2 – 3 and 3 – 4, so the chain 1 – 2 – 3 – 4 leads from node 1 to the leader
of cell 100, a neighbour cell of cell 0 with gateway 3.  The entry stored for
node 1 toward cell 100 is node 2, a node of cell 1, and no entry toward cell 100
is stored for node 2: following the entries from node 1 toward cell 100 ends at
a missing entry, whatever the number of steps allowed. -/
theorem route_dangles_at_relay_of_other_cell :
    danglingState.g_ssNodesDataList.map
        (fun n => (HexGrid.CalculateCellInfo sampleRoot n.x n.y danglingState.cellRadius 100).cellId)
      = danglingState.g_ssNodesDataList.map (fun n => n.cellId) ∧
    (PrecalculateSimulationResults sampleRoot danglingState).g_ssNodesDataList.map
      (fun n => (n.id, n.cellId, n.neighbors))
      = [(1, 0, [2]), (2, 1, [1, 3]), (3, 0, [2, 4]), (4, 100, [3])] ∧
    (PrecalculateSimulationResults sampleRoot danglingState).g_ssCellDataList.map
      (fun c => (c.cellId, c.clId, c.members, c.neighbors))
      = [(0, 3, [1, 3], [1, 100]), (1, 2, [2], [0]), (100, 4, [4], [0])] ∧
    (PrecalculateSimulationResults sampleRoot danglingState).g_ssCellDataList.map
      (fun c => c.gateways) = [[(1, 1), (100, 3)], [(0, 2)], [(0, 4)]] ∧
    (PrecalculateSimulationResults sampleRoot danglingState).g_ssRoutingTable 1 100 = some 2 ∧
    (PrecalculateSimulationResults sampleRoot danglingState).g_ssRoutingTable 2 100 = none ∧
    (PrecalculateSimulationResults sampleRoot danglingState).g_ssRoutingTable 3 100 = some 4 ∧
    ∀ fuel : Nat,
      followRoute (PrecalculateSimulationResults sampleRoot danglingState) 100 fuel 1
        = none := by
  refine ⟨by decide!, by decide!, by decide!, by decide!, by decide!, by decide!, by decide!, ?_⟩
  intro fuel
  have h1 : (getNodeData (PrecalculateSimulationResults sampleRoot danglingState) 1).cellId = 0 := by
    decide!
  have h2 : (getNodeData (PrecalculateSimulationResults sampleRoot danglingState) 2).cellId = 1 := by
    decide!
  have e1 : (PrecalculateSimulationResults sampleRoot danglingState).g_ssRoutingTable 1 100
      = some 2 := by decide!
  have e2 : (PrecalculateSimulationResults sampleRoot danglingState).g_ssRoutingTable 2 100
      = none := by decide!
  cases fuel with
  | zero => rfl
  | succ k =>
      cases k with
      | zero => simp [followRoute, h1, e1]
      | succ j => simp [followRoute, h1, h2, e1, e2]

end Pecee
